import Mathlib

/-!
# SDDL conversion (`lwbase/src/security-sddl.c`)

A shallow embedding of the SDDL <-> security-descriptor codec of
`security-sddl.c`, followed by the theorems that settle its specification.

Modelling conventions

* A C string (`PSTR`, `PCSTR`) is the list of its characters before the
  terminating NUL (`CStr`); a pointer that may be `NULL` is an `Option`.
* Machine integers are natural numbers; `UCHAR` values are below `2^8`,
  `USHORT` values below `2^16`, `ULONG`/`ACCESS_MASK` values below `2^32`.
  `&` is `&&&`, `|` is `|||`.
* A function returning `NTSTATUS` with `OUT` parameters returns the pair of
  the status and the values stored in the `OUT` parameters at `cleanup`.
  Inside a body, `Except NTSTATUS` is used for `goto cleanup`: `throw st` is
  `status = st; goto cleanup`.
* Memory allocation (`RTL_ALLOCATE`, `LwRtlCStringDuplicate`, ...) succeeds.
* The constants below come from `lw/security-types.h` / `lw/ntstatus.h`, which
  are included by the source file but are not part of it; they carry the
  Windows NT values that these headers reproduce.
-/

namespace Sddl

set_option autoImplicit false

/-- C string: the characters before the terminating NUL. -/
abbrev CStr := List Char

/-- Status codes used by the module (`NT_SUCCESS` holds for `STATUS_SUCCESS`
only; collaborators report failures through the other codes). -/
inductive NTSTATUS
  | STATUS_SUCCESS
  | STATUS_INVALID_PARAMETER
  | STATUS_NOT_SUPPORTED
  | STATUS_INSUFFICIENT_RESOURCES
  | STATUS_BUFFER_TOO_SMALL
  | STATUS_INVALID_SECURITY_DESCR
  | STATUS_INTERNAL_ERROR
  | STATUS_INVALID_SID
  | STATUS_INVALID_ACL
  | STATUS_UNSUCCESSFUL
  deriving DecidableEq, Repr

open NTSTATUS

/-- The macro `NT_SUCCESS(status)`. -/
def NT_SUCCESS (status : NTSTATUS) : Bool := decide (status = STATUS_SUCCESS)

/-- The macro `IsNullOrEmptyString(pszStr)`. -/
def IsNullOrEmptyString (pszStr : Option CStr) : Bool :=
  match pszStr with
  | none => true
  | some s => s.isEmpty

/-- The string behind a pointer that was checked to be non-null. -/
def strOf (psz : Option CStr) : CStr :=
  match psz with
  | some s => s
  | none => []

/-- The macro `SetFlag(Variable, Flags)`: `Variable |= Flags`. -/
def SetFlag (Variable Flags : Nat) : Nat := Variable ||| Flags

/-- `GOTO_CLEANUP_ON_STATUS` applied to the status of a call with an `OUT`
value: continue with the value on success, leave for `cleanup` otherwise. -/
def chk {α : Type} (r : NTSTATUS × α) : Except NTSTATUS α :=
  if r.1 = STATUS_SUCCESS then .ok r.2 else .error r.1

/-! ## Header constants -/

def SDDL_REVISION_1 : Nat := 1

def SDDL_OWNER : CStr := "O".toList
def SDDL_GROUP : CStr := "G".toList
def SDDL_DACL : CStr := "D".toList
def SDDL_SACL : CStr := "S".toList
def SDDL_DELIMINATOR_C : Char := ':'
def SDDL_DELIMINATOR_S : CStr := ":".toList
def SDDL_SEPERATOR_C : Char := ';'
def SDDL_ACE_BEGIN_C : Char := '('
def SDDL_ACE_END_S : CStr := ")".toList

def SDDL_ACE_PART_NUM : Nat := 6
def SDDL_ACEFLAG_SIZE : Nat := 2
def SDDL_RIGHT_SIZE : Nat := 2
def SDDL_CONTROL_SIZE : Nat := 2
def SDDL_CONTROL_LENGTH : Nat := 5

def SDDL_PROTECTED : CStr := "P".toList
def SDDL_AUTO_INHERIT_REQ : CStr := "AR".toList
def SDDL_AUTO_INHERITED : CStr := "AI".toList

def SDDL_ACCESS_ALLOWED : CStr := "A".toList
def SDDL_ACCESS_DENIED : CStr := "D".toList
def SDDL_AUDIT : CStr := "AU".toList

def SDDL_CONTAINER_INHERIT : CStr := "CI".toList
def SDDL_OBJECT_INHERIT : CStr := "OI".toList
def SDDL_NO_PROPAGATE : CStr := "NP".toList
def SDDL_INHERIT_ONLY : CStr := "IO".toList
def SDDL_INHERITED : CStr := "ID".toList
def SDDL_AUDIT_SUCCESS : CStr := "SA".toList
def SDDL_AUDIT_FAILURE : CStr := "FA".toList

def SDDL_GENERIC_ALL : CStr := "GA".toList
def SDDL_GENERIC_READ : CStr := "GR".toList
def SDDL_GENERIC_WRITE : CStr := "GW".toList
def SDDL_GENERIC_EXECUTE : CStr := "GX".toList
def SDDL_READ_CONTROL : CStr := "RC".toList
def SDDL_STANDARD_DELETE : CStr := "SD".toList
def SDDL_WRITE_DAC : CStr := "WD".toList
def SDDL_WRITE_OWNER : CStr := "WO".toList
def SDDL_FILE_ALL : CStr := "FA".toList
def SDDL_FILE_READ : CStr := "FR".toList
def SDDL_FILE_WRITE : CStr := "FW".toList
def SDDL_FILE_EXECUTE : CStr := "FX".toList
def SDDL_KEY_ALL : CStr := "KA".toList
def SDDL_KEY_READ : CStr := "KR".toList
def SDDL_KEY_WRITE : CStr := "KW".toList
def SDDL_KEY_EXECUTE : CStr := "KX".toList
def SDDL_NO_READ_UP : CStr := "NR".toList
def SDDL_NO_WRITE_UP : CStr := "NW".toList
def SDDL_NO_EXECUTE_UP : CStr := "NX".toList

def SDDL_EVERYONE : CStr := "WD".toList
def SDDL_CREATOR_OWNER : CStr := "CO".toList
def SID_SECURITY_WORLD_RID : CStr := "S-1-1-0".toList
def SID_SECURITY_CREATOR_OWNER_RID : CStr := "S-1-3-0".toList

def ACCESS_ALLOWED_ACE_TYPE : Nat := 0
def ACCESS_DENIED_ACE_TYPE : Nat := 1
def SYSTEM_AUDIT_ACE_TYPE : Nat := 2
def ACCESS_UNKNOWN_ACE_TYPE : Nat := 255

def OBJECT_INHERIT_ACE : Nat := 0x01
def CONTAINER_INHERIT_ACE : Nat := 0x02
def NO_PROPAGATE_INHERIT_ACE : Nat := 0x04
def INHERIT_ONLY_ACE : Nat := 0x08
def INHERITED_ACE : Nat := 0x10
def SUCCESSFUL_ACCESS_ACE_FLAG : Nat := 0x40
def FAILED_ACCESS_ACE_FLAG : Nat := 0x80

def DELETE : Nat := 0x00010000
def READ_CONTROL : Nat := 0x00020000
def WRITE_DAC : Nat := 0x00040000
def WRITE_OWNER : Nat := 0x00080000
def GENERIC_ALL : Nat := 0x10000000
def GENERIC_EXECUTE : Nat := 0x20000000
def GENERIC_WRITE : Nat := 0x40000000
def GENERIC_READ : Nat := 0x80000000
def FILE_ALL_ACCESS : Nat := 0x001F01FF
def FILE_GENERIC_READ : Nat := 0x00120089
def FILE_GENERIC_WRITE : Nat := 0x00120116
def FILE_GENERIC_EXECUTE : Nat := 0x001200A0
def KEY_ALL_ACCESS : Nat := 0x000F003F
def KEY_READ : Nat := 0x00020019
def KEY_WRITE : Nat := 0x00020006
def KEY_EXECUTE : Nat := 0x00020019
def SYSTEM_MANDATORY_LABEL_NO_WRITE_UP : Nat := 0x1
def SYSTEM_MANDATORY_LABEL_NO_READ_UP : Nat := 0x2
def SYSTEM_MANDATORY_LABEL_NO_EXECUTE_UP : Nat := 0x4

def SE_DACL_AUTO_INHERIT_REQ : Nat := 0x0100
def SE_SACL_AUTO_INHERIT_REQ : Nat := 0x0200
def SE_DACL_AUTO_INHERITED : Nat := 0x0400
def SE_SACL_AUTO_INHERITED : Nat := 0x0800
def SE_DACL_PROTECTED : Nat := 0x1000
def SE_SACL_PROTECTED : Nat := 0x2000

/-! ## ACE type table -/

/-- `RtlpMapAceTypeToSddlType`: the `switch` over the three supported types,
`NULL` by default. -/
def RtlpMapAceTypeToSddlType (AceType : Nat) : Option CStr :=
  if AceType = ACCESS_ALLOWED_ACE_TYPE then some SDDL_ACCESS_ALLOWED
  else if AceType = ACCESS_DENIED_ACE_TYPE then some SDDL_ACCESS_DENIED
  else if AceType = SYSTEM_AUDIT_ACE_TYPE then some SDDL_AUDIT
  else none

/-- `RtlpMapSddlTypeToAceType`: three `strcmp` tests, then
`ACCESS_UNKNOWN_ACE_TYPE`. -/
def RtlpMapSddlTypeToAceType (pszAceType : CStr) : Nat :=
  if pszAceType = SDDL_ACCESS_ALLOWED then ACCESS_ALLOWED_ACE_TYPE
  else if pszAceType = SDDL_ACCESS_DENIED then ACCESS_DENIED_ACE_TYPE
  else if pszAceType = SDDL_AUDIT then SYSTEM_AUDIT_ACE_TYPE
  else ACCESS_UNKNOWN_ACE_TYPE

/-! ## ACE flag codec -/

/-- One `if (Value & Bit) strcat(psz, Mnemonic)` step of the encoders. -/
def catIf (Value Bit : Nat) (Mnemonic : CStr) (psz : CStr) : CStr :=
  if Value &&& Bit ≠ 0 then psz ++ Mnemonic else psz

/-- `RtlpMapAceFlagToSddlFlag`: the seven tests in source order. -/
def RtlpMapAceFlagToSddlFlag (AceFlag : Nat) : NTSTATUS × Option CStr :=
  let psz : CStr := []
  let psz := catIf AceFlag CONTAINER_INHERIT_ACE SDDL_CONTAINER_INHERIT psz
  let psz := catIf AceFlag OBJECT_INHERIT_ACE SDDL_OBJECT_INHERIT psz
  let psz := catIf AceFlag NO_PROPAGATE_INHERIT_ACE SDDL_NO_PROPAGATE psz
  let psz := catIf AceFlag INHERIT_ONLY_ACE SDDL_INHERIT_ONLY psz
  let psz := catIf AceFlag INHERITED_ACE SDDL_INHERITED psz
  let psz := catIf AceFlag SUCCESSFUL_ACCESS_ACE_FLAG SDDL_AUDIT_SUCCESS psz
  let psz := catIf AceFlag FAILED_ACCESS_ACE_FLAG SDDL_AUDIT_FAILURE psz
  (STATUS_SUCCESS, some psz)

/-- The two characters copied by `memcpy(sz, psz + Offset, 2)` into the zeroed
three-byte buffer, as the string later compared by `strcmp`. -/
def slice2 (psz : CStr) (Offset : Nat) : CStr := (psz.drop Offset).take 2

/-- Body of the loop of `RtlpMapSddlFlagToAceFlag` for one slice. -/
def aceFlagStep (AceFlag : Nat) (szAceFlag : CStr) : Nat :=
  if szAceFlag = SDDL_CONTAINER_INHERIT then SetFlag AceFlag CONTAINER_INHERIT_ACE
  else if szAceFlag = SDDL_OBJECT_INHERIT then SetFlag AceFlag OBJECT_INHERIT_ACE
  else if szAceFlag = SDDL_NO_PROPAGATE then SetFlag AceFlag NO_PROPAGATE_INHERIT_ACE
  else if szAceFlag = SDDL_INHERIT_ONLY then SetFlag AceFlag INHERIT_ONLY_ACE
  else if szAceFlag = SDDL_INHERITED then SetFlag AceFlag INHERITED_ACE
  else if szAceFlag = SDDL_AUDIT_SUCCESS then SetFlag AceFlag SUCCESSFUL_ACCESS_ACE_FLAG
  else if szAceFlag = SDDL_AUDIT_FAILURE then SetFlag AceFlag FAILED_ACCESS_ACE_FLAG
  else AceFlag

/-- `RtlpMapSddlFlagToAceFlag`: `for (i = 0; i < sLength/SDDL_ACEFLAG_SIZE; i++)`
over the two-character slices. -/
def RtlpMapSddlFlagToAceFlag (pszAceFlag : CStr) : Nat :=
  let sLength := pszAceFlag.length
  if sLength = 0 then 0
  else
    (List.range (sLength / SDDL_ACEFLAG_SIZE)).foldl
      (fun AceFlag i => aceFlagStep AceFlag (slice2 pszAceFlag (i * SDDL_ACEFLAG_SIZE))) 0

/-! ## Access mask codec -/

/-- `RtlpMapAccessMaskToSddlRights`: the nineteen tests in source order (the
directory-service block is compiled out by `#if 0`). -/
def RtlpMapAccessMaskToSddlRights (Access : Nat) : NTSTATUS × Option CStr :=
  let psz : CStr := []
  -- Generic access rights
  let psz := catIf Access GENERIC_ALL SDDL_GENERIC_ALL psz
  let psz := catIf Access GENERIC_READ SDDL_GENERIC_READ psz
  let psz := catIf Access GENERIC_WRITE SDDL_GENERIC_WRITE psz
  let psz := catIf Access GENERIC_EXECUTE SDDL_GENERIC_EXECUTE psz
  -- Standard access rights
  let psz := catIf Access READ_CONTROL SDDL_READ_CONTROL psz
  let psz := catIf Access DELETE SDDL_STANDARD_DELETE psz
  let psz := catIf Access WRITE_DAC SDDL_WRITE_DAC psz
  let psz := catIf Access WRITE_OWNER SDDL_WRITE_OWNER psz
  -- File access rights
  let psz := catIf Access FILE_ALL_ACCESS SDDL_FILE_ALL psz
  let psz := catIf Access FILE_GENERIC_READ SDDL_FILE_READ psz
  let psz := catIf Access FILE_GENERIC_WRITE SDDL_FILE_WRITE psz
  let psz := catIf Access FILE_GENERIC_EXECUTE SDDL_FILE_EXECUTE psz
  -- Registry key access rights
  let psz := catIf Access KEY_ALL_ACCESS SDDL_KEY_ALL psz
  let psz := catIf Access KEY_READ SDDL_KEY_READ psz
  let psz := catIf Access KEY_WRITE SDDL_KEY_WRITE psz
  let psz := catIf Access KEY_EXECUTE SDDL_KEY_EXECUTE psz
  -- Mandatory label rights
  let psz := catIf Access SYSTEM_MANDATORY_LABEL_NO_READ_UP SDDL_NO_READ_UP psz
  let psz := catIf Access SYSTEM_MANDATORY_LABEL_NO_WRITE_UP SDDL_NO_WRITE_UP psz
  let psz := catIf Access SYSTEM_MANDATORY_LABEL_NO_EXECUTE_UP SDDL_NO_EXECUTE_UP psz
  (STATUS_SUCCESS, some psz)

/-- Body of the loop of `RtlpMapSddlRightsToAccessMask` for one slice. -/
def accessStep (Access : Nat) (szRight : CStr) : Nat :=
  if szRight = SDDL_GENERIC_ALL then SetFlag Access GENERIC_ALL
  else if szRight = SDDL_GENERIC_READ then SetFlag Access GENERIC_READ
  else if szRight = SDDL_GENERIC_WRITE then SetFlag Access GENERIC_WRITE
  else if szRight = SDDL_GENERIC_EXECUTE then SetFlag Access GENERIC_EXECUTE
  else if szRight = SDDL_READ_CONTROL then SetFlag Access READ_CONTROL
  else if szRight = SDDL_STANDARD_DELETE then SetFlag Access DELETE
  else if szRight = SDDL_WRITE_DAC then SetFlag Access WRITE_DAC
  else if szRight = SDDL_WRITE_OWNER then SetFlag Access WRITE_OWNER
  else if szRight = SDDL_FILE_ALL then SetFlag Access FILE_ALL_ACCESS
  else if szRight = SDDL_FILE_READ then SetFlag Access FILE_GENERIC_READ
  else if szRight = SDDL_FILE_WRITE then SetFlag Access FILE_GENERIC_WRITE
  else if szRight = SDDL_FILE_EXECUTE then SetFlag Access FILE_GENERIC_EXECUTE
  else if szRight = SDDL_KEY_ALL then SetFlag Access KEY_ALL_ACCESS
  else if szRight = SDDL_KEY_READ then SetFlag Access KEY_READ
  else if szRight = SDDL_KEY_WRITE then SetFlag Access KEY_WRITE
  else if szRight = SDDL_KEY_EXECUTE then SetFlag Access KEY_EXECUTE
  else if szRight = SDDL_NO_READ_UP then SetFlag Access SYSTEM_MANDATORY_LABEL_NO_READ_UP
  else if szRight = SDDL_NO_WRITE_UP then SetFlag Access SYSTEM_MANDATORY_LABEL_NO_WRITE_UP
  else if szRight = SDDL_NO_EXECUTE_UP then SetFlag Access SYSTEM_MANDATORY_LABEL_NO_EXECUTE_UP
  else Access

/-- `RtlpMapSddlRightsToAccessMask`: `for (i = 0; i < sLength/SDDL_RIGHT_SIZE; i++)`
over the two-character slices. -/
def RtlpMapSddlRightsToAccessMask (pszMask : CStr) : Nat :=
  let sLength := pszMask.length
  if sLength = 0 then 0
  else
    (List.range (sLength / SDDL_RIGHT_SIZE)).foldl
      (fun Access i => accessStep Access (slice2 pszMask (i * SDDL_RIGHT_SIZE))) 0

/-! ## ACL control codec -/

/-- The macro `strncmp(psz, Prefix, strlen(Prefix)) == 0`. -/
def hasPrefix (psz Prefix : CStr) : Bool := decide (psz.take Prefix.length = Prefix)

/-- The three `if (Control & ...) strcat(pszControl, ...)` steps of
`RtlpMapAclControlToSddlControl`: the characters appended to the zeroed buffer,
protected, auto-inherit-required and auto-inherited, in that order. -/
def controlStringBuilt (Control : Nat) (bIsDacl : Bool) : CStr :=
  let psz : CStr := []
  let psz := catIf Control (if bIsDacl then SE_DACL_PROTECTED else SE_SACL_PROTECTED)
    SDDL_PROTECTED psz
  let psz := catIf Control (if bIsDacl then SE_DACL_AUTO_INHERIT_REQ else SE_SACL_AUTO_INHERIT_REQ)
    SDDL_AUTO_INHERIT_REQ psz
  let psz := catIf Control (if bIsDacl then SE_DACL_AUTO_INHERITED else SE_SACL_AUTO_INHERITED)
    SDDL_AUTO_INHERITED psz
  psz

/-- Bytes that the `strcat` calls of `RtlpMapAclControlToSddlControl` write to
the buffer `pszControl`, which `RTL_ALLOCATE` gives `SDDL_CONTROL_LENGTH` zeroed
bytes: the characters of the control string and its terminating NUL. -/
def controlBytesWritten (Control : Nat) (bIsDacl : Bool) : Nat :=
  (controlStringBuilt Control bIsDacl).length + 1

/-- `RtlpMapAclControlToSddlControl`: status and `*ppszControl`.  The result is
`none` where the C code has no defined behaviour: the `strcat` calls write
past the `SDDL_CONTROL_LENGTH` bytes allocated for `pszControl`. -/
def RtlpMapAclControlToSddlControl (Control : Nat) (bIsDacl : Bool) :
    Option (NTSTATUS × Option CStr) :=
  if controlBytesWritten Control bIsDacl > SDDL_CONTROL_LENGTH then none
  else some (STATUS_SUCCESS, some (controlStringBuilt Control bIsDacl))

/-- Body of both slice loops of `RtlpMapSddlControlToAclControl`. -/
def controlStep (bIsDacl : Bool) (Control : Nat) (szControl : CStr) : Nat :=
  if szControl = SDDL_AUTO_INHERIT_REQ then
    SetFlag Control (if bIsDacl then SE_DACL_AUTO_INHERIT_REQ else SE_SACL_AUTO_INHERIT_REQ)
  else if szControl = SDDL_AUTO_INHERITED then
    SetFlag Control (if bIsDacl then SE_DACL_AUTO_INHERITED else SE_SACL_AUTO_INHERITED)
  else Control

/-- `RtlpMapSddlControlToAclControl`: the status and the value left in
`*pControl` (the local `Control` is written back at `cleanup` on every path). -/
def RtlpMapSddlControlToAclControl (pszControl : CStr) (bIsDacl : Bool) (pControl : Nat) :
    NTSTATUS × Nat :=
  let Control := pControl
  let sLength := pszControl.length
  if sLength = 0 then (STATUS_SUCCESS, Control)
  else
    let bIsFirstSddlProtected := hasPrefix pszControl SDDL_PROTECTED
    if (sLength % 2 = 0 ∧ bIsFirstSddlProtected) ∨
        (sLength = 1 ∧ ¬ bIsFirstSddlProtected) ∨
        sLength > SDDL_CONTROL_LENGTH then
      (STATUS_INVALID_PARAMETER, Control)
    -- sLength == 2, 4, 1, 3, 5 with a leading 'P'
    else if sLength % 2 = 0 ∨ bIsFirstSddlProtected then
      let Control :=
        if bIsFirstSddlProtected then
          SetFlag Control (if bIsDacl then SE_DACL_PROTECTED else SE_SACL_PROTECTED)
        else Control
      let iOffset := if bIsFirstSddlProtected then SDDL_PROTECTED.length else 0
      let Control := (List.range (sLength / SDDL_CONTROL_SIZE)).foldl
        (fun Control i =>
          controlStep bIsDacl Control (slice2 pszControl (iOffset + i * SDDL_CONTROL_SIZE)))
        Control
      (STATUS_SUCCESS, Control)
    -- sLength == 3, 5 && !bIsFirstSddlProtected
    else if sLength = SDDL_CONTROL_LENGTH - SDDL_CONTROL_SIZE ∨ sLength = SDDL_CONTROL_LENGTH then
      if ¬ hasPrefix (pszControl.drop SDDL_CONTROL_SIZE) SDDL_PROTECTED then
        (STATUS_INVALID_PARAMETER, Control)
      else
        let Control :=
          SetFlag Control (if bIsDacl then SE_DACL_PROTECTED else SE_SACL_PROTECTED)
        let Control := (List.range (sLength / SDDL_CONTROL_SIZE)).foldl
          (fun Control i =>
            controlStep bIsDacl Control
              (slice2 pszControl (i * SDDL_CONTROL_SIZE + SDDL_PROTECTED.length)))
          Control
        (STATUS_SUCCESS, Control)
    else (STATUS_SUCCESS, Control)

/-! ## Data model -/

/-- Security identifier: revision, issuing authority and sub-authorities. -/
structure SID where
  Revision : Nat
  IdentifierAuthority : Nat
  SubAuthority : List Nat
  deriving DecidableEq, Repr

/-- The record `SDDL_ACE` filled by the ACE clause parser. -/
structure SDDL_ACE where
  AceType : Nat
  AceFlag : Nat
  Access : Nat
  pszObjectGuid : Option CStr
  pszObjectInheritedGuid : Option CStr
  pSid : SID
  deriving DecidableEq, Repr

/-- An ACE of an ACL in the layout of `ACCESS_ALLOWED_ACE` (header, mask,
SID), which the denied and audit records share. -/
structure ACE where
  AceType : Nat
  AceFlags : Nat
  AceSize : Nat
  Mask : Nat
  Sid : SID
  deriving DecidableEq, Repr

/-- An ACL: the size of its buffer and its ACEs in index order. -/
structure ACL where
  AclSize : Nat
  Aces : List ACE
  deriving DecidableEq, Repr

/-- Content of a security descriptor (absolute form: the four parts are held
by pointer; self-relative form: the same parts in one buffer). -/
structure SECURITY_DESCRIPTOR where
  Control : Nat
  Owner : Option SID
  Group : Option SID
  Dacl : Option ACL
  Sacl : Option ACL
  deriving DecidableEq, Repr

def ACL_HEADER_SIZE : Nat := 8
def ACL_REVISION : Nat := 2
def SECURITY_DESCRIPTOR_REVISION : Nat := 1
def ULONG_MAX : Nat := 2 ^ 32 - 1

/-- The collaborators of `security-sddl.c` that live in other files (SID, ACL
and security-descriptor primitives, the SID alias table) and the two header
constants whose value the source does not show.  A collaborator that returns
`NTSTATUS` is an `Except`: `.error st` is a failing status `st`. -/
structure Ext where
  SDDL_SECTION_DELIMINATOR_S : CStr
  SECURITY_DESCRIPTOR_RELATIVE_MAX_SIZE : Nat
  -- SID primitives
  RtlAllocateSidFromCString : CStr → Except NTSTATUS SID
  RtlAllocateCStringFromSid : Option SID → Except NTSTATUS CStr
  RtlGetRidSid : Option SID → Except NTSTATUS Nat
  RtlLengthSid : SID → Nat
  -- SID alias table
  RtlpAliasSidStringToSidString : Option CStr → Option CStr
  RtlpRidToAliasSidString : Nat → Option CStr
  -- ACL primitives
  RtlLengthAccessAllowedAce : SID → Nat
  RtlLengthAccessDeniedAce : SID → Nat
  RtlLengthAccessAuditAce : SID → Nat
  RtlCreateAcl : (AclLength : Nat) → (AclRevision : Nat) → Except NTSTATUS ACL
  RtlAddAce : ACL → (AceRevision : Nat) → (StartingAceIndex : Nat) → ACE →
    (AceListLength : Nat) → Except NTSTATUS ACL
  RtlGetAclAceCount : ACL → Nat
  RtlGetAce : ACL → (AceIndex : Nat) → Except NTSTATUS ACE
  -- security descriptor primitives
  RtlCreateSecurityDescriptorAbsolute : (Revision : Nat) → Except NTSTATUS SECURITY_DESCRIPTOR
  RtlSetOwnerSecurityDescriptor : SECURITY_DESCRIPTOR → Option SID → (IsOwnerDefaulted : Bool) →
    Except NTSTATUS SECURITY_DESCRIPTOR
  RtlSetGroupSecurityDescriptor : SECURITY_DESCRIPTOR → Option SID → (IsGroupDefaulted : Bool) →
    Except NTSTATUS SECURITY_DESCRIPTOR
  RtlSetDaclSecurityDescriptor : SECURITY_DESCRIPTOR → (IsDaclPresent : Bool) → Option ACL →
    (IsDaclDefaulted : Bool) → Except NTSTATUS SECURITY_DESCRIPTOR
  RtlSetSaclSecurityDescriptor : SECURITY_DESCRIPTOR → (IsSaclPresent : Bool) → Option ACL →
    (IsSaclDefaulted : Bool) → Except NTSTATUS SECURITY_DESCRIPTOR
  RtlGetOwnerSecurityDescriptor : SECURITY_DESCRIPTOR → Except NTSTATUS (Option SID × Bool)
  RtlGetGroupSecurityDescriptor : SECURITY_DESCRIPTOR → Except NTSTATUS (Option SID × Bool)
  RtlGetDaclSecurityDescriptor : SECURITY_DESCRIPTOR → Except NTSTATUS (Bool × Option ACL × Bool)
  RtlGetSaclSecurityDescriptor : SECURITY_DESCRIPTOR → Except NTSTATUS (Bool × Option ACL × Bool)
  RtlValidSecurityDescriptor : SECURITY_DESCRIPTOR → Bool
  /-- Status, value left in `*Length`, content written to the buffer. -/
  RtlAbsoluteToSelfRelativeSD : SECURITY_DESCRIPTOR → (Length : Nat) →
    NTSTATUS × Nat × SECURITY_DESCRIPTOR
  RtlLengthSecurityDescriptorRelative : SECURITY_DESCRIPTOR → Nat
  RtlValidRelativeSecurityDescriptor : SECURITY_DESCRIPTOR → (Length : Nat) →
    (RequiredInformation : Nat) → NTSTATUS
  /-- Absolute form of a self-relative descriptor (both calls of the source:
  the sizing call and the converting call). -/
  RtlSelfRelativeToAbsoluteSD : SECURITY_DESCRIPTOR → Except NTSTATUS SECURITY_DESCRIPTOR

/-! ## String primitives of the C library -/

/-- `strchr(s, c)` for a character other than NUL: the offset of the first
occurrence of `c`, `none` for `NULL`. -/
def strchr (s : CStr) (c : Char) : Option Nat :=
  match s with
  | [] => none
  | x :: xs => if x = c then some 0 else (strchr xs c).map (· + 1)

/-- `strtok_r(str, delim, &save)`: the token and the saved position, `none`
when it returns `NULL`. -/
def strtok_r (str delim : CStr) : Option (CStr × CStr) :=
  let str := str.dropWhile (fun c => decide (c ∈ delim))
  if str = [] then none
  else
    some (str.takeWhile (fun c => decide (c ∉ delim)),
      (str.dropWhile (fun c => decide (c ∉ delim))).drop 1)

/-- The tokens returned by `strtok_r(str, ...)`, `strtok_r(NULL, ...)`, ... until
it returns `NULL`; every call consumes at least one character. -/
def strtokLoop (delim : CStr) : Nat → CStr → List CStr
  | 0, _ => []
  | fuel + 1, save =>
    match strtok_r save delim with
    | none => []
    | some (pszTmp, save) => pszTmp :: strtokLoop delim fuel save

/-- All tokens of a string. -/
def strtokAll (str delim : CStr) : List CStr := strtokLoop delim (str.length + 1) str

/-! ## ACE clause parser -/

/-- The first `do ... while (pszAceCursor)` loop of `RtlpParseSddlAceString`:
counts the separators.  `cursor` is the offset of `pszAceCursor` in `pszTmp`. -/
def aceCountLoop : Nat → CStr → Nat → Nat → Nat
  | 0, _, _, sCount => sCount
  | fuel + 1, pszTmp, cursor, sCount =>
    let sCount := sCount + 1
    let pszTmp := pszTmp.drop (cursor + 1)
    match strchr pszTmp SDDL_SEPERATOR_C with
    | some cursor => aceCountLoop fuel pszTmp cursor sCount
    | none => sCount

/-- The second `do ... while (pszAceCursor)` loop: copies the part in front of
each separator (no allocation for an empty part), and returns the parts
together with the rest of the string behind the last separator. -/
def acePartsLoop : Nat → CStr → Nat → List (Option CStr) → List (Option CStr) × CStr
  | 0, pszTmp, _, ppszAceParts => (ppszAceParts, pszTmp)
  | fuel + 1, pszTmp, cursor, ppszAceParts =>
    let sLength := cursor
    let part := if sLength > 0 then some (pszTmp.take sLength) else none
    let ppszAceParts := ppszAceParts ++ [part]
    let pszTmp := pszTmp.drop (cursor + 1)
    match strchr pszTmp SDDL_SEPERATOR_C with
    | some cursor => acePartsLoop fuel pszTmp cursor ppszAceParts
    | none => (ppszAceParts, pszTmp)

/-- The array `ppszAceParts` of `RtlpParseSddlAceString` once it is filled;
`STATUS_INVALID_PARAMETER` when the separator count is wrong. -/
def aceParts (pszSddlAceString : CStr) : Except NTSTATUS (List (Option CStr)) :=
  match strchr pszSddlAceString SDDL_SEPERATOR_C with
  | none => .error STATUS_INVALID_PARAMETER
  | some cursor =>
    let sCount := aceCountLoop (pszSddlAceString.length + 1) pszSddlAceString cursor 0
    if SDDL_ACE_PART_NUM ≠ sCount + 1 then .error STATUS_INVALID_PARAMETER
    else
      let r := acePartsLoop (pszSddlAceString.length + 1) pszSddlAceString cursor []
      .ok (r.1 ++ [if r.2.isEmpty then none else some r.2])

/-- `RtlpParseSddlAceString`: status and `*ppSddlAce`. -/
def RtlpParseSddlAceString (E : Ext) (pszSddlAceString : CStr) : NTSTATUS × Option SDDL_ACE :=
  let body : Except NTSTATUS SDDL_ACE := do
    let ppszAceParts ← aceParts pszSddlAceString
    -- ace_type ppszAceParts[0]
    let AceType ← match ppszAceParts.getD 0 none with
      | some p => pure (RtlpMapSddlTypeToAceType p)
      | none => throw STATUS_INVALID_PARAMETER
    if ACCESS_UNKNOWN_ACE_TYPE = AceType then
      throw STATUS_NOT_SUPPORTED
    -- ace_flag ppszAceParts[1]
    let AceFlag := match ppszAceParts.getD 1 none with
      | some p => RtlpMapSddlFlagToAceFlag p
      | none => 0
    -- ace_access ppszAceParts[2]
    let Access := match ppszAceParts.getD 2 none with
      | some p => RtlpMapSddlRightsToAccessMask p
      | none => 0
    -- ace_guid ppszAceParts[3], ace_inherit_guid ppszAceParts[4]: not read
    -- ace_sid ppszAceParts[5]
    match ppszAceParts.getD 5 none with
    | some p =>
      let pszSid := E.RtlpAliasSidStringToSidString (some p)
      let pszSid := if IsNullOrEmptyString pszSid then p else strOf pszSid
      let pSid ← E.RtlAllocateSidFromCString pszSid
      pure { AceType := AceType, AceFlag := AceFlag, Access := Access,
             pszObjectGuid := none, pszObjectInheritedGuid := none, pSid := pSid }
    | none => throw STATUS_INVALID_PARAMETER
  match body with
  | .ok pSddlAce => (STATUS_SUCCESS, some pSddlAce)
  | .error status => (status, none)

/-! ## ACL clause parser -/

/-- State of a returned array pointer: `NULL`, a live array, or an array that
the callee has already released while still returning its address. -/
inductive ARRAY_PTR (α : Type)
  | null
  | live (elems : List α)
  | freed
  deriving DecidableEq, Repr

/-- `RtlpParseSddlAclString`: status, `*pppszAceStrings`, `*psCount`.  On the
failure path the array is released by `RtlpFreeStringArray` and its address is
still stored in `*pppszAceStrings`. -/
def RtlpParseSddlAclString (pszSddlAclString : CStr) : NTSTATUS × ARRAY_PTR CStr × Nat :=
  let tokens := strtokAll pszSddlAclString SDDL_ACE_END_S
  let sCount := tokens.length
  if sCount = 0 then (STATUS_SUCCESS, .null, sCount)
  else
    match tokens.mapM (fun pszTmp =>
        if pszTmp.head? ≠ some SDDL_ACE_BEGIN_C then
          (Except.error STATUS_INVALID_PARAMETER : Except NTSTATUS CStr)
        else Except.ok (pszTmp.drop 1)) with
    | .ok ppszAceStrings => (STATUS_SUCCESS, .live ppszAceStrings, sCount)
    | .error status => (status, .freed, sCount)

/-- The `switch` on the ACE type that picks the length function. -/
def aceLength (E : Ext) (AceType : Nat) (pSid : SID) : Except NTSTATUS Nat :=
  if AceType = ACCESS_ALLOWED_ACE_TYPE then .ok (E.RtlLengthAccessAllowedAce pSid % 2 ^ 16)
  else if AceType = ACCESS_DENIED_ACE_TYPE then .ok (E.RtlLengthAccessDeniedAce pSid % 2 ^ 16)
  else if AceType = SYSTEM_AUDIT_ACE_TYPE then .ok (E.RtlLengthAccessAuditAce pSid % 2 ^ 16)
  else .error STATUS_NOT_SUPPORTED

/-- The record built for one parsed ACE in the last loop of
`RtlpGetAclFromSddlAclString`. -/
def buildAce (E : Ext) (pSddlAce : Option SDDL_ACE) : Except NTSTATUS ACE :=
  match pSddlAce with
  | none => .error STATUS_INTERNAL_ERROR
  | some a => do
    let aceSize ← aceLength E a.AceType a.pSid
    pure { AceType := a.AceType, AceFlags := a.AceFlag, AceSize := aceSize,
           Mask := a.Access, Sid := a.pSid }

/-- Body of the first loop of `RtlpGetAclFromSddlAclString`: the record
`ppSddlAces[sIndex]`, parsed from the clause string at the rotated index. -/
def parseAceAt (E : Ext) (ppszAceStrings : List CStr) (sAceCount sIndex : Nat) :
    Except NTSTATUS (Option SDDL_ACE) :=
  chk (RtlpParseSddlAceString E
    (ppszAceStrings.getD ((sIndex + sAceCount - 1) % sAceCount) []))

/-- Body of the second loop (memory needed for the ACL): adds the length of
the ACE at `sIndex` to the `DWORD` `dwSizeAcl`. -/
def aclSizeStep (E : Ext) (ppSddlAces : List (Option SDDL_ACE)) (dwSizeAcl sIndex : Nat) :
    Except NTSTATUS Nat :=
  match ppSddlAces.getD sIndex none with
  | none => .error STATUS_INTERNAL_ERROR
  | some a => do
    let len ← aceLength E a.AceType a.pSid
    pure ((dwSizeAcl + len) % 2 ^ 32)

/-- Body of the third loop (add each ACE to the ACL): builds the record for
the ACE at `sIndex` and passes it to `RtlAddAce` with the starting index
`sIndex ? sIndex-1 : (ULONG)-1`, converted to `ULONG`. -/
def addAceStep (E : Ext) (ppSddlAces : List (Option SDDL_ACE)) (pAcl : ACL) (sIndex : Nat) :
    Except NTSTATUS ACL := do
  let pAce ← buildAce E (ppSddlAces.getD sIndex none)
  E.RtlAddAce pAcl ACL_REVISION ((if sIndex ≠ 0 then sIndex - 1 else ULONG_MAX) % 2 ^ 32) pAce
    pAce.AceSize

/-- Body of `RtlpGetAclFromSddlAclString` behind the clause split, for the
`sAceCount` clause strings `ppszAceStrings`. -/
def buildAcl (E : Ext) (ppszAceStrings : List CStr) (sAceCount : Nat) : Except NTSTATUS ACL := do
  let ppSddlAces ← (List.range sAceCount).mapM (parseAceAt E ppszAceStrings sAceCount)
  -- Calculate memory needed for pACL
  let dwSizeAcl ← (List.range sAceCount).foldlM (aclSizeStep E ppSddlAces) ACL_HEADER_SIZE
  let pAcl ← E.RtlCreateAcl dwSizeAcl ACL_REVISION
  -- Add each ACE to PACL
  (List.range sAceCount).foldlM (addAceStep E ppSddlAces) pAcl

/-- `RtlpGetAclFromSddlAclString`: status, `*ppAcl` and the value left in
`*pControl`.  The result is `none` where the C code has no defined behaviour:
`strchr` returns `NULL` and the length passed to `memcpy` is `NULL - pszAclString`,
the prefix does not fit `szAclFlag` with its terminator, or the clause array
released by `RtlpParseSddlAclString` is released again at `cleanup`. -/
def RtlpGetAclFromSddlAclString (E : Ext) (pControl : Nat) (pszAclString : Option CStr)
    (bIsDacl : Bool) : Option (NTSTATUS × Option ACL × Nat) :=
  match pszAclString with
  | none => some (STATUS_SUCCESS, none, pControl)
  | some psz =>
    if psz.isEmpty then some (STATUS_SUCCESS, none, pControl)
    else
      -- Obtain Dacl_flags/Sacl_flags in front of the first '('
      match strchr psz SDDL_ACE_BEGIN_C with
      | none => none
      | some pszAceBegin =>
        if pszAceBegin > SDDL_CONTROL_LENGTH then none
        else
          let szAclFlag := psz.take pszAceBegin
          let r := if szAclFlag.isEmpty then (STATUS_SUCCESS, pControl)
            else RtlpMapSddlControlToAclControl szAclFlag bIsDacl pControl
          if r.1 ≠ STATUS_SUCCESS then some (r.1, none, r.2)
          else
            match RtlpParseSddlAclString (psz.drop pszAceBegin) with
            | (_, .freed, _) => none
            | (status, .null, sAceCount) =>
              if status ≠ STATUS_SUCCESS then some (status, none, r.2)
              else
                match buildAcl E [] sAceCount with
                | .ok pAcl => some (STATUS_SUCCESS, some pAcl, r.2)
                | .error status => some (status, none, r.2)
            | (status, .live ppszAceStrings, sAceCount) =>
              if status ≠ STATUS_SUCCESS then some (status, none, r.2)
              else
                match buildAcl E ppszAceStrings sAceCount with
                | .ok pAcl => some (STATUS_SUCCESS, some pAcl, r.2)
                | .error status => some (status, none, r.2)

/-! ## Section splitter -/

/-- One iteration of the `while (pszTmp != NULL)` loop of `RtlpParseSddlString`
on the token `pszTmp`; the state is `(pszOwner, pszGroup, pszDacl, pszSacl)`. -/
def sectionStep (st : Option CStr × Option CStr × Option CStr × Option CStr) (pszTmp : CStr) :
    Except NTSTATUS (Option CStr × Option CStr × Option CStr × Option CStr) :=
  if hasPrefix pszTmp SDDL_OWNER then
    if pszTmp.get? SDDL_OWNER.length ≠ some SDDL_DELIMINATOR_C then .error STATUS_INVALID_PARAMETER
    else .ok (some (pszTmp.drop (SDDL_OWNER.length + 1)), st.2.1, st.2.2.1, st.2.2.2)
  else if hasPrefix pszTmp SDDL_GROUP then
    if pszTmp.get? SDDL_GROUP.length ≠ some SDDL_DELIMINATOR_C then .error STATUS_INVALID_PARAMETER
    else .ok (st.1, some (pszTmp.drop (SDDL_GROUP.length + 1)), st.2.2.1, st.2.2.2)
  else if hasPrefix pszTmp SDDL_DACL then
    if pszTmp.get? SDDL_DACL.length ≠ some SDDL_DELIMINATOR_C then .error STATUS_INVALID_PARAMETER
    else .ok (st.1, st.2.1, some (pszTmp.drop (SDDL_DACL.length + 1)), st.2.2.2)
  else if hasPrefix pszTmp SDDL_SACL then
    if pszTmp.get? SDDL_SACL.length ≠ some SDDL_DELIMINATOR_C then .error STATUS_INVALID_PARAMETER
    else .ok (st.1, st.2.1, st.2.2.1, some (pszTmp.drop (SDDL_SACL.length + 1)))
  else .ok st

/-- `RtlpParseSddlString`: status and `(*ppszOwner, *ppszGroup, *ppszDacl,
*ppszSacl)`; the four strings are released on the failure path. -/
def RtlpParseSddlString (E : Ext) (pszSddlString : CStr) :
    NTSTATUS × Option CStr × Option CStr × Option CStr × Option CStr :=
  match (strtokAll pszSddlString E.SDDL_SECTION_DELIMINATOR_S).foldlM sectionStep
      (none, none, none, none) with
  | .ok st => (STATUS_SUCCESS, st)
  | .error status => (status, none, none, none, none)

/-! ## Parsing a security descriptor -/

/-- Result of a function that may fail to return: it returns, it runs into
behaviour that C leaves undefined, or the model runs out of loop fuel. -/
inductive Outcome (α : Type)
  | returns (r : α)
  | undefined
  | outOfFuel
  deriving DecidableEq, Repr

/-- The `do ... while` loop of `RtlAllocateSecurityDescriptorFromSddlCString`
together with the `status = STATUS_SUCCESS` behind it: status, `pSecDescRel`
and `ulSecDescLen` on reaching `cleanup`.  The buffer is reallocated and zeroed
in each round, so its content is what the last call wrote. -/
def selfRelativeLoop (E : Ext) (pSecDescAbs : SECURITY_DESCRIPTOR) :
    Nat → Nat → Outcome (NTSTATUS × Option SECURITY_DESCRIPTOR × Nat)
  | 0, _ => .outOfFuel
  | fuel + 1, ulSecDescLen =>
    let r := E.RtlAbsoluteToSelfRelativeSD pSecDescAbs ulSecDescLen
    let status := r.1
    let ulSecDescLen := r.2.1
    let pSecDescRel := r.2.2
    if status = STATUS_BUFFER_TOO_SMALL then
      let ulSecDescLen := (ulSecDescLen * 2) % 2 ^ 32
      if ulSecDescLen ≤ E.SECURITY_DESCRIPTOR_RELATIVE_MAX_SIZE then
        selfRelativeLoop E pSecDescAbs fuel ulSecDescLen
      else .returns (STATUS_SUCCESS, some pSecDescRel, ulSecDescLen)
    else if status ≠ STATUS_SUCCESS then .returns (status, none, ulSecDescLen)
    else .returns (STATUS_SUCCESS, some pSecDescRel, ulSecDescLen)

/-- The owner / group step: alias lookup, fallback to the literal text,
`STATUS_INVALID_PARAMETER` for a null or empty string, SID parsing. -/
def sidOfSection (E : Ext) (psz : Option CStr) : Except NTSTATUS SID :=
  let pszSid := E.RtlpAliasSidStringToSidString psz
  let pszSid := if IsNullOrEmptyString pszSid then psz else pszSid
  if IsNullOrEmptyString pszSid then .error STATUS_INVALID_PARAMETER
  else E.RtlAllocateSidFromCString (strOf pszSid)

/-- The DACL / SACL step on the absolute descriptor: decode the clause into
`pSecDescAbs->Control` and, for a non-null ACL, store it with the setter. -/
def aclOfSection (E : Ext) (pSecDescAbs : SECURITY_DESCRIPTOR) (psz : Option CStr)
    (bIsDacl : Bool) : Outcome (Except NTSTATUS SECURITY_DESCRIPTOR) :=
  match RtlpGetAclFromSddlAclString E pSecDescAbs.Control psz bIsDacl with
  | none => .undefined
  | some (status, pAcl, Control) =>
    let pSecDescAbs := { pSecDescAbs with Control := Control }
    if status ≠ STATUS_SUCCESS then .returns (.error status)
    else
      match pAcl with
      | none => .returns (.ok pSecDescAbs)
      | some acl =>
        .returns (if bIsDacl then E.RtlSetDaclSecurityDescriptor pSecDescAbs true (some acl) false
          else E.RtlSetSaclSecurityDescriptor pSecDescAbs true (some acl) false)

/-- `RtlAllocateSecurityDescriptorFromSddlCString`: status,
`*ppSecurityDescriptor` and `*pSecurityDescriptorLength`; `fuel` bounds the
rounds of the growth loop. -/
def RtlAllocateSecurityDescriptorFromSddlCString (E : Ext) (fuel : Nat)
    (pszStringSecurityDescriptor : Option CStr) (SddlRevision : Nat) :
    Outcome (NTSTATUS × Option SECURITY_DESCRIPTOR × Nat) :=
  let ulSecDescLen := 1024
  let head : Except NTSTATUS (SECURITY_DESCRIPTOR × Option CStr × Option CStr) := do
    let pSecDescAbs ← E.RtlCreateSecurityDescriptorAbsolute SECURITY_DESCRIPTOR_REVISION
    if SDDL_REVISION_1 ≠ SddlRevision ∨ IsNullOrEmptyString pszStringSecurityDescriptor then
      throw STATUS_INVALID_PARAMETER
    -- Parse SDDL string into maximum four parts
    let parts ← chk (RtlpParseSddlString E (strOf pszStringSecurityDescriptor))
    -- OWNER
    let pOwnerSid ← sidOfSection E parts.1
    let pSecDescAbs ← E.RtlSetOwnerSecurityDescriptor pSecDescAbs (some pOwnerSid) false
    -- GROUP
    let pGroupSid ← sidOfSection E parts.2.1
    let pSecDescAbs ← E.RtlSetGroupSecurityDescriptor pSecDescAbs (some pGroupSid) false
    pure (pSecDescAbs, parts.2.2.1, parts.2.2.2)
  match head with
  | .error status => .returns (status, none, ulSecDescLen)
  | .ok (pSecDescAbs, pszDacl, pszSacl) =>
    match aclOfSection E pSecDescAbs pszDacl true with
    | .undefined => .undefined
    | .outOfFuel => .outOfFuel
    | .returns (.error status) => .returns (status, none, ulSecDescLen)
    | .returns (.ok pSecDescAbs) =>
      match aclOfSection E pSecDescAbs pszSacl false with
      | .undefined => .undefined
      | .outOfFuel => .outOfFuel
      | .returns (.error status) => .returns (status, none, ulSecDescLen)
      | .returns (.ok pSecDescAbs) =>
        if ¬ E.RtlValidSecurityDescriptor pSecDescAbs then
          .returns (STATUS_INVALID_SECURITY_DESCR, none, ulSecDescLen)
        else selfRelativeLoop E pSecDescAbs fuel ulSecDescLen

/-! ## Rendering a security descriptor -/

def OWNER_SECURITY_INFORMATION : Nat := 0x1
def GROUP_SECURITY_INFORMATION : Nat := 0x2
def DACL_SECURITY_INFORMATION : Nat := 0x4
def SACL_SECURITY_INFORMATION : Nat := 0x8

/-- `strcasecmp(a, b) == 0`. -/
def strcaseeq (a b : CStr) : Bool := decide (a.map Char.toLower = b.map Char.toLower)

/-- `RtlpGetSddlSidStringFromSid`: status and `*ppszSddlSidString`. -/
def RtlpGetSddlSidStringFromSid (E : Ext) (pSid : Option SID) : NTSTATUS × Option CStr :=
  let body : Except NTSTATUS CStr := do
    let pszSid ← E.RtlAllocateCStringFromSid pSid
    -- Deal with SECURITY_CREATOR_OWNER_RID and SECURITY_WORLD_RID first
    if strcaseeq pszSid SID_SECURITY_WORLD_RID then pure SDDL_EVERYONE
    else if strcaseeq pszSid SID_SECURITY_CREATOR_OWNER_RID then pure SDDL_CREATOR_OWNER
    else
      let ulRid ← E.RtlGetRidSid pSid
      match E.RtlpRidToAliasSidString ulRid with
      | some pszSddlSid => pure pszSddlSid
      | none => pure pszSid
  match body with
  | .ok psz => (STATUS_SUCCESS, some psz)
  | .error status => (status, none)

/-- `RtlpGetSddlSidStringFromSecurityDescriptor`, for the owner or the group
getter `pGetSidCallBack`. -/
def RtlpGetSddlSidStringFromSecurityDescriptor (E : Ext)
    (pSecurityDescriptorAbs : SECURITY_DESCRIPTOR)
    (pGetSidCallBack : SECURITY_DESCRIPTOR → Except NTSTATUS (Option SID × Bool)) :
    NTSTATUS × Option CStr :=
  match pGetSidCallBack pSecurityDescriptorAbs with
  | .error status => (status, none)
  | .ok (pSid, _) =>
    match chk (RtlpGetSddlSidStringFromSid E pSid) with
    | .ok psz => (STATUS_SUCCESS, psz)
    | .error status => (status, none)

/-- The length `sAceStringLength` computed for one ACE clause. -/
def sAceStringLength (pszAceType : CStr) (pszAceFlag pszAceAcl : Option CStr)
    (pszSddlSidString : CStr) : Nat :=
  1 + (pszAceType.length + 1)
    + ((if ¬ IsNullOrEmptyString pszAceFlag then (strOf pszAceFlag).length else 0) + 1)
    + ((if ¬ IsNullOrEmptyString pszAceAcl then (strOf pszAceAcl).length else 0) + 1)
    + (1 + 1) + (pszSddlSidString.length + 1)

/-- The clause string built by the `strcat` sequence for one ACE. -/
def aceClause (pszAceType : CStr) (pszAceFlag pszAceAcl : Option CStr)
    (pszSddlSidString : CStr) : CStr :=
  "(".toList ++ pszAceType ++ ";".toList
    ++ (if ¬ IsNullOrEmptyString pszAceFlag then strOf pszAceFlag else []) ++ ";".toList
    ++ (if ¬ IsNullOrEmptyString pszAceAcl then strOf pszAceAcl else []) ++ ";".toList
    ++ ";".toList ++ ";".toList ++ pszSddlSidString ++ ")".toList

/-- Body of the first loop of `RtlpGetSddlAceStringFromSecurityDescriptor`:
the clause `ppszAceStrings[ulAceIndex]` for the ACE at `ulAceIndex`. -/
def aceStringAt (E : Ext) (pAcl : ACL) (ulAceIndex : Nat) : Except NTSTATUS CStr := do
  let pAce ← E.RtlGetAce pAcl ulAceIndex
  if pAce.AceType = ACCESS_ALLOWED_ACE_TYPE ∨ pAce.AceType = ACCESS_DENIED_ACE_TYPE ∨
      pAce.AceType = SYSTEM_AUDIT_ACE_TYPE then
    let pszAceAcl ← chk (RtlpMapAccessMaskToSddlRights pAce.Mask)
    let pszSddlSidString ← chk (RtlpGetSddlSidStringFromSid E (some pAce.Sid))
    let pszAceType := RtlpMapAceTypeToSddlType pAce.AceType
    -- An Ace has to have a valid supported type
    if IsNullOrEmptyString pszAceType then throw STATUS_NOT_SUPPORTED
    let pszAceFlag ← chk (RtlpMapAceFlagToSddlFlag pAce.AceFlags)
    -- An Ace has to have a valid Sid
    if IsNullOrEmptyString pszSddlSidString then throw STATUS_INVALID_PARAMETER
    pure (aceClause (strOf pszAceType) pszAceFlag pszAceAcl (strOf pszSddlSidString))
  else throw STATUS_NOT_SUPPORTED

/-- `RtlpGetSddlAceStringFromSecurityDescriptor`, for the DACL or the SACL
getter `pGetAclCallBack`: status and `*ppszSddlAceString`. -/
def RtlpGetSddlAceStringFromSecurityDescriptor (E : Ext)
    (pSecurityDescriptorAbs : SECURITY_DESCRIPTOR)
    (pGetAclCallBack : SECURITY_DESCRIPTOR → Except NTSTATUS (Bool × Option ACL × Bool)) :
    NTSTATUS × Option CStr :=
  match pGetAclCallBack pSecurityDescriptorAbs with
  | .error status => (status, none)
  | .ok (bPresent, pAcl, _) =>
    match pAcl with
    | none => (STATUS_SUCCESS, none)
    | some acl =>
      if ¬ bPresent then (STATUS_SUCCESS, none)
      else
        let usAceCount := E.RtlGetAclAceCount acl % 2 ^ 16
        if usAceCount = 0 then (STATUS_SUCCESS, none)
        else
          match (List.range usAceCount).mapM (aceStringAt E acl) with
          | .error status => (status, none)
          | .ok ppszAceStrings =>
            (STATUS_SUCCESS, some ((ppszAceStrings.filter (fun psz => ¬ psz.isEmpty)).flatten))

/-- The text built by the four `strcat` blocks of
`RtlAllocateSddlCStringFromSecurityDescriptor`. -/
def sddlText (E : Ext) (SecurityInformation : Nat)
    (pszOwnerSid pszGroupSid pszDacl pszDaclControl pszSacl pszSaclControl : Option CStr) : CStr :=
  let psz : CStr := []
  let psz :=
    if (SecurityInformation ||| OWNER_SECURITY_INFORMATION ≠ 0) ∧
        ¬ IsNullOrEmptyString pszOwnerSid then
      psz ++ SDDL_OWNER ++ SDDL_DELIMINATOR_S ++ strOf pszOwnerSid ++ E.SDDL_SECTION_DELIMINATOR_S
    else psz
  let psz :=
    if (SecurityInformation ||| GROUP_SECURITY_INFORMATION ≠ 0) ∧
        ¬ IsNullOrEmptyString pszGroupSid then
      psz ++ SDDL_GROUP ++ SDDL_DELIMINATOR_S ++ strOf pszGroupSid ++ E.SDDL_SECTION_DELIMINATOR_S
    else psz
  let psz :=
    if (SecurityInformation ||| DACL_SECURITY_INFORMATION ≠ 0) ∧
        ¬ IsNullOrEmptyString pszDacl then
      psz ++ SDDL_DACL ++ SDDL_DELIMINATOR_S
        ++ (if ¬ IsNullOrEmptyString pszDaclControl then strOf pszDaclControl else [])
        ++ strOf pszDacl ++ E.SDDL_SECTION_DELIMINATOR_S
    else psz
  let psz :=
    if (SecurityInformation ||| SACL_SECURITY_INFORMATION ≠ 0) ∧
        ¬ IsNullOrEmptyString pszSacl then
      psz ++ SDDL_SACL ++ SDDL_DELIMINATOR_S
        ++ (if ¬ IsNullOrEmptyString pszSaclControl then strOf pszSaclControl else [])
        ++ strOf pszSacl ++ E.SDDL_SECTION_DELIMINATOR_S
    else psz
  psz

/-- The length `sSddlLength` accumulated before the text is allocated (each
section is counted with one character for its delimiter). -/
def sSddlLength (SecurityInformation : Nat)
    (pszOwnerSid pszGroupSid pszDacl pszDaclControl pszSacl pszSaclControl : Option CStr) : Nat :=
  let n := 0
  let n :=
    if (SecurityInformation ||| OWNER_SECURITY_INFORMATION ≠ 0) ∧
        ¬ IsNullOrEmptyString pszOwnerSid then
      n + (SDDL_OWNER.length + SDDL_DELIMINATOR_S.length) + (strOf pszOwnerSid).length + 1
    else n
  let n :=
    if (SecurityInformation ||| GROUP_SECURITY_INFORMATION ≠ 0) ∧
        ¬ IsNullOrEmptyString pszGroupSid then
      n + (SDDL_GROUP.length + SDDL_DELIMINATOR_S.length) + (strOf pszGroupSid).length + 1
    else n
  let n :=
    if (SecurityInformation ||| DACL_SECURITY_INFORMATION ≠ 0) ∧
        ¬ IsNullOrEmptyString pszDacl then
      n + (SDDL_DACL.length + SDDL_DELIMINATOR_S.length)
        + (if ¬ IsNullOrEmptyString pszDaclControl then (strOf pszDaclControl).length else 0)
        + (strOf pszDacl).length + 1
    else n
  let n :=
    if (SecurityInformation ||| SACL_SECURITY_INFORMATION ≠ 0) ∧
        ¬ IsNullOrEmptyString pszSacl then
      n + (SDDL_SACL.length + SDDL_DELIMINATOR_S.length)
        + (if ¬ IsNullOrEmptyString pszSaclControl then (strOf pszSaclControl).length else 0)
        + (strOf pszSacl).length + 1
    else n
  n

/-- A step with defined behaviour inside a function that can run into
behaviour that C leaves undefined (`none`). -/
def defined {α : Type} (x : Except NTSTATUS α) : ExceptT NTSTATUS Option α := ExceptT.mk (some x)

/-- `GOTO_CLEANUP_ON_STATUS` applied to a call that may have no defined
behaviour (`none`). -/
def chkDefined {α : Type} (r : Option (NTSTATUS × α)) : ExceptT NTSTATUS Option α :=
  ExceptT.mk (r.map chk)

/-- `RtlAllocateSddlCStringFromSecurityDescriptor`: status and
`*ppszStringSecurityDescriptor`; `undefined` when one of the two calls of
`RtlpMapAclControlToSddlControl` is reached and has no defined behaviour. -/
def RtlAllocateSddlCStringFromSecurityDescriptor (E : Ext)
    (pSecurityDescriptor : Option SECURITY_DESCRIPTOR) (SddlRevision : Nat)
    (SecurityInformation : Nat) : Outcome (NTSTATUS × Option CStr) :=
  let body : ExceptT NTSTATUS Option CStr := do
    if SDDL_REVISION_1 ≠ SddlRevision ∨ pSecurityDescriptor.isNone then
      throw STATUS_INVALID_PARAMETER
    let pSecDescRel ← match pSecurityDescriptor with
      | some sd => pure sd
      | none => throw STATUS_INVALID_PARAMETER
    let ulSecDescRelLength := E.RtlLengthSecurityDescriptorRelative pSecDescRel
    let _ ← defined
      (chk (E.RtlValidRelativeSecurityDescriptor pSecDescRel ulSecDescRelLength 0, ()))
    let pSecDescAbs ← defined (E.RtlSelfRelativeToAbsoluteSD pSecDescRel)
    -- (1) SDDL-Owner  O:
    let pszOwnerSid ←
      if SecurityInformation ||| OWNER_SECURITY_INFORMATION ≠ 0 then
        defined (chk (RtlpGetSddlSidStringFromSecurityDescriptor E pSecDescAbs
          E.RtlGetOwnerSecurityDescriptor))
      else pure none
    -- (2) SDDL - Group G:
    let pszGroupSid ←
      if SecurityInformation ||| GROUP_SECURITY_INFORMATION ≠ 0 then
        defined (chk (RtlpGetSddlSidStringFromSecurityDescriptor E pSecDescAbs
          E.RtlGetGroupSecurityDescriptor))
      else pure none
    -- (3) SDDL - DACL D:
    let dacl ←
      if SecurityInformation ||| DACL_SECURITY_INFORMATION ≠ 0 then do
        let pszDacl ← defined (chk (RtlpGetSddlAceStringFromSecurityDescriptor E pSecDescAbs
          E.RtlGetDaclSecurityDescriptor))
        let pszDaclControl ← chkDefined (RtlpMapAclControlToSddlControl pSecDescAbs.Control true)
        pure (pszDacl, pszDaclControl)
      else pure (none, none)
    -- (4) SDDL - SACL S:
    let sacl ←
      if SecurityInformation ||| SACL_SECURITY_INFORMATION ≠ 0 then do
        let pszSacl ← defined (chk (RtlpGetSddlAceStringFromSecurityDescriptor E pSecDescAbs
          E.RtlGetSaclSecurityDescriptor))
        let pszSaclControl ← chkDefined (RtlpMapAclControlToSddlControl pSecDescAbs.Control false)
        pure (pszSacl, pszSaclControl)
      else pure (none, none)
    pure (sddlText E SecurityInformation pszOwnerSid pszGroupSid dacl.1 dacl.2 sacl.1 sacl.2)
  match body.run with
  | none => .undefined
  | some (.ok psz) => .returns (STATUS_SUCCESS, some psz)
  | some (.error status) => .returns (status, none)

/-! ## Reference collaborators -/

def SE_OWNER_DEFAULTED : Nat := 0x0001
def SE_GROUP_DEFAULTED : Nat := 0x0002
def SE_DACL_PRESENT : Nat := 0x0004
def SE_DACL_DEFAULTED : Nat := 0x0008
def SE_SACL_PRESENT : Nat := 0x0010
def SE_SACL_DEFAULTED : Nat := 0x0020
def SE_SELF_RELATIVE : Nat := 0x8000

/-- Sets or clears the bits `Bits` of a 16-bit control word. -/
def setBits (Control Bits : Nat) (b : Bool) : Nat :=
  if b then Control ||| Bits else Control &&& (0xFFFF ^^^ Bits)

/-- The pieces of a string between the occurrences of `c`. -/
def splitAt (c : Char) : CStr → List CStr
  | [] => [[]]
  | x :: xs =>
    if x = c then [] :: splitAt c xs
    else
      match splitAt c xs with
      | [] => [[x]]
      | p :: ps => (x :: p) :: ps

/-- Value of a non-empty string of decimal digits. -/
def natOfDigits (s : CStr) : Option Nat :=
  if s.isEmpty ∨ ¬ s.all Char.isDigit then none
  else some (s.foldl (fun n c => n * 10 + (c.toNat - 48)) 0)

namespace Ref

/-- Modelled from the spec: the SID primitive "parse canonical text" of §6,
for the text `S-R-A-S1-S2...` of §6; any other text is a malformed field, the
`InvalidArgument` of §7 (the primitive is not under src/). -/
def RtlAllocateSidFromCString (psz : CStr) : Except NTSTATUS SID :=
  match splitAt '-' psz with
  | s :: r :: a :: subs =>
    if s ≠ ['S'] ∧ s ≠ ['s'] then .error STATUS_INVALID_PARAMETER
    else
      match natOfDigits r, natOfDigits a, subs.mapM natOfDigits with
      | some r, some a, some subs =>
        .ok { Revision := r, IdentifierAuthority := a, SubAuthority := subs }
      | _, _, _ => .error STATUS_INVALID_PARAMETER
  | _ => .error STATUS_INVALID_PARAMETER

/-- Modelled from the spec: the SID primitive "render canonical text" of §6
(the primitive is not under src/). -/
def RtlAllocateCStringFromSid (pSid : Option SID) : Except NTSTATUS CStr :=
  match pSid with
  | none => .error STATUS_INVALID_PARAMETER
  | some sid =>
    .ok ("S-".toList ++ Nat.toDigits 10 sid.Revision ++ "-".toList
      ++ Nat.toDigits 10 sid.IdentifierAuthority
      ++ (sid.SubAuthority.map (fun n => "-".toList ++ Nat.toDigits 10 n)).flatten)

/-- Modelled from the spec: the SID primitive "extract trailing relative
identifier" of §6 (the primitive is not under src/). -/
def RtlGetRidSid (pSid : Option SID) : Except NTSTATUS Nat :=
  match pSid with
  | none => .error STATUS_INVALID_PARAMETER
  | some sid =>
    match sid.SubAuthority.getLast? with
    | some rid => .ok rid
    | none => .error STATUS_INVALID_SID

/-- Modelled from the spec: the SID primitive "serialized length of a SID" of
§6 (the primitive is not under src/). -/
def RtlLengthSid (sid : SID) : Nat := 8 + 4 * sid.SubAuthority.length

/-- Modelled from the spec: an excerpt of the SID alias table of §4.1, keyed by
relative identifier as the call in the source is: (rid, alias, canonical text).
The table is not under src/. -/
def aliasTable : List (Nat × CStr × CStr) :=
  [ (0, "WD".toList, "S-1-1-0".toList),
    (0, "CO".toList, "S-1-3-0".toList),
    (18, "SY".toList, "S-1-5-18".toList),
    (11, "AU".toList, "S-1-5-11".toList),
    (544, "BA".toList, "S-1-5-32-544".toList),
    (545, "BU".toList, "S-1-5-32-545".toList) ]

/-- Modelled from the spec: `aliasToSid` of §4.1 (not under src/). -/
def RtlpAliasSidStringToSidString (psz : Option CStr) : Option CStr :=
  match psz with
  | none => none
  | some s => (aliasTable.find? (fun e => decide (e.2.1 = s))).map (fun e => e.2.2)

/-- Modelled from the spec: the alias lookup by relative identifier that the
source calls (not under src/). -/
def RtlpRidToAliasSidString (ulRid : Nat) : Option CStr :=
  (aliasTable.find? (fun e => decide (e.1 = ulRid))).map (fun e => e.2.1)

/-- Modelled from the spec: "exact serialized size of an ACE of a given kind
for a given SID" of §6: header and mask, then the SID (not under src/). -/
def RtlLengthAccessAllowedAce (sid : SID) : Nat := 8 + RtlLengthSid sid

/-- Modelled from the spec: "create an empty ACL in a caller-sized buffer" of
§6 (not under src/). -/
def RtlCreateAcl (AclLength AclRevision : Nat) : Except NTSTATUS ACL :=
  if AclLength < ACL_HEADER_SIZE ∨ AclLength > 0xFFFF ∨ AclRevision ≠ ACL_REVISION then
    .error STATUS_INVALID_PARAMETER
  else .ok { AclSize := AclLength, Aces := [] }

/-- Bytes used by an ACL: the header and its ACEs. -/
def aclUsed (acl : ACL) : Nat := ACL_HEADER_SIZE + (acl.Aces.map (fun a => a.AceSize)).sum

/-- Modelled from the spec: "append one ACE at a given ordinal position" of §6:
the ACE is inserted so that it occupies the given index, `(ULONG)-1` meaning
append (not under src/). -/
def RtlAddAce (acl : ACL) (_AceRevision : Nat) (StartingAceIndex : Nat) (ace : ACE)
    (AceListLength : Nat) : Except NTSTATUS ACL :=
  if StartingAceIndex ≠ ULONG_MAX ∧ StartingAceIndex > acl.Aces.length then
    .error STATUS_INVALID_PARAMETER
  else if aclUsed acl + AceListLength > acl.AclSize then .error STATUS_BUFFER_TOO_SMALL
  else if StartingAceIndex = ULONG_MAX then .ok { acl with Aces := acl.Aces ++ [ace] }
  else
    .ok { acl with Aces := acl.Aces.take StartingAceIndex ++ ace :: acl.Aces.drop StartingAceIndex }

/-- Modelled from the spec: "fetch the Nth raw ACE record" of §6 (not under
src/). -/
def RtlGetAce (acl : ACL) (AceIndex : Nat) : Except NTSTATUS ACE :=
  match acl.Aces.get? AceIndex with
  | some ace => .ok ace
  | none => .error STATUS_INVALID_PARAMETER

/-- Modelled from the spec: "construct an absolute-form descriptor" of §6 (not
under src/). -/
def RtlCreateSecurityDescriptorAbsolute (Revision : Nat) : Except NTSTATUS SECURITY_DESCRIPTOR :=
  if Revision ≠ SECURITY_DESCRIPTOR_REVISION then .error STATUS_INVALID_PARAMETER
  else .ok { Control := 0, Owner := none, Group := none, Dacl := none, Sacl := none }

/-- Bytes of the self-relative form: header, the two SIDs and the two ACLs. -/
def relLength (sd : SECURITY_DESCRIPTOR) : Nat :=
  20 + (match sd.Owner with | some s => RtlLengthSid s | none => 0)
    + (match sd.Group with | some s => RtlLengthSid s | none => 0)
    + (match sd.Dacl with | some a => a.AclSize | none => 0)
    + (match sd.Sacl with | some a => a.AclSize | none => 0)

/-- Modelled from the spec: the structural validity predicate of §6: every
ACL holds its ACEs within its size (not under src/). -/
def RtlValidSecurityDescriptor (sd : SECURITY_DESCRIPTOR) : Bool :=
  (match sd.Dacl with | some a => decide (aclUsed a ≤ a.AclSize) | none => true)
    && (match sd.Sacl with | some a => decide (aclUsed a ≤ a.AclSize) | none => true)

/-- Modelled from the spec: "convert absolute to self-relative form with
explicit buffer-too-small signaling and required-size reporting" of §6; a
buffer that is too small is left as it was zeroed (not under src/). -/
def RtlAbsoluteToSelfRelativeSD (sd : SECURITY_DESCRIPTOR) (Length : Nat) :
    NTSTATUS × Nat × SECURITY_DESCRIPTOR :=
  if Length < relLength sd then
    (STATUS_BUFFER_TOO_SMALL, relLength sd,
      { Control := 0, Owner := none, Group := none, Dacl := none, Sacl := none })
  else (STATUS_SUCCESS, relLength sd, { sd with Control := sd.Control ||| SE_SELF_RELATIVE })

/-- Modelled from the spec: validation of a self-relative descriptor, §6 (not
under src/). -/
def RtlValidRelativeSecurityDescriptor (sd : SECURITY_DESCRIPTOR) (Length : Nat)
    (_RequiredInformation : Nat) : NTSTATUS :=
  if sd.Control &&& SE_SELF_RELATIVE ≠ 0 ∧ relLength sd ≤ Length ∧ RtlValidSecurityDescriptor sd
  then STATUS_SUCCESS else STATUS_INVALID_SECURITY_DESCR

end Ref

/-- Modelled from the spec: the collaborators of §6 (SID, ACL and
security-descriptor primitives, alias table), none of which is under src/; the
section delimiter is the line feed named by the comments of the source, the
size ceiling is header + two maximal SIDs + two maximal ACLs. -/
def refExt : Ext where
  SDDL_SECTION_DELIMINATOR_S := ['\n']
  SECURITY_DESCRIPTOR_RELATIVE_MAX_SIZE := 20 + 68 + 68 + 0xFFFF + 0xFFFF
  RtlAllocateSidFromCString := Ref.RtlAllocateSidFromCString
  RtlAllocateCStringFromSid := Ref.RtlAllocateCStringFromSid
  RtlGetRidSid := Ref.RtlGetRidSid
  RtlLengthSid := Ref.RtlLengthSid
  RtlpAliasSidStringToSidString := Ref.RtlpAliasSidStringToSidString
  RtlpRidToAliasSidString := Ref.RtlpRidToAliasSidString
  RtlLengthAccessAllowedAce := Ref.RtlLengthAccessAllowedAce
  RtlLengthAccessDeniedAce := Ref.RtlLengthAccessAllowedAce
  RtlLengthAccessAuditAce := Ref.RtlLengthAccessAllowedAce
  RtlCreateAcl := Ref.RtlCreateAcl
  RtlAddAce := Ref.RtlAddAce
  RtlGetAclAceCount := fun acl => acl.Aces.length
  RtlGetAce := Ref.RtlGetAce
  RtlCreateSecurityDescriptorAbsolute := Ref.RtlCreateSecurityDescriptorAbsolute
  RtlSetOwnerSecurityDescriptor := fun sd sid d =>
    .ok { sd with Owner := sid, Control := setBits sd.Control SE_OWNER_DEFAULTED d }
  RtlSetGroupSecurityDescriptor := fun sd sid d =>
    .ok { sd with Group := sid, Control := setBits sd.Control SE_GROUP_DEFAULTED d }
  RtlSetDaclSecurityDescriptor := fun sd present acl d =>
    .ok { sd with
      Dacl := if present then acl else none
      Control := setBits (setBits sd.Control SE_DACL_PRESENT present) SE_DACL_DEFAULTED
        (present && d) }
  RtlSetSaclSecurityDescriptor := fun sd present acl d =>
    .ok { sd with
      Sacl := if present then acl else none
      Control := setBits (setBits sd.Control SE_SACL_PRESENT present) SE_SACL_DEFAULTED
        (present && d) }
  RtlGetOwnerSecurityDescriptor := fun sd =>
    .ok (sd.Owner, decide (sd.Control &&& SE_OWNER_DEFAULTED ≠ 0))
  RtlGetGroupSecurityDescriptor := fun sd =>
    .ok (sd.Group, decide (sd.Control &&& SE_GROUP_DEFAULTED ≠ 0))
  RtlGetDaclSecurityDescriptor := fun sd =>
    .ok (decide (sd.Control &&& SE_DACL_PRESENT ≠ 0), sd.Dacl,
      decide (sd.Control &&& SE_DACL_DEFAULTED ≠ 0))
  RtlGetSaclSecurityDescriptor := fun sd =>
    .ok (decide (sd.Control &&& SE_SACL_PRESENT ≠ 0), sd.Sacl,
      decide (sd.Control &&& SE_SACL_DEFAULTED ≠ 0))
  RtlValidSecurityDescriptor := Ref.RtlValidSecurityDescriptor
  RtlAbsoluteToSelfRelativeSD := Ref.RtlAbsoluteToSelfRelativeSD
  RtlLengthSecurityDescriptorRelative := Ref.relLength
  RtlValidRelativeSecurityDescriptor := Ref.RtlValidRelativeSecurityDescriptor
  RtlSelfRelativeToAbsoluteSD := fun sd =>
    .ok { sd with Control := sd.Control &&& (0xFFFF ^^^ SE_SELF_RELATIVE) }

/-! ## Specification-level helpers used by the theorems -/

/-- The seven ACE flag bits that have a mnemonic. -/
def SUPPORTED_ACE_FLAGS : Nat :=
  CONTAINER_INHERIT_ACE ||| OBJECT_INHERIT_ACE ||| NO_PROPAGATE_INHERIT_ACE |||
    INHERIT_ONLY_ACE ||| INHERITED_ACE ||| SUCCESSFUL_ACCESS_ACE_FLAG ||| FAILED_ACCESS_ACE_FLAG

/-- A field of an ACE clause: an empty substring is an absent field. -/
def fieldOf (p : CStr) : Option CStr := if p.isEmpty then none else some p

/-- What `RtlpParseSddlAceString` computes from the type, flags, rights and
sid fields of a clause with six fields. -/
def parseAceFields (E : Ext) (t f r sid : CStr) : NTSTATUS × Option SDDL_ACE :=
  if t = [] then (STATUS_INVALID_PARAMETER, none)
  else if RtlpMapSddlTypeToAceType t = ACCESS_UNKNOWN_ACE_TYPE then (STATUS_NOT_SUPPORTED, none)
  else if sid = [] then (STATUS_INVALID_PARAMETER, none)
  else
    match E.RtlAllocateSidFromCString
        (if IsNullOrEmptyString (E.RtlpAliasSidStringToSidString (some sid)) then sid
          else strOf (E.RtlpAliasSidStringToSidString (some sid))) with
    | .ok pSid =>
      (STATUS_SUCCESS, some
        { AceType := RtlpMapSddlTypeToAceType t
          AceFlag := if f = [] then 0 else RtlpMapSddlFlagToAceFlag f
          Access := if r = [] then 0 else RtlpMapSddlRightsToAccessMask r
          pszObjectGuid := none
          pszObjectInheritedGuid := none
          pSid := pSid })
    | .error status => (status, none)

/-- The control bit named by one control token, for a DACL or a SACL. -/
def controlTokenBit (bIsDacl : Bool) (tok : CStr) : Nat :=
  if tok = SDDL_PROTECTED then (if bIsDacl then SE_DACL_PROTECTED else SE_SACL_PROTECTED)
  else if tok = SDDL_AUTO_INHERIT_REQ then
    (if bIsDacl then SE_DACL_AUTO_INHERIT_REQ else SE_SACL_AUTO_INHERIT_REQ)
  else if tok = SDDL_AUTO_INHERITED then
    (if bIsDacl then SE_DACL_AUTO_INHERITED else SE_SACL_AUTO_INHERITED)
  else 0

/-- The bits named by a list of control tokens. -/
def controlTokenBits (bIsDacl : Bool) (toks : List CStr) : Nat :=
  (toks.map (controlTokenBit bIsDacl)).foldl (fun acc b => acc ||| b) 0

/-- The ACL text `(c1)(c2)...(cn)` of the clause bodies `c1 ... cn`. -/
def aclText (bodies : List CStr) : CStr :=
  (bodies.map (fun b => SDDL_ACE_BEGIN_C :: (b ++ SDDL_ACE_END_S))).flatten

/-- The ACL entry that `RtlpGetAclFromSddlAclString` builds from a parsed
clause: type, flags, mask and SID of the clause, with the size of its type. -/
def aceRecord (E : Ext) (a : SDDL_ACE) : ACE :=
  { AceType := a.AceType, AceFlags := a.AceFlag,
    AceSize := (match aceLength E a.AceType a.pSid with | .ok n => n | .error _ => 0),
    Mask := a.Access, Sid := a.pSid }

/-- The model of `RtlAddAce` named by the order-preservation claim: the ACE is
inserted so that it occupies the given index, `(ULONG)-1` meaning append. -/
def insertAce (aces : List ACE) (StartingAceIndex : Nat) (ace : ACE) : List ACE :=
  if StartingAceIndex = ULONG_MAX then aces ++ [ace]
  else aces.take StartingAceIndex ++ ace :: aces.drop StartingAceIndex

/-- The reference collaborators with the ACL primitives of the
order-preservation claim: `RtlCreateAcl` yields the empty ACL of the requested
size and `RtlAddAce` is `insertAce`. -/
def insertExt : Ext :=
  { refExt with
    RtlCreateAcl := fun AclLength _ => .ok { AclSize := AclLength, Aces := [] }
    RtlAddAce := fun acl _ StartingAceIndex ace _ =>
      .ok { acl with Aces := insertAce acl.Aces StartingAceIndex ace } }

/-- The reference collaborators with a self-relative conversion that never
finds the buffer large enough and leaves the length as passed (the situation
of the growth-bound claim). -/
def tooSmallExt : Ext :=
  { refExt with
    RtlAbsoluteToSelfRelativeSD := fun _ Length =>
      (STATUS_BUFFER_TOO_SMALL, Length,
        { Control := 0, Owner := none, Group := none, Dacl := none, Sacl := none }) }

/-! ### Round trip of a descriptor -/

/-- The collaborators of the round trip: the SID text primitives and the alias
table of `S`, with the reference security-descriptor primitives and the ACL
primitives of `insertExt`. -/
def withSidText (S : Ext) : Ext :=
  { insertExt with
    RtlAllocateSidFromCString := S.RtlAllocateSidFromCString
    RtlAllocateCStringFromSid := S.RtlAllocateCStringFromSid
    RtlGetRidSid := S.RtlGetRidSid
    RtlpAliasSidStringToSidString := S.RtlpAliasSidStringToSidString
    RtlpRidToAliasSidString := S.RtlpRidToAliasSidString }

/-- The SDDL text of a SID (alias or canonical text). -/
def sidText (E : Ext) (s : SID) : CStr := strOf (RtlpGetSddlSidStringFromSid E (some s)).2

/-- The SID survives the text round trip: it is rendered to a non-empty text
without `;`, `)` and line feed, and this text resolves back to the SID. -/
def SidRoundTrips (E : Ext) (s : SID) : Prop :=
  RtlpGetSddlSidStringFromSid E (some s) = (STATUS_SUCCESS, some (sidText E s)) ∧
  sidText E s ≠ [] ∧
  (∀ c ∈ sidText E s, c ≠ ';' ∧ c ≠ ')' ∧ c ≠ '\n') ∧
  sidOfSection E (some (sidText E s)) = .ok s

/-- An ACE that the text form can carry: Allow, Deny or Audit, flags within
the seven supported bits, an access mask that the mask codec reproduces and a
SID that survives the text round trip. -/
def SupportedAce (E : Ext) (a : ACE) : Prop :=
  (a.AceType = ACCESS_ALLOWED_ACE_TYPE ∨ a.AceType = ACCESS_DENIED_ACE_TYPE ∨
    a.AceType = SYSTEM_AUDIT_ACE_TYPE) ∧
  a.AceFlags < 256 ∧ a.AceFlags &&& SUPPORTED_ACE_FLAGS = a.AceFlags ∧
  RtlpMapSddlRightsToAccessMask (strOf (RtlpMapAccessMaskToSddlRights a.Mask).2) = a.Mask ∧
  SidRoundTrips E a.Sid

/-- A list that the text form can carry: absent, or between 1 and 65535
supported ACEs. -/
def SupportedAcl (E : Ext) (acl : Option ACL) : Prop :=
  match acl with
  | none => True
  | some a => a.Aces ≠ [] ∧ a.Aces.length < 2 ^ 16 ∧ ∀ x ∈ a.Aces, SupportedAce E x

/-- The protected / auto-inherit-required / auto-inherited bits of a DACL or
SACL chosen by three booleans. -/
def aclControl (bIsDacl p ar ai : Bool) : Nat :=
  (if p then (if bIsDacl then SE_DACL_PROTECTED else SE_SACL_PROTECTED) else 0) |||
  (if ar then (if bIsDacl then SE_DACL_AUTO_INHERIT_REQ else SE_SACL_AUTO_INHERIT_REQ) else 0) |||
  (if ai then (if bIsDacl then SE_DACL_AUTO_INHERITED else SE_SACL_AUTO_INHERITED) else 0)

/-- The control word made of the self-relative bit, the present bit of each
list that is held (`hasD`, `hasS`) and the chosen control flags of these
lists. -/
def canonControl (hasD hasS p ar ai p' ar' ai' : Bool) : Nat :=
  SE_SELF_RELATIVE |||
    (if hasD then SE_DACL_PRESENT ||| aclControl true p ar ai else 0) |||
    (if hasS then SE_SACL_PRESENT ||| aclControl false p' ar' ai' else 0)

/-- The control word holds the self-relative bit, the present bit of each list
of the descriptor, and up to two of the three control flags of each of these
lists (the control string of all three, `PARAI`, does not fit the
`SDDL_CONTROL_LENGTH` bytes of its buffer together with its terminator); no
other bit. -/
def CanonicalControl (d : SECURITY_DESCRIPTOR) : Prop :=
  ∃ p ar ai p' ar' ai' : Bool,
    (p && ar && ai) = false ∧ (p' && ar' && ai') = false ∧
    d.Control = canonControl d.Dacl.isSome d.Sacl.isSome p ar ai p' ar' ai'

/-- The control string of the chosen flags, in the order of the encoder. -/
def ctlString (p ar ai : Bool) : CStr :=
  (if p then SDDL_PROTECTED else []) ++ (if ar then SDDL_AUTO_INHERIT_REQ else []) ++
    (if ai then SDDL_AUTO_INHERITED else [])

/-- Bytes of an ACL packed without slack: header, then header, mask and SID of
each ACE. -/
def packedAclLength (acl : Option ACL) : Nat :=
  match acl with
  | none => 0
  | some a => ACL_HEADER_SIZE + (a.Aces.map (fun x => 8 + Ref.RtlLengthSid x.Sid)).sum

/-- Bytes of the self-relative form with packed ACLs. -/
def packedLength (d : SECURITY_DESCRIPTOR) : Nat :=
  20 + (match d.Owner with | some s => Ref.RtlLengthSid s | none => 0)
    + (match d.Group with | some s => Ref.RtlLengthSid s | none => 0)
    + packedAclLength d.Dacl + packedAclLength d.Sacl

/-- Type, flags, access mask and SID of each entry of a list (absent for an
absent list). -/
def aclContent (acl : Option ACL) : Option (List (Nat × Nat × Nat × SID)) :=
  acl.map (fun a => a.Aces.map (fun x => (x.AceType, x.AceFlags, x.Mask, x.Sid)))

/-- The text of one ACE clause between the parentheses. -/
def aceBody (E : Ext) (a : ACE) : CStr :=
  strOf (RtlpMapAceTypeToSddlType a.AceType) ++ SDDL_SEPERATOR_C ::
    (strOf (RtlpMapAceFlagToSddlFlag a.AceFlags).2 ++ SDDL_SEPERATOR_C ::
      (strOf (RtlpMapAccessMaskToSddlRights a.Mask).2 ++ SDDL_SEPERATOR_C ::
        SDDL_SEPERATOR_C :: SDDL_SEPERATOR_C :: sidText E a.Sid))

/-- The record that the clause parser yields for the clause of an ACE. -/
def sddlAceOf (a : ACE) : SDDL_ACE :=
  { AceType := a.AceType, AceFlag := a.AceFlags, Access := a.Mask,
    pszObjectGuid := none, pszObjectInheritedGuid := none, pSid := a.Sid }

/-- A descriptor used to exercise the round trip: owner BA, a domain group,
a protected DACL with an Allow and a Deny entry, an auto-inherited SACL with
an Audit entry. -/
def sampleDescriptor : SECURITY_DESCRIPTOR :=
  { Control := SE_SELF_RELATIVE ||| SE_DACL_PRESENT ||| SE_DACL_PROTECTED |||
      SE_SACL_PRESENT ||| SE_SACL_AUTO_INHERITED
    Owner := some { Revision := 1, IdentifierAuthority := 5, SubAuthority := [32, 544] }
    Group := some { Revision := 1, IdentifierAuthority := 5, SubAuthority := [21, 7, 8, 9, 513] }
    Dacl := some
      { AclSize := 52
        Aces :=
          [{ AceType := ACCESS_ALLOWED_ACE_TYPE, AceFlags := 3, AceSize := 24,
             Mask := FILE_ALL_ACCESS,
             Sid := { Revision := 1, IdentifierAuthority := 5, SubAuthority := [32, 544] } },
           { AceType := ACCESS_DENIED_ACE_TYPE, AceFlags := 0, AceSize := 20,
             Mask := GENERIC_WRITE,
             Sid := { Revision := 1, IdentifierAuthority := 1, SubAuthority := [0] } }] }
    Sacl := some
      { AclSize := 28
        Aces :=
          [{ AceType := SYSTEM_AUDIT_ACE_TYPE, AceFlags := 0xC0, AceSize := 20,
             Mask := GENERIC_ALL,
             Sid := { Revision := 1, IdentifierAuthority := 1, SubAuthority := [0] } }] } }

/-- A valid descriptor whose DACL is present and empty. -/
def emptyDaclDescriptor : SECURITY_DESCRIPTOR :=
  { Control := SE_SELF_RELATIVE ||| SE_DACL_PRESENT
    Owner := some { Revision := 1, IdentifierAuthority := 5, SubAuthority := [32, 544] }
    Group := some { Revision := 1, IdentifierAuthority := 5, SubAuthority := [32, 545] }
    Dacl := some { AclSize := 8, Aces := [] }
    Sacl := none }

/-- The body of the `D:` or `S:` section rendered for a list: control string
and clauses; `none` when no section is rendered. -/
def aclSection (E : Ext) (acl : Option ACL) (p ar ai : Bool) : Option CStr :=
  acl.map (fun a => ctlString p ar ai ++ aclText (a.Aces.map (aceBody E)))

/-- The sections of the text rendered for a descriptor with owner `o` and
group `g`, each with its prefix. -/
def sectionsOf (E : Ext) (d : SECURITY_DESCRIPTOR) (o g : SID) (p ar ai p' ar' ai' : Bool) :
    List CStr :=
  [SDDL_OWNER ++ SDDL_DELIMINATOR_S ++ sidText E o,
    SDDL_GROUP ++ SDDL_DELIMINATOR_S ++ sidText E g]
  ++ ((aclSection E d.Dacl p ar ai).map (fun s => SDDL_DACL ++ SDDL_DELIMINATOR_S ++ s)).toList
  ++ ((aclSection E d.Sacl p' ar' ai').map (fun s => SDDL_SACL ++ SDDL_DELIMINATOR_S ++ s)).toList

/-- The text of a list of sections: each is followed by the line feed. -/
def textOf (secs : List CStr) : CStr := (secs.map (fun s => s ++ ['\n'])).flatten

/-- The list that the parser builds from the clauses of a list: the entry of
each clause in order, in a buffer of the size of its entries. -/
def parsedAcl (E : Ext) (acl : ACL) : ACL :=
  { AclSize := ACL_HEADER_SIZE +
      (((acl.Aces.map sddlAceOf).map (aceRecord E)).map (fun x => x.AceSize)).sum
    Aces := (acl.Aces.map sddlAceOf).map (aceRecord E) }

/-- The absolute descriptor after the DACL or SACL step on the section of a
list: unchanged for an absent list, otherwise the control flags of the section
are added, the parsed list is stored and marked present. -/
def storeAcl (E : Ext) (sd : SECURITY_DESCRIPTOR) (acl : Option ACL) (bIsDacl p ar ai : Bool) :
    SECURITY_DESCRIPTOR :=
  match acl with
  | none => sd
  | some a =>
    if bIsDacl then
      { sd with
        Dacl := some (parsedAcl E a)
        Control := setBits (setBits (sd.Control ||| aclControl true p ar ai) SE_DACL_PRESENT true)
          SE_DACL_DEFAULTED false }
    else
      { sd with
        Sacl := some (parsedAcl E a)
        Control := setBits (setBits (sd.Control ||| aclControl false p ar ai) SE_SACL_PRESENT true)
          SE_SACL_DEFAULTED false }

/-- A piece of text that can stand inside an ACE clause and a section: it
holds no `;`, no `)` and no line feed. -/
def Clean (s : CStr) : Prop := ∀ c ∈ s, c ≠ ';' ∧ c ≠ ')' ∧ c ≠ '\n'

instance (s : CStr) : Decidable (Clean s) := by
  unfold Clean
  infer_instance

/-! ## Shape of a control string -/

/-- The shapes of a control string that the decoder rejects: longer than
`SDDL_CONTROL_LENGTH`, a single character other than `P`, `P` first with even
length, or no `P` first, length 3 or 5 and no `P` as third character. -/
def controlShapeRejected (s : CStr) : Prop :=
  s.length > SDDL_CONTROL_LENGTH ∨ (s.length = 1 ∧ s ≠ SDDL_PROTECTED) ∨
    (hasPrefix s SDDL_PROTECTED = true ∧ s.length % 2 = 0) ∨
    (hasPrefix s SDDL_PROTECTED = false ∧ (s.length = 3 ∨ s.length = 5) ∧
      hasPrefix (s.drop SDDL_CONTROL_SIZE) SDDL_PROTECTED = false)

/-- The protected marker is read: the string starts with `P`, or it has odd
length and `P` as its third character. -/
def protectedMarked (s : CStr) : Bool :=
  hasPrefix s SDDL_PROTECTED ||
    (decide (s.length % 2 = 1) && hasPrefix (s.drop SDDL_CONTROL_SIZE) SDDL_PROTECTED)

/-- The two-character slices that the decoder compares with `AR` and `AI`: they
start at offset 1 when the string starts with `P` or has odd length, at offset
0 otherwise. -/
def controlSlices (s : CStr) : List CStr :=
  (List.range (s.length / SDDL_CONTROL_SIZE)).map (fun i =>
    slice2 s ((if hasPrefix s SDDL_PROTECTED = true ∨ s.length % 2 = 1 then 1 else 0)
      + i * SDDL_CONTROL_SIZE))

instance (s : CStr) : Decidable (controlShapeRejected s) := by
  unfold controlShapeRejected
  infer_instance


/-! ## The steps of the parser -/

/-- The part of `RtlAllocateSecurityDescriptorFromSddlCString` up to the group
step: creation of the absolute descriptor, argument check, section split,
owner and group.  It yields the descriptor and the DACL and SACL texts. -/
def ownerGroupSteps (E : Ext) (pszStringSecurityDescriptor : Option CStr) (SddlRevision : Nat) :
    Except NTSTATUS (SECURITY_DESCRIPTOR × Option CStr × Option CStr) := do
  let pSecDescAbs ← E.RtlCreateSecurityDescriptorAbsolute SECURITY_DESCRIPTOR_REVISION
  if SDDL_REVISION_1 ≠ SddlRevision ∨ IsNullOrEmptyString pszStringSecurityDescriptor then
    throw STATUS_INVALID_PARAMETER
  let parts ← chk (RtlpParseSddlString E (strOf pszStringSecurityDescriptor))
  let pOwnerSid ← sidOfSection E parts.1
  let pSecDescAbs ← E.RtlSetOwnerSecurityDescriptor pSecDescAbs (some pOwnerSid) false
  let pGroupSid ← sidOfSection E parts.2.1
  let pSecDescAbs ← E.RtlSetGroupSecurityDescriptor pSecDescAbs (some pGroupSid) false
  pure (pSecDescAbs, parts.2.2.1, parts.2.2.2)

/-- The part of `RtlAllocateSecurityDescriptorFromSddlCString` before the
validity check: the steps of `ownerGroupSteps`, then the DACL and the SACL
step.  It yields the assembled absolute descriptor. -/
def assembleDescriptor (E : Ext) (pszStringSecurityDescriptor : Option CStr)
    (SddlRevision : Nat) : Outcome (Except NTSTATUS SECURITY_DESCRIPTOR) :=
  match ownerGroupSteps E pszStringSecurityDescriptor SddlRevision with
  | .error status => .returns (.error status)
  | .ok (pSecDescAbs, pszDacl, pszSacl) =>
    match aclOfSection E pSecDescAbs pszDacl true with
    | .undefined => .undefined
    | .outOfFuel => .outOfFuel
    | .returns (.error status) => .returns (.error status)
    | .returns (.ok pSecDescAbs) => aclOfSection E pSecDescAbs pszSacl false

/-- The reference collaborators with a validity predicate that rejects every
descriptor (the situation of the validity-gate claim). -/
def invalidExt : Ext :=
  { refExt with RtlValidSecurityDescriptor := fun _ => false }

/-! ## Layout of the rendered text -/

/-- One section of the text as the layout claim words it: nothing for a null
or empty string, otherwise prefix, `:`, control string, string, delimiter. -/
def layoutSection (pre delim : CStr) (ctl body : Option CStr) : CStr :=
  if IsNullOrEmptyString body then []
  else pre ++ SDDL_DELIMINATOR_S ++ strOf ctl ++ strOf body ++ delim

/-- The text as the layout claim words it: the sections O, G, D, S in this
order. -/
def layoutText (delim : CStr) (o g d dc s sc : Option CStr) : CStr :=
  layoutSection SDDL_OWNER delim none o ++ layoutSection SDDL_GROUP delim none g ++
    layoutSection SDDL_DACL delim dc d ++ layoutSection SDDL_SACL delim sc s

/-! ## Section tokens -/

/-- The token starts with one of the section letters `O`, `G`, `D`, `S`. -/
def startsWithSectionLetter (tok : CStr) : Prop :=
  tok.head? = some 'O' ∨ tok.head? = some 'G' ∨ tok.head? = some 'D' ∨ tok.head? = some 'S'

instance (tok : CStr) : Decidable (startsWithSectionLetter tok) := by
  unfold startsWithSectionLetter
  infer_instance

/-- The four section prefixes `O:`, `G:`, `D:`, `S:`. -/
def sectionPrefixes : List CStr :=
  [SDDL_OWNER ++ SDDL_DELIMINATOR_S, SDDL_GROUP ++ SDDL_DELIMINATOR_S,
    SDDL_DACL ++ SDDL_DELIMINATOR_S, SDDL_SACL ++ SDDL_DELIMINATOR_S]

/-- Each of `O:`, `G:`, `D:`, `S:` starts at most one of the tokens. -/
def AtMostOncePerSection (toks : List CStr) : Prop :=
  ∀ pre ∈ sectionPrefixes, toks.countP (fun t => hasPrefix t pre) ≤ 1

instance (toks : List CStr) : Decidable (AtMostOncePerSection toks) := by
  unfold AtMostOncePerSection
  infer_instance

/-! ## Mnemonic tables -/

/-- The mnemonics that `RtlpMapSddlFlagToAceFlag` compares a slice with. -/
def aceFlagMnemonics : List CStr :=
  [SDDL_CONTAINER_INHERIT, SDDL_OBJECT_INHERIT, SDDL_NO_PROPAGATE, SDDL_INHERIT_ONLY,
    SDDL_INHERITED, SDDL_AUDIT_SUCCESS, SDDL_AUDIT_FAILURE]

/-- The mnemonics that `RtlpMapSddlRightsToAccessMask` compares a slice with
and that `RtlpMapAccessMaskToSddlRights` writes. -/
def rightsMnemonics : List CStr :=
  [SDDL_GENERIC_ALL, SDDL_GENERIC_READ, SDDL_GENERIC_WRITE, SDDL_GENERIC_EXECUTE,
    SDDL_READ_CONTROL, SDDL_STANDARD_DELETE, SDDL_WRITE_DAC, SDDL_WRITE_OWNER,
    SDDL_FILE_ALL, SDDL_FILE_READ, SDDL_FILE_WRITE, SDDL_FILE_EXECUTE,
    SDDL_KEY_ALL, SDDL_KEY_READ, SDDL_KEY_WRITE, SDDL_KEY_EXECUTE,
    SDDL_NO_READ_UP, SDDL_NO_WRITE_UP, SDDL_NO_EXECUTE_UP]

def SDDL_READ_PROPERTY : CStr := "RP".toList
def SDDL_WRITE_PROPERTY : CStr := "WP".toList
def SDDL_CREATE_CHILD : CStr := "CC".toList
def SDDL_DELETE_CHILD : CStr := "DC".toList
def SDDL_LIST_CHILDREN : CStr := "LC".toList
def SDDL_SELF_WRITE : CStr := "SW".toList
def SDDL_LIST_OBJECT : CStr := "LO".toList
def SDDL_DELETE_TREE : CStr := "DT".toList
def SDDL_CONTROL_ACCESS : CStr := "CR".toList

/-- The directory-service mnemonics of the blocks compiled out by `#if 0`. -/
def directoryServiceMnemonics : List CStr :=
  [SDDL_READ_PROPERTY, SDDL_WRITE_PROPERTY, SDDL_CREATE_CHILD, SDDL_DELETE_CHILD,
    SDDL_LIST_CHILDREN, SDDL_SELF_WRITE, SDDL_LIST_OBJECT, SDDL_DELETE_TREE,
    SDDL_CONTROL_ACCESS]

/-! ## ACE clause layout -/

/-- The clause layout `(type;flags;rights;;;sid)` in the words of the
specification: the four fields that are written, and the two GUID fields left
empty. -/
def clauseLayout (ty flags rights sid : CStr) : CStr :=
  "(".toList ++ ty ++ ";".toList ++ flags ++ ";".toList ++ rights ++ ";;;".toList ++ sid
    ++ ")".toList

/-- The clause of an ACE in the layout of the specification: its type
mnemonic, its encoded flags, its encoded rights and the SDDL text of its
SID. -/
def aceClauseText (E : Ext) (a : ACE) : CStr :=
  clauseLayout (strOf (RtlpMapAceTypeToSddlType a.AceType))
    (strOf (RtlpMapAceFlagToSddlFlag a.AceFlags).2)
    (strOf (RtlpMapAccessMaskToSddlRights a.Mask).2) (sidText E a.Sid)

/-- An ACL that holds an object ACE (type 5) between an Allow and a Deny
entry. -/
def objectAceAcl : ACL :=
  { AclSize := 72
    Aces :=
      [{ AceType := ACCESS_ALLOWED_ACE_TYPE, AceFlags := 0, AceSize := 24,
         Mask := GENERIC_ALL,
         Sid := { Revision := 1, IdentifierAuthority := 5, SubAuthority := [32, 544] } },
       { AceType := 5, AceFlags := 0, AceSize := 20,
         Mask := GENERIC_READ,
         Sid := { Revision := 1, IdentifierAuthority := 1, SubAuthority := [0] } },
       { AceType := ACCESS_DENIED_ACE_TYPE, AceFlags := 0, AceSize := 20,
         Mask := GENERIC_WRITE,
         Sid := { Revision := 1, IdentifierAuthority := 1, SubAuthority := [0] } }] }

/-- A descriptor that holds `objectAceAcl` as its DACL and nothing else. -/
def objectAceDescriptor : SECURITY_DESCRIPTOR :=
  { Control := SE_SELF_RELATIVE ||| SE_DACL_PRESENT, Owner := none, Group := none,
    Dacl := some objectAceAcl, Sacl := none }

/-- An ACL whose first entry is an Allow ACE for the SID `S-1-5`, which has no
sub-authority, followed by an object ACE (type 5). -/
def noRidAceAcl : ACL :=
  { AclSize := 44
    Aces :=
      [{ AceType := ACCESS_ALLOWED_ACE_TYPE, AceFlags := 0, AceSize := 16,
         Mask := GENERIC_ALL,
         Sid := { Revision := 1, IdentifierAuthority := 5, SubAuthority := [] } },
       { AceType := 5, AceFlags := 0, AceSize := 20,
         Mask := GENERIC_READ,
         Sid := { Revision := 1, IdentifierAuthority := 1, SubAuthority := [0] } }] }

/-- A descriptor with owner `S-1-5-32-544`, group `S-1-5-32-545` and
`noRidAceAcl` as its DACL. -/
def noRidAceDescriptor : SECURITY_DESCRIPTOR :=
  { Control := SE_SELF_RELATIVE ||| SE_DACL_PRESENT
    Owner := some { Revision := 1, IdentifierAuthority := 5, SubAuthority := [32, 544] }
    Group := some { Revision := 1, IdentifierAuthority := 5, SubAuthority := [32, 545] }
    Dacl := some noRidAceAcl, Sacl := none }

/-- An ACL with an Allow entry for `S-1-5-32-544` and an inheritable Deny
entry for `S-1-1-0`. -/
def allowDenyAcl : ACL :=
  { AclSize := 52
    Aces :=
      [{ AceType := ACCESS_ALLOWED_ACE_TYPE, AceFlags := 0, AceSize := 24,
         Mask := GENERIC_ALL,
         Sid := { Revision := 1, IdentifierAuthority := 5, SubAuthority := [32, 544] } },
       { AceType := ACCESS_DENIED_ACE_TYPE, AceFlags := CONTAINER_INHERIT_ACE,
         AceSize := 20, Mask := GENERIC_READ,
         Sid := { Revision := 1, IdentifierAuthority := 1, SubAuthority := [0] } }] }

/-- A descriptor that holds `allowDenyAcl` as its DACL and nothing else. -/
def allowDenyDescriptor : SECURITY_DESCRIPTOR :=
  { Control := SE_SELF_RELATIVE ||| SE_DACL_PRESENT, Owner := none, Group := none,
    Dacl := some allowDenyAcl, Sacl := none }

/-! ## Calls of `RtlAddAce` -/

/-- The reference collaborators with an `RtlAddAce` that keeps a record of its
calls: every call appends the ACE it is given to the list of the ACL, with the
`StartingAceIndex` of the call stored in `AceSize`, and `RtlCreateAcl` yields
the empty ACL.  The list of the ACL built is then the sequence of the calls. -/
def callLogExt : Ext :=
  { refExt with
    RtlCreateAcl := fun AclLength _ => .ok { AclSize := AclLength, Aces := [] }
    RtlAddAce := fun acl _ StartingAceIndex ace _ =>
      .ok { acl with Aces := acl.Aces ++ [{ ace with AceSize := StartingAceIndex }] } }

/-! ## Codec tables -/

/-- The ACE-flag mnemonics in the canonical order of the specification (CI, OI,
NP, IO, ID, SA, FA), each with its flag bit. -/
def aceFlagTable : List (Nat × CStr) :=
  [(CONTAINER_INHERIT_ACE, "CI".toList), (OBJECT_INHERIT_ACE, "OI".toList),
   (NO_PROPAGATE_INHERIT_ACE, "NP".toList), (INHERIT_ONLY_ACE, "IO".toList),
   (INHERITED_ACE, "ID".toList), (SUCCESSFUL_ACCESS_ACE_FLAG, "SA".toList),
   (FAILED_ACCESS_ACE_FLAG, "FA".toList)]

/-- The rights covered by the access-mask codec: the mask and the mnemonic of
each, generic, standard, file, registry key and mandatory label rights. -/
def rightsTable : List (Nat × CStr) :=
  [(GENERIC_ALL, SDDL_GENERIC_ALL), (GENERIC_READ, SDDL_GENERIC_READ),
   (GENERIC_WRITE, SDDL_GENERIC_WRITE), (GENERIC_EXECUTE, SDDL_GENERIC_EXECUTE),
   (READ_CONTROL, SDDL_READ_CONTROL), (DELETE, SDDL_STANDARD_DELETE),
   (WRITE_DAC, SDDL_WRITE_DAC), (WRITE_OWNER, SDDL_WRITE_OWNER),
   (FILE_ALL_ACCESS, SDDL_FILE_ALL), (FILE_GENERIC_READ, SDDL_FILE_READ),
   (FILE_GENERIC_WRITE, SDDL_FILE_WRITE), (FILE_GENERIC_EXECUTE, SDDL_FILE_EXECUTE),
   (KEY_ALL_ACCESS, SDDL_KEY_ALL), (KEY_READ, SDDL_KEY_READ), (KEY_WRITE, SDDL_KEY_WRITE),
   (KEY_EXECUTE, SDDL_KEY_EXECUTE),
   (SYSTEM_MANDATORY_LABEL_NO_READ_UP, SDDL_NO_READ_UP),
   (SYSTEM_MANDATORY_LABEL_NO_WRITE_UP, SDDL_NO_WRITE_UP),
   (SYSTEM_MANDATORY_LABEL_NO_EXECUTE_UP, SDDL_NO_EXECUTE_UP)]

/-- The entries of a table whose mask shares a bit with `v`, in table order. -/
def overlapping (table : List (Nat × CStr)) (v : Nat) : List (Nat × CStr) :=
  table.filter (fun e => v &&& e.1 ≠ 0)

/-- The concatenation, in table order and without separator, of the mnemonics
of the entries whose mask shares a bit with `v`. -/
def mnemonicsOf (table : List (Nat × CStr)) (v : Nat) : CStr :=
  ((overlapping table v).map (fun e => e.2)).flatten

/-- The union of the masks of the entries that share a bit with `v`. -/
def unionOfOverlapping (table : List (Nat × CStr)) (v : Nat) : Nat :=
  (overlapping table v).foldl (fun acc e => acc ||| e.1) 0

/-! ## Control bits of a list -/

/-- The protected, auto-inherit-required and auto-inherited bits of the DACL
(`bIsDacl`) or of the SACL. -/
def aclControlMask (bIsDacl : Bool) : Nat :=
  if bIsDacl then SE_DACL_PROTECTED ||| SE_DACL_AUTO_INHERIT_REQ ||| SE_DACL_AUTO_INHERITED
  else SE_SACL_PROTECTED ||| SE_SACL_AUTO_INHERIT_REQ ||| SE_SACL_AUTO_INHERITED

/-! ## Text of the four sections -/

/-- The text `"O:"+o+delim+"G:"+g+delim+"D:"+d+delim+"S:"+s+delim` in the words
of the specification, for the bodies `o`, `g`, `d`, `s` and the section
delimiter `delim`. -/
def fourSectionText (delim o g d s : CStr) : CStr :=
  "O:".toList ++ o ++ delim ++ ("G:".toList ++ g ++ delim) ++ ("D:".toList ++ d ++ delim)
    ++ ("S:".toList ++ s ++ delim)

/-! ## Size of the ACL buffer -/

/-- The type-specific length of the ACE of a parsed clause, in the words of the
specification: what `RtlLengthAccessAllowedAce`, `RtlLengthAccessDeniedAce` or
`RtlLengthAccessAuditAce` returns for its SID, according to its type. -/
def typeSpecificLength (E : Ext) (a : SDDL_ACE) : Nat :=
  if a.AceType = ACCESS_ALLOWED_ACE_TYPE then E.RtlLengthAccessAllowedAce a.pSid
  else if a.AceType = ACCESS_DENIED_ACE_TYPE then E.RtlLengthAccessDeniedAce a.pSid
  else if a.AceType = SYSTEM_AUDIT_ACE_TYPE then E.RtlLengthAccessAuditAce a.pSid
  else 0

/-- A descriptor with owner `S-1-5-32-544`, group `S-1-5-32-545` and
`allowDenyAcl` as its DACL. -/
def allowDenyOwnedDescriptor : SECURITY_DESCRIPTOR :=
  { Control := SE_SELF_RELATIVE ||| SE_DACL_PRESENT
    Owner := some { Revision := 1, IdentifierAuthority := 5, SubAuthority := [32, 544] }
    Group := some { Revision := 1, IdentifierAuthority := 5, SubAuthority := [32, 545] }
    Dacl := some allowDenyAcl, Sacl := none }

end Sddl

/-! # Theorems -/

namespace Sddl

open NTSTATUS

/-! ## Flag codecs -/

set_option maxRecDepth 1000000 in
set_option maxHeartbeats 4000000 in
theorem aceFlag_codec_all : ∀ f : Fin 256,
    RtlpMapSddlFlagToAceFlag (strOf (RtlpMapAceFlagToSddlFlag f.val).2) =
      f.val &&& SUPPORTED_ACE_FLAGS := by
  decide

theorem aceFlag_encode_ok (f : Nat) :
    RtlpMapAceFlagToSddlFlag f = (STATUS_SUCCESS, some (strOf (RtlpMapAceFlagToSddlFlag f).2)) := by
  simp [RtlpMapAceFlagToSddlFlag, strOf]

/-- C4: for every 8-bit ACE flag value `f`, encoding succeeds and decoding the
encoded string gives `f` restricted to the seven supported bits; each single
supported bit decodes back to exactly that bit. -/
theorem C4_ace_flag_round_trip (f : Nat) (hf : f < 256) :
    (∃ psz, RtlpMapAceFlagToSddlFlag f = (STATUS_SUCCESS, some psz) ∧
      RtlpMapSddlFlagToAceFlag psz = f &&& SUPPORTED_ACE_FLAGS) ∧
    (f ∈ [CONTAINER_INHERIT_ACE, OBJECT_INHERIT_ACE, NO_PROPAGATE_INHERIT_ACE, INHERIT_ONLY_ACE,
        INHERITED_ACE, SUCCESSFUL_ACCESS_ACE_FLAG, FAILED_ACCESS_ACE_FLAG] →
      ∃ psz, RtlpMapAceFlagToSddlFlag f = (STATUS_SUCCESS, some psz) ∧
        RtlpMapSddlFlagToAceFlag psz = f) := by
  have key : RtlpMapSddlFlagToAceFlag (strOf (RtlpMapAceFlagToSddlFlag f).2) =
      f &&& SUPPORTED_ACE_FLAGS := aceFlag_codec_all ⟨f, hf⟩
  refine ⟨⟨_, aceFlag_encode_ok f, key⟩, fun hmem => ?_⟩
  simp only [List.mem_cons, List.mem_singleton, List.not_mem_nil, or_false] at hmem
  rcases hmem with h | h | h | h | h | h | h <;> subst h <;>
    exact ⟨_, aceFlag_encode_ok _, by decide⟩

theorem C4_ace_flag_round_trip_witness :
    (∃ psz, RtlpMapAceFlagToSddlFlag 0x33 = (STATUS_SUCCESS, some psz) ∧
      RtlpMapSddlFlagToAceFlag psz = 0x33 &&& SUPPORTED_ACE_FLAGS) ∧
    (0x33 ∈ [CONTAINER_INHERIT_ACE, OBJECT_INHERIT_ACE, NO_PROPAGATE_INHERIT_ACE, INHERIT_ONLY_ACE,
        INHERITED_ACE, SUCCESSFUL_ACCESS_ACE_FLAG, FAILED_ACCESS_ACE_FLAG] →
      ∃ psz, RtlpMapAceFlagToSddlFlag 0x33 = (STATUS_SUCCESS, some psz) ∧
        RtlpMapSddlFlagToAceFlag psz = 0x33) :=
  C4_ace_flag_round_trip 0x33 (by decide)

/-- C3: at the access mask `READ_CONTROL` the encoder emits the mnemonic of
every right that shares a bit with it, and the decoder returns
`FILE_ALL_ACCESS` instead of `READ_CONTROL`. -/
theorem C3_read_control_not_restored :
    RtlpMapAccessMaskToSddlRights READ_CONTROL =
      (STATUS_SUCCESS, some "RCFAFRFWFXKAKRKWKX".toList) ∧
    RtlpMapSddlRightsToAccessMask "RCFAFRFWFXKAKRKWKX".toList = FILE_ALL_ACCESS ∧
    FILE_ALL_ACCESS ≠ READ_CONTROL ∧
    RtlpMapSddlRightsToAccessMask SDDL_READ_CONTROL = READ_CONTROL := by
  decide


/-! ## Splitting an ACE clause -/

theorem strchr_eq_none {s : CStr} {c : Char} (h : strchr s c = none) : c ∉ s := by
  induction s with
  | nil => simp
  | cons x xs ih =>
    unfold strchr at h
    by_cases hx : x = c
    · simp [hx] at h
    · simp only [hx, if_false, Option.map_eq_none'] at h
      simp only [List.mem_cons, not_or]
      exact ⟨fun e => hx e.symm, ih h⟩

theorem strchr_of_not_mem {s : CStr} {c : Char} (h : c ∉ s) : strchr s c = none := by
  induction s with
  | nil => rfl
  | cons x xs ih =>
    simp only [List.mem_cons, not_or] at h
    have hx : ¬ x = c := fun e => h.1 e.symm
    unfold strchr
    simp [hx, ih h.2]

theorem strchr_eq_some {s : CStr} {c : Char} {k : Nat} (h : strchr s c = some k) :
    k < s.length ∧ c ∉ s.take k ∧ s = s.take k ++ c :: s.drop (k + 1) := by
  induction s generalizing k with
  | nil => simp [strchr] at h
  | cons x xs ih =>
    unfold strchr at h
    by_cases hx : x = c
    · simp only [hx, if_true, Option.some.injEq] at h
      subst h
      simp [hx]
    · simp only [hx, if_false, Option.map_eq_some'] at h
      obtain ⟨j, hj, rfl⟩ := h
      obtain ⟨h1, h2, h3⟩ := ih hj
      refine ⟨by simpa using h1, ?_, ?_⟩
      · simp only [List.take_succ_cons, List.mem_cons, not_or]
        exact ⟨fun e => hx e.symm, h2⟩
      · simp only [List.take_succ_cons, List.drop_succ_cons, List.cons_append, List.cons.injEq,
          true_and]
        exact h3

theorem strchr_append_sep {a b : CStr} {c : Char} (h : c ∉ a) :
    strchr (a ++ c :: b) c = some a.length := by
  induction a with
  | nil => simp [strchr]
  | cons x xs ih =>
    simp only [List.mem_cons, not_or] at h
    have hx : ¬ x = c := fun e => h.1 e.symm
    simp only [List.cons_append, List.length_cons]
    unfold strchr
    simp [hx, ih h.2]

theorem splitAt_ne_nil (c : Char) (s : CStr) : splitAt c s ≠ [] := by
  induction s with
  | nil => simp [splitAt]
  | cons x xs ih =>
    unfold splitAt
    by_cases hx : x = c
    · simp [hx]
    · simp only [hx, if_false]
      split <;> simp

theorem splitAt_of_not_mem {c : Char} {s : CStr} (h : c ∉ s) : splitAt c s = [s] := by
  induction s with
  | nil => rfl
  | cons x xs ih =>
    simp only [List.mem_cons, not_or] at h
    have hx : ¬ x = c := fun e => h.1 e.symm
    unfold splitAt
    simp [hx, ih h.2]

theorem splitAt_append_sep {c : Char} {a : CStr} (b : CStr) (h : c ∉ a) :
    splitAt c (a ++ c :: b) = a :: splitAt c b := by
  induction a with
  | nil => simp [splitAt]
  | cons x xs ih =>
    simp only [List.mem_cons, not_or] at h
    have hx : ¬ x = c := fun e => h.1 e.symm
    simp only [List.cons_append]
    rw [splitAt]
    simp [hx, ih h.2]

theorem splitAt_of_strchr {c : Char} {s : CStr} {k : Nat} (h : strchr s c = some k) :
    splitAt c s = s.take k :: splitAt c (s.drop (k + 1)) := by
  obtain ⟨_, h2, h3⟩ := strchr_eq_some h
  conv_lhs => rw [h3]
  exact splitAt_append_sep _ h2

theorem length_splitAt (c : Char) (s : CStr) : (splitAt c s).length = s.count c + 1 := by
  induction s with
  | nil => simp [splitAt]
  | cons x xs ih =>
    unfold splitAt
    by_cases hx : x = c
    · simp [hx, ih]
    · have hne : splitAt c xs ≠ [] := splitAt_ne_nil c xs
      simp only [hx, if_false]
      cases hs : splitAt c xs with
      | nil => exact absurd hs hne
      | cons p ps =>
        rw [hs] at ih
        simp only [List.length_cons] at ih ⊢
        rw [List.count_cons_of_ne (fun e => hx e.symm)]
        exact ih

theorem splitAt_no_sep (c : Char) (s : CStr) : ∀ p ∈ splitAt c s, c ∉ p := by
  induction s with
  | nil => simp [splitAt]
  | cons x xs ih =>
    unfold splitAt
    by_cases hx : x = c
    · simpa [hx] using ih
    · simp only [hx, if_false]
      cases hs : splitAt c xs with
      | nil => exact absurd hs (splitAt_ne_nil c xs)
      | cons p ps =>
        rw [hs] at ih
        intro q hq
        simp only [List.mem_cons] at hq
        rcases hq with rfl | hq
        · simp only [List.mem_cons, not_or]
          exact ⟨fun e => hx e.symm, ih p (by simp)⟩
        · exact ih q (by simp [hq])

theorem intercalate_splitAt (c : Char) (s : CStr) : List.intercalate [c] (splitAt c s) = s := by
  induction s with
  | nil => simp [splitAt, List.intercalate]
  | cons x xs ih =>
    unfold splitAt
    by_cases hx : x = c
    · have hne : splitAt c xs ≠ [] := splitAt_ne_nil c xs
      simp only [hx, if_true]
      cases hs : splitAt c xs with
      | nil => exact absurd hs hne
      | cons p ps =>
        rw [hs] at ih
        simp only [List.intercalate, List.intersperse, List.flatten, List.nil_append] at ih ⊢
        simp [ih]
    · simp only [hx, if_false]
      cases hs : splitAt c xs with
      | nil => exact absurd hs (splitAt_ne_nil c xs)
      | cons p ps =>
        rw [hs] at ih
        cases ps with
        | nil => simpa [List.intercalate, List.intersperse] using ih
        | cons q qs =>
          simp only [List.intercalate, List.intersperse, List.flatten, List.cons_append] at ih ⊢
          simpa using ih

theorem aceCountLoop_eq (fuel : Nat) : ∀ (s : CStr) (k n : Nat),
    strchr s SDDL_SEPERATOR_C = some k → s.length < fuel →
    aceCountLoop fuel s k n = n + ((splitAt SDDL_SEPERATOR_C s).length - 1) := by
  induction fuel with
  | zero => intro s k n _ hlen; omega
  | succ fuel ih =>
    intro s k n hk hlen
    obtain ⟨hk1, _, _⟩ := strchr_eq_some hk
    have hsplit := splitAt_of_strchr hk
    have hlen' : (s.drop (k + 1)).length < fuel := by simp only [List.length_drop]; omega
    unfold aceCountLoop
    simp only
    cases hnext : strchr (s.drop (k + 1)) SDDL_SEPERATOR_C with
    | none =>
      rw [hsplit, splitAt_of_not_mem (strchr_eq_none hnext)]
      simp
    | some k' =>
      simp only
      rw [ih _ _ _ hnext hlen', hsplit]
      have := splitAt_ne_nil SDDL_SEPERATOR_C (s.drop (k + 1))
      have : 0 < (splitAt SDDL_SEPERATOR_C (s.drop (k + 1))).length := List.length_pos.mpr this
      simp only [List.length_cons]
      omega

theorem acePartsLoop_eq (fuel : Nat) : ∀ (s : CStr) (k : Nat) (acc : List (Option CStr)),
    strchr s SDDL_SEPERATOR_C = some k → s.length < fuel →
    acePartsLoop fuel s k acc =
      (acc ++ ((splitAt SDDL_SEPERATOR_C s).dropLast).map fieldOf,
        (splitAt SDDL_SEPERATOR_C s).getLastD []) := by
  induction fuel with
  | zero => intro s k acc _ hlen; omega
  | succ fuel ih =>
    intro s k acc hk hlen
    obtain ⟨hk1, _, _⟩ := strchr_eq_some hk
    have hsplit := splitAt_of_strchr hk
    have hlen' : (s.drop (k + 1)).length < fuel := by simp only [List.length_drop]; omega
    have hfield : (if k > 0 then some (s.take k) else none) = fieldOf (s.take k) := by
      unfold fieldOf
      by_cases hk0 : k = 0
      · subst hk0; simp
      · have : s.take k ≠ [] := by
          intro e
          have := congrArg List.length e
          simp only [List.length_take, List.length_nil] at this
          omega
        simp [this, Nat.pos_of_ne_zero hk0]
    unfold acePartsLoop
    simp only [hfield]
    cases hnext : strchr (s.drop (k + 1)) SDDL_SEPERATOR_C with
    | none =>
      rw [hsplit, splitAt_of_not_mem (strchr_eq_none hnext)]
      simp
    | some k' =>
      simp only
      rw [ih _ _ _ hnext hlen', hsplit]
      have hne := splitAt_ne_nil SDDL_SEPERATOR_C (s.drop (k + 1))
      cases hs : splitAt SDDL_SEPERATOR_C (s.drop (k + 1)) with
      | nil => exact absurd hs hne
      | cons p ps => simp [List.dropLast, List.getLastD]

theorem aceParts_eq (s : CStr) :
    aceParts s =
      if (splitAt SDDL_SEPERATOR_C s).length = SDDL_ACE_PART_NUM then
        .ok ((splitAt SDDL_SEPERATOR_C s).map fieldOf)
      else .error STATUS_INVALID_PARAMETER := by
  unfold aceParts
  cases hk : strchr s SDDL_SEPERATOR_C with
  | none =>
    simp [splitAt_of_not_mem (strchr_eq_none hk), SDDL_ACE_PART_NUM]
  | some k =>
    simp only
    rw [aceCountLoop_eq _ _ _ _ hk (Nat.lt_succ_self _),
      acePartsLoop_eq _ _ _ _ hk (Nat.lt_succ_self _)]
    have hne := splitAt_ne_nil SDDL_SEPERATOR_C s
    have hpos : 0 < (splitAt SDDL_SEPERATOR_C s).length := List.length_pos.mpr hne
    have hnum : SDDL_ACE_PART_NUM = 6 := rfl
    rw [hnum]
    by_cases hlen : (splitAt SDDL_SEPERATOR_C s).length = 6
    · have h1 : ¬ (6 ≠ 0 + ((splitAt SDDL_SEPERATOR_C s).length - 1) + 1) := by
        omega
      simp only [h1, if_false, hlen, if_true, List.nil_append]
      conv_rhs => rw [← List.dropLast_append_getLast hne]
      rw [List.map_append]
      simp only [List.map_cons, List.map_nil, fieldOf, List.cons.injEq, and_true]
      rw [List.getLastD_eq_getLast?, List.getLast?_eq_getLast _ hne]
      simp
    · have h1 : 6 ≠ 0 + ((splitAt SDDL_SEPERATOR_C s).length - 1) + 1 := by
        omega
      simp [h1, hlen]

/-! ## The ACE clause parser on a clause with six fields -/

theorem parseAce_of_fields (E : Ext) {body t f r g ig sid : CStr}
    (h : splitAt SDDL_SEPERATOR_C body = [t, f, r, g, ig, sid]) :
    RtlpParseSddlAceString E body = parseAceFields E t f r sid := by
  unfold RtlpParseSddlAceString parseAceFields
  rw [aceParts_eq, h]
  simp only [List.length_cons, List.length_nil, SDDL_ACE_PART_NUM, if_true, List.map_cons,
    List.map_nil]
  by_cases ht : t = []
  · simp [ht, fieldOf, bind, Except.bind, throw, throwThe, MonadExceptOf.throw]
  · by_cases hu : RtlpMapSddlTypeToAceType t = ACCESS_UNKNOWN_ACE_TYPE
    · simp [ht, hu, fieldOf, bind, Except.bind, throw, throwThe, MonadExceptOf.throw, pure,
        Except.pure]
    · have hu' : ¬ ACCESS_UNKNOWN_ACE_TYPE = RtlpMapSddlTypeToAceType t := fun e => hu e.symm
      by_cases hs : sid = []
      · simp [ht, hu, hu', hs, fieldOf, bind, Except.bind, throw, throwThe, MonadExceptOf.throw,
          pure, Except.pure]
      · cases hE : E.RtlAllocateSidFromCString
            (if IsNullOrEmptyString (E.RtlpAliasSidStringToSidString (some sid)) then sid
              else strOf (E.RtlpAliasSidStringToSidString (some sid))) with
        | error st =>
          simp [ht, hu, hu', hs, hE, fieldOf, bind, Except.bind, throw, throwThe,
            MonadExceptOf.throw, pure, Except.pure]
        | ok pSid =>
          by_cases hf : f = [] <;> by_cases hr : r = [] <;>
            simp [ht, hu, hu', hs, hE, hf, hr, fieldOf, bind, Except.bind, throw, throwThe,
              MonadExceptOf.throw, pure, Except.pure]

theorem parseAce_bad_count (E : Ext) {body : CStr}
    (h : (splitAt SDDL_SEPERATOR_C body).length ≠ 6) :
    RtlpParseSddlAceString E body = (STATUS_INVALID_PARAMETER, none) := by
  unfold RtlpParseSddlAceString
  rw [aceParts_eq]
  simp [SDDL_ACE_PART_NUM, h, bind, Except.bind]

/-! ## Claims on the ACE clause parser -/

theorem aceType_unknown_iff (psz : CStr) :
    RtlpMapSddlTypeToAceType psz = ACCESS_UNKNOWN_ACE_TYPE ↔
      psz ≠ SDDL_ACCESS_ALLOWED ∧ psz ≠ SDDL_ACCESS_DENIED ∧ psz ≠ SDDL_AUDIT := by
  unfold RtlpMapSddlTypeToAceType
  by_cases h1 : psz = SDDL_ACCESS_ALLOWED
  · subst h1; decide
  · by_cases h2 : psz = SDDL_ACCESS_DENIED
    · subst h2; decide
    · by_cases h3 : psz = SDDL_AUDIT
      · subst h3; decide
      · simp [h1, h2, h3]

/-- C8: a clause body whose number of semicolons is not five (zero included)
is rejected with `STATUS_INVALID_PARAMETER`; with exactly five, the array of
parts holds the six substrings between consecutive semicolons, in order, an
empty substring being an absent (null) part. -/
theorem C8_ace_field_count (E : Ext) (body : CStr) :
    (body.count SDDL_SEPERATOR_C ≠ 5 →
      RtlpParseSddlAceString E body = (STATUS_INVALID_PARAMETER, none)) ∧
    (body.count SDDL_SEPERATOR_C = 5 →
      aceParts body = .ok ((splitAt SDDL_SEPERATOR_C body).map fieldOf) ∧
      (splitAt SDDL_SEPERATOR_C body).length = 6 ∧
      List.intercalate [SDDL_SEPERATOR_C] (splitAt SDDL_SEPERATOR_C body) = body ∧
      ∀ p ∈ splitAt SDDL_SEPERATOR_C body, SDDL_SEPERATOR_C ∉ p) := by
  have hlen := length_splitAt SDDL_SEPERATOR_C body
  constructor
  · intro h
    exact parseAce_bad_count E (by omega)
  · intro h
    have h6 : (splitAt SDDL_SEPERATOR_C body).length = 6 := by omega
    refine ⟨?_, h6, intercalate_splitAt _ _, splitAt_no_sep _ _⟩
    rw [aceParts_eq]
    simp [h6, SDDL_ACE_PART_NUM]

theorem C8_ace_field_count_witness :
    ("A;CI;GA;;BA".toList.count SDDL_SEPERATOR_C ≠ 5 ∧
      RtlpParseSddlAceString refExt "A;CI;GA;;BA".toList = (STATUS_INVALID_PARAMETER, none)) ∧
    ("A;CI;GA;;;BA".toList.count SDDL_SEPERATOR_C = 5 ∧
      aceParts "A;CI;GA;;;BA".toList =
        .ok ((splitAt SDDL_SEPERATOR_C "A;CI;GA;;;BA".toList).map fieldOf)) :=
  ⟨⟨by decide, (C8_ace_field_count refExt "A;CI;GA;;BA".toList).1 (by decide)⟩,
    ⟨by decide, ((C8_ace_field_count refExt "A;CI;GA;;;BA".toList).2 (by decide)).1⟩⟩

/-- C5 (counterexample): the clause `A;;GA;x;;BA` has five semicolons and a
non-empty object GUID field, and it is parsed successfully into an Allow
record for S-1-5-32-544. -/
theorem C5_guid_field_accepted :
    splitAt SDDL_SEPERATOR_C "A;;GA;x;;BA".toList =
      ["A".toList, [], "GA".toList, "x".toList, [], "BA".toList] ∧
    RtlpParseSddlAceString refExt "A;;GA;x;;BA".toList =
      (STATUS_SUCCESS, some
        { AceType := ACCESS_ALLOWED_ACE_TYPE, AceFlag := 0, Access := GENERIC_ALL,
          pszObjectGuid := none, pszObjectInheritedGuid := none,
          pSid := { Revision := 1, IdentifierAuthority := 5, SubAuthority := [32, 544] } }) ∧
    RtlpParseSddlAceString refExt "A;;GA;x;;BA".toList ≠ (STATUS_NOT_SUPPORTED, none) := by
  decide

/-- C5 (amended): the parser does not read the two GUID fields: for a clause
with six fields the result is that of the same clause with both GUID fields
emptied, and a record that is produced carries no GUID. -/
theorem C5_guid_fields_ignored (E : Ext) (body t f r g ig sid : CStr)
    (h : splitAt SDDL_SEPERATOR_C body = [t, f, r, g, ig, sid]) :
    RtlpParseSddlAceString E body =
      RtlpParseSddlAceString E
        (t ++ SDDL_SEPERATOR_C :: (f ++ SDDL_SEPERATOR_C :: (r ++ SDDL_SEPERATOR_C ::
          SDDL_SEPERATOR_C :: SDDL_SEPERATOR_C :: sid))) ∧
    ∀ status pSddlAce, RtlpParseSddlAceString E body = (status, some pSddlAce) →
      pSddlAce.pszObjectGuid = none ∧ pSddlAce.pszObjectInheritedGuid = none := by
  have hno := splitAt_no_sep SDDL_SEPERATOR_C body
  rw [h] at hno
  have h' : splitAt SDDL_SEPERATOR_C
      (t ++ SDDL_SEPERATOR_C :: (f ++ SDDL_SEPERATOR_C :: (r ++ SDDL_SEPERATOR_C ::
        SDDL_SEPERATOR_C :: SDDL_SEPERATOR_C :: sid))) = [t, f, r, [], [], sid] := by
    rw [splitAt_append_sep _ (hno t (by simp)), splitAt_append_sep _ (hno f (by simp)),
      splitAt_append_sep _ (hno r (by simp))]
    have e1 : ∀ l : CStr, SDDL_SEPERATOR_C :: l = [] ++ SDDL_SEPERATOR_C :: l := fun _ => rfl
    rw [e1, splitAt_append_sep _ (by simp), e1, splitAt_append_sep _ (by simp),
      splitAt_of_not_mem (hno sid (by simp))]
  refine ⟨by rw [parseAce_of_fields E h, parseAce_of_fields E h'], ?_⟩
  intro status pSddlAce hres
  rw [parseAce_of_fields E h] at hres
  unfold parseAceFields at hres
  split_ifs at hres
  all_goals first
    | (simp at hres)
    | (split at hres
       · simp only [Prod.mk.injEq, Option.some.injEq] at hres
         rw [← hres.2]
         exact ⟨rfl, rfl⟩
       · simp at hres)

theorem C5_guid_fields_ignored_witness :
    splitAt SDDL_SEPERATOR_C "A;;GA;x;y;BA".toList =
      ["A".toList, [], "GA".toList, "x".toList, "y".toList, "BA".toList] ∧
    RtlpParseSddlAceString refExt "A;;GA;x;y;BA".toList =
      RtlpParseSddlAceString refExt "A;;GA;;;BA".toList :=
  ⟨by decide, (C5_guid_fields_ignored refExt "A;;GA;x;y;BA".toList "A".toList [] "GA".toList
    "x".toList "y".toList "BA".toList (by decide)).1⟩

/-- C7 (counterexample): the clause `X;;;;;` has an empty sid field and is
rejected with `STATUS_NOT_SUPPORTED`, not `STATUS_INVALID_PARAMETER`. -/
theorem C7_empty_sid_unknown_type :
    splitAt SDDL_SEPERATOR_C "X;;;;;".toList = ["X".toList, [], [], [], [], []] ∧
    RtlpParseSddlAceString refExt "X;;;;;".toList = (STATUS_NOT_SUPPORTED, none) ∧
    RtlpParseSddlAceString refExt "X;;;;;".toList ≠ (STATUS_INVALID_PARAMETER, none) := by
  decide

/-- C7 (amended): a clause with six fields whose sid field is empty is always
rejected without a record; the type is checked first, so the status is
`STATUS_NOT_SUPPORTED` when the type field is non-empty and not one of A, D,
AU, and `STATUS_INVALID_PARAMETER` otherwise. -/
theorem C7_empty_sid_rejected (E : Ext) (body t f r g ig : CStr)
    (h : splitAt SDDL_SEPERATOR_C body = [t, f, r, g, ig, []]) :
    RtlpParseSddlAceString E body =
      (if t ≠ [] ∧ t ≠ "A".toList ∧ t ≠ "D".toList ∧ t ≠ "AU".toList then STATUS_NOT_SUPPORTED
        else STATUS_INVALID_PARAMETER, none) := by
  rw [parseAce_of_fields E h]
  unfold parseAceFields
  by_cases ht : t = []
  · simp [ht]
  · by_cases hu : RtlpMapSddlTypeToAceType t = ACCESS_UNKNOWN_ACE_TYPE
    · have := (aceType_unknown_iff t).mp hu
      simp only [ht, hu, if_false, if_true]
      rw [if_pos ⟨ht, this⟩]
    · have hn : ¬ (t ≠ [] ∧ t ≠ "A".toList ∧ t ≠ "D".toList ∧ t ≠ "AU".toList) :=
        fun hc => hu ((aceType_unknown_iff t).mpr hc.2)
      simp only [ht, hu, if_false, if_true]
      rw [if_neg hn]

theorem C7_empty_sid_rejected_witness :
    splitAt SDDL_SEPERATOR_C "A;;GA;;;".toList = ["A".toList, [], "GA".toList, [], [], []] ∧
    RtlpParseSddlAceString refExt "A;;GA;;;".toList = (STATUS_INVALID_PARAMETER, none) :=
  ⟨by decide, C7_empty_sid_rejected refExt "A;;GA;;;".toList "A".toList [] "GA".toList [] []
    (by decide)⟩

/-- C6: the decoder maps exactly "A", "D", "AU" to the allowed, denied and
audit types and inverts the encoder on these types; an ACE clause body with
six fields (five semicolons) whose type field is non-empty and is any other
string is rejected with `STATUS_NOT_SUPPORTED` and no record. -/
theorem C6_ace_type_table :
    (∀ psz, RtlpMapSddlTypeToAceType psz = ACCESS_ALLOWED_ACE_TYPE ↔ psz = "A".toList) ∧
    (∀ psz, RtlpMapSddlTypeToAceType psz = ACCESS_DENIED_ACE_TYPE ↔ psz = "D".toList) ∧
    (∀ psz, RtlpMapSddlTypeToAceType psz = SYSTEM_AUDIT_ACE_TYPE ↔ psz = "AU".toList) ∧
    (∀ t, t = ACCESS_ALLOWED_ACE_TYPE ∨ t = ACCESS_DENIED_ACE_TYPE ∨ t = SYSTEM_AUDIT_ACE_TYPE →
      ∃ psz, RtlpMapAceTypeToSddlType t = some psz ∧ RtlpMapSddlTypeToAceType psz = t) ∧
    (∀ (E : Ext) (body t f r g ig sid : CStr),
      splitAt SDDL_SEPERATOR_C body = [t, f, r, g, ig, sid] →
      t ≠ [] → t ≠ "A".toList → t ≠ "D".toList → t ≠ "AU".toList →
      RtlpParseSddlAceString E body = (STATUS_NOT_SUPPORTED, none)) := by
  refine ⟨fun psz => ?_, fun psz => ?_, fun psz => ?_, ?_, ?_⟩
  · unfold RtlpMapSddlTypeToAceType
    by_cases h1 : psz = SDDL_ACCESS_ALLOWED
    · subst h1; decide
    · by_cases h2 : psz = SDDL_ACCESS_DENIED
      · subst h2; decide
      · by_cases h3 : psz = SDDL_AUDIT
        · subst h3; decide
        · simp only [h1, h2, h3, if_false]
          exact ⟨fun h => absurd h (by decide), fun h => absurd h h1⟩
  · unfold RtlpMapSddlTypeToAceType
    by_cases h1 : psz = SDDL_ACCESS_ALLOWED
    · subst h1; decide
    · by_cases h2 : psz = SDDL_ACCESS_DENIED
      · subst h2; decide
      · by_cases h3 : psz = SDDL_AUDIT
        · subst h3; decide
        · simp only [h1, h2, h3, if_false]
          exact ⟨fun h => absurd h (by decide), fun h => absurd h h2⟩
  · unfold RtlpMapSddlTypeToAceType
    by_cases h1 : psz = SDDL_ACCESS_ALLOWED
    · subst h1; decide
    · by_cases h2 : psz = SDDL_ACCESS_DENIED
      · subst h2; decide
      · by_cases h3 : psz = SDDL_AUDIT
        · subst h3; decide
        · simp only [h1, h2, h3, if_false]
          exact ⟨fun h => absurd h (by decide), fun h => absurd h h3⟩
  · rintro t (h | h | h) <;> subst h <;> decide
  · intro E body t f r g ig sid h ht hA hD hAU
    rw [parseAce_of_fields E h]
    have hu : RtlpMapSddlTypeToAceType t = ACCESS_UNKNOWN_ACE_TYPE :=
      (aceType_unknown_iff t).mpr ⟨hA, hD, hAU⟩
    simp [parseAceFields, ht, hu]

theorem C6_ace_type_table_witness :
    (ACCESS_DENIED_ACE_TYPE = ACCESS_ALLOWED_ACE_TYPE ∨
        ACCESS_DENIED_ACE_TYPE = ACCESS_DENIED_ACE_TYPE ∨
        ACCESS_DENIED_ACE_TYPE = SYSTEM_AUDIT_ACE_TYPE) ∧
    (∃ psz, RtlpMapAceTypeToSddlType ACCESS_DENIED_ACE_TYPE = some psz ∧
      RtlpMapSddlTypeToAceType psz = ACCESS_DENIED_ACE_TYPE) ∧
    splitAt SDDL_SEPERATOR_C "OA;;GA;;;BA".toList =
      ["OA".toList, [], "GA".toList, [], [], "BA".toList] ∧
    RtlpParseSddlAceString refExt "OA;;GA;;;BA".toList = (STATUS_NOT_SUPPORTED, none) :=
  ⟨by decide, C6_ace_type_table.2.2.2.1 ACCESS_DENIED_ACE_TYPE (by decide), by decide,
    C6_ace_type_table.2.2.2.2 refExt "OA;;GA;;;BA".toList "OA".toList [] "GA".toList [] []
      "BA".toList (by decide) (by decide) (by decide) (by decide) (by decide)⟩

/-! ## Claims on the control decoder and the growth loop -/

/-- C10 (counterexample): `ARAIP` is formed from the tokens AR, AI, P, and the
decoder rejects it with `STATUS_INVALID_PARAMETER` for a DACL and for a SACL,
setting no bit. -/
theorem C10_protected_last_rejected :
    RtlpMapSddlControlToAclControl "ARAIP".toList true 0 = (STATUS_INVALID_PARAMETER, 0) ∧
    RtlpMapSddlControlToAclControl "ARAIP".toList false 0 = (STATUS_INVALID_PARAMETER, 0) := by
  decide

/-- C10 (amended): for the tokens of a non-empty subset of P, AR, AI written
with P first when it is present, and for both `bIsDacl` values, decoding into a
zero control word succeeds and sets exactly the bits of the tokens present. -/
theorem C10_control_tokens_protected_first (toks : List CStr) (bIsDacl : Bool)
    (h : toks ∈ [[SDDL_PROTECTED], [SDDL_AUTO_INHERIT_REQ], [SDDL_AUTO_INHERITED],
      [SDDL_PROTECTED, SDDL_AUTO_INHERIT_REQ], [SDDL_PROTECTED, SDDL_AUTO_INHERITED],
      [SDDL_AUTO_INHERIT_REQ, SDDL_AUTO_INHERITED], [SDDL_AUTO_INHERITED, SDDL_AUTO_INHERIT_REQ],
      [SDDL_PROTECTED, SDDL_AUTO_INHERIT_REQ, SDDL_AUTO_INHERITED],
      [SDDL_PROTECTED, SDDL_AUTO_INHERITED, SDDL_AUTO_INHERIT_REQ]]) :
    RtlpMapSddlControlToAclControl toks.flatten bIsDacl 0 =
      (STATUS_SUCCESS, controlTokenBits bIsDacl toks) := by
  simp only [List.mem_cons, List.mem_singleton, List.not_mem_nil, or_false] at h
  rcases h with h | h | h | h | h | h | h | h | h <;> subst h <;> cases bIsDacl <;> decide

theorem C10_control_tokens_protected_first_witness :
    RtlpMapSddlControlToAclControl "PAIAR".toList true 0 =
      (STATUS_SUCCESS, SE_DACL_PROTECTED ||| SE_DACL_AUTO_INHERITED ||| SE_DACL_AUTO_INHERIT_REQ) :=
  C10_control_tokens_protected_first
    [SDDL_PROTECTED, SDDL_AUTO_INHERITED, SDDL_AUTO_INHERIT_REQ] true (by decide)

theorem selfRelativeLoop_too_small (E : Ext) (sd : SECURITY_DESCRIPTOR)
    (h : ∀ len, (E.RtlAbsoluteToSelfRelativeSD sd len).1 = STATUS_BUFFER_TOO_SMALL)
    (fuel : Nat) : ∀ (len : Nat) (r : NTSTATUS × Option SECURITY_DESCRIPTOR × Nat),
    selfRelativeLoop E sd fuel len = .returns r → r.1 = STATUS_SUCCESS ∧ r.2.1.isSome := by
  induction fuel with
  | zero => intro len r hr; simp [selfRelativeLoop] at hr
  | succ fuel ih =>
    intro len r hr
    unfold selfRelativeLoop at hr
    simp only [h len, if_true] at hr
    split_ifs at hr with hle
    · exact ih _ _ hr
    · simp only [Outcome.returns.injEq] at hr
      subst hr
      simp

set_option maxRecDepth 1000000 in
/-- C9: with a self-relative conversion that reports `STATUS_BUFFER_TOO_SMALL`
on every call, parsing `O:BA\nG:BU` doubles the length from 1024 until it
exceeds the ceiling and then returns `STATUS_SUCCESS` with a non-null (zeroed)
descriptor buffer. -/
theorem C9_growth_loop_returns_success :
    RtlAllocateSecurityDescriptorFromSddlCString tooSmallExt 40 (some "O:BA\nG:BU".toList) 1 =
      .returns (STATUS_SUCCESS,
        some { Control := 0, Owner := none, Group := none, Dacl := none, Sacl := none },
        262144) := by
  decide

/-! ## Order preservation in the ACL clause parser -/

theorem mapM_ok_of_forall {α β : Type} (f : α → Except NTSTATUS β) (g : α → β) (l : List α)
    (h : ∀ x ∈ l, f x = .ok (g x)) : l.mapM f = .ok (l.map g) := by
  induction l with
  | nil => rfl
  | cons x xs ih =>
    rw [List.mapM_cons, h x (by simp), ih (fun y hy => h y (by simp [hy]))]
    rfl

theorem foldlM_ok_of_forall {α σ : Type} (step : σ → α → Except NTSTATUS σ) (l : List α)
    (h : ∀ x ∈ l, ∀ s, ∃ s', step s x = .ok s') : ∀ s, ∃ s', l.foldlM step s = .ok s' := by
  induction l with
  | nil => intro s; exact ⟨s, rfl⟩
  | cons x xs ih =>
    intro s
    obtain ⟨s1, hs1⟩ := h x (by simp) s
    obtain ⟨s2, hs2⟩ := ih (fun y hy => h y (by simp [hy])) s1
    refine ⟨s2, ?_⟩
    rw [List.foldlM_cons, hs1]
    exact hs2

theorem takeWhile_append_stop (p : Char → Bool) (a : CStr) (c : Char) (l : CStr)
    (ha : ∀ x ∈ a, p x = true) (hc : p c = false) : (a ++ c :: l).takeWhile p = a := by
  induction a with
  | nil => simp [List.takeWhile, hc]
  | cons x xs ih =>
    rw [List.cons_append, List.takeWhile_cons, ha x (by simp), if_pos rfl,
      ih (fun y hy => ha y (by simp [hy]))]

theorem dropWhile_append_stop (p : Char → Bool) (a : CStr) (c : Char) (l : CStr)
    (ha : ∀ x ∈ a, p x = true) (hc : p c = false) : (a ++ c :: l).dropWhile p = c :: l := by
  induction a with
  | nil => simp [List.dropWhile, hc]
  | cons x xs ih =>
    rw [List.cons_append, List.dropWhile_cons, ha x (by simp), if_pos rfl,
      ih (fun y hy => ha y (by simp [hy]))]

theorem strtok_r_clause (b rest : CStr) (hb : ')' ∉ b) :
    strtok_r (SDDL_ACE_BEGIN_C :: (b ++ SDDL_ACE_END_S ++ rest)) SDDL_ACE_END_S =
      some (SDDL_ACE_BEGIN_C :: b, rest) := by
  have e : SDDL_ACE_BEGIN_C :: (b ++ SDDL_ACE_END_S ++ rest) = ('(' :: b) ++ ')' :: rest := by
    simp [SDDL_ACE_BEGIN_C, SDDL_ACE_END_S]
  have hin : ∀ x ∈ '(' :: b, (fun c => decide (c ∉ SDDL_ACE_END_S)) x = true := by
    intro x hx
    simp only [List.mem_cons] at hx
    rcases hx with rfl | hx
    · decide
    · have : x ≠ ')' := fun e => hb (e ▸ hx)
      simp [SDDL_ACE_END_S, this]
  have hout : (fun c => decide (c ∉ SDDL_ACE_END_S)) ')' = false := by decide
  have hd : List.dropWhile (fun c => decide (c ∈ SDDL_ACE_END_S)) (('(' :: b) ++ ')' :: rest) =
      ('(' :: b) ++ ')' :: rest := by
    rw [List.cons_append, List.dropWhile_cons]
    have : decide ('(' ∈ SDDL_ACE_END_S) = false := by decide
    rw [this]
    rfl
  rw [e]
  unfold strtok_r
  simp only [hd]
  rw [takeWhile_append_stop _ _ _ _ hin hout, dropWhile_append_stop _ _ _ _ hin hout]
  simp [SDDL_ACE_BEGIN_C]

theorem strtokLoop_aclText (bodies : List CStr) (hb : ∀ b ∈ bodies, ')' ∉ b) :
    ∀ fuel, bodies.length < fuel →
      strtokLoop SDDL_ACE_END_S fuel (aclText bodies) =
        bodies.map (fun b => SDDL_ACE_BEGIN_C :: b) := by
  induction bodies with
  | nil =>
    intro fuel hf
    cases fuel with
    | zero => simp at hf
    | succ fuel => simp [strtokLoop, aclText, strtok_r]
  | cons b bs ih =>
    intro fuel hf
    cases fuel with
    | zero => simp at hf
    | succ fuel =>
      have e : aclText (b :: bs) = SDDL_ACE_BEGIN_C :: (b ++ SDDL_ACE_END_S ++ aclText bs) := by
        simp [aclText]
      rw [e]
      unfold strtokLoop
      rw [strtok_r_clause b _ (hb b (by simp))]
      simp only [List.map_cons, List.cons.injEq, true_and]
      exact ih (fun c hc => hb c (by simp [hc])) fuel (by simpa using hf)

theorem length_le_aclText (bodies : List CStr) : bodies.length ≤ (aclText bodies).length := by
  induction bodies with
  | nil => simp
  | cons b bs ih =>
    have e : aclText (b :: bs) = SDDL_ACE_BEGIN_C :: (b ++ SDDL_ACE_END_S ++ aclText bs) := by
      simp [aclText]
    rw [e]
    simp only [List.length_cons, List.length_append]
    omega

theorem parseSddlAclString_aclText (bodies : List CStr) (hne : bodies ≠ [])
    (hb : ∀ b ∈ bodies, ')' ∉ b) :
    RtlpParseSddlAclString (aclText bodies) = (STATUS_SUCCESS, .live bodies, bodies.length) := by
  unfold RtlpParseSddlAclString strtokAll
  rw [strtokLoop_aclText bodies hb _ (Nat.lt_succ_of_le (length_le_aclText bodies))]
  have hlen : bodies.length ≠ 0 := fun e => hne (List.length_eq_zero.mp e)
  simp only [List.length_map, hlen, if_false]
  rw [mapM_ok_of_forall _ (fun t => t.drop 1)]
  · simp [List.map_map, Function.comp_def]
  · intro t ht
    simp only [List.mem_map] at ht
    obtain ⟨b, _, rfl⟩ := ht
    simp

theorem aceType_cases (p : CStr) :
    RtlpMapSddlTypeToAceType p = ACCESS_ALLOWED_ACE_TYPE ∨
      RtlpMapSddlTypeToAceType p = ACCESS_DENIED_ACE_TYPE ∨
      RtlpMapSddlTypeToAceType p = SYSTEM_AUDIT_ACE_TYPE ∨
      RtlpMapSddlTypeToAceType p = ACCESS_UNKNOWN_ACE_TYPE := by
  unfold RtlpMapSddlTypeToAceType
  split_ifs <;> simp

theorem parseAce_supported_type (E : Ext) (b : CStr) (st : NTSTATUS) (a : SDDL_ACE)
    (h : RtlpParseSddlAceString E b = (st, some a)) :
    a.AceType = ACCESS_ALLOWED_ACE_TYPE ∨ a.AceType = ACCESS_DENIED_ACE_TYPE ∨
      a.AceType = SYSTEM_AUDIT_ACE_TYPE := by
  rcases hs : splitAt SDDL_SEPERATOR_C b with
    _ | ⟨t, _ | ⟨f, _ | ⟨r, _ | ⟨g, _ | ⟨ig, _ | ⟨sid, _ | ⟨x, l⟩⟩⟩⟩⟩⟩⟩
  case cons.cons.cons.cons.cons.cons.nil =>
    rw [parseAce_of_fields E hs] at h
    unfold parseAceFields at h
    by_cases h1 : t = []
    · simp [h1] at h
    · by_cases h2 : RtlpMapSddlTypeToAceType t = ACCESS_UNKNOWN_ACE_TYPE
      · simp [h1, h2] at h
      · by_cases h3 : sid = []
        · simp [h1, h2, h3] at h
        · simp only [h1, h2, h3, if_false] at h
          generalize E.RtlAllocateSidFromCString _ = res at h
          cases res with
          | error e => simp at h
          | ok pSid =>
            simp only [Prod.mk.injEq, Option.some.injEq] at h
            rw [← h.2]
            rcases aceType_cases t with c | c | c | c
            · exact Or.inl c
            · exact Or.inr (Or.inl c)
            · exact Or.inr (Or.inr c)
            · exact absurd c h2
  all_goals
    rw [parseAce_bad_count E (by simp [hs])] at h
    simp at h

theorem buildAce_some (E : Ext) (a : SDDL_ACE)
    (h : a.AceType = ACCESS_ALLOWED_ACE_TYPE ∨ a.AceType = ACCESS_DENIED_ACE_TYPE ∨
      a.AceType = SYSTEM_AUDIT_ACE_TYPE) :
    buildAce E (some a) = .ok (aceRecord E a) ∧ ∃ n, aceLength E a.AceType a.pSid = .ok n := by
  rcases h with h | h | h <;>
    simp only [ACCESS_ALLOWED_ACE_TYPE, ACCESS_DENIED_ACE_TYPE, SYSTEM_AUDIT_ACE_TYPE] at h <;>
    simp [buildAce, aceRecord, aceLength, h, ACCESS_ALLOWED_ACE_TYPE, ACCESS_DENIED_ACE_TYPE,
      SYSTEM_AUDIT_ACE_TYPE, bind, Except.bind, pure, Except.pure]

theorem addLoop_eq (E : Ext) (f : Nat → ACE) (n : Nat) (hn : n ≤ 2 ^ 32)
    (ppSddlAces : List (Option SDDL_ACE))
    (hget : ∀ i, i < n → buildAce E (ppSddlAces.getD i none) = .ok (f i))
    (hadd : ∀ acl i ace len, E.RtlAddAce acl ACL_REVISION i ace len =
      .ok { acl with Aces := insertAce acl.Aces i ace })
    (sz : Nat) : ∀ k, k + 1 ≤ n →
      (List.range (k + 1)).foldlM (addAceStep E ppSddlAces) { AclSize := sz, Aces := [] } =
        .ok { AclSize := sz, Aces := (List.range' 1 k).map f ++ [f 0] } := by
  intro k
  induction k with
  | zero =>
    intro hk
    have h1 : List.range (0 + 1) = [0] := rfl
    rw [h1]
    simp only [List.foldlM_cons, List.foldlM_nil]
    unfold addAceStep
    rw [hget 0 (by omega)]
    simp [bind, Except.bind, hadd, insertAce, ULONG_MAX, pure, Except.pure]
  | succ k ih =>
    intro hk
    rw [List.range_succ, List.foldlM_append, ih (by omega)]
    simp only [List.foldlM_cons, List.foldlM_nil]
    unfold addAceStep
    rw [hget (k + 1) (by omega)]
    have hidx : (if k + 1 ≠ 0 then k + 1 - 1 else ULONG_MAX) % 2 ^ 32 = k := by
      simp only [Nat.add_sub_cancel, ne_eq, Nat.add_one_ne_zero, not_false_eq_true, if_true]
      exact Nat.mod_eq_of_lt (by omega)
    have hmax : k ≠ ULONG_MAX := by unfold ULONG_MAX; omega
    simp only [bind, Except.bind, hadd, hidx, insertAce, hmax, if_false, pure, Except.pure]
    have hlen : ((List.range' 1 k).map f).length = k := by simp
    rw [List.take_append_of_le_length (by omega), List.drop_append_of_le_length (by omega),
      List.take_of_length_le (by omega), List.drop_of_length_le (by omega)]
    rw [List.range'_concat, List.map_append]
    simp [Nat.add_comm]

theorem rotate_back {α : Type} (L : List α) (d : α) (k : Nat) (hL : L.length = k + 1) :
    (List.range' 1 k).map (fun i => L.getD ((i + (k + 1) - 1) % (k + 1)) d)
      ++ [L.getD ((0 + (k + 1) - 1) % (k + 1)) d] = L := by
  apply List.ext_getElem
  · simp [hL]
  · intro j h1 h2
    simp only [List.length_append, List.length_map, List.length_range', List.length_singleton]
      at h1
    by_cases hj : j < k
    · rw [List.getElem_append_left (by simpa using hj)]
      simp only [List.getElem_map, List.getElem_range']
      have e : (1 + 1 * j + (k + 1) - 1) % (k + 1) = j := by
        have : 1 + 1 * j + (k + 1) - 1 = j + (k + 1) := by omega
        rw [this, Nat.add_mod_right]
        exact Nat.mod_eq_of_lt (by omega)
      rw [e, List.getD_eq_getElem _ _ h2]
    · have hjk : j = k := by omega
      subst hjk
      rw [List.getElem_append_right (by simp)]
      simp only [List.length_map, List.length_range', Nat.sub_self, List.getElem_singleton]
      have e : (0 + (j + 1) - 1) % (j + 1) = j := by
        have : 0 + (j + 1) - 1 = j := by omega
        rw [this]
        exact Nat.mod_eq_of_lt (by omega)
      rw [e, List.getD_eq_getElem _ _ h2]

theorem sizeLoop_eq (E : Ext) (pp : List (Option SDDL_ACE)) (n : Nat) (lens : Nat → Nat)
    (hstep : ∀ i, i < n → ∀ s, aclSizeStep E pp s i = .ok ((s + lens i) % 2 ^ 32)) :
    ∀ k, k ≤ n → ∀ s0, s0 + ((List.range k).map lens).sum < 2 ^ 32 →
      (List.range k).foldlM (aclSizeStep E pp) s0 =
        .ok (s0 + ((List.range k).map lens).sum) := by
  intro k
  induction k with
  | zero => intro _ s0 _; simp [pure, Except.pure]
  | succ k ih =>
    intro hk s0 hlt
    rw [List.range_succ, List.map_append, List.sum_append] at hlt
    simp only [List.map_cons, List.map_nil, List.sum_cons, List.sum_nil, Nat.add_zero] at hlt
    rw [List.range_succ, List.foldlM_append, ih (by omega) s0 (by omega)]
    simp only [List.foldlM_cons, List.foldlM_nil, bind, Except.bind]
    rw [hstep k (by omega)]
    simp only [List.map_append, List.sum_append, List.map_cons, List.map_nil, List.sum_cons,
      List.sum_nil, Nat.add_zero, pure, Except.pure]
    rw [Nat.mod_eq_of_lt (by omega)]
    congr 1
    omega

theorem buildAcl_order (E : Ext) (bodies : List CStr) (aces : List SDDL_ACE)
    (hne : bodies ≠ []) (hn : bodies.length ≤ 2 ^ 32)
    (hparse : bodies.map (RtlpParseSddlAceString E) =
      aces.map (fun a => (STATUS_SUCCESS, some a)))
    (hcreate : ∀ n, E.RtlCreateAcl n ACL_REVISION = .ok { AclSize := n, Aces := [] })
    (hadd : ∀ acl i ace len, E.RtlAddAce acl ACL_REVISION i ace len =
      .ok { acl with Aces := insertAce acl.Aces i ace }) :
    ∃ size, buildAcl E bodies bodies.length =
        .ok { AclSize := size, Aces := aces.map (aceRecord E) } ∧
      (ACL_HEADER_SIZE + ((aces.map (aceRecord E)).map (fun x => x.AceSize)).sum < 2 ^ 32 →
        size = ACL_HEADER_SIZE + ((aces.map (aceRecord E)).map (fun x => x.AceSize)).sum) := by
  have hlen : aces.length = bodies.length := by
    have := congrArg List.length hparse
    simpa using this.symm
  obtain ⟨k, hk⟩ : ∃ k, bodies.length = k + 1 :=
    Nat.exists_eq_succ_of_ne_zero (fun e => hne (List.length_eq_zero.mp e))
  -- every clause parses to the record at the same position
  have hat : ∀ j, j < bodies.length →
      ∃ a, aces[j]? = some a ∧
        RtlpParseSddlAceString E (bodies.getD j []) = (STATUS_SUCCESS, some a) := by
    intro j hj
    have hj' : j < aces.length := by omega
    refine ⟨aces[j], List.getElem?_eq_getElem hj', ?_⟩
    have := congrArg (fun l => l[j]?) hparse
    simp only [List.getElem?_map, List.getElem?_eq_getElem hj, List.getElem?_eq_getElem hj',
      Option.map_some', Option.some.injEq] at this
    rw [List.getD_eq_getElem _ _ hj]
    exact this
  have hsupp : ∀ (j : Nat) (a : SDDL_ACE), aces[j]? = some a →
      a.AceType = ACCESS_ALLOWED_ACE_TYPE ∨ a.AceType = ACCESS_DENIED_ACE_TYPE ∨
        a.AceType = SYSTEM_AUDIT_ACE_TYPE := by
    intro j a hja
    have hj : j < aces.length := by
      by_contra hc
      rw [List.getElem?_eq_none (by omega)] at hja
      simp at hja
    obtain ⟨a', ha', hp⟩ := hat j (by omega)
    rw [hja] at ha'
    cases ha'
    exact parseAce_supported_type E _ _ _ hp
  have hrot : ∀ i, i < bodies.length → (i + bodies.length - 1) % bodies.length < bodies.length :=
    fun i _ => Nat.mod_lt _ (by omega)
  -- first loop
  have hmap : (List.range bodies.length).mapM (parseAceAt E bodies bodies.length) =
      .ok ((List.range bodies.length).map
        (fun i => aces[(i + bodies.length - 1) % bodies.length]?)) := by
    apply mapM_ok_of_forall
    intro i hi
    obtain ⟨a, ha, hp⟩ := hat _ (hrot i (List.mem_range.mp hi))
    unfold parseAceAt
    rw [hp, ha]
    rfl
  have hgetD : ∀ i, i < bodies.length →
      ((List.range bodies.length).map
        (fun i => aces[(i + bodies.length - 1) % bodies.length]?)).getD i none =
        aces[(i + bodies.length - 1) % bodies.length]? := by
    intro i hi
    rw [List.getD_eq_getElem _ _ (by simpa using hi)]
    simp
  -- the record passed to RtlAddAce in round i
  obtain ⟨f, hf⟩ : ∃ f : Nat → ACE, f = fun i =>
      (aces.map (aceRecord E)).getD ((i + (k + 1) - 1) % (k + 1))
        { AceType := 0, AceFlags := 0, AceSize := 0, Mask := 0,
          Sid := { Revision := 0, IdentifierAuthority := 0, SubAuthority := [] } } := ⟨_, rfl⟩
  have hfi : ∀ i a, i < bodies.length →
      aces[(i + bodies.length - 1) % bodies.length]? = some a → f i = aceRecord E a := by
    intro i a _ ha
    rw [hk] at ha
    have e : i + (k + 1) - 1 = i + k := by omega
    rw [e] at ha
    subst hf
    simp [List.getD_eq_getElem?_getD, ha]
  have hrb : (List.range' 1 k).map f ++ [f 0] = aces.map (aceRecord E) := by
    subst hf
    exact rotate_back (aces.map (aceRecord E)) _ k (by simp [hlen, hk])
  -- second loop
  obtain ⟨size, hsize⟩ := foldlM_ok_of_forall
    (aclSizeStep E ((List.range bodies.length).map
      (fun i => aces[(i + bodies.length - 1) % bodies.length]?)))
    (List.range bodies.length)
    (by
      intro i hi s
      have hi' := List.mem_range.mp hi
      obtain ⟨a, ha, _⟩ := hat _ (hrot i hi')
      obtain ⟨m, hm⟩ := (buildAce_some E a (hsupp _ a ha)).2
      unfold aclSizeStep
      rw [hgetD i hi', ha]
      simp [hm, bind, Except.bind, pure, Except.pure])
    ACL_HEADER_SIZE
  have hsizeEq : ACL_HEADER_SIZE + ((aces.map (aceRecord E)).map (fun x => x.AceSize)).sum
      < 2 ^ 32 →
      size = ACL_HEADER_SIZE + ((aces.map (aceRecord E)).map (fun x => x.AceSize)).sum := by
    intro hlt
    have hsum : ((List.range bodies.length).map (fun i => (f i).AceSize)).sum =
        ((aces.map (aceRecord E)).map (fun x => x.AceSize)).sum := by
      rw [← hrb, hk, List.range_eq_range', List.range'_succ]
      simp only [List.map_cons, List.sum_cons, List.map_append, List.map_map, List.sum_append,
        List.map_nil, List.sum_nil, Nat.add_zero, Function.comp_def, Nat.zero_add]
      omega
    have := sizeLoop_eq E _ bodies.length (fun i => (f i).AceSize)
      (by
        intro i hi s
        obtain ⟨a, ha, _⟩ := hat _ (hrot i hi)
        obtain ⟨m, hm⟩ := (buildAce_some E a (hsupp _ a ha)).2
        unfold aclSizeStep
        rw [hgetD i hi, ha]
        simp [hm, hfi i a hi ha, aceRecord, bind, Except.bind, pure, Except.pure])
      bodies.length (le_refl _) ACL_HEADER_SIZE (by rw [hsum]; exact hlt)
    rw [hsize, hsum] at this
    exact Except.ok.inj this
  -- third loop
  have hloop := addLoop_eq E f (k + 1) (by omega)
    ((List.range bodies.length).map
      (fun i => aces[(i + bodies.length - 1) % bodies.length]?))
    (by
      intro i hi
      have hi' : i < bodies.length := by omega
      obtain ⟨a, ha, _⟩ := hat _ (hrot i hi')
      rw [hgetD i hi', ha, (buildAce_some E a (hsupp _ a ha)).1, hfi i a hi' ha])
    hadd size k (le_refl _)
  refine ⟨size, ?_, hsizeEq⟩
  unfold buildAcl
  rw [hmap]
  simp only [bind, Except.bind]
  rw [hsize]
  simp only [hcreate]
  rw [hrb, ← hk] at hloop
  exact hloop

/-- C2: for an ACL text `(c1)(c2)...(cn)` of `n >= 1` well-formed clauses (no
more than `2^32`, the range of the `ULONG` starting index), with `RtlCreateAcl`
yielding an empty ACL and `RtlAddAce` inserting the ACE at the given index
(`(ULONG)-1` appending), the ACL built by `RtlpGetAclFromSddlAclString` holds
exactly `n` ACEs and its i-th ACE is the decoding of clause `ci`. -/
theorem C2_order_preserved (E : Ext) (bodies : List CStr) (aces : List SDDL_ACE)
    (pControl : Nat) (bIsDacl : Bool)
    (hne : bodies ≠ []) (hn : bodies.length ≤ 2 ^ 32)
    (hclose : ∀ b ∈ bodies, ')' ∉ b)
    (hparse : bodies.map (RtlpParseSddlAceString E) =
      aces.map (fun a => (STATUS_SUCCESS, some a)))
    (hcreate : ∀ n, E.RtlCreateAcl n ACL_REVISION = .ok { AclSize := n, Aces := [] })
    (hadd : ∀ acl i ace len, E.RtlAddAce acl ACL_REVISION i ace len =
      .ok { acl with Aces := insertAce acl.Aces i ace }) :
    ∃ pAcl, RtlpGetAclFromSddlAclString E pControl (some (aclText bodies)) bIsDacl =
        some (STATUS_SUCCESS, some pAcl, pControl) ∧
      pAcl.Aces.length = bodies.length ∧
      pAcl.Aces = aces.map (aceRecord E) := by
  obtain ⟨size, hbuild, _⟩ := buildAcl_order E bodies aces hne hn hparse hcreate hadd
  have hlen : aces.length = bodies.length := by
    have := congrArg List.length hparse
    simpa using this.symm
  refine ⟨{ AclSize := size, Aces := aces.map (aceRecord E) }, ?_, by simp [hlen], rfl⟩
  obtain ⟨b, bs, rfl⟩ := List.exists_cons_of_ne_nil hne
  have htext : aclText (b :: bs) = SDDL_ACE_BEGIN_C :: (b ++ SDDL_ACE_END_S ++ aclText bs) := by
    simp [aclText]
  have hchr : strchr (aclText (b :: bs)) SDDL_ACE_BEGIN_C = some 0 := by
    rw [htext]; simp [strchr]
  have hnonempty : (aclText (b :: bs)).isEmpty = false := by
    rw [htext]; rfl
  unfold RtlpGetAclFromSddlAclString
  simp only [hnonempty, hchr, List.take_zero, List.drop_zero, List.isEmpty_nil,
    parseSddlAclString_aclText (b :: bs) (by simp) hclose, hbuild]
  simp [SDDL_CONTROL_LENGTH]

theorem C2_order_preserved_witness :
    ∃ pAcl, RtlpGetAclFromSddlAclString insertExt 0
        (some "(A;;GA;;;S-1-5-32-544)(D;;GR;;;S-1-1-0)(AU;SA;GW;;;BU)".toList) true =
        some (STATUS_SUCCESS, some pAcl, 0) ∧
      pAcl.Aces.length = 3 ∧
      pAcl.Aces =
        [{ AceType := ACCESS_ALLOWED_ACE_TYPE, AceFlags := 0, AceSize := 24, Mask := GENERIC_ALL,
           Sid := { Revision := 1, IdentifierAuthority := 5, SubAuthority := [32, 544] } },
         { AceType := ACCESS_DENIED_ACE_TYPE, AceFlags := 0, AceSize := 20, Mask := GENERIC_READ,
           Sid := { Revision := 1, IdentifierAuthority := 1, SubAuthority := [0] } },
         { AceType := SYSTEM_AUDIT_ACE_TYPE, AceFlags := SUCCESSFUL_ACCESS_ACE_FLAG, AceSize := 24,
           Mask := GENERIC_WRITE,
           Sid := { Revision := 1, IdentifierAuthority := 5, SubAuthority := [32, 545] } }] :=
  C2_order_preserved insertExt
    ["A;;GA;;;S-1-5-32-544".toList, "D;;GR;;;S-1-1-0".toList, "AU;SA;GW;;;BU".toList]
    [{ AceType := ACCESS_ALLOWED_ACE_TYPE, AceFlag := 0, Access := GENERIC_ALL,
       pszObjectGuid := none, pszObjectInheritedGuid := none,
       pSid := { Revision := 1, IdentifierAuthority := 5, SubAuthority := [32, 544] } },
     { AceType := ACCESS_DENIED_ACE_TYPE, AceFlag := 0, Access := GENERIC_READ,
       pszObjectGuid := none, pszObjectInheritedGuid := none,
       pSid := { Revision := 1, IdentifierAuthority := 1, SubAuthority := [0] } },
     { AceType := SYSTEM_AUDIT_ACE_TYPE, AceFlag := SUCCESSFUL_ACCESS_ACE_FLAG,
       Access := GENERIC_WRITE, pszObjectGuid := none, pszObjectInheritedGuid := none,
       pSid := { Revision := 1, IdentifierAuthority := 5, SubAuthority := [32, 545] } }]
    0 true (by decide) (by decide) (by decide) (by decide) (fun _ => rfl) (fun _ _ _ _ => rfl)

/-! ## Round trip of a descriptor -/

set_option maxRecDepth 1000000 in
/-- C1 (counterexample): a valid self-relative descriptor with owner BA, group
BU and a present, empty DACL is rendered as `O:BA\nG:BU\n`, and parsing this
text succeeds with a descriptor that has no DACL and no DACL-present bit. -/
theorem C1_empty_dacl_not_restored :
    insertExt.RtlValidRelativeSecurityDescriptor emptyDaclDescriptor
      (insertExt.RtlLengthSecurityDescriptorRelative emptyDaclDescriptor) 0 = STATUS_SUCCESS ∧
    RtlAllocateSddlCStringFromSecurityDescriptor insertExt (some emptyDaclDescriptor) 1 0 =
      .returns (STATUS_SUCCESS, some "O:BA\nG:BU\n".toList) ∧
    RtlAllocateSecurityDescriptorFromSddlCString insertExt 2 (some "O:BA\nG:BU\n".toList) 1 =
      .returns (STATUS_SUCCESS,
        some { emptyDaclDescriptor with Control := SE_SELF_RELATIVE, Dacl := none }, 52) ∧
    aclContent emptyDaclDescriptor.Dacl = some [] ∧
    aclContent (none : Option ACL) ≠ aclContent emptyDaclDescriptor.Dacl := by
  refine ⟨by decide, by decide, by decide, by decide, by decide⟩

/-! ### Rendering side -/

theorem rights_encode_ok (m : Nat) :
    RtlpMapAccessMaskToSddlRights m =
      (STATUS_SUCCESS, some (strOf (RtlpMapAccessMaskToSddlRights m).2)) := by
  simp [RtlpMapAccessMaskToSddlRights, strOf]

theorem control_encode_ok (c : Nat) (b : Bool)
    (h : controlBytesWritten c b ≤ SDDL_CONTROL_LENGTH) :
    RtlpMapAclControlToSddlControl c b = some (STATUS_SUCCESS, some (controlStringBuilt c b)) := by
  unfold RtlpMapAclControlToSddlControl
  rw [if_neg (Nat.not_lt.mpr h)]

theorem map_range_getD {α β : Type} (l : List α) (d : α) (f : α → β) :
    (List.range l.length).map (fun i => f (l.getD i d)) = l.map f := by
  apply List.ext_getElem
  · simp
  · intro j h1 h2
    simp only [List.length_map, List.length_range] at h1
    simp [List.getElem?_eq_getElem h1]

theorem aceType_string (t : Nat)
    (h : t = ACCESS_ALLOWED_ACE_TYPE ∨ t = ACCESS_DENIED_ACE_TYPE ∨ t = SYSTEM_AUDIT_ACE_TYPE) :
    ∃ s, RtlpMapAceTypeToSddlType t = some s ∧ s ≠ [] ∧ RtlpMapSddlTypeToAceType s = t ∧
      (∀ c ∈ s, c ≠ ';' ∧ c ≠ ')' ∧ c ≠ '\n') := by
  rcases h with h | h | h <;> subst h
  · exact ⟨SDDL_ACCESS_ALLOWED, by decide, by decide, by decide, by decide⟩
  · exact ⟨SDDL_ACCESS_DENIED, by decide, by decide, by decide, by decide⟩
  · exact ⟨SDDL_AUDIT, by decide, by decide, by decide, by decide⟩

theorem aceStringAt_supported (S : Ext) (acl : ACL) (i : Nat) (a : ACE)
    (hi : acl.Aces[i]? = some a) (ha : SupportedAce (withSidText S) a) :
    aceStringAt (withSidText S) acl i =
      .ok (SDDL_ACE_BEGIN_C :: (aceBody (withSidText S) a ++ SDDL_ACE_END_S)) := by
  obtain ⟨hty, _, _, _, hsid, hne, _, _⟩ := ha
  obtain ⟨ts, hts, htne, _, _⟩ := aceType_string a.AceType hty
  have hget : (withSidText S).RtlGetAce acl i = .ok a := by
    show Ref.RtlGetAce acl i = .ok a
    unfold Ref.RtlGetAce
    rw [List.get?_eq_getElem?, hi]
  have htn : IsNullOrEmptyString (some ts) = false := by
    cases ts with
    | nil => exact absurd rfl htne
    | cons x xs => rfl
  have hsn : IsNullOrEmptyString (some (sidText (withSidText S) a.Sid)) = false := by
    cases hs : sidText (withSidText S) a.Sid with
    | nil => exact absurd hs hne
    | cons x xs => rfl
  have hopt : ∀ f : CStr, (if ¬ IsNullOrEmptyString (some f) = true then strOf (some f) else []) = f := by
    intro f
    cases f with
    | nil => simp [IsNullOrEmptyString]
    | cons x xs => simp [IsNullOrEmptyString, strOf]
  unfold aceStringAt aceBody
  rw [hget]
  simp only [bind, Except.bind, hty, if_true]
  rw [rights_encode_ok, hsid, hts, aceFlag_encode_ok]
  generalize strOf (RtlpMapAceFlagToSddlFlag a.AceFlags).2 = f
  generalize strOf (RtlpMapAccessMaskToSddlRights a.Mask).2 = r
  simp only [chk, if_true, htn, hsn, Bool.false_eq_true, if_false, throw, throwThe,
    MonadExceptOf.throw, pure, Except.pure]
  simp only [aceClause, hopt]
  simp [strOf, SDDL_ACE_BEGIN_C, SDDL_ACE_END_S, SDDL_SEPERATOR_C]

theorem aceString_acl (S : Ext) (sd : SECURITY_DESCRIPTOR)
    (cb : SECURITY_DESCRIPTOR → Except NTSTATUS (Bool × Option ACL × Bool)) (acl : ACL) (df : Bool)
    (hcb : cb sd = .ok (true, some acl, df))
    (hacl : SupportedAcl (withSidText S) (some acl)) :
    RtlpGetSddlAceStringFromSecurityDescriptor (withSidText S) sd cb =
      (STATUS_SUCCESS, some (aclText (acl.Aces.map (aceBody (withSidText S))))) := by
  obtain ⟨hne, hlt, hall⟩ := hacl
  have hcount : (withSidText S).RtlGetAclAceCount acl = acl.Aces.length := rfl
  have hpos : acl.Aces.length ≠ 0 := fun e => hne (List.length_eq_zero.mp e)
  have hmap : (List.range acl.Aces.length).mapM (aceStringAt (withSidText S) acl) =
      .ok (acl.Aces.map
        (fun a => SDDL_ACE_BEGIN_C :: (aceBody (withSidText S) a ++ SDDL_ACE_END_S))) := by
    rw [← map_range_getD acl.Aces
      { AceType := 0, AceFlags := 0, AceSize := 0, Mask := 0,
        Sid := { Revision := 0, IdentifierAuthority := 0, SubAuthority := [] } }
      (fun a => SDDL_ACE_BEGIN_C :: (aceBody (withSidText S) a ++ SDDL_ACE_END_S))]
    apply mapM_ok_of_forall
    intro i hi
    have hi' : i < acl.Aces.length := List.mem_range.mp hi
    rw [List.getD_eq_getElem _ _ hi']
    exact aceStringAt_supported S acl i _ (List.getElem?_eq_getElem hi')
      (hall _ (List.getElem_mem _))
  unfold RtlpGetSddlAceStringFromSecurityDescriptor
  rw [hcb]
  simp only [hcount, Nat.mod_eq_of_lt hlt, hpos, if_false, not_true_eq_false]
  rw [hmap]
  simp only [Prod.mk.injEq, true_and, Option.some.injEq]
  rw [List.filter_eq_self.mpr]
  · simp [aclText, List.map_map, Function.comp_def]
  · intro x hx
    simp only [List.mem_map] at hx
    obtain ⟨a, _, rfl⟩ := hx
    simp

/-! ### Control word facts -/

theorem lor_two_pow_ne_zero (x k : Nat) : x ||| 2 ^ k ≠ 0 := by
  intro h
  have := congrArg (fun n => n.testBit k) h
  simp [Nat.testBit_two_pow_self] at this

theorem securityInformation_guards (si : Nat) :
    si ||| OWNER_SECURITY_INFORMATION ≠ 0 ∧ si ||| GROUP_SECURITY_INFORMATION ≠ 0 ∧
      si ||| DACL_SECURITY_INFORMATION ≠ 0 ∧ si ||| SACL_SECURITY_INFORMATION ≠ 0 :=
  ⟨lor_two_pow_ne_zero si 0, lor_two_pow_ne_zero si 1, lor_two_pow_ne_zero si 2,
    lor_two_pow_ne_zero si 3⟩

theorem canon_dacl_present : ∀ hasS p ar ai p' ar' ai' : Bool,
    (canonControl true hasS p ar ai p' ar' ai' &&& (0xFFFF ^^^ SE_SELF_RELATIVE)) &&&
      SE_DACL_PRESENT ≠ 0 := by
  decide

theorem canon_sacl_present : ∀ hasD p ar ai p' ar' ai' : Bool,
    (canonControl hasD true p ar ai p' ar' ai' &&& (0xFFFF ^^^ SE_SELF_RELATIVE)) &&&
      SE_SACL_PRESENT ≠ 0 := by
  decide

theorem canon_dacl_string : ∀ hasS p ar ai p' ar' ai' : Bool,
    controlStringBuilt
      (canonControl true hasS p ar ai p' ar' ai' &&& (0xFFFF ^^^ SE_SELF_RELATIVE)) true =
      ctlString p ar ai := by
  decide

theorem canon_sacl_string : ∀ hasD p ar ai p' ar' ai' : Bool,
    controlStringBuilt
      (canonControl hasD true p ar ai p' ar' ai' &&& (0xFFFF ^^^ SE_SELF_RELATIVE)) false =
      ctlString p' ar' ai' := by
  decide

theorem canon_control_fits : ∀ hasD hasS p ar ai p' ar' ai' : Bool,
    (p && ar && ai) = false → (p' && ar' && ai') = false →
    controlBytesWritten
        (canonControl hasD hasS p ar ai p' ar' ai' &&& (0xFFFF ^^^ SE_SELF_RELATIVE)) true ≤
      SDDL_CONTROL_LENGTH ∧
    controlBytesWritten
        (canonControl hasD hasS p ar ai p' ar' ai' &&& (0xFFFF ^^^ SE_SELF_RELATIVE)) false ≤
      SDDL_CONTROL_LENGTH := by
  decide

theorem controlStep_lor (b : Bool) (c : Nat) (s : CStr) :
    controlStep b c s = c ||| controlStep b 0 s := by
  unfold controlStep SetFlag
  split_ifs <;> simp

theorem foldl_controlStep_lor {α : Type} (b : Bool) (g : α → CStr) (l : List α) : ∀ c : Nat,
    l.foldl (fun acc x => controlStep b acc (g x)) c =
      c ||| l.foldl (fun acc x => controlStep b acc (g x)) 0 := by
  induction l with
  | nil => intro c; simp
  | cons x xs ih =>
    intro c
    simp only [List.foldl_cons]
    rw [ih (controlStep b c (g x)), ih (controlStep b 0 (g x)), controlStep_lor b c,
      Nat.or_assoc]

theorem control_decode_lor (s : CStr) (b : Bool) (c : Nat) :
    RtlpMapSddlControlToAclControl s b c =
      ((RtlpMapSddlControlToAclControl s b 0).1,
        c ||| (RtlpMapSddlControlToAclControl s b 0).2) := by
  unfold RtlpMapSddlControlToAclControl
  simp only
  split_ifs
  all_goals simp only [SetFlag, Nat.zero_or, Nat.or_zero]
  all_goals first
    | (rw [foldl_controlStep_lor b _ _ c])
    | (rw [foldl_controlStep_lor b _ _ (c ||| SE_DACL_PROTECTED),
        foldl_controlStep_lor b _ _ SE_DACL_PROTECTED, Nat.or_assoc])
    | (rw [foldl_controlStep_lor b _ _ (c ||| SE_SACL_PROTECTED),
        foldl_controlStep_lor b _ _ SE_SACL_PROTECTED, Nat.or_assoc])

theorem ctlString_decode : ∀ b p ar ai : Bool,
    RtlpMapSddlControlToAclControl (ctlString p ar ai) b 0 =
      (STATUS_SUCCESS, aclControl b p ar ai) := by
  decide

theorem ctlString_shape : ∀ p ar ai : Bool,
    (ctlString p ar ai).length ≤ SDDL_CONTROL_LENGTH ∧
      (∀ c ∈ ctlString p ar ai, c ≠ '(' ∧ c ≠ ')' ∧ c ≠ '\n') := by
  decide

theorem aclText_ne_nil (bodies : List CStr) (h : bodies ≠ []) : aclText bodies ≠ [] := by
  obtain ⟨b, bs, rfl⟩ := List.exists_cons_of_ne_nil h
  simp [aclText]

theorem isNullOrEmpty_some_false (s : CStr) (h : s ≠ []) : IsNullOrEmptyString (some s) = false := by
  cases s with
  | nil => exact absurd rfl h
  | cons x xs => rfl

theorem sidString_of_descriptor (S : Ext) (sd : SECURITY_DESCRIPTOR)
    (cb : SECURITY_DESCRIPTOR → Except NTSTATUS (Option SID × Bool)) (s : SID) (df : Bool)
    (hcb : cb sd = .ok (some s, df)) (hs : SidRoundTrips (withSidText S) s) :
    RtlpGetSddlSidStringFromSecurityDescriptor (withSidText S) sd cb =
      (STATUS_SUCCESS, some (sidText (withSidText S) s)) := by
  unfold RtlpGetSddlSidStringFromSecurityDescriptor
  rw [hcb]
  simp only [hs.1, chk, if_true]

theorem aceString_of_descriptor (S : Ext) (sd : SECURITY_DESCRIPTOR)
    (cb : SECURITY_DESCRIPTOR → Except NTSTATUS (Bool × Option ACL × Bool)) (acl : Option ACL)
    (pr df : Bool) (hcb : cb sd = .ok (pr, acl, df)) (hpr : acl.isSome → pr = true)
    (hacl : SupportedAcl (withSidText S) acl) :
    RtlpGetSddlAceStringFromSecurityDescriptor (withSidText S) sd cb =
      (STATUS_SUCCESS, acl.map (fun a => aclText (a.Aces.map (aceBody (withSidText S))))) := by
  cases acl with
  | none =>
    unfold RtlpGetSddlAceStringFromSecurityDescriptor
    rw [hcb]
    rfl
  | some a =>
    have : pr = true := hpr rfl
    subst this
    exact aceString_acl S sd cb a df hcb hacl

theorem optStr_some (f : CStr) :
    (if ¬ IsNullOrEmptyString (some f) = true then strOf (some f) else []) = f := by
  cases f with
  | nil => simp [IsNullOrEmptyString]
  | cons x xs => simp [IsNullOrEmptyString, strOf]

theorem sddlText_sections (E : Ext) (hdelim : E.SDDL_SECTION_DELIMINATOR_S = ['\n']) (si : Nat)
    (o g : CStr) (ho : o ≠ []) (hg : g ≠ []) (dacl sacl : Option CStr) (dc sc : CStr)
    (hd : ∀ x, dacl = some x → x ≠ []) (hs : ∀ x, sacl = some x → x ≠ []) :
    sddlText E si (some o) (some g) dacl (some dc) sacl (some sc) =
      textOf ([SDDL_OWNER ++ SDDL_DELIMINATOR_S ++ o, SDDL_GROUP ++ SDDL_DELIMINATOR_S ++ g]
        ++ (dacl.map (fun x => SDDL_DACL ++ SDDL_DELIMINATOR_S ++ (dc ++ x))).toList
        ++ (sacl.map (fun x => SDDL_SACL ++ SDDL_DELIMINATOR_S ++ (sc ++ x))).toList) := by
  obtain ⟨g1, g2, g3, g4⟩ := securityInformation_guards si
  have hno := isNullOrEmpty_some_false o ho
  have hng := isNullOrEmpty_some_false g hg
  have hnone : IsNullOrEmptyString none = true := rfl
  unfold sddlText textOf
  simp only [g1, g2, g3, g4, ne_eq, not_false_eq_true, true_and, hno, hng, Bool.false_eq_true,
    if_true, hdelim, optStr_some]
  cases dacl with
  | none =>
    cases sacl with
    | none => simp [hnone, strOf]
    | some y =>
      have hy := isNullOrEmpty_some_false y (hs y rfl)
      simp [hnone, hy, strOf]
  | some x =>
    have hx := isNullOrEmpty_some_false x (hd x rfl)
    cases sacl with
    | none => simp [hnone, hx, strOf]
    | some y =>
      have hy := isNullOrEmpty_some_false y (hs y rfl)
      simp [hnone, hx, hy, strOf]

theorem serialize_text (S : Ext) (d : SECURITY_DESCRIPTOR) (si : Nat) (o g : SID)
    (p ar ai p' ar' ai' : Bool)
    (hvalid : (withSidText S).RtlValidRelativeSecurityDescriptor d
      ((withSidText S).RtlLengthSecurityDescriptorRelative d) 0 = STATUS_SUCCESS)
    (ho : d.Owner = some o) (hg : d.Group = some g)
    (hso : SidRoundTrips (withSidText S) o) (hsg : SidRoundTrips (withSidText S) g)
    (hD : SupportedAcl (withSidText S) d.Dacl) (hS : SupportedAcl (withSidText S) d.Sacl)
    (hfd : (p && ar && ai) = false) (hfs : (p' && ar' && ai') = false)
    (hc : d.Control = canonControl d.Dacl.isSome d.Sacl.isSome p ar ai p' ar' ai') :
    RtlAllocateSddlCStringFromSecurityDescriptor (withSidText S) (some d) 1 si =
      .returns (STATUS_SUCCESS,
        some (textOf (sectionsOf (withSidText S) d o g p ar ai p' ar' ai'))) := by
  obtain ⟨ctl, ow, gr, dacl, sacl⟩ := d
  simp only at ho hg hD hS hc
  subst ho hg
  have hfit := canon_control_fits dacl.isSome sacl.isSome p ar ai p' ar' ai' hfd hfs
  rw [← hc] at hfit
  have hdenc := control_encode_ok _ true hfit.1
  have hsenc := control_encode_ok _ false hfit.2
  obtain ⟨g1, g2, g3, g4⟩ := securityInformation_guards si
  have habs : (withSidText S).RtlSelfRelativeToAbsoluteSD
      { Control := ctl, Owner := some o, Group := some g, Dacl := dacl, Sacl := sacl } =
      .ok { Control := ctl &&& (0xFFFF ^^^ SE_SELF_RELATIVE), Owner := some o, Group := some g,
            Dacl := dacl, Sacl := sacl } := rfl
  have howner := sidString_of_descriptor S
    { Control := ctl &&& (0xFFFF ^^^ SE_SELF_RELATIVE), Owner := some o, Group := some g,
      Dacl := dacl, Sacl := sacl }
    (withSidText S).RtlGetOwnerSecurityDescriptor o _ rfl hso
  have hgroup := sidString_of_descriptor S
    { Control := ctl &&& (0xFFFF ^^^ SE_SELF_RELATIVE), Owner := some o, Group := some g,
      Dacl := dacl, Sacl := sacl }
    (withSidText S).RtlGetGroupSecurityDescriptor g _ rfl hsg
  have hdacl := aceString_of_descriptor S
    { Control := ctl &&& (0xFFFF ^^^ SE_SELF_RELATIVE), Owner := some o, Group := some g,
      Dacl := dacl, Sacl := sacl }
    (withSidText S).RtlGetDaclSecurityDescriptor dacl _ _ rfl
    (by
      intro hsome
      rw [hc, hsome]
      exact decide_eq_true (canon_dacl_present _ _ _ _ _ _ _)) hD
  have hsacl := aceString_of_descriptor S
    { Control := ctl &&& (0xFFFF ^^^ SE_SELF_RELATIVE), Owner := some o, Group := some g,
      Dacl := dacl, Sacl := sacl }
    (withSidText S).RtlGetSaclSecurityDescriptor sacl _ _ rfl
    (by
      intro hsome
      rw [hc, hsome]
      exact decide_eq_true (canon_sacl_present _ _ _ _ _ _ _)) hS
  have hdelim : (withSidText S).SDDL_SECTION_DELIMINATOR_S = ['\n'] := rfl
  have hno : IsNullOrEmptyString (some (sidText (withSidText S) o)) = false :=
    isNullOrEmpty_some_false _ hso.2.1
  have hng : IsNullOrEmptyString (some (sidText (withSidText S) g)) = false :=
    isNullOrEmpty_some_false _ hsg.2.1
  unfold RtlAllocateSddlCStringFromSecurityDescriptor
  simp only [SDDL_REVISION_1, ne_eq, not_true_eq_false, Option.isNone_some, Bool.false_eq_true,
    or_self, if_false, bind, ExceptT.bind, ExceptT.mk, ExceptT.bindCont, Option.bind, defined,
    chkDefined, pure, ExceptT.pure, ExceptT.run, hvalid, chk, if_true, habs,
    g1, g2, g3, g4, not_false_eq_true, howner, hgroup, hdacl, hsacl, hdenc, hsenc,
    Option.map_some']
  rw [sddlText_sections _ rfl si _ _ hso.2.1 hsg.2.1]
  · simp only [Outcome.returns.injEq, Prod.mk.injEq, true_and, Option.some.injEq]
    congr 1
    unfold sectionsOf aclSection
    cases dacl with
    | none =>
      cases sacl with
      | none => rfl
      | some sa =>
        have hsctl := canon_sacl_string false p ar ai p' ar' ai'
        simp only [Option.isSome_none, Option.isSome_some] at hc
        rw [← hc] at hsctl
        simp [hsctl]
    | some da =>
      cases sacl with
      | none =>
        have hdctl := canon_dacl_string false p ar ai p' ar' ai'
        simp only [Option.isSome_none, Option.isSome_some] at hc
        rw [← hc] at hdctl
        simp [hdctl]
      | some sa =>
        have hdctl := canon_dacl_string true p ar ai p' ar' ai'
        have hsctl := canon_sacl_string true p ar ai p' ar' ai'
        simp only [Option.isSome_some] at hc
        rw [← hc] at hdctl hsctl
        simp [hdctl, hsctl]
  · intro x hx
    cases dacl with
    | none => simp at hx
    | some da =>
      simp only [Option.map_some', Option.some.injEq] at hx
      subst hx
      exact aclText_ne_nil _ (by simpa using hD.1)
  · intro x hx
    cases sacl with
    | none => simp at hx
    | some sa =>
      simp only [Option.map_some', Option.some.injEq] at hx
      subst hx
      exact aclText_ne_nil _ (by simpa using hS.1)

/-! ### Parsing side: sections -/

theorem strtok_r_section (s rest : CStr) (hne : s ≠ []) (hs : '\n' ∉ s) :
    strtok_r (s ++ '\n' :: rest) ['\n'] = some (s, rest) := by
  have hin : ∀ x ∈ s, (fun c => decide (c ∉ ['\n'])) x = true := by
    intro x hx
    have : x ≠ '\n' := fun e => hs (e ▸ hx)
    simp [this]
  have hout : (fun c => decide (c ∉ ['\n'])) '\n' = false := by decide
  obtain ⟨x, xs, rfl⟩ := List.exists_cons_of_ne_nil hne
  have hx : x ≠ '\n' := fun e => hs (by simp [e])
  have hd : List.dropWhile (fun c => decide (c ∈ ['\n'])) ((x :: xs) ++ '\n' :: rest) =
      (x :: xs) ++ '\n' :: rest := by
    rw [List.cons_append, List.dropWhile_cons]
    have : decide (x ∈ ['\n']) = false := by simp [hx]
    rw [this]
    rfl
  unfold strtok_r
  simp only [hd]
  rw [takeWhile_append_stop _ _ _ _ hin hout, dropWhile_append_stop _ _ _ _ hin hout]
  simp

theorem strtokLoop_textOf (secs : List CStr) (hs : ∀ s ∈ secs, s ≠ [] ∧ '\n' ∉ s) :
    ∀ fuel, secs.length < fuel → strtokLoop ['\n'] fuel (textOf secs) = secs := by
  induction secs with
  | nil =>
    intro fuel hf
    cases fuel with
    | zero => simp at hf
    | succ fuel => simp [strtokLoop, textOf, strtok_r]
  | cons s ss ih =>
    intro fuel hf
    cases fuel with
    | zero => simp at hf
    | succ fuel =>
      have e : textOf (s :: ss) = s ++ '\n' :: textOf ss := by simp [textOf]
      rw [e]
      unfold strtokLoop
      rw [strtok_r_section s _ (hs s (by simp)).1 (hs s (by simp)).2]
      simp only [List.cons.injEq, true_and]
      exact ih (fun c hc => hs c (by simp [hc])) fuel (by simpa using hf)

theorem length_le_textOf (secs : List CStr) : secs.length ≤ (textOf secs).length := by
  induction secs with
  | nil => simp
  | cons s ss ih =>
    have e : textOf (s :: ss) = s ++ '\n' :: textOf ss := by simp [textOf]
    rw [e]
    simp only [List.length_cons, List.length_append]
    omega

theorem strtokAll_textOf (secs : List CStr) (hs : ∀ s ∈ secs, s ≠ [] ∧ '\n' ∉ s) :
    strtokAll (textOf secs) ['\n'] = secs :=
  strtokLoop_textOf secs hs _ (Nat.lt_succ_of_le (length_le_textOf secs))

theorem sectionStep_owner (st : Option CStr × Option CStr × Option CStr × Option CStr)
    (body : CStr) :
    sectionStep st (SDDL_OWNER ++ (SDDL_DELIMINATOR_S ++ body)) =
      .ok (some body, st.2.1, st.2.2.1, st.2.2.2) := by
  simp [sectionStep, hasPrefix, SDDL_OWNER, SDDL_DELIMINATOR_S, SDDL_DELIMINATOR_C]

theorem sectionStep_group (st : Option CStr × Option CStr × Option CStr × Option CStr)
    (body : CStr) :
    sectionStep st (SDDL_GROUP ++ (SDDL_DELIMINATOR_S ++ body)) =
      .ok (st.1, some body, st.2.2.1, st.2.2.2) := by
  simp [sectionStep, hasPrefix, SDDL_OWNER, SDDL_GROUP, SDDL_DELIMINATOR_S, SDDL_DELIMINATOR_C]

theorem sectionStep_dacl (st : Option CStr × Option CStr × Option CStr × Option CStr)
    (body : CStr) :
    sectionStep st (SDDL_DACL ++ (SDDL_DELIMINATOR_S ++ body)) =
      .ok (st.1, st.2.1, some body, st.2.2.2) := by
  simp [sectionStep, hasPrefix, SDDL_OWNER, SDDL_GROUP, SDDL_DACL, SDDL_DELIMINATOR_S,
    SDDL_DELIMINATOR_C]

theorem sectionStep_sacl (st : Option CStr × Option CStr × Option CStr × Option CStr)
    (body : CStr) :
    sectionStep st (SDDL_SACL ++ (SDDL_DELIMINATOR_S ++ body)) =
      .ok (st.1, st.2.1, st.2.2.1, some body) := by
  simp [sectionStep, hasPrefix, SDDL_OWNER, SDDL_GROUP, SDDL_DACL, SDDL_SACL,
    SDDL_DELIMINATOR_S, SDDL_DELIMINATOR_C]

theorem parseSddlString_sections (E : Ext) (hdelim : E.SDDL_SECTION_DELIMINATOR_S = ['\n'])
    (o g : CStr) (dacl sacl : Option CStr)
    (ho : '\n' ∉ o) (hg : '\n' ∉ g) (hd : ∀ x, dacl = some x → '\n' ∉ x)
    (hs : ∀ x, sacl = some x → '\n' ∉ x) :
    RtlpParseSddlString E
      (textOf ([SDDL_OWNER ++ SDDL_DELIMINATOR_S ++ o, SDDL_GROUP ++ SDDL_DELIMINATOR_S ++ g]
        ++ (dacl.map (fun x => SDDL_DACL ++ SDDL_DELIMINATOR_S ++ x)).toList
        ++ (sacl.map (fun x => SDDL_SACL ++ SDDL_DELIMINATOR_S ++ x)).toList)) =
      (STATUS_SUCCESS, some o, some g, dacl, sacl) := by
  have hpre : ∀ (pre : CStr) (x : CStr), pre ≠ [] → '\n' ∉ pre → '\n' ∉ x →
      (pre ++ SDDL_DELIMINATOR_S ++ x ≠ [] ∧ '\n' ∉ pre ++ SDDL_DELIMINATOR_S ++ x) := by
    intro pre x hne hpre hx
    refine ⟨by simp [hne], ?_⟩
    simp only [List.mem_append, not_or]
    exact ⟨⟨hpre, by decide⟩, hx⟩
  unfold RtlpParseSddlString
  rw [hdelim, strtokAll_textOf]
  · cases dacl with
    | none =>
      cases sacl with
      | none =>
        simp [List.foldlM_cons, sectionStep_owner, sectionStep_group, bind, Except.bind, pure,
          Except.pure]
      | some y =>
        simp [List.foldlM_cons, sectionStep_owner, sectionStep_group, sectionStep_sacl, bind,
          Except.bind, pure, Except.pure]
    | some x =>
      cases sacl with
      | none =>
        simp [List.foldlM_cons, sectionStep_owner, sectionStep_group, sectionStep_dacl, bind,
          Except.bind, pure, Except.pure]
      | some y =>
        simp [List.foldlM_cons, sectionStep_owner, sectionStep_group, sectionStep_dacl,
          sectionStep_sacl, bind, Except.bind, pure, Except.pure]
  · intro s hmem
    simp only [List.mem_append, List.mem_cons, List.mem_singleton, List.not_mem_nil, or_false,
      Option.mem_toList, Option.mem_def, Option.map_eq_some'] at hmem
    rcases hmem with ((rfl | rfl) | ⟨x, hx, rfl⟩) | ⟨x, hx, rfl⟩
    · exact hpre _ _ (by decide) (by decide) ho
    · exact hpre _ _ (by decide) (by decide) hg
    · exact hpre _ _ (by decide) (by decide) (hd x hx)
    · exact hpre _ _ (by decide) (by decide) (hs x hx)

/-! ### Parsing side: ACE clauses -/

theorem clean_nil : Clean [] := by
  intro c hc
  simp at hc

theorem clean_append {a b : CStr} (ha : Clean a) (hb : Clean b) : Clean (a ++ b) := by
  intro c hc
  rcases List.mem_append.mp hc with h | h
  · exact ha c h
  · exact hb c h

theorem clean_catIf (v bit : Nat) {m p : CStr} (hp : Clean p) (hm : Clean m) :
    Clean (catIf v bit m p) := by
  unfold catIf
  split_ifs
  · exact clean_append hp hm
  · exact hp

theorem rights_clean (m : Nat) : Clean (strOf (RtlpMapAccessMaskToSddlRights m).2) := by
  unfold RtlpMapAccessMaskToSddlRights strOf
  simp only
  repeat' first
    | exact clean_nil
    | apply clean_catIf
  all_goals decide

theorem flags_clean (f : Nat) : Clean (strOf (RtlpMapAceFlagToSddlFlag f).2) := by
  unfold RtlpMapAceFlagToSddlFlag strOf
  simp only
  repeat' first
    | exact clean_nil
    | apply clean_catIf
  all_goals decide

theorem sidOfSection_some (E : Ext) (txt : CStr) (h : txt ≠ []) :
    sidOfSection E (some txt) =
      E.RtlAllocateSidFromCString
        (if IsNullOrEmptyString (E.RtlpAliasSidStringToSidString (some txt)) then txt
          else strOf (E.RtlpAliasSidStringToSidString (some txt))) := by
  unfold sidOfSection
  by_cases ha : IsNullOrEmptyString (E.RtlpAliasSidStringToSidString (some txt)) = true
  · simp [ha, isNullOrEmpty_some_false txt h, strOf]
  · simp [ha]

theorem splitAt_aceBody (E : Ext) (a : ACE) (ts : CStr)
    (hts : RtlpMapAceTypeToSddlType a.AceType = some ts) (htc : Clean ts)
    (hsc : Clean (sidText E a.Sid)) :
    splitAt SDDL_SEPERATOR_C (aceBody E a) =
      [ts, strOf (RtlpMapAceFlagToSddlFlag a.AceFlags).2,
        strOf (RtlpMapAccessMaskToSddlRights a.Mask).2, [], [], sidText E a.Sid] := by
  have hsep : ∀ {s : CStr}, Clean s → SDDL_SEPERATOR_C ∉ s :=
    fun hs hmem => (hs _ hmem).1 rfl
  unfold aceBody
  rw [hts]
  show splitAt SDDL_SEPERATOR_C (ts ++ SDDL_SEPERATOR_C :: _) = _
  rw [splitAt_append_sep _ (hsep htc), splitAt_append_sep _ (hsep (flags_clean _)),
    splitAt_append_sep _ (hsep (rights_clean _))]
  have e1 : ∀ l : CStr, SDDL_SEPERATOR_C :: l = [] ++ SDDL_SEPERATOR_C :: l := fun _ => rfl
  rw [e1, splitAt_append_sep _ (by simp), e1, splitAt_append_sep _ (by simp),
    splitAt_of_not_mem (hsep hsc)]

theorem parse_aceBody (S : Ext) (a : ACE) (ha : SupportedAce (withSidText S) a) :
    RtlpParseSddlAceString (withSidText S) (aceBody (withSidText S) a) =
      (STATUS_SUCCESS, some (sddlAceOf a)) := by
  obtain ⟨hty, hlt, hfl, hmask, hsid, hne, hclean, hback⟩ := ha
  obtain ⟨ts, hts, htne, htinv, htc⟩ := aceType_string a.AceType hty
  rw [parseAce_of_fields _ (splitAt_aceBody _ a ts hts htc hclean)]
  have hflags : RtlpMapSddlFlagToAceFlag (strOf (RtlpMapAceFlagToSddlFlag a.AceFlags).2) =
      a.AceFlags := by
    have := aceFlag_codec_all ⟨a.AceFlags, hlt⟩
    simp only at this
    rw [this, hfl]
  have hunk : ¬ RtlpMapSddlTypeToAceType ts = ACCESS_UNKNOWN_ACE_TYPE := by
    rw [htinv]
    rcases hty with h | h | h <;> rw [h] <;> decide
  have hunk' : ¬ a.AceType = ACCESS_UNKNOWN_ACE_TYPE := htinv ▸ hunk
  have hF : (if strOf (RtlpMapAceFlagToSddlFlag a.AceFlags).2 = [] then 0
      else RtlpMapSddlFlagToAceFlag (strOf (RtlpMapAceFlagToSddlFlag a.AceFlags).2)) =
      a.AceFlags := by
    by_cases hf : strOf (RtlpMapAceFlagToSddlFlag a.AceFlags).2 = []
    · rw [hf] at hflags
      simp only [hf, if_true]
      rw [← hflags]
      rfl
    · simp only [hf, if_false, hflags]
  have hM : (if strOf (RtlpMapAccessMaskToSddlRights a.Mask).2 = [] then 0
      else RtlpMapSddlRightsToAccessMask (strOf (RtlpMapAccessMaskToSddlRights a.Mask).2)) =
      a.Mask := by
    by_cases hr : strOf (RtlpMapAccessMaskToSddlRights a.Mask).2 = []
    · rw [hr] at hmask
      simp only [hr, if_true]
      rw [← hmask]
      rfl
    · simp only [hr, if_false, hmask]
  rw [sidOfSection_some _ _ hne] at hback
  unfold parseAceFields
  simp only [htne, hunk, hunk', hne, if_false, hback, htinv, sddlAceOf, hF, hM]

/-! ### Parsing side: an ACL section -/

theorem aceBody_clean_chars (E : Ext) (a : ACE) (ts : CStr)
    (hts : RtlpMapAceTypeToSddlType a.AceType = some ts) (htc : Clean ts)
    (hsc : Clean (sidText E a.Sid)) :
    ∀ c ∈ aceBody E a, c ≠ ')' ∧ c ≠ '\n' := by
  intro c hc
  unfold aceBody at hc
  rw [hts] at hc
  simp only [strOf, List.mem_append, List.mem_cons, SDDL_SEPERATOR_C] at hc
  have hsemi : (';' : Char) ≠ ')' ∧ (';' : Char) ≠ '\n' := by decide
  have hf := flags_clean a.AceFlags
  have hr := rights_clean a.Mask
  simp only [strOf] at hf hr
  rcases hc with h | rfl | h | rfl | h | rfl | rfl | rfl | h
  · exact (htc c h).2
  · exact hsemi
  · exact (hf c h).2
  · exact hsemi
  · exact (hr c h).2
  · exact hsemi
  · exact hsemi
  · exact hsemi
  · exact (hsc c h).2

theorem aceBody_supported_chars (S : Ext) (a : ACE) (ha : SupportedAce (withSidText S) a) :
    ∀ c ∈ aceBody (withSidText S) a, c ≠ ')' ∧ c ≠ '\n' := by
  obtain ⟨hty, _, _, _, _, _, hclean, _⟩ := ha
  obtain ⟨ts, hts, _, _, htc⟩ := aceType_string a.AceType hty
  exact aceBody_clean_chars _ a ts hts htc hclean

theorem ctlString_empty_bits : ∀ b p ar ai : Bool,
    (ctlString p ar ai).isEmpty = true → aclControl b p ar ai = 0 := by
  decide

theorem ctlString_no_open : ∀ p ar ai : Bool, SDDL_ACE_BEGIN_C ∉ ctlString p ar ai := by
  decide

theorem getAcl_section (S : Ext) (acl : ACL) (hacl : SupportedAcl (withSidText S) (some acl))
    (b p ar ai : Bool) (c : Nat) :
    ∃ size, RtlpGetAclFromSddlAclString (withSidText S) c
        (some (ctlString p ar ai ++ aclText (acl.Aces.map (aceBody (withSidText S))))) b =
        some (STATUS_SUCCESS,
          some { AclSize := size,
                 Aces := (acl.Aces.map sddlAceOf).map (aceRecord (withSidText S)) },
          c ||| aclControl b p ar ai) ∧
      (ACL_HEADER_SIZE +
          (((acl.Aces.map sddlAceOf).map (aceRecord (withSidText S))).map
            (fun x => x.AceSize)).sum < 2 ^ 32 →
        size = ACL_HEADER_SIZE +
          (((acl.Aces.map sddlAceOf).map (aceRecord (withSidText S))).map
            (fun x => x.AceSize)).sum) := by
  obtain ⟨hne, hlt, hall⟩ := hacl
  have hbne : acl.Aces.map (aceBody (withSidText S)) ≠ [] := by simpa using hne
  have hparse : (acl.Aces.map (aceBody (withSidText S))).map
      (RtlpParseSddlAceString (withSidText S)) =
      (acl.Aces.map sddlAceOf).map (fun a => (STATUS_SUCCESS, some a)) := by
    rw [List.map_map, List.map_map]
    apply List.map_congr_left
    intro a ha
    exact parse_aceBody S a (hall a ha)
  have hclose : ∀ x ∈ acl.Aces.map (aceBody (withSidText S)), ')' ∉ x := by
    intro x hx
    obtain ⟨a, ha, rfl⟩ := List.mem_map.mp hx
    exact fun hmem => (aceBody_supported_chars S a (hall a ha) _ hmem).1 rfl
  obtain ⟨size, hbuild, hsz⟩ := buildAcl_order (withSidText S)
    (acl.Aces.map (aceBody (withSidText S))) (acl.Aces.map sddlAceOf) hbne
    (by simp only [List.length_map]; omega) hparse (fun _ => rfl) (fun _ _ _ _ => rfl)
  refine ⟨size, ?_, hsz⟩
  obtain ⟨bd, bs, hbs⟩ := List.exists_cons_of_ne_nil hbne
  have htext : aclText (acl.Aces.map (aceBody (withSidText S))) =
      SDDL_ACE_BEGIN_C :: (bd ++ SDDL_ACE_END_S ++ aclText bs) := by
    rw [hbs]; simp [aclText]
  have hchr : strchr (ctlString p ar ai ++ aclText (acl.Aces.map (aceBody (withSidText S))))
      SDDL_ACE_BEGIN_C = some (ctlString p ar ai).length := by
    rw [htext]
    exact strchr_append_sep (ctlString_no_open p ar ai)
  have hnonempty : (ctlString p ar ai ++
      aclText (acl.Aces.map (aceBody (withSidText S)))).isEmpty = false := by
    rw [htext]
    cases ctlString p ar ai <;> rfl
  have hr : (if (ctlString p ar ai).isEmpty then (STATUS_SUCCESS, c)
      else RtlpMapSddlControlToAclControl (ctlString p ar ai) b c) =
      (STATUS_SUCCESS, c ||| aclControl b p ar ai) := by
    by_cases he : (ctlString p ar ai).isEmpty = true
    · simp [he, ctlString_empty_bits b p ar ai he]
    · simp only [he, Bool.false_eq_true, if_false]
      rw [control_decode_lor, ctlString_decode]
  have hlen5 : ¬ (ctlString p ar ai).length > SDDL_CONTROL_LENGTH :=
    Nat.not_lt.mpr (ctlString_shape p ar ai).1
  have hlenb : (acl.Aces.map (aceBody (withSidText S))).length =
      (acl.Aces.map (aceBody (withSidText S))).length := rfl
  unfold RtlpGetAclFromSddlAclString
  simp only [hnonempty, hchr, hlen5, if_false, List.take_left', List.drop_left', hr,
    Bool.false_eq_true, ne_eq, not_true_eq_false,
    parseSddlAclString_aclText _ hbne hclose, hbuild]

/-! ### Parsing side: the descriptor -/

theorem aclText_no_newline (bodies : List CStr) (h : ∀ b ∈ bodies, '\n' ∉ b) :
    '\n' ∉ aclText bodies := by
  induction bodies with
  | nil => simp [aclText]
  | cons b bs ih =>
    have hb := h b (List.mem_cons_self _ _)
    have hbs := ih (fun x hx => h x (List.mem_cons_of_mem _ hx))
    have hcons : aclText (b :: bs) = SDDL_ACE_BEGIN_C :: (b ++ SDDL_ACE_END_S) ++ aclText bs := by
      simp [aclText]
    rw [hcons]
    simp only [List.cons_append, List.mem_cons, List.mem_append, not_or]
    exact ⟨by decide, ⟨hb, by decide⟩, hbs⟩

theorem aclSection_no_newline (S : Ext) (acl : Option ACL)
    (hacl : SupportedAcl (withSidText S) acl) (p ar ai : Bool) :
    ∀ x, aclSection (withSidText S) acl p ar ai = some x → '\n' ∉ x := by
  intro x hx
  cases acl with
  | none => simp [aclSection] at hx
  | some a =>
    simp only [aclSection, Option.map_some', Option.some.injEq] at hx
    subst hx
    obtain ⟨_, _, hall⟩ := hacl
    simp only [List.mem_append, not_or]
    refine ⟨fun hm => ((ctlString_shape p ar ai).2 _ hm).2.2 rfl, ?_⟩
    apply aclText_no_newline
    intro b hb
    obtain ⟨a', ha', rfl⟩ := List.mem_map.mp hb
    exact fun hmem => (aceBody_supported_chars S a' (hall a' ha') _ hmem).2 rfl

theorem aceRecord_size_le (S : Ext) (a : ACE) :
    (aceRecord (withSidText S) (sddlAceOf a)).AceSize ≤ 8 + Ref.RtlLengthSid a.Sid := by
  have hA : (withSidText S).RtlLengthAccessAllowedAce a.Sid = 8 + Ref.RtlLengthSid a.Sid := rfl
  have hD : (withSidText S).RtlLengthAccessDeniedAce a.Sid = 8 + Ref.RtlLengthSid a.Sid := rfl
  have hU : (withSidText S).RtlLengthAccessAuditAce a.Sid = 8 + Ref.RtlLengthSid a.Sid := rfl
  simp only [aceRecord, sddlAceOf, aceLength, hA, hD, hU]
  split_ifs <;> first | exact Nat.mod_le _ _ | exact Nat.zero_le _

theorem parsedAcl_size_le (S : Ext) (acl : ACL) :
    (parsedAcl (withSidText S) acl).AclSize ≤ packedAclLength (some acl) := by
  simp only [parsedAcl, packedAclLength, List.map_map]
  apply Nat.add_le_add_left
  apply List.sum_le_sum
  intro a _
  exact aceRecord_size_le S a

theorem aclOfSection_supported (S : Ext) (sd : SECURITY_DESCRIPTOR) (acl : Option ACL)
    (hacl : SupportedAcl (withSidText S) acl) (hfit : packedAclLength acl ≤ 0xFFFF)
    (b p ar ai : Bool) :
    aclOfSection (withSidText S) sd (aclSection (withSidText S) acl p ar ai) b =
      .returns (.ok (storeAcl (withSidText S) sd acl b p ar ai)) := by
  cases acl with
  | none => rfl
  | some a =>
    obtain ⟨size, hget, hsz⟩ := getAcl_section S a hacl b p ar ai sd.Control
    have hle := parsedAcl_size_le S a
    have hsize : size = (parsedAcl (withSidText S) a).AclSize := by
      apply hsz
      have : (parsedAcl (withSidText S) a).AclSize < 2 ^ 32 := by
        have h2 : (0xFFFF : Nat) < 2 ^ 32 := by norm_num
        omega
      exact this
    subst hsize
    simp only [aclOfSection, aclSection, Option.map_some', hget]
    cases b <;> rfl

theorem selfRelativeLoop_large (S : Ext) (sd : SECURITY_DESCRIPTOR) (f n : Nat)
    (h : Ref.relLength sd ≤ n) :
    selfRelativeLoop (withSidText S) sd (f + 1) n =
      .returns (STATUS_SUCCESS, some { sd with Control := sd.Control ||| SE_SELF_RELATIVE },
        Ref.relLength sd) := by
  have hconv : (withSidText S).RtlAbsoluteToSelfRelativeSD sd n =
      Ref.RtlAbsoluteToSelfRelativeSD sd n := rfl
  have hn : ¬ n < Ref.relLength sd := by omega
  simp [selfRelativeLoop, hconv, Ref.RtlAbsoluteToSelfRelativeSD, hn]

theorem selfRelativeLoop_fits (S : Ext) (sd : SECURITY_DESCRIPTOR) (fuel : Nat)
    (hfuel : 2 ≤ fuel) (hfit : Ref.relLength sd ≤ 0xFFFF) :
    selfRelativeLoop (withSidText S) sd fuel 1024 =
      .returns (STATUS_SUCCESS, some { sd with Control := sd.Control ||| SE_SELF_RELATIVE },
        Ref.relLength sd) := by
  obtain ⟨f, rfl⟩ : ∃ f, fuel = f + 2 := ⟨fuel - 2, by omega⟩
  by_cases h : 1024 < Ref.relLength sd
  · have hconv : (withSidText S).RtlAbsoluteToSelfRelativeSD sd 1024 =
        Ref.RtlAbsoluteToSelfRelativeSD sd 1024 := rfl
    have hmax : (withSidText S).SECURITY_DESCRIPTOR_RELATIVE_MAX_SIZE = 131226 := rfl
    have hmod : Ref.relLength sd * 2 % 4294967296 = Ref.relLength sd * 2 := by
      apply Nat.mod_eq_of_lt
      omega
    have hle : Ref.relLength sd * 2 ≤ 131226 := by omega
    have hnext := selfRelativeLoop_large S sd f (Ref.relLength sd * 2) (by omega)
    rw [selfRelativeLoop]
    simp [hconv, hmax, Ref.RtlAbsoluteToSelfRelativeSD, h, hmod, hle, hnext]
  · exact selfRelativeLoop_large S sd (f + 1) 1024 (by omega)

theorem textOf_ne_nil (s : CStr) (rest : List CStr) : textOf (s :: rest) ≠ [] := by
  simp [textOf]

theorem storeAcl_relLength (S : Ext) (o g : SID) (dacl sacl : Option ACL)
    (p ar ai p' ar' ai' : Bool) :
    Ref.relLength (storeAcl (withSidText S) (storeAcl (withSidText S)
        { Control := 0, Owner := some o, Group := some g, Dacl := none, Sacl := none }
        dacl true p ar ai) sacl false p' ar' ai') ≤
      20 + Ref.RtlLengthSid o + Ref.RtlLengthSid g + packedAclLength dacl +
        packedAclLength sacl := by
  cases dacl with
  | none =>
    cases sacl with
    | none => simp [storeAcl, Ref.relLength, packedAclLength]
    | some b =>
      have hb := parsedAcl_size_le S b
      simp only [storeAcl, Ref.relLength, packedAclLength] at hb ⊢
      simp only [Bool.false_eq_true, if_false]
      omega
  | some a =>
    have ha := parsedAcl_size_le S a
    cases sacl with
    | none =>
      simp only [storeAcl, Ref.relLength, packedAclLength] at ha ⊢
      simp only [if_true]
      omega
    | some b =>
      have hb := parsedAcl_size_le S b
      simp only [storeAcl, Ref.relLength, packedAclLength] at ha hb ⊢
      simp only [Bool.false_eq_true, if_false, if_true]
      omega

theorem storeAcl_valid (S : Ext) (o g : SID) (dacl sacl : Option ACL)
    (p ar ai p' ar' ai' : Bool) :
    Ref.RtlValidSecurityDescriptor (storeAcl (withSidText S) (storeAcl (withSidText S)
        { Control := 0, Owner := some o, Group := some g, Dacl := none, Sacl := none }
        dacl true p ar ai) sacl false p' ar' ai') = true := by
  cases dacl <;> cases sacl <;>
    simp [storeAcl, Ref.RtlValidSecurityDescriptor, Ref.aclUsed, parsedAcl]

theorem parse_text (S : Ext) (d : SECURITY_DESCRIPTOR) (fuel : Nat) (o g : SID)
    (p ar ai p' ar' ai' : Bool) (hfuel : 2 ≤ fuel)
    (ho : d.Owner = some o) (hg : d.Group = some g)
    (hso : SidRoundTrips (withSidText S) o) (hsg : SidRoundTrips (withSidText S) g)
    (hD : SupportedAcl (withSidText S) d.Dacl) (hS : SupportedAcl (withSidText S) d.Sacl)
    (hsize : packedLength d ≤ 0xFFFF) :
    RtlAllocateSecurityDescriptorFromSddlCString (withSidText S) fuel
        (some (textOf (sectionsOf (withSidText S) d o g p ar ai p' ar' ai'))) 1 =
      .returns (STATUS_SUCCESS,
        some { (storeAcl (withSidText S) (storeAcl (withSidText S)
            { Control := 0, Owner := some o, Group := some g, Dacl := none, Sacl := none }
            d.Dacl true p ar ai) d.Sacl false p' ar' ai') with
          Control := (storeAcl (withSidText S) (storeAcl (withSidText S)
            { Control := 0, Owner := some o, Group := some g, Dacl := none, Sacl := none }
            d.Dacl true p ar ai) d.Sacl false p' ar' ai').Control ||| SE_SELF_RELATIVE },
        Ref.relLength (storeAcl (withSidText S) (storeAcl (withSidText S)
            { Control := 0, Owner := some o, Group := some g, Dacl := none, Sacl := none }
            d.Dacl true p ar ai) d.Sacl false p' ar' ai')) := by
  have hpl : packedLength d = 20 + Ref.RtlLengthSid o + Ref.RtlLengthSid g +
      packedAclLength d.Dacl + packedAclLength d.Sacl := by
    simp [packedLength, ho, hg]
  have hfitD : packedAclLength d.Dacl ≤ 0xFFFF := by omega
  have hfitS : packedAclLength d.Sacl ≤ 0xFFFF := by omega
  have hrel := storeAcl_relLength S o g d.Dacl d.Sacl p ar ai p' ar' ai'
  have hloop := selfRelativeLoop_fits S _ fuel hfuel (le_trans hrel (hpl ▸ hsize))
  have hval := storeAcl_valid S o g d.Dacl d.Sacl p ar ai p' ar' ai'
  have hparts := parseSddlString_sections (withSidText S) rfl (sidText (withSidText S) o)
    (sidText (withSidText S) g) (aclSection (withSidText S) d.Dacl p ar ai)
    (aclSection (withSidText S) d.Sacl p' ar' ai')
    (fun hm => (hso.2.2.1 _ hm).2.2 rfl) (fun hm => (hsg.2.2.1 _ hm).2.2 rfl)
    (aclSection_no_newline S d.Dacl hD p ar ai) (aclSection_no_newline S d.Sacl hS p' ar' ai')
  have hnull : IsNullOrEmptyString
      (some (textOf (sectionsOf (withSidText S) d o g p ar ai p' ar' ai'))) = false :=
    isNullOrEmpty_some_false _ (textOf_ne_nil _ _)
  have hcreate : (withSidText S).RtlCreateSecurityDescriptorAbsolute SECURITY_DESCRIPTOR_REVISION =
      .ok { Control := 0, Owner := none, Group := none, Dacl := none, Sacl := none } := rfl
  have hsetO : ∀ sd sid, (withSidText S).RtlSetOwnerSecurityDescriptor sd sid false =
      .ok { sd with Owner := sid, Control := setBits sd.Control SE_OWNER_DEFAULTED false } :=
    fun _ _ => rfl
  have hsetG : ∀ sd sid, (withSidText S).RtlSetGroupSecurityDescriptor sd sid false =
      .ok { sd with Group := sid, Control := setBits sd.Control SE_GROUP_DEFAULTED false } :=
    fun _ _ => rfl
  have hvalE : ∀ sd, (withSidText S).RtlValidSecurityDescriptor sd =
      Ref.RtlValidSecurityDescriptor sd := fun _ => rfl
  have hctl0 : setBits (setBits 0 SE_OWNER_DEFAULTED false) SE_GROUP_DEFAULTED false = 0 := by
    decide
  have hrev : SDDL_REVISION_1 = 1 := rfl
  have hdacl := aclOfSection_supported S
    { Control := 0, Owner := some o, Group := some g, Dacl := none, Sacl := none }
    d.Dacl hD hfitD true p ar ai
  have hsacl := aclOfSection_supported S
    (storeAcl (withSidText S)
      { Control := 0, Owner := some o, Group := some g, Dacl := none, Sacl := none }
      d.Dacl true p ar ai)
    d.Sacl hS hfitS false p' ar' ai'
  unfold RtlAllocateSecurityDescriptorFromSddlCString
  simp only [sectionsOf] at hnull ⊢
  simp only [hcreate, hnull, hrev, strOf, hparts, chk, hso.2.2.2, hsg.2.2.2, hsetO, hsetG,
    hctl0, bind, Except.bind, pure, Except.pure, ne_eq, not_true_eq_false, false_or,
    Bool.false_eq_true, if_false, if_true, throw, throwThe, MonadExceptOf.throw, hdacl, hsacl,
    hvalE, hval, hloop]

theorem storeAcl_control (S : Ext) (o g : SID) (dacl sacl : Option ACL)
    (p ar ai p' ar' ai' : Bool) :
    (storeAcl (withSidText S) (storeAcl (withSidText S)
        { Control := 0, Owner := some o, Group := some g, Dacl := none, Sacl := none }
        dacl true p ar ai) sacl false p' ar' ai').Control ||| SE_SELF_RELATIVE =
      canonControl dacl.isSome sacl.isSome p ar ai p' ar' ai' := by
  cases dacl <;> cases sacl <;>
    simp only [storeAcl, Option.isSome_none, Option.isSome_some, Bool.false_eq_true, if_false,
      if_true] <;>
    revert p ar ai p' ar' ai' <;> decide

theorem storeAcl_owner_group (S : Ext) (o g : SID) (dacl sacl : Option ACL)
    (p ar ai p' ar' ai' : Bool) :
    (storeAcl (withSidText S) (storeAcl (withSidText S)
        { Control := 0, Owner := some o, Group := some g, Dacl := none, Sacl := none }
        dacl true p ar ai) sacl false p' ar' ai').Owner = some o ∧
    (storeAcl (withSidText S) (storeAcl (withSidText S)
        { Control := 0, Owner := some o, Group := some g, Dacl := none, Sacl := none }
        dacl true p ar ai) sacl false p' ar' ai').Group = some g := by
  cases dacl <;> cases sacl <;> simp [storeAcl]

theorem parsedAcl_content (E : Ext) (a : ACL) :
    aclContent (some (parsedAcl E a)) = aclContent (some a) := by
  simp [aclContent, parsedAcl, aceRecord, sddlAceOf]

theorem storeAcl_content (S : Ext) (o g : SID) (dacl sacl : Option ACL)
    (p ar ai p' ar' ai' : Bool) :
    aclContent (storeAcl (withSidText S) (storeAcl (withSidText S)
        { Control := 0, Owner := some o, Group := some g, Dacl := none, Sacl := none }
        dacl true p ar ai) sacl false p' ar' ai').Dacl = aclContent dacl ∧
    aclContent (storeAcl (withSidText S) (storeAcl (withSidText S)
        { Control := 0, Owner := some o, Group := some g, Dacl := none, Sacl := none }
        dacl true p ar ai) sacl false p' ar' ai').Sacl = aclContent sacl := by
  cases dacl <;> cases sacl <;> simp [storeAcl, parsedAcl_content]

set_option maxRecDepth 1000000 in
theorem sample_sids_round_trip :
    SidRoundTrips (withSidText refExt)
      { Revision := 1, IdentifierAuthority := 5, SubAuthority := [32, 544] } ∧
    SidRoundTrips (withSidText refExt)
      { Revision := 1, IdentifierAuthority := 5, SubAuthority := [21, 7, 8, 9, 513] } ∧
    SidRoundTrips (withSidText refExt)
      { Revision := 1, IdentifierAuthority := 1, SubAuthority := [0] } := by
  refine ⟨⟨by decide, by decide, by decide, by rfl⟩, ⟨by decide, by decide, by decide, by rfl⟩,
    ⟨by decide, by decide, by decide, by rfl⟩⟩

set_option maxRecDepth 1000000 in
theorem sample_acls_supported :
    SupportedAcl (withSidText refExt) sampleDescriptor.Dacl ∧
    SupportedAcl (withSidText refExt) sampleDescriptor.Sacl := by
  obtain ⟨hBA, _, hWD⟩ := sample_sids_round_trip
  refine ⟨⟨by decide, by decide, ?_⟩, ⟨by decide, by decide, ?_⟩⟩
  · intro x hx
    simp only [sampleDescriptor, List.mem_cons, List.mem_singleton, List.not_mem_nil,
      or_false] at hx
    rcases hx with rfl | rfl
    · exact ⟨by decide, by decide, by decide, by decide, hBA⟩
    · exact ⟨by decide, by decide, by decide, by decide, hWD⟩
  · intro x hx
    simp only [sampleDescriptor, List.mem_cons, List.mem_singleton, List.not_mem_nil,
      or_false] at hx
    subst hx
    exact ⟨by decide, by decide, by decide, by decide, hWD⟩

/-- C1 (amended): for every valid self-relative descriptor `d` that has an
owner and a group whose SIDs survive the text round trip, whose DACL and SACL
are each absent or hold between 1 and 65535 Allow, Deny and Audit ACEs with
flags among the seven supported bits, access masks that the mask codec
reproduces and SIDs that survive the text round trip, whose control word holds
only the self-relative bit, the present bit of each list it holds and up to two
of the protected / auto-inherit-required / auto-inherited bits of each of these
lists, and whose packed size is at most 65535 bytes: the serializer succeeds
with a text,
and the parser applied to this text succeeds (two rounds of the growth loop
suffice) and yields a descriptor with the same owner, group and control flags
and the same ACE lists with the same type, flags, access mask and SID for each
entry. -/
theorem C1_round_trip_supported (S : Ext) (d : SECURITY_DESCRIPTOR) (si fuel : Nat) (o g : SID)
    (hfuel : 2 ≤ fuel)
    (hvalid : (withSidText S).RtlValidRelativeSecurityDescriptor d
      ((withSidText S).RtlLengthSecurityDescriptorRelative d) 0 = STATUS_SUCCESS)
    (ho : d.Owner = some o) (hg : d.Group = some g)
    (hso : SidRoundTrips (withSidText S) o) (hsg : SidRoundTrips (withSidText S) g)
    (hD : SupportedAcl (withSidText S) d.Dacl) (hS : SupportedAcl (withSidText S) d.Sacl)
    (hc : CanonicalControl d) (hsize : packedLength d ≤ 0xFFFF) :
    ∃ text d' len,
      RtlAllocateSddlCStringFromSecurityDescriptor (withSidText S) (some d) 1 si =
        .returns (STATUS_SUCCESS, some text) ∧
      RtlAllocateSecurityDescriptorFromSddlCString (withSidText S) fuel (some text) 1 =
        .returns (STATUS_SUCCESS, some d', len) ∧
      d'.Owner = d.Owner ∧ d'.Group = d.Group ∧ d'.Control = d.Control ∧
      aclContent d'.Dacl = aclContent d.Dacl ∧ aclContent d'.Sacl = aclContent d.Sacl := by
  obtain ⟨p, ar, ai, p', ar', ai', hfd, hfs, hctl⟩ := hc
  have hog := storeAcl_owner_group S o g d.Dacl d.Sacl p ar ai p' ar' ai'
  have hcont := storeAcl_content S o g d.Dacl d.Sacl p ar ai p' ar' ai'
  exact ⟨_, _, _,
    serialize_text S d si o g p ar ai p' ar' ai' hvalid ho hg hso hsg hD hS hfd hfs hctl,
    parse_text S d fuel o g p ar ai p' ar' ai' hfuel ho hg hso hsg hD hS hsize,
    hog.1.trans ho.symm, hog.2.trans hg.symm,
    (storeAcl_control S o g d.Dacl d.Sacl p ar ai p' ar' ai').trans hctl.symm,
    hcont.1, hcont.2⟩

set_option maxRecDepth 1000000 in
theorem C1_round_trip_supported_witness :
    ∃ text d' len,
      RtlAllocateSddlCStringFromSecurityDescriptor (withSidText refExt) (some sampleDescriptor)
        1 15 = .returns (STATUS_SUCCESS, some text) ∧
      RtlAllocateSecurityDescriptorFromSddlCString (withSidText refExt) 2 (some text) 1 =
        .returns (STATUS_SUCCESS, some d', len) ∧
      d'.Owner = sampleDescriptor.Owner ∧ d'.Group = sampleDescriptor.Group ∧
      d'.Control = sampleDescriptor.Control ∧
      aclContent d'.Dacl = aclContent sampleDescriptor.Dacl ∧
      aclContent d'.Sacl = aclContent sampleDescriptor.Sacl :=
  C1_round_trip_supported refExt sampleDescriptor 15 2
    { Revision := 1, IdentifierAuthority := 5, SubAuthority := [32, 544] }
    { Revision := 1, IdentifierAuthority := 5, SubAuthority := [21, 7, 8, 9, 513] }
    (by decide) (by decide) rfl rfl sample_sids_round_trip.1 sample_sids_round_trip.2.1
    sample_acls_supported.1 sample_acls_supported.2
    ⟨true, false, false, false, false, true, rfl, rfl, by decide⟩ (by decide)

/-! ## Shape validation of the control decoder -/

theorem controlStep_skip (b : Bool) (c : Nat) (x : CStr)
    (h1 : x ≠ SDDL_AUTO_INHERIT_REQ) (h2 : x ≠ SDDL_AUTO_INHERITED) : controlStep b c x = c := by
  simp [controlStep, h1, h2]

theorem foldl_controlStep_skip (b : Bool) (s : CStr) (f : Nat → Nat) (l : List Nat)
    (h : ∀ i ∈ l, slice2 s (f i) ≠ SDDL_AUTO_INHERIT_REQ ∧ slice2 s (f i) ≠ SDDL_AUTO_INHERITED)
    (c : Nat) :
    l.foldl (fun C i => controlStep b C (slice2 s (f i))) c = c := by
  induction l generalizing c with
  | nil => rfl
  | cons i l ih =>
    simp only [List.foldl_cons]
    rw [controlStep_skip b c _ (h i (List.mem_cons_self _ _)).1 (h i (List.mem_cons_self _ _)).2]
    exact ih (fun j hj => h j (List.mem_cons_of_mem _ hj)) c

theorem hasPrefix_single (s : CStr) (h : s.length = 1) :
    hasPrefix s SDDL_PROTECTED = true ↔ s = SDDL_PROTECTED := by
  have h1 : SDDL_PROTECTED.length = 1 := rfl
  simp only [hasPrefix, h1, decide_eq_true_eq]
  rw [List.take_of_length_le (by omega)]

theorem control_shape_status (s : CStr) (b : Bool) (c : Nat) :
    (controlShapeRejected s → RtlpMapSddlControlToAclControl s b c = (STATUS_INVALID_PARAMETER, c)) ∧
    (¬ controlShapeRejected s → (RtlpMapSddlControlToAclControl s b c).1 = STATUS_SUCCESS) := by
  have hlen5 : SDDL_CONTROL_LENGTH = 5 := rfl
  have hsz : SDDL_CONTROL_SIZE = 2 := rfl
  unfold controlShapeRejected
  rw [hlen5, hsz]
  by_cases hp : hasPrefix s SDDL_PROTECTED = true
  · constructor
    · intro h
      unfold RtlpMapSddlControlToAclControl
      simp only [hlen5, hsz, hp]
      rcases h with h | ⟨h1, h2⟩ | ⟨_, h⟩ | ⟨h, _⟩
      · have : s.length ≠ 0 := by omega
        simp [this, h]
      · exact absurd ((hasPrefix_single s h1).mp hp) h2
      · have : s.length ≠ 0 := by
          intro e
          have : s = [] := List.length_eq_zero.mp e
          subst this
          simp [hasPrefix, SDDL_PROTECTED] at hp
        simp [this, h]
      · simp [hp] at h
    · intro h
      simp only [not_or, not_and] at h
      unfold RtlpMapSddlControlToAclControl
      simp only [hlen5, hsz, hp]
      have h3 := h.2.2.1 hp
      have h1 : ¬ s.length > 5 := h.1
      split_ifs <;> simp_all
      omega
  · have hp' : hasPrefix s SDDL_PROTECTED = false := by simpa using hp
    constructor
    · intro h
      unfold RtlpMapSddlControlToAclControl
      simp only [hlen5, hsz, hp']
      rcases h with h | ⟨h1, h2⟩ | ⟨h, _⟩ | ⟨_, h, h3⟩
      · have : s.length ≠ 0 := by omega
        simp [this, h]
      · simp [h1]
      · simp [hp'] at h
      · have h0 : s.length ≠ 0 := by omega
        have hodd : ¬ s.length % 2 = 0 := by omega
        have hn1 : ¬ s.length = 1 := by omega
        have hn5 : ¬ s.length > 5 := by omega
        simp [h0, hodd, hn1, hn5, h, h3]
    · intro h
      simp only [not_or, not_and] at h
      unfold RtlpMapSddlControlToAclControl
      simp only [hlen5, hsz, hp']
      have hone : ¬ s.length = 1 := by
        intro e
        have := (hasPrefix_single s e).mpr (not_not.mp (h.2.1 e))
        simp [hp'] at this
      split_ifs <;> simp_all
      omega

theorem control_shape_bits (s : CStr) (b : Bool) (c : Nat) (hok : ¬ controlShapeRejected s)
    (h : ∀ x ∈ controlSlices s, x ≠ SDDL_AUTO_INHERIT_REQ ∧ x ≠ SDDL_AUTO_INHERITED) :
    (RtlpMapSddlControlToAclControl s b c).2 =
      if protectedMarked s then
        c ||| (if b then SE_DACL_PROTECTED else SE_SACL_PROTECTED)
      else c := by
  have hlen5 : SDDL_CONTROL_LENGTH = 5 := rfl
  have hsz : SDDL_CONTROL_SIZE = 2 := rfl
  have hpl : SDDL_PROTECTED.length = 1 := rfl
  unfold controlSlices at h
  simp only [List.mem_map, List.mem_range, forall_exists_index, and_imp, forall_apply_eq_imp_iff₂,
    hsz] at h
  unfold controlShapeRejected at hok
  simp only [not_or, not_and, hlen5, hsz] at hok
  have hle : s.length ≤ 5 := Nat.le_of_not_gt hok.1
  unfold RtlpMapSddlControlToAclControl protectedMarked
  simp only [hlen5, hsz, hpl, SetFlag]
  by_cases hp : hasPrefix s SDDL_PROTECTED = true
  · simp only [hp, true_or, if_true] at h
    have hf := foldl_controlStep_skip b s (fun i => 1 + i * 2) (List.range (s.length / 2))
      (fun i hi => h i (List.mem_range.mp hi))
    simp only [hp, if_true, hf]
    split_ifs <;> simp_all <;> exfalso <;> omega
  · have hp' : hasPrefix s SDDL_PROTECTED = false := by simpa using hp
    have hone : ¬ s.length = 1 := by
      intro e
      have := (hasPrefix_single s e).mpr (not_not.mp (hok.2.1 e))
      simp [hp'] at this
    simp only [hp', Bool.false_eq_true, false_or] at h
    by_cases hodd : s.length % 2 = 1
    · simp only [hodd, if_true] at h
      have hf : ∀ c, List.foldl (fun C i => controlStep b C (slice2 s (i * 2 + 1))) c
          (List.range (s.length / 2)) = c :=
        foldl_controlStep_skip b s (fun i => i * 2 + 1) (List.range (s.length / 2))
          (fun i hi => by
            show slice2 s (i * 2 + 1) ≠ _ ∧ slice2 s (i * 2 + 1) ≠ _
            rw [Nat.add_comm (i * 2) 1]
            exact h i (List.mem_range.mp hi))
      have h0 : ¬ s.length = 0 := by omega
      have hne : ¬ s.length % 2 = 0 := by omega
      have hn5 : ¬ s.length > 5 := by omega
      have h35 : s.length = 3 ∨ s.length = 5 := by omega
      have hP3 : hasPrefix (s.drop 2) SDDL_PROTECTED = true := by
        have := hok.2.2.2 hp' h35
        simpa using this
      simp [hp', hf, h0, hne, hone, hn5, h35, hP3, hodd]
    · simp only [hodd, if_false] at h
      have hf : ∀ c, List.foldl (fun C i => controlStep b C (slice2 s (0 + i * 2))) c
          (List.range (s.length / 2)) = c :=
        foldl_controlStep_skip b s (fun i => 0 + i * 2) (List.range (s.length / 2))
          (fun i hi => h i (List.mem_range.mp hi))
      simp only [Nat.zero_add] at hf
      have heven : s.length % 2 = 0 := by omega
      have hn5 : ¬ s.length > 5 := by omega
      by_cases h0 : s.length = 0
      · simp [h0, hp']
      · simp [hp', hf, h0, heven, hone, hn5, hodd]

theorem slices_without_A (s : CStr) (h : 'A' ∉ s) :
    ∀ x ∈ controlSlices s, x ≠ SDDL_AUTO_INHERIT_REQ ∧ x ≠ SDDL_AUTO_INHERITED := by
  intro x hx
  unfold controlSlices at hx
  obtain ⟨i, _, rfl⟩ := List.mem_map.mp hx
  have key : ∀ off, 'A' ∉ slice2 s off := fun off hm =>
    h (List.mem_of_mem_drop (List.mem_of_mem_take hm))
  constructor
  · intro e
    exact key _ (e ▸ (by decide : 'A' ∈ SDDL_AUTO_INHERIT_REQ))
  · intro e
    exact key _ (e ▸ (by decide : 'A' ∈ SDDL_AUTO_INHERITED))

/-- C11 (counterexample): `XYZ` has three characters, is no single character
and does not start with `P`, and the decoder rejects it with
`STATUS_INVALID_PARAMETER` for a DACL and for a SACL. -/
theorem C11_three_unknown_rejected :
    ("XYZ".toList.length ≤ SDDL_CONTROL_LENGTH ∧ "XYZ".toList.length ≠ 1 ∧
      hasPrefix "XYZ".toList SDDL_PROTECTED = false) ∧
    RtlpMapSddlControlToAclControl "XYZ".toList true 0 = (STATUS_INVALID_PARAMETER, 0) ∧
    RtlpMapSddlControlToAclControl "XYZ".toList false 0 = (STATUS_INVALID_PARAMETER, 0) := by
  decide

/-- C11 (amended): the decoder fails with `STATUS_INVALID_PARAMETER`, leaving
the control word as it was, for every control string that is longer than
`SDDL_CONTROL_LENGTH` characters, or is a single character other than `P`, or
starts with `P` and has even length, or does not start with `P`, has length 3
or 5 and has no `P` as its third character; for every other string it succeeds,
and when none of the two-character slices it reads is `AR` or `AI` the slices
set no bit: the control word gains the protected bit when the string starts
with `P` or has odd length with `P` as third character, and nothing else. -/
theorem C11_control_shape (pszControl : CStr) (bIsDacl : Bool) (c : Nat) :
    (controlShapeRejected pszControl →
      RtlpMapSddlControlToAclControl pszControl bIsDacl c = (STATUS_INVALID_PARAMETER, c)) ∧
    (¬ controlShapeRejected pszControl →
      (RtlpMapSddlControlToAclControl pszControl bIsDacl c).1 = STATUS_SUCCESS ∧
      ((∀ x ∈ controlSlices pszControl, x ≠ SDDL_AUTO_INHERIT_REQ ∧ x ≠ SDDL_AUTO_INHERITED) →
        (RtlpMapSddlControlToAclControl pszControl bIsDacl c).2 =
          if protectedMarked pszControl then
            c ||| (if bIsDacl then SE_DACL_PROTECTED else SE_SACL_PROTECTED)
          else c)) :=
  ⟨(control_shape_status pszControl bIsDacl c).1,
    fun hok => ⟨(control_shape_status pszControl bIsDacl c).2 hok,
      control_shape_bits pszControl bIsDacl c hok⟩⟩

theorem C11_control_shape_witness :
    (controlShapeRejected "PXYZWV".toList ∧
      RtlpMapSddlControlToAclControl "PXYZWV".toList true 7 = (STATUS_INVALID_PARAMETER, 7)) ∧
    (¬ controlShapeRejected "XYPZW".toList ∧
      (RtlpMapSddlControlToAclControl "XYPZW".toList false 0).1 = STATUS_SUCCESS ∧
      (RtlpMapSddlControlToAclControl "XYPZW".toList false 0).2 = SE_SACL_PROTECTED) :=
  ⟨⟨by decide, (C11_control_shape "PXYZWV".toList true 7).1 (by decide)⟩,
    ⟨by decide, ((C11_control_shape "XYPZW".toList false 0).2 (by decide)).1,
      ((C11_control_shape "XYPZW".toList false 0).2 (by decide)).2
        (slices_without_A _ (by decide))⟩⟩

/-! ## The parser in steps -/

theorem parser_eq_assemble (E : Ext) (fuel : Nat) (psz : Option CStr) (rev : Nat) :
    RtlAllocateSecurityDescriptorFromSddlCString E fuel psz rev =
      match assembleDescriptor E psz rev with
      | .undefined => .undefined
      | .outOfFuel => .outOfFuel
      | .returns (.error status) => .returns (status, none, 1024)
      | .returns (.ok sd) =>
        if ¬ E.RtlValidSecurityDescriptor sd then
          .returns (STATUS_INVALID_SECURITY_DESCR, none, 1024)
        else selfRelativeLoop E sd fuel 1024 := by
  unfold RtlAllocateSecurityDescriptorFromSddlCString assembleDescriptor
  show (match ownerGroupSteps E psz rev with
    | .error status => _
    | .ok (pSecDescAbs, pszDacl, pszSacl) => _) = _
  cases h : ownerGroupSteps E psz rev with
  | error st => rfl
  | ok v =>
    obtain ⟨sd, d, s⟩ := v
    simp only []
    cases h1 : aclOfSection E sd d true with
    | undefined => rfl
    | outOfFuel => rfl
    | returns r =>
      cases r with
      | error st => rfl
      | ok sd1 => rfl

/-! ## Control prefix of an ACL text -/

set_option maxRecDepth 1000000 in
/-- C12: an ACL text with the seven-character prefix `PARAIXX` before its first
`(`, and the ACL text `P` without any `(`, both run into undefined behaviour in
`RtlpGetAclFromSddlAclString` (the prefix is copied into `szAclFlag` without a
length check; the `NULL` of `strchr` enters the pointer difference), and so does
the parser on a text with the section `D:P`: no `STATUS_INVALID_PARAMETER` is
returned. -/
theorem C12_long_prefix_undefined :
    RtlpGetAclFromSddlAclString refExt 0 (some "PARAIXX(A;;GA;;;BA)".toList) true = none ∧
    RtlpGetAclFromSddlAclString refExt 0 (some "P".toList) true = none ∧
    RtlAllocateSecurityDescriptorFromSddlCString refExt 2
      (some "O:BA\nG:BU\nD:P\n".toList) 1 = .undefined := by
  decide

/-! ## Section splitter and the owner and group steps -/

theorem sectionStep_error (st : Option CStr × Option CStr × Option CStr × Option CStr)
    (tok : CStr) (e : NTSTATUS) (h : sectionStep st tok = .error e) :
    e = STATUS_INVALID_PARAMETER := by
  unfold sectionStep at h
  split_ifs at h <;> injection h with h <;> exact h.symm

theorem foldlM_sectionStep_error (toks : List CStr) :
    ∀ (st : Option CStr × Option CStr × Option CStr × Option CStr) (e : NTSTATUS),
      toks.foldlM sectionStep st = .error e → e = STATUS_INVALID_PARAMETER := by
  induction toks with
  | nil => intro st e h; cases h
  | cons tok toks ih =>
    intro st e h
    rw [List.foldlM_cons] at h
    cases hs : sectionStep st tok with
    | error e' =>
      rw [hs] at h
      have : e' = e := by
        injection h
      exact this ▸ sectionStep_error st tok e' hs
    | ok st' =>
      rw [hs] at h
      exact ih st' e h

theorem parseSddlString_cases (E : Ext) (text : CStr) :
    (∃ st, (strtokAll text E.SDDL_SECTION_DELIMINATOR_S).foldlM sectionStep
        (none, none, none, none) = .ok st ∧
      RtlpParseSddlString E text = (STATUS_SUCCESS, st)) ∨
    RtlpParseSddlString E text = (STATUS_INVALID_PARAMETER, none, none, none, none) := by
  unfold RtlpParseSddlString
  cases h : (strtokAll text E.SDDL_SECTION_DELIMINATOR_S).foldlM sectionStep
      (none, none, none, none) with
  | ok st => exact Or.inl ⟨st, rfl, rfl⟩
  | error e =>
    have := foldlM_sectionStep_error _ _ _ h
    subst this
    exact Or.inr rfl

theorem sidOfSection_null (E : Ext)
    (h : IsNullOrEmptyString (E.RtlpAliasSidStringToSidString none) = true) :
    sidOfSection E none = .error STATUS_INVALID_PARAMETER := by
  unfold sidOfSection
  simp only [h, if_true]
  rfl

theorem sidOfSection_error (E : Ext) (psz : Option CStr) (st : NTSTATUS)
    (hsid : ∀ s st, E.RtlAllocateSidFromCString s = .error st → st = STATUS_INVALID_PARAMETER)
    (h : sidOfSection E psz = .error st) : st = STATUS_INVALID_PARAMETER := by
  unfold sidOfSection at h
  simp only [] at h
  split_ifs at h <;> first | exact hsid _ _ h | (injection h with h; exact h.symm)

theorem ref_sid_status (s : CStr) (st : NTSTATUS)
    (h : Ref.RtlAllocateSidFromCString s = .error st) : st = STATUS_INVALID_PARAMETER := by
  unfold Ref.RtlAllocateSidFromCString at h
  split at h
  · split_ifs at h
    · injection h with h
      exact h.symm
    · split at h
      · cases h
      · injection h with h
        exact h.symm
  · injection h with h
    exact h.symm

theorem ownerGroupSteps_rejects (E : Ext) (psz : Option CStr) (rev : Nat)
    (sd0 : SECURITY_DESCRIPTOR)
    (hcreate : E.RtlCreateSecurityDescriptorAbsolute SECURITY_DESCRIPTOR_REVISION = .ok sd0)
    (hsid : ∀ s st, E.RtlAllocateSidFromCString s = .error st → st = STATUS_INVALID_PARAMETER)
    (hset : ∀ sd sid st, E.RtlSetOwnerSecurityDescriptor sd sid false = .error st →
      st = STATUS_INVALID_PARAMETER)
    (h : sidOfSection E (RtlpParseSddlString E (strOf psz)).2.1 =
          .error STATUS_INVALID_PARAMETER ∨
        sidOfSection E (RtlpParseSddlString E (strOf psz)).2.2.1 =
          .error STATUS_INVALID_PARAMETER) :
    ownerGroupSteps E psz rev = .error STATUS_INVALID_PARAMETER := by
  unfold ownerGroupSteps
  simp only [hcreate, bind, Except.bind, pure, Except.pure, throw, throwThe,
    MonadExceptOf.throw]
  by_cases hargs : SDDL_REVISION_1 ≠ rev ∨ IsNullOrEmptyString psz = true
  · simp only [hargs, if_true]
  · simp only [hargs, if_false]
    rcases parseSddlString_cases E (strOf psz) with ⟨st, _, hsp⟩ | hsp
    · rw [hsp] at h
      simp only [hsp, chk, NT_SUCCESS, decide_True, if_true] at h ⊢
      cases ho : sidOfSection E st.1 with
      | error e =>
        have := sidOfSection_error E _ e hsid ho
        subst this
        rfl
      | ok sid =>
        simp only []
        cases hs : E.RtlSetOwnerSecurityDescriptor sd0 (some sid) false with
        | error e =>
          have := hset _ _ e hs
          subst this
          rfl
        | ok sd1 =>
          simp only []
          rcases h with h | h
          · rw [ho] at h
            cases h
          · rw [h]
    · simp [hsp, chk, NT_SUCCESS]

theorem parser_rejects (E : Ext) (fuel : Nat) (psz : Option CStr) (rev : Nat)
    (h : ownerGroupSteps E psz rev = .error STATUS_INVALID_PARAMETER) :
    RtlAllocateSecurityDescriptorFromSddlCString E fuel psz rev =
      .returns (STATUS_INVALID_PARAMETER, none, 1024) := by
  rw [parser_eq_assemble]
  simp only [assembleDescriptor, h]


theorem hasPrefix_with_delim (tok pre : CStr) (hlen : pre.length = 1)
    (h1 : hasPrefix tok pre = true) (h2 : tok.get? pre.length = some SDDL_DELIMINATOR_C) :
    hasPrefix tok (pre ++ SDDL_DELIMINATOR_S) = true := by
  obtain ⟨a, rfl⟩ : ∃ a, pre = [a] := by
    match pre, hlen with
    | [a], _ => exact ⟨a, rfl⟩
  match tok with
  | [] => simp [hasPrefix] at h1
  | [x] => simp at h2
  | x :: y :: rest =>
    simp only [hasPrefix, List.length_singleton, List.take_succ_cons, List.take_zero,
      decide_eq_true_eq, List.cons.injEq, and_true] at h1
    simp only [List.length_singleton, List.get?_cons_succ, List.get?_cons_zero,
      Option.some.injEq] at h2
    subst h1 h2
    simp [hasPrefix, SDDL_DELIMINATOR_S, SDDL_DELIMINATOR_C]

theorem sectionStep_owner_none (st st' : Option CStr × Option CStr × Option CStr × Option CStr)
    (tok : CStr) (hp : hasPrefix tok (SDDL_OWNER ++ SDDL_DELIMINATOR_S) = false)
    (hst : st.1 = none) (h : sectionStep st tok = .ok st') : st'.1 = none := by
  unfold sectionStep at h
  split_ifs at h with h1 h2 h3 h4 h5 h6 h7 h8 <;> injection h with h <;> subst h <;>
    first
    | exact hst
    | (exfalso
       have := hasPrefix_with_delim tok SDDL_OWNER rfl h1 (not_not.mp h2)
       simp [hp] at this)

theorem sectionStep_group_none (st st' : Option CStr × Option CStr × Option CStr × Option CStr)
    (tok : CStr) (hp : hasPrefix tok (SDDL_GROUP ++ SDDL_DELIMINATOR_S) = false)
    (hst : st.2.1 = none) (h : sectionStep st tok = .ok st') : st'.2.1 = none := by
  unfold sectionStep at h
  split_ifs at h with h1 h2 h3 h4 h5 h6 h7 h8 <;> injection h with h <;> subst h <;>
    first
    | exact hst
    | (exfalso
       have := hasPrefix_with_delim tok SDDL_GROUP rfl h3 (not_not.mp h4)
       simp [hp] at this)

theorem foldlM_sectionStep_none (sel : Option CStr × Option CStr × Option CStr × Option CStr →
      Option CStr) (pre : CStr)
    (hstep : ∀ st st' tok, hasPrefix tok (pre ++ SDDL_DELIMINATOR_S) = false → sel st = none →
      sectionStep st tok = .ok st' → sel st' = none)
    (toks : List CStr) :
    ∀ st st', (∀ tok ∈ toks, hasPrefix tok (pre ++ SDDL_DELIMINATOR_S) = false) →
      sel st = none → toks.foldlM sectionStep st = .ok st' → sel st' = none := by
  induction toks with
  | nil =>
    intro st st' _ hst h
    injection h with h
    exact h ▸ hst
  | cons tok toks ih =>
    intro st st' htoks hst h
    rw [List.foldlM_cons] at h
    cases hs : sectionStep st tok with
    | error e => rw [hs] at h; cases h
    | ok st1 =>
      rw [hs] at h
      exact ih st1 st' (fun t ht => htoks t (List.mem_cons_of_mem _ ht))
        (hstep st st1 tok (htoks tok (List.mem_cons_self _ _)) hst hs) h

theorem parseSddlString_no_owner (E : Ext) (text : CStr)
    (h : ∀ tok ∈ strtokAll text E.SDDL_SECTION_DELIMINATOR_S,
      hasPrefix tok (SDDL_OWNER ++ SDDL_DELIMINATOR_S) = false) :
    (RtlpParseSddlString E text).2.1 = none := by
  rcases parseSddlString_cases E text with ⟨st, hf, hsp⟩ | hsp
  · rw [hsp]
    exact foldlM_sectionStep_none (fun st => st.1) SDDL_OWNER sectionStep_owner_none _ _ _ h rfl hf
  · rw [hsp]

theorem parseSddlString_no_group (E : Ext) (text : CStr)
    (h : ∀ tok ∈ strtokAll text E.SDDL_SECTION_DELIMINATOR_S,
      hasPrefix tok (SDDL_GROUP ++ SDDL_DELIMINATOR_S) = false) :
    (RtlpParseSddlString E text).2.2.1 = none := by
  rcases parseSddlString_cases E text with ⟨st, hf, hsp⟩ | hsp
  · rw [hsp]
    exact foldlM_sectionStep_none (fun st => st.2.1) SDDL_GROUP sectionStep_group_none _ _ _ h rfl
      hf
  · rw [hsp]

theorem sectionStep_dacl_none (st st' : Option CStr × Option CStr × Option CStr × Option CStr)
    (tok : CStr) (hp : hasPrefix tok (SDDL_DACL ++ SDDL_DELIMINATOR_S) = false)
    (hst : st.2.2.1 = none) (h : sectionStep st tok = .ok st') : st'.2.2.1 = none := by
  unfold sectionStep at h
  split_ifs at h with h1 h2 h3 h4 h5 h6 h7 h8 <;> injection h with h <;> subst h <;>
    first
    | exact hst
    | (exfalso
       have := hasPrefix_with_delim tok SDDL_DACL rfl h5 (not_not.mp h6)
       simp [hp] at this)

theorem sectionStep_sacl_none (st st' : Option CStr × Option CStr × Option CStr × Option CStr)
    (tok : CStr) (hp : hasPrefix tok (SDDL_SACL ++ SDDL_DELIMINATOR_S) = false)
    (hst : st.2.2.2 = none) (h : sectionStep st tok = .ok st') : st'.2.2.2 = none := by
  unfold sectionStep at h
  split_ifs at h with h1 h2 h3 h4 h5 h6 h7 h8 <;> injection h with h <;> subst h <;>
    first
    | exact hst
    | (exfalso
       have := hasPrefix_with_delim tok SDDL_SACL rfl h7 (not_not.mp h8)
       simp [hp] at this)

theorem parseSddlString_no_dacl (E : Ext) (text : CStr)
    (h : ∀ tok ∈ strtokAll text E.SDDL_SECTION_DELIMINATOR_S,
      hasPrefix tok (SDDL_DACL ++ SDDL_DELIMINATOR_S) = false) :
    (RtlpParseSddlString E text).2.2.2.1 = none := by
  rcases parseSddlString_cases E text with ⟨st, hf, hsp⟩ | hsp
  · rw [hsp]
    exact foldlM_sectionStep_none (fun st => st.2.2.1) SDDL_DACL sectionStep_dacl_none _ _ _ h rfl
      hf
  · rw [hsp]

theorem parseSddlString_no_sacl (E : Ext) (text : CStr)
    (h : ∀ tok ∈ strtokAll text E.SDDL_SECTION_DELIMINATOR_S,
      hasPrefix tok (SDDL_SACL ++ SDDL_DELIMINATOR_S) = false) :
    (RtlpParseSddlString E text).2.2.2.2 = none := by
  rcases parseSddlString_cases E text with ⟨st, hf, hsp⟩ | hsp
  · rw [hsp]
    exact foldlM_sectionStep_none (fun st => st.2.2.2) SDDL_SACL sectionStep_sacl_none _ _ _ h rfl
      hf
  · rw [hsp]

theorem ownerGroupSteps_texts (E : Ext) (psz : Option CStr) (rev : Nat)
    (sd : SECURITY_DESCRIPTOR) (d s : Option CStr)
    (h : ownerGroupSteps E psz rev = .ok (sd, d, s)) :
    d = (RtlpParseSddlString E (strOf psz)).2.2.2.1 ∧
      s = (RtlpParseSddlString E (strOf psz)).2.2.2.2 := by
  unfold ownerGroupSteps at h
  simp only [bind, Except.bind, pure, Except.pure, throw, throwThe, MonadExceptOf.throw] at h
  split at h
  · cases h
  · split at h
    · cases h
    · rename_i hgate
      split at h
      · cases h
      · rename_i parts hparts
        have hp : parts = (RtlpParseSddlString E (strOf psz)).2 := by
          unfold chk at hparts
          split_ifs at hparts
          injection hparts with hparts
          exact hparts.symm
        split at h
        · cases h
        · split at h
          · cases h
          · split at h
            · cases h
            · split at h
              · cases h
              · injection h with h
                simp only [Prod.mk.injEq] at h
                rw [← hp]
                exact ⟨h.2.1.symm, h.2.2.symm⟩

/-! ## Mandatory owner and group, absent lists, validity gate, arguments -/

/-- C14: when no section of the text starts with `O:`, or none starts with
`G:`, `RtlAllocateSecurityDescriptorFromSddlCString` fails with
`STATUS_INVALID_PARAMETER` and returns a null descriptor: the missing part is
not defaulted.  The absolute descriptor is created, the alias table has no
entry for the null string, and the SID parser and the owner setter, which come
before the group step, report a failure as `STATUS_INVALID_PARAMETER`. -/
theorem C14_owner_group_mandatory (E : Ext) (fuel : Nat) (psz : Option CStr) (rev : Nat)
    (sd0 : SECURITY_DESCRIPTOR)
    (hcreate : E.RtlCreateSecurityDescriptorAbsolute SECURITY_DESCRIPTOR_REVISION = .ok sd0)
    (halias : IsNullOrEmptyString (E.RtlpAliasSidStringToSidString none) = true)
    (hsid : ∀ s st, E.RtlAllocateSidFromCString s = .error st → st = STATUS_INVALID_PARAMETER)
    (hset : ∀ sd sid st, E.RtlSetOwnerSecurityDescriptor sd sid false = .error st →
      st = STATUS_INVALID_PARAMETER)
    (h : (∀ tok ∈ strtokAll (strOf psz) E.SDDL_SECTION_DELIMINATOR_S,
        hasPrefix tok (SDDL_OWNER ++ SDDL_DELIMINATOR_S) = false) ∨
      (∀ tok ∈ strtokAll (strOf psz) E.SDDL_SECTION_DELIMINATOR_S,
        hasPrefix tok (SDDL_GROUP ++ SDDL_DELIMINATOR_S) = false)) :
    RtlAllocateSecurityDescriptorFromSddlCString E fuel psz rev =
      .returns (STATUS_INVALID_PARAMETER, none, 1024) := by
  apply parser_rejects
  apply ownerGroupSteps_rejects E psz rev sd0 hcreate hsid hset
  rcases h with h | h
  · exact Or.inl ((parseSddlString_no_owner E _ h) ▸ sidOfSection_null E halias)
  · exact Or.inr ((parseSddlString_no_group E _ h) ▸ sidOfSection_null E halias)

set_option maxRecDepth 1000000 in
theorem C14_owner_group_mandatory_witness :
    RtlAllocateSecurityDescriptorFromSddlCString refExt 2
      (some "O:BA\nD:(A;;GA;;;BA)\n".toList) 1 =
      .returns (STATUS_INVALID_PARAMETER, none, 1024) :=
  C14_owner_group_mandatory refExt 2 (some "O:BA\nD:(A;;GA;;;BA)\n".toList) 1
    { Control := 0, Owner := none, Group := none, Dacl := none, Sacl := none } rfl (by decide)
    (fun s st h => ref_sid_status s st h)
    (fun sd sid st h => by cases h)
    (Or.inr (by decide))

/-- C15: for every control word `c` and both `bIsDacl` values,
`RtlpGetAclFromSddlAclString` on a null or an empty ACL text returns
`STATUS_SUCCESS`, a null ACL and the control word `c`, and the DACL / SACL step
of the parser on such a text hands the descriptor on unchanged, no setter being
called.  Consequently, for a text without a section starting with `D:` and
without one starting with `S:`, the DACL and the SACL step get the null text
and the assembled descriptor is the one left by the owner and group steps. -/
theorem C15_absent_acl_text (E : Ext) (c : Nat) (bIsDacl : Bool) :
    RtlpGetAclFromSddlAclString E c none bIsDacl = some (STATUS_SUCCESS, none, c) ∧
    RtlpGetAclFromSddlAclString E c (some []) bIsDacl = some (STATUS_SUCCESS, none, c) ∧
    (∀ sd : SECURITY_DESCRIPTOR,
      aclOfSection E sd none bIsDacl = .returns (.ok sd) ∧
      aclOfSection E sd (some []) bIsDacl = .returns (.ok sd)) ∧
    (∀ (psz : Option CStr) (rev : Nat) (sd : SECURITY_DESCRIPTOR) (d s : Option CStr),
      ownerGroupSteps E psz rev = .ok (sd, d, s) →
      (∀ tok ∈ strtokAll (strOf psz) E.SDDL_SECTION_DELIMINATOR_S,
          hasPrefix tok (SDDL_DACL ++ SDDL_DELIMINATOR_S) = false) →
      (∀ tok ∈ strtokAll (strOf psz) E.SDDL_SECTION_DELIMINATOR_S,
          hasPrefix tok (SDDL_SACL ++ SDDL_DELIMINATOR_S) = false) →
      d = none ∧ s = none ∧ assembleDescriptor E psz rev = .returns (.ok sd)) := by
  refine ⟨rfl, rfl, fun sd => ⟨rfl, rfl⟩, ?_⟩
  intro psz rev sd d s h hnd hns
  obtain ⟨hd, hs⟩ := ownerGroupSteps_texts E psz rev sd d s h
  have hd' := hd.trans (parseSddlString_no_dacl E _ hnd)
  have hs' := hs.trans (parseSddlString_no_sacl E _ hns)
  subst hd' hs'
  refine ⟨rfl, rfl, ?_⟩
  unfold assembleDescriptor
  rw [h]
  rfl

set_option maxRecDepth 1000000 in
theorem C15_absent_acl_text_witness :
    RtlpGetAclFromSddlAclString refExt SE_DACL_PROTECTED (some []) true =
      some (STATUS_SUCCESS, none, SE_DACL_PROTECTED) ∧
    assembleDescriptor refExt (some "O:BA\nG:BU\n".toList) 1 =
      .returns (.ok
        { Control := 0
          Owner := some { Revision := 1, IdentifierAuthority := 5, SubAuthority := [32, 544] }
          Group := some { Revision := 1, IdentifierAuthority := 5, SubAuthority := [32, 545] }
          Dacl := none, Sacl := none }) :=
  ⟨(C15_absent_acl_text refExt SE_DACL_PROTECTED true).2.1,
    ((C15_absent_acl_text refExt 0 true).2.2.2 (some "O:BA\nG:BU\n".toList) 1 _ none none
      (by rfl) (by decide) (by decide)).2.2⟩

/-- C16: whenever every clause of the text decodes, so that the parser has
assembled the absolute descriptor `sd`, and `RtlValidSecurityDescriptor` is
false for `sd`, the parser fails with `STATUS_INVALID_SECURITY_DESCR` and
returns a null descriptor; the self-relative conversion is not attempted: the
result is the same for every conversion routine and without any round of the
growth loop. -/
theorem C16_validity_gate (E : Ext) (fuel : Nat) (psz : Option CStr) (rev : Nat)
    (sd : SECURITY_DESCRIPTOR)
    (f : SECURITY_DESCRIPTOR → Nat → NTSTATUS × Nat × SECURITY_DESCRIPTOR)
    (hasm : assembleDescriptor E psz rev = .returns (.ok sd))
    (hinv : E.RtlValidSecurityDescriptor sd = false) :
    RtlAllocateSecurityDescriptorFromSddlCString { E with RtlAbsoluteToSelfRelativeSD := f }
        fuel psz rev =
      .returns (STATUS_INVALID_SECURITY_DESCR, none, 1024) := by
  have hsame : assembleDescriptor { E with RtlAbsoluteToSelfRelativeSD := f } psz rev =
      assembleDescriptor E psz rev := rfl
  rw [parser_eq_assemble, hsame, hasm]
  simp [hinv]

set_option maxRecDepth 1000000 in
theorem C16_validity_gate_witness :
    RtlAllocateSecurityDescriptorFromSddlCString
        { invalidExt with RtlAbsoluteToSelfRelativeSD := refExt.RtlAbsoluteToSelfRelativeSD }
        0 (some "O:BA\nG:BU\nD:(A;;GA;;;WD)\n".toList) 1 =
      .returns (STATUS_INVALID_SECURITY_DESCR, none, 1024) :=
  C16_validity_gate invalidExt 0 (some "O:BA\nG:BU\nD:(A;;GA;;;WD)\n".toList) 1 _
    refExt.RtlAbsoluteToSelfRelativeSD (by rfl) rfl

/-- C18: with the absolute descriptor created, the parser fails with
`STATUS_INVALID_PARAMETER` and a null descriptor for every `SddlRevision` other
than `SDDL_REVISION_1` and for a null or empty text, whatever the text holds
and without entering the growth loop; the serializer fails with
`STATUS_INVALID_PARAMETER` and a null string for every `SddlRevision` other
than `SDDL_REVISION_1` and for a null descriptor, whatever the descriptor
holds. -/
theorem C18_argument_validation (E : Ext) (fuel : Nat) (psz : Option CStr) (rev : Nat)
    (pSecurityDescriptor : Option SECURITY_DESCRIPTOR) (si : Nat) (sd0 : SECURITY_DESCRIPTOR)
    (hcreate : E.RtlCreateSecurityDescriptorAbsolute SECURITY_DESCRIPTOR_REVISION = .ok sd0) :
    (rev ≠ SDDL_REVISION_1 ∨ IsNullOrEmptyString psz = true →
      RtlAllocateSecurityDescriptorFromSddlCString E fuel psz rev =
        .returns (STATUS_INVALID_PARAMETER, none, 1024)) ∧
    (rev ≠ SDDL_REVISION_1 ∨ pSecurityDescriptor = none →
      RtlAllocateSddlCStringFromSecurityDescriptor E pSecurityDescriptor rev si =
        .returns (STATUS_INVALID_PARAMETER, none)) := by
  constructor
  · intro h
    apply parser_rejects
    have hargs : SDDL_REVISION_1 ≠ rev ∨ IsNullOrEmptyString psz = true :=
      h.imp (fun e => Ne.symm e) id
    unfold ownerGroupSteps
    simp only [hcreate, bind, Except.bind, throw, throwThe, MonadExceptOf.throw, hargs, if_true]
  · intro h
    have hargs : SDDL_REVISION_1 ≠ rev ∨ pSecurityDescriptor.isNone = true := by
      rcases h with h | h
      · exact Or.inl (Ne.symm h)
      · exact Or.inr (by rw [h]; rfl)
    unfold RtlAllocateSddlCStringFromSecurityDescriptor
    simp only [hargs, if_true]
    rfl

set_option maxRecDepth 1000000 in
theorem C18_argument_validation_witness :
    RtlAllocateSecurityDescriptorFromSddlCString refExt 0 (some "O:BA\nG:BU\nD:P\n".toList) 2 =
      .returns (STATUS_INVALID_PARAMETER, none, 1024) ∧
    RtlAllocateSecurityDescriptorFromSddlCString refExt 0 (some []) 1 =
      .returns (STATUS_INVALID_PARAMETER, none, 1024) ∧
    RtlAllocateSddlCStringFromSecurityDescriptor refExt (some sampleDescriptor) 2 15 =
      .returns (STATUS_INVALID_PARAMETER, none) ∧
    RtlAllocateSddlCStringFromSecurityDescriptor refExt none 1 15 =
      .returns (STATUS_INVALID_PARAMETER, none) :=
  ⟨(C18_argument_validation refExt 0 (some "O:BA\nG:BU\nD:P\n".toList) 2 none 15 _ rfl).1
      (Or.inl (by decide)),
    (C18_argument_validation refExt 0 (some []) 1 none 15 _ rfl).1 (Or.inr rfl),
    (C18_argument_validation refExt 0 none 2 (some sampleDescriptor) 15 _ rfl).2
      (Or.inl (by decide)),
    (C18_argument_validation refExt 0 none 1 none 15 _ rfl).2 (Or.inr rfl)⟩

/-! ## Failure paths and the layout of the rendered text -/

set_option maxRecDepth 1000000 in
/-- C17: on the ACL text `(A;;GA;;;BA)x` the clause splitter
`RtlpParseSddlAclString` fails with `STATUS_INVALID_PARAMETER` after releasing
its clause array, and hands back the address of the released array, not null;
`RtlpGetAclFromSddlAclString` releases this array again on its way out, which
is undefined, and so is the parser on a text with the section
`D:(A;;GA;;;BA)x`: no null descriptor with a failing status is returned. -/
theorem C17_released_array_handed_back :
    RtlpParseSddlAclString "(A;;GA;;;BA)x".toList = (STATUS_INVALID_PARAMETER, .freed, 2) ∧
    RtlpGetAclFromSddlAclString refExt 0 (some "(A;;GA;;;BA)x".toList) true = none ∧
    RtlAllocateSecurityDescriptorFromSddlCString refExt 2
      (some "O:BA\nG:BU\nD:(A;;GA;;;BA)x\n".toList) 1 = .undefined := by
  decide

theorem strOf_of_null (x : Option CStr) (h : IsNullOrEmptyString x = true) : strOf x = [] := by
  cases x with
  | none => rfl
  | some s =>
    cases s with
    | nil => rfl
    | cons a t => simp [IsNullOrEmptyString] at h

theorem sddlText_layout (E : Ext) (si : Nat) (o g d dc s sc : Option CStr) :
    sddlText E si o g d dc s sc = layoutText E.SDDL_SECTION_DELIMINATOR_S o g d dc s sc := by
  obtain ⟨g1, g2, g3, g4⟩ := securityInformation_guards si
  have hnone : strOf none = ([] : CStr) := rfl
  unfold sddlText layoutText layoutSection
  simp only [g1, g2, g3, g4, ne_eq, not_false_eq_true, true_and, hnone, List.append_nil,
    List.nil_append]
  by_cases ho : IsNullOrEmptyString o = true <;> by_cases hg : IsNullOrEmptyString g = true <;>
    by_cases hd : IsNullOrEmptyString d = true <;> by_cases hs : IsNullOrEmptyString s = true <;>
    by_cases hdc : IsNullOrEmptyString dc = true <;>
    by_cases hsc : IsNullOrEmptyString sc = true <;>
    simp [ho, hg, hd, hs, hdc, hsc, strOf_of_null]

theorem aceString_none (E : Ext) (abs : SECURITY_DESCRIPTOR)
    (get : SECURITY_DESCRIPTOR → Except NTSTATUS (Bool × Option ACL × Bool))
    (present defaulted : Bool) (acl : Option ACL)
    (hget : get abs = .ok (present, acl, defaulted))
    (h : acl = none ∨ present = false ∨
      ∃ a, acl = some a ∧ E.RtlGetAclAceCount a % 2 ^ 16 = 0) :
    RtlpGetSddlAceStringFromSecurityDescriptor E abs get = (STATUS_SUCCESS, none) := by
  unfold RtlpGetSddlAceStringFromSecurityDescriptor
  rw [hget]
  rcases h with h | h | ⟨a, h, hc⟩
  · subst h; rfl
  · subst h
    cases acl <;> simp
  · subst h
    have hc' : E.RtlGetAclAceCount a % 65536 = 0 := hc
    simp [hc']

theorem sddlText_length (E : Ext) (hdelim : E.SDDL_SECTION_DELIMINATOR_S.length = 1) (si : Nat)
    (o g d dc s sc : Option CStr) :
    (sddlText E si o g d dc s sc).length = sSddlLength si o g d dc s sc := by
  obtain ⟨g1, g2, g3, g4⟩ := securityInformation_guards si
  unfold sddlText sSddlLength
  simp only [g1, g2, g3, g4, ne_eq, not_false_eq_true, true_and]
  by_cases ho : IsNullOrEmptyString o = true <;> by_cases hg : IsNullOrEmptyString g = true <;>
    by_cases hd : IsNullOrEmptyString d = true <;> by_cases hs : IsNullOrEmptyString s = true <;>
    by_cases hdc : IsNullOrEmptyString dc = true <;>
    by_cases hsc : IsNullOrEmptyString sc = true <;>
    simp [ho, hg, hd, hs, hdc, hsc, hdelim] <;> omega

/-- C19: when the owner, group, DACL and SACL renderers and the two control
encoders succeed with the strings `o`, `g`, `d`, `dc`, `s`, `sc`, the text of
`RtlAllocateSddlCStringFromSecurityDescriptor` is the concatenation, in the
order O, G, D, S, of `O:` + o + delimiter, `G:` + g + delimiter, `D:` + dc + d
+ delimiter and `S:` + sc + s + delimiter, a section being included exactly
when its o / g / d / s string is neither null nor empty.  The ACE string of a
list is null when the list is absent, not present or has no ACE, so that no
section is written for it whatever its control flags.  With a delimiter of one
character the text has the length `sSddlLength` for which its buffer was
allocated. -/
theorem C19_serialization_layout (E : Ext) (sd abs : SECURITY_DESCRIPTOR) (si : Nat)
    (o g d dc s sc : Option CStr)
    (hvalid : E.RtlValidRelativeSecurityDescriptor sd
      (E.RtlLengthSecurityDescriptorRelative sd) 0 = STATUS_SUCCESS)
    (habs : E.RtlSelfRelativeToAbsoluteSD sd = .ok abs)
    (ho : RtlpGetSddlSidStringFromSecurityDescriptor E abs E.RtlGetOwnerSecurityDescriptor =
      (STATUS_SUCCESS, o))
    (hg : RtlpGetSddlSidStringFromSecurityDescriptor E abs E.RtlGetGroupSecurityDescriptor =
      (STATUS_SUCCESS, g))
    (hd : RtlpGetSddlAceStringFromSecurityDescriptor E abs E.RtlGetDaclSecurityDescriptor =
      (STATUS_SUCCESS, d))
    (hdc : RtlpMapAclControlToSddlControl abs.Control true = some (STATUS_SUCCESS, dc))
    (hs : RtlpGetSddlAceStringFromSecurityDescriptor E abs E.RtlGetSaclSecurityDescriptor =
      (STATUS_SUCCESS, s))
    (hsc : RtlpMapAclControlToSddlControl abs.Control false = some (STATUS_SUCCESS, sc)) :
    RtlAllocateSddlCStringFromSecurityDescriptor E (some sd) SDDL_REVISION_1 si =
      .returns (STATUS_SUCCESS, some (layoutText E.SDDL_SECTION_DELIMINATOR_S o g d dc s sc)) ∧
    (∀ (get : SECURITY_DESCRIPTOR → Except NTSTATUS (Bool × Option ACL × Bool))
        (present defaulted : Bool) (acl : Option ACL),
      get abs = .ok (present, acl, defaulted) →
      (acl = none ∨ present = false ∨
        ∃ a, acl = some a ∧ E.RtlGetAclAceCount a % 2 ^ 16 = 0) →
      RtlpGetSddlAceStringFromSecurityDescriptor E abs get = (STATUS_SUCCESS, none)) ∧
    (E.SDDL_SECTION_DELIMINATOR_S.length = 1 →
      (layoutText E.SDDL_SECTION_DELIMINATOR_S o g d dc s sc).length =
        sSddlLength si o g d dc s sc) := by
  obtain ⟨g1, g2, g3, g4⟩ := securityInformation_guards si
  refine ⟨?_, fun get present defaulted acl hget h =>
    aceString_none E abs get present defaulted acl hget h,
    fun hlen => sddlText_layout E si o g d dc s sc ▸ sddlText_length E hlen si o g d dc s sc⟩
  unfold RtlAllocateSddlCStringFromSecurityDescriptor
  simp only [bind, ExceptT.bind, ExceptT.mk, ExceptT.bindCont, Option.bind, defined, chkDefined,
    pure, ExceptT.pure, ExceptT.run, throw, throwThe, MonadExceptOf.throw, chk,
    hvalid, habs, ho, hg, hd, hdc, hs, hsc, g1, g2, g3, g4, ne_eq,
    not_true_eq_false, not_false_eq_true, Option.isNone_some, Bool.false_eq_true, or_self,
    if_false, if_true, Option.map_some', sddlText_layout]

set_option maxRecDepth 1000000 in
theorem C19_serialization_layout_witness :
    RtlAllocateSddlCStringFromSecurityDescriptor refExt
        (some { emptyDaclDescriptor with
          Control := SE_SELF_RELATIVE ||| SE_DACL_PRESENT ||| SE_DACL_PROTECTED })
        SDDL_REVISION_1 0 =
      .returns (STATUS_SUCCESS, some "O:BA\nG:BU\n".toList) :=
  (C19_serialization_layout refExt
    { emptyDaclDescriptor with
      Control := SE_SELF_RELATIVE ||| SE_DACL_PRESENT ||| SE_DACL_PROTECTED }
    { emptyDaclDescriptor with Control := SE_DACL_PRESENT ||| SE_DACL_PROTECTED } 0
    (some "BA".toList) (some "BU".toList) none (some "P".toList) none (some [])
    (by decide) (by rfl) (by decide) (by decide) (by decide) (by decide) (by decide)
    (by decide)).1

/-! ## Splitting the text into sections -/

theorem strtokAll_no_delim (text : CStr) (ch : Char) (hne : text ≠ []) (h : ch ∉ text) :
    strtokAll text [ch] = [text] := by
  obtain ⟨x, xs, rfl⟩ := List.exists_cons_of_ne_nil hne
  have hx : x ≠ ch := fun e => h (by simp [e])
  have hd : List.dropWhile (fun c => decide (c ∈ [ch])) (x :: xs) = x :: xs := by
    rw [List.dropWhile_cons]
    have : decide (x ∈ [ch]) = false := by simp [hx]
    rw [this]
    rfl
  have hall : ∀ y ∈ x :: xs, (fun c => decide (c ∉ [ch])) y = true := by
    intro y hy
    have : y ≠ ch := fun e => h (e ▸ hy)
    simp [this]
  have ht : List.takeWhile (fun c => decide (c ∉ [ch])) (x :: xs) = x :: xs :=
    List.takeWhile_eq_self_iff.mpr hall
  have hdr : List.dropWhile (fun c => decide (c ∉ [ch])) (x :: xs) = [] :=
    List.dropWhile_eq_nil_iff.mpr hall
  have h1 : strtok_r (x :: xs) [ch] = some (x :: xs, []) := by
    unfold strtok_r
    simp only [hd, ht, hdr]
    simp
  have h2 : strtok_r [] [ch] = none := by
    simp [strtok_r]
  unfold strtokAll
  simp only [List.length_cons]
  unfold strtokLoop
  simp only [h1]
  unfold strtokLoop
  simp only [h2]

set_option maxRecDepth 1000000 in
/-- C20 (counterexample): for the bodies `BA`, `BU`, `(A;;GA;;;WD)` and
`(AU;SA;GA;;;WD)` the text `O:BAG:BUD:(A;;GA;;;WD)S:(AU;SA;GA;;;WD)` is not
split into these four bodies, whatever character the section delimiter is;
with the line feed as delimiter the whole rest of the text is the owner body
and the other three are null. -/
theorem C20_prefixes_do_not_split :
    (∀ ch : Char,
      RtlpParseSddlString { refExt with SDDL_SECTION_DELIMINATOR_S := [ch] }
          (SDDL_OWNER ++ SDDL_DELIMINATOR_S ++ "BA".toList ++
            SDDL_GROUP ++ SDDL_DELIMINATOR_S ++ "BU".toList ++
            SDDL_DACL ++ SDDL_DELIMINATOR_S ++ "(A;;GA;;;WD)".toList ++
            SDDL_SACL ++ SDDL_DELIMINATOR_S ++ "(AU;SA;GA;;;WD)".toList) ≠
        (STATUS_SUCCESS, some "BA".toList, some "BU".toList, some "(A;;GA;;;WD)".toList,
          some "(AU;SA;GA;;;WD)".toList)) ∧
    RtlpParseSddlString refExt "O:BAG:BUD:(A;;GA;;;WD)S:(AU;SA;GA;;;WD)".toList =
      (STATUS_SUCCESS, some "BAG:BUD:(A;;GA;;;WD)S:(AU;SA;GA;;;WD)".toList, none, none, none) := by
  refine ⟨?_, by decide⟩
  intro ch
  by_cases hmem : ch ∈ "O:BAG:BUD:(A;;GA;;;WD)S:(AU;SA;GA;;;WD)".toList
  · have hall : ∀ c ∈ "O:BAG:BUD:(A;;GA;;;WD)S:(AU;SA;GA;;;WD)".toList,
        c ∈ ['O', ':', 'B', 'A', 'G', 'U', 'D', '(', ';', 'W', ')', 'S'] := by decide
    have hcases := hall ch hmem
    simp only [List.mem_cons, List.mem_singleton, List.not_mem_nil, or_false] at hcases
    rcases hcases with h | h | h | h | h | h | h | h | h | h | h | h <;> subst h <;> decide
  · have htok := strtokAll_no_delim _ ch (by decide) hmem
    intro hres
    unfold RtlpParseSddlString at hres
    have hd : ({ refExt with SDDL_SECTION_DELIMINATOR_S := [ch] } : Ext).SDDL_SECTION_DELIMINATOR_S
        = [ch] := rfl
    rw [hd] at hres
    have htok' : strtokAll (SDDL_OWNER ++ SDDL_DELIMINATOR_S ++ "BA".toList ++
            SDDL_GROUP ++ SDDL_DELIMINATOR_S ++ "BU".toList ++
            SDDL_DACL ++ SDDL_DELIMINATOR_S ++ "(A;;GA;;;WD)".toList ++
            SDDL_SACL ++ SDDL_DELIMINATOR_S ++ "(AU;SA;GA;;;WD)".toList) [ch] =
        ["O:BAG:BUD:(A;;GA;;;WD)S:(AU;SA;GA;;;WD)".toList] := htok
    rw [htok'] at hres
    revert hres
    decide

/-- C20 (amended): with the line feed as section delimiter, for every owner
body `o`, group body `g`, DACL body `d` and SACL body `s` without a line feed,
the text `O:` + o + delimiter + `G:` + g + delimiter + `D:` + d + delimiter +
`S:` + s + delimiter (each section ended by the section delimiter) is split by
`RtlpParseSddlString` into owner = o, group = g, dacl = d, sacl = s. -/
theorem C20_sections_split_at_delimiter (E : Ext)
    (hdelim : E.SDDL_SECTION_DELIMINATOR_S = ['\n']) (o g d s : CStr)
    (ho : '\n' ∉ o) (hg : '\n' ∉ g) (hd : '\n' ∉ d) (hs : '\n' ∉ s) :
    RtlpParseSddlString E
        (SDDL_OWNER ++ SDDL_DELIMINATOR_S ++ o ++ E.SDDL_SECTION_DELIMINATOR_S ++
          (SDDL_GROUP ++ SDDL_DELIMINATOR_S ++ g ++ E.SDDL_SECTION_DELIMINATOR_S) ++
          (SDDL_DACL ++ SDDL_DELIMINATOR_S ++ d ++ E.SDDL_SECTION_DELIMINATOR_S) ++
          (SDDL_SACL ++ SDDL_DELIMINATOR_S ++ s ++ E.SDDL_SECTION_DELIMINATOR_S)) =
      (STATUS_SUCCESS, some o, some g, some d, some s) := by
  have h := parseSddlString_sections E hdelim o g (some d) (some s) ho hg
    (fun x hx => by injection hx with hx; exact hx ▸ hd)
    (fun x hx => by injection hx with hx; exact hx ▸ hs)
  rw [hdelim]
  simpa [textOf] using h

set_option maxRecDepth 1000000 in
theorem C20_sections_split_at_delimiter_witness :
    RtlpParseSddlString refExt "O:BA\nG:BU\nD:(A;;GA;;;WD)\nS:(AU;SA;GA;;;WD)\n".toList =
      (STATUS_SUCCESS, some "BA".toList, some "BU".toList, some "(A;;GA;;;WD)".toList,
        some "(AU;SA;GA;;;WD)".toList) :=
  C20_sections_split_at_delimiter refExt rfl "BA".toList "BU".toList "(A;;GA;;;WD)".toList
    "(AU;SA;GA;;;WD)".toList (by decide) (by decide) (by decide) (by decide)

/-! ## Recognition and order of the sections -/

theorem hasPrefix_head (tok : CStr) (c : Char) :
    hasPrefix tok [c] = true ↔ tok.head? = some c := by
  cases tok with
  | nil => simp [hasPrefix]
  | cons x xs => simp [hasPrefix]

theorem sectionStep_ignored (st : Option CStr × Option CStr × Option CStr × Option CStr)
    (tok : CStr) (h : ¬ startsWithSectionLetter tok) : sectionStep st tok = .ok st := by
  unfold startsWithSectionLetter at h
  simp only [not_or] at h
  have hO : hasPrefix tok SDDL_OWNER = false := by
    have := (hasPrefix_head tok 'O').not.mpr h.1
    simpa using this
  have hG : hasPrefix tok SDDL_GROUP = false := by
    have := (hasPrefix_head tok 'G').not.mpr h.2.1
    simpa using this
  have hD : hasPrefix tok SDDL_DACL = false := by
    have := (hasPrefix_head tok 'D').not.mpr h.2.2.1
    simpa using this
  have hS : hasPrefix tok SDDL_SACL = false := by
    have := (hasPrefix_head tok 'S').not.mpr h.2.2.2
    simpa using this
  simp [sectionStep, hO, hG, hD, hS]

theorem sectionStep_bad (st : Option CStr × Option CStr × Option CStr × Option CStr)
    (tok : CStr) (h : startsWithSectionLetter tok) (h2 : tok.get? 1 ≠ some SDDL_DELIMINATOR_C) :
    sectionStep st tok = .error STATUS_INVALID_PARAMETER := by
  have hl : SDDL_OWNER.length = 1 ∧ SDDL_GROUP.length = 1 ∧ SDDL_DACL.length = 1 ∧
      SDDL_SACL.length = 1 := ⟨rfl, rfl, rfl, rfl⟩
  unfold startsWithSectionLetter at h
  unfold sectionStep
  simp only [hl.1, hl.2.1, hl.2.2.1, hl.2.2.2, h2, ne_eq, not_false_eq_true, if_true]
  have hO := hasPrefix_head tok 'O'
  have hG := hasPrefix_head tok 'G'
  have hD := hasPrefix_head tok 'D'
  have hS := hasPrefix_head tok 'S'
  split_ifs with a b c d
  · rfl
  · rfl
  · rfl
  · rfl
  · exfalso
    rcases h with h | h | h | h
    · exact a (hO.mpr h)
    · exact b (hG.mpr h)
    · exact c (hD.mpr h)
    · exact d (hS.mpr h)

theorem sectionStep_changes (st st' : Option CStr × Option CStr × Option CStr × Option CStr)
    (tok : CStr) (h : sectionStep st tok = .ok st') (hne : st' ≠ st) :
    startsWithSectionLetter tok ∧ tok.get? 1 = some SDDL_DELIMINATOR_C := by
  by_cases hl : startsWithSectionLetter tok
  · refine ⟨hl, ?_⟩
    by_contra h2
    rw [sectionStep_bad st tok hl h2] at h
    cases h
  · rw [sectionStep_ignored st tok hl] at h
    injection h with h
    exact absurd h.symm hne

theorem foldlM_sectionStep_bad (toks : List CStr) :
    ∀ st : Option CStr × Option CStr × Option CStr × Option CStr,
      (∃ tok ∈ toks, startsWithSectionLetter tok ∧ tok.get? 1 ≠ some SDDL_DELIMINATOR_C) →
      toks.foldlM sectionStep st = .error STATUS_INVALID_PARAMETER := by
  induction toks with
  | nil => intro st h; obtain ⟨tok, hm, _⟩ := h; cases hm
  | cons t ts ih =>
    intro st h
    rw [List.foldlM_cons]
    cases hs : sectionStep st t with
    | error e =>
      have := sectionStep_error st t e hs
      subst this
      rfl
    | ok st1 =>
      obtain ⟨tok, hm, hb1, hb2⟩ := h
      rcases List.mem_cons.mp hm with rfl | hm
      · rw [sectionStep_bad st tok hb1 hb2] at hs
        cases hs
      · exact ih st1 ⟨tok, hm, hb1, hb2⟩

/-- C29: in `RtlpParseSddlString` a token that starts with `O`, `G`, `D` or `S`
followed by `:` is taken as the owner, group, DACL or SACL section with the
rest of the token as its body; a token changes the sections only if it starts
with one of these letters followed by `:`; a token that starts with one of
these letters not followed by `:` makes the whole split fail with
`STATUS_INVALID_PARAMETER` and null outputs, wherever it stands; and a token
that starts with any other character is ignored without error. -/
theorem C29_section_prefix_recognition (E : Ext) :
    (∀ (st : Option CStr × Option CStr × Option CStr × Option CStr) (body : CStr),
      sectionStep st ('O' :: ':' :: body) = .ok (some body, st.2.1, st.2.2.1, st.2.2.2) ∧
      sectionStep st ('G' :: ':' :: body) = .ok (st.1, some body, st.2.2.1, st.2.2.2) ∧
      sectionStep st ('D' :: ':' :: body) = .ok (st.1, st.2.1, some body, st.2.2.2) ∧
      sectionStep st ('S' :: ':' :: body) = .ok (st.1, st.2.1, st.2.2.1, some body)) ∧
    (∀ (st st' : Option CStr × Option CStr × Option CStr × Option CStr) (tok : CStr),
      sectionStep st tok = .ok st' → st' ≠ st →
      startsWithSectionLetter tok ∧ tok.get? 1 = some SDDL_DELIMINATOR_C) ∧
    (∀ text : CStr,
      (∃ tok ∈ strtokAll text E.SDDL_SECTION_DELIMINATOR_S,
        startsWithSectionLetter tok ∧ tok.get? 1 ≠ some SDDL_DELIMINATOR_C) →
      RtlpParseSddlString E text = (STATUS_INVALID_PARAMETER, none, none, none, none)) ∧
    (∀ (st : Option CStr × Option CStr × Option CStr × Option CStr) (tok : CStr),
      ¬ startsWithSectionLetter tok → sectionStep st tok = .ok st) := by
  refine ⟨fun st body => ⟨sectionStep_owner st body, sectionStep_group st body,
    sectionStep_dacl st body, sectionStep_sacl st body⟩, sectionStep_changes, ?_,
    sectionStep_ignored⟩
  intro text h
  unfold RtlpParseSddlString
  rw [foldlM_sectionStep_bad _ _ h]

set_option maxRecDepth 1000000 in
theorem C29_section_prefix_recognition_witness :
    RtlpParseSddlString refExt "O:BA\nG:BU\nDx\n".toList =
      (STATUS_INVALID_PARAMETER, none, none, none, none) ∧
    sectionStep (some "BA".toList, none, none, none) "X:(A;;GA;;;WD)".toList =
      .ok (some "BA".toList, none, none, none) :=
  ⟨(C29_section_prefix_recognition refExt).2.2.1 _ ⟨"Dx".toList, by decide, by decide, by decide⟩,
    (C29_section_prefix_recognition refExt).2.2.2 _ _ (by decide)⟩

theorem sectionStep_kinds (tok : CStr) :
    (∀ st, sectionStep st tok = .ok st) ∨
    (∀ st, sectionStep st tok = .error STATUS_INVALID_PARAMETER) ∨
    (∃ body, tok = 'O' :: ':' :: body) ∨ (∃ body, tok = 'G' :: ':' :: body) ∨
    (∃ body, tok = 'D' :: ':' :: body) ∨ (∃ body, tok = 'S' :: ':' :: body) := by
  by_cases hl : startsWithSectionLetter tok
  · by_cases h2 : tok.get? 1 = some SDDL_DELIMINATOR_C
    · right; right
      match tok, hl, h2 with
      | [], hl, _ => simp [startsWithSectionLetter] at hl
      | [x], _, h2 => simp at h2
      | x :: y :: body, hl, h2 =>
        simp only [List.get?_cons_succ, List.get?_cons_zero, Option.some.injEq] at h2
        simp only [startsWithSectionLetter, List.head?_cons, Option.some.injEq] at hl
        subst h2
        rcases hl with h | h | h | h <;> subst h
        · exact Or.inl ⟨body, rfl⟩
        · exact Or.inr (Or.inl ⟨body, rfl⟩)
        · exact Or.inr (Or.inr (Or.inl ⟨body, rfl⟩))
        · exact Or.inr (Or.inr (Or.inr ⟨body, rfl⟩))
    · exact Or.inr (Or.inl (fun st => sectionStep_bad st tok hl h2))
  · exact Or.inl (fun st => sectionStep_ignored st tok hl)

theorem sectionStep_comm (st : Option CStr × Option CStr × Option CStr × Option CStr)
    (x y : CStr)
    (h : ∀ pre ∈ sectionPrefixes, ¬ (hasPrefix x pre = true ∧ hasPrefix y pre = true)) :
    (sectionStep st x >>= fun s => sectionStep s y) =
      (sectionStep st y >>= fun s => sectionStep s x) := by
  have hO := h (SDDL_OWNER ++ SDDL_DELIMINATOR_S) (by simp [sectionPrefixes])
  have hG := h (SDDL_GROUP ++ SDDL_DELIMINATOR_S) (by simp [sectionPrefixes])
  have hD := h (SDDL_DACL ++ SDDL_DELIMINATOR_S) (by simp [sectionPrefixes])
  have hS := h (SDDL_SACL ++ SDDL_DELIMINATOR_S) (by simp [sectionPrefixes])
  have pO : ∀ b : CStr, hasPrefix ('O' :: ':' :: b) (SDDL_OWNER ++ SDDL_DELIMINATOR_S) = true :=
    fun b => by simp [hasPrefix, SDDL_OWNER, SDDL_DELIMINATOR_S]
  have pG : ∀ b : CStr, hasPrefix ('G' :: ':' :: b) (SDDL_GROUP ++ SDDL_DELIMINATOR_S) = true :=
    fun b => by simp [hasPrefix, SDDL_GROUP, SDDL_DELIMINATOR_S]
  have pD : ∀ b : CStr, hasPrefix ('D' :: ':' :: b) (SDDL_DACL ++ SDDL_DELIMINATOR_S) = true :=
    fun b => by simp [hasPrefix, SDDL_DACL, SDDL_DELIMINATOR_S]
  have pS : ∀ b : CStr, hasPrefix ('S' :: ':' :: b) (SDDL_SACL ++ SDDL_DELIMINATOR_S) = true :=
    fun b => by simp [hasPrefix, SDDL_SACL, SDDL_DELIMINATOR_S]
  have eO := fun s b => sectionStep_owner s b
  have eG := fun s b => sectionStep_group s b
  have eD := fun s b => sectionStep_dacl s b
  have eS := fun s b => sectionStep_sacl s b
  have cO : ∀ b : CStr, SDDL_OWNER ++ (SDDL_DELIMINATOR_S ++ b) = 'O' :: ':' :: b := fun _ => rfl
  have cG : ∀ b : CStr, SDDL_GROUP ++ (SDDL_DELIMINATOR_S ++ b) = 'G' :: ':' :: b := fun _ => rfl
  have cD : ∀ b : CStr, SDDL_DACL ++ (SDDL_DELIMINATOR_S ++ b) = 'D' :: ':' :: b := fun _ => rfl
  have cS : ∀ b : CStr, SDDL_SACL ++ (SDDL_DELIMINATOR_S ++ b) = 'S' :: ':' :: b := fun _ => rfl
  simp only [cO, cG, cD, cS] at eO eG eD eS
  rcases sectionStep_kinds x with hx | hx | ⟨bx, rfl⟩ | ⟨bx, rfl⟩ | ⟨bx, rfl⟩ | ⟨bx, rfl⟩ <;>
    rcases sectionStep_kinds y with hy | hy | ⟨by', rfl⟩ | ⟨by', rfl⟩ | ⟨by', rfl⟩ | ⟨by', rfl⟩ <;>
    first
    | (exfalso; exact hO ⟨pO _, pO _⟩)
    | (exfalso; exact hG ⟨pG _, pG _⟩)
    | (exfalso; exact hD ⟨pD _, pD _⟩)
    | (exfalso; exact hS ⟨pS _, pS _⟩)
    | simp [bind, Except.bind, hx, hy, eO, eG, eD, eS]
    | simp [bind, Except.bind, hx, eO, eG, eD, eS]
    | simp [bind, Except.bind, hy, eO, eG, eD, eS]
    | simp [bind, Except.bind, eO, eG, eD, eS]

theorem atMostOnce_tail (x : CStr) (l : List CStr) (h : AtMostOncePerSection (x :: l)) :
    AtMostOncePerSection l := by
  intro pre hp
  have := h pre hp
  rw [List.countP_cons] at this
  omega

theorem atMostOnce_pair (x y : CStr) (l : List CStr) (h : AtMostOncePerSection (y :: x :: l)) :
    ∀ pre ∈ sectionPrefixes, ¬ (hasPrefix x pre = true ∧ hasPrefix y pre = true) := by
  intro pre hp hxy
  have := h pre hp
  rw [List.countP_cons, List.countP_cons] at this
  simp only [hxy.1, hxy.2, if_true] at this
  omega

theorem atMostOnce_perm (l l' : List CStr) (hp : l.Perm l') (h : AtMostOncePerSection l) :
    AtMostOncePerSection l' := by
  intro pre hpre
  rw [← hp.countP_eq]
  exact h pre hpre

theorem foldlM_sectionStep_perm (l l' : List CStr) (hp : l.Perm l') :
    AtMostOncePerSection l →
    ∀ st : Option CStr × Option CStr × Option CStr × Option CStr,
      l.foldlM sectionStep st = l'.foldlM sectionStep st := by
  induction hp with
  | nil => intro _ st; rfl
  | cons x _ ih =>
    intro h st
    rw [List.foldlM_cons, List.foldlM_cons]
    cases hs : sectionStep st x with
    | error e => rfl
    | ok st1 => exact ih (atMostOnce_tail x _ h) st1
  | swap x y l =>
    intro h st
    have hc := sectionStep_comm st x y (atMostOnce_pair x y l h)
    simp only [List.foldlM_cons]
    simp only [bind, Except.bind] at hc ⊢
    cases hx : sectionStep st x with
    | error ex =>
      cases hy : sectionStep st y with
      | error ey =>
        rw [hx, hy] at hc
        simp only [] at hc ⊢
        exact hc.symm
      | ok sy =>
        rw [hx, hy] at hc
        simp only [] at hc ⊢
        rw [← hc]
    | ok sx =>
      cases hy : sectionStep st y with
      | error ey =>
        rw [hx, hy] at hc
        simp only [] at hc ⊢
        rw [hc]
      | ok sy =>
        rw [hx, hy] at hc
        simp only [] at hc ⊢
        rw [hc]
  | trans h1 _ ih1 ih2 =>
    intro h st
    rw [ih1 h st, ih2 (atMostOnce_perm _ _ h1 h) st]

/-- C21: when the section tokens of two texts are permutations of each other
and each of `O:`, `G:`, `D:`, `S:` starts at most one token,
`RtlpParseSddlString` returns the same status, owner, group, DACL and SACL
strings for both texts. -/
theorem C21_section_order_independent (E : Ext) (text text' : CStr)
    (hperm : (strtokAll text E.SDDL_SECTION_DELIMINATOR_S).Perm
      (strtokAll text' E.SDDL_SECTION_DELIMINATOR_S))
    (honce : AtMostOncePerSection (strtokAll text E.SDDL_SECTION_DELIMINATOR_S)) :
    RtlpParseSddlString E text = RtlpParseSddlString E text' := by
  unfold RtlpParseSddlString
  rw [foldlM_sectionStep_perm _ _ hperm honce]

set_option maxRecDepth 1000000 in
theorem C21_section_order_independent_witness :
    RtlpParseSddlString refExt "S:AI(AU;SA;GA;;;WD)\nD:(A;;GA;;;WD)\nG:BU\nO:BA\n".toList =
      (STATUS_SUCCESS, some "BA".toList, some "BU".toList, some "(A;;GA;;;WD)".toList,
        some "AI(AU;SA;GA;;;WD)".toList) :=
  (C21_section_order_independent refExt
    "O:BA\nG:BU\nD:(A;;GA;;;WD)\nS:AI(AU;SA;GA;;;WD)\n".toList
    "S:AI(AU;SA;GA;;;WD)\nD:(A;;GA;;;WD)\nG:BU\nO:BA\n".toList
    (by decide) (by decide)).symm.trans (by decide)

/-! ## Splitting an ACL text into clauses -/

theorem mapM_error_of_mem {α β : Type} (f : α → Except NTSTATUS β) (e : NTSTATUS) (l : List α)
    (hall : ∀ x ∈ l, ∀ e', f x = .error e' → e' = e) (h : ∃ x ∈ l, f x = .error e) :
    l.mapM f = .error e := by
  induction l with
  | nil => obtain ⟨x, hx, _⟩ := h; cases hx
  | cons a l ih =>
    rw [List.mapM_cons]
    cases ha : f a with
    | error e' =>
      have := hall a (List.mem_cons_self _ _) e' ha
      subst this
      rfl
    | ok b =>
      obtain ⟨x, hx, hfx⟩ := h
      rcases List.mem_cons.mp hx with rfl | hx
      · rw [ha] at hfx; cases hfx
      · have := ih (fun y hy => hall y (List.mem_cons_of_mem _ hy)) ⟨x, hx, hfx⟩
        simp only [bind, Except.bind, this]

theorem parseSddlAclString_bad_piece (text : CStr)
    (h : ∃ tok ∈ strtokAll text SDDL_ACE_END_S, tok.head? ≠ some SDDL_ACE_BEGIN_C) :
    RtlpParseSddlAclString text =
      (STATUS_INVALID_PARAMETER, .freed, (strtokAll text SDDL_ACE_END_S).length) := by
  obtain ⟨tok, hm, hb⟩ := h
  have hlen : (strtokAll text SDDL_ACE_END_S).length ≠ 0 := by
    intro e
    rw [List.length_eq_zero.mp e] at hm
    cases hm
  unfold RtlpParseSddlAclString
  simp only [hlen, if_false]
  rw [mapM_error_of_mem _ STATUS_INVALID_PARAMETER]
  · intro x _ e' he
    split_ifs at he
    · injection he with he
      exact he.symm
  · exact ⟨tok, hm, by simp [hb]⟩

/-- C28: for clause bodies `c1 .. cn`, n ≥ 1, without `)` (and so for bodies
with neither `(` nor `)`), `RtlpParseSddlAclString` on `(c1)(c2)...(cn)`
succeeds with count n and the bodies in input order; and for every ACL text one
of whose pieces between `)` characters (the tokens of `strtok_r`) does not
begin with `(`, it fails with `STATUS_INVALID_PARAMETER`. -/
theorem C28_acl_clause_split :
    (∀ bodies : List CStr, bodies ≠ [] → (∀ b ∈ bodies, ')' ∉ b) →
      RtlpParseSddlAclString (aclText bodies) =
        (STATUS_SUCCESS, .live bodies, bodies.length)) ∧
    (∀ text : CStr,
      (∃ tok ∈ strtokAll text SDDL_ACE_END_S, tok.head? ≠ some SDDL_ACE_BEGIN_C) →
      (RtlpParseSddlAclString text).1 = STATUS_INVALID_PARAMETER) := by
  refine ⟨parseSddlAclString_aclText, fun text h => ?_⟩
  rw [parseSddlAclString_bad_piece text h]

set_option maxRecDepth 1000000 in
theorem C28_acl_clause_split_witness :
    RtlpParseSddlAclString "(A;;GA;;;BA)(D;;GW;;;WD)()".toList =
      (STATUS_SUCCESS, .live ["A;;GA;;;BA".toList, "D;;GW;;;WD".toList, []], 3) ∧
    (RtlpParseSddlAclString "(A;;GA;;;BA)D;;GW;;;WD)".toList).1 = STATUS_INVALID_PARAMETER :=
  ⟨C28_acl_clause_split.1 ["A;;GA;;;BA".toList, "D;;GW;;;WD".toList, []] (by decide) (by decide),
    C28_acl_clause_split.2 _ ⟨"D;;GW;;;WD".toList, by decide, by decide⟩⟩

/-! ## Unknown and unsupported mnemonics -/

/-! ### Folding over two-character slices -/

theorem range_succ_eq_cons (n : Nat) :
    List.range (n + 1) = 0 :: (List.range n).map (· + 1) := by
  rw [List.range_succ_eq_map]

theorem foldl_slices_cons2 {σ : Type} (step : σ → CStr → σ) (x y : Char) (rest : CStr) (c : σ) :
    (List.range ((x :: y :: rest).length / 2)).foldl
        (fun acc i => step acc (slice2 (x :: y :: rest) (i * 2))) c =
      (List.range (rest.length / 2)).foldl
        (fun acc i => step acc (slice2 rest (i * 2))) (step c [x, y]) := by
  have hlen : (x :: y :: rest).length / 2 = rest.length / 2 + 1 := by
    simp only [List.length_cons]
    omega
  rw [hlen, range_succ_eq_cons, List.foldl_cons, List.foldl_map]
  have h0 : slice2 (x :: y :: rest) (0 * 2) = [x, y] := by simp [slice2]
  have hs : ∀ i, slice2 (x :: y :: rest) ((i + 1) * 2) = slice2 rest (i * 2) := by
    intro i
    have : (i + 1) * 2 = i * 2 + 1 + 1 := by ring
    simp [slice2, this]
  simp only [h0, hs]

theorem foldl_slices_append {σ : Type} (step : σ → CStr → σ) (n : Nat) :
    ∀ (a b : CStr) (c : σ), a.length = 2 * n →
      (List.range ((a ++ b).length / 2)).foldl
          (fun acc i => step acc (slice2 (a ++ b) (i * 2))) c =
        (List.range (b.length / 2)).foldl (fun acc i => step acc (slice2 b (i * 2)))
          ((List.range (a.length / 2)).foldl (fun acc i => step acc (slice2 a (i * 2))) c) := by
  induction n with
  | zero =>
    intro a b c ha
    have : a = [] := List.length_eq_zero.mp (by omega)
    subst this
    simp
  | succ n ih =>
    intro a b c ha
    match a, ha with
    | x :: y :: rest, ha =>
      have hr : rest.length = 2 * n := by
        simp only [List.length_cons] at ha
        omega
      rw [List.cons_append, List.cons_append, foldl_slices_cons2, foldl_slices_cons2]
      exact ih rest b (step c [x, y]) hr

theorem foldl_slices_insert {σ : Type} (step : σ → CStr → σ) (s u : CStr) (k : Nat) (c : σ)
    (hk : 2 * k ≤ s.length) (hu : u.length = 2) (hskip : ∀ acc, step acc u = acc) :
    (List.range ((s.take (2 * k) ++ (u ++ s.drop (2 * k))).length / 2)).foldl
        (fun acc i => step acc (slice2 (s.take (2 * k) ++ (u ++ s.drop (2 * k))) (i * 2))) c =
      (List.range (s.length / 2)).foldl (fun acc i => step acc (slice2 s (i * 2))) c := by
  have hta : (s.take (2 * k)).length = 2 * k := by
    rw [List.length_take]
    omega
  obtain ⟨x, y, rfl⟩ : ∃ x y, u = [x, y] := by
    match u, hu with
    | [x, y], _ => exact ⟨x, y, rfl⟩
  rw [foldl_slices_append step k _ _ c hta]
  rw [List.cons_append, List.cons_append, List.nil_append, foldl_slices_cons2, hskip]
  rw [← foldl_slices_append step k _ _ c hta, List.take_append_drop]

theorem aceFlagStep_skip (c : Nat) (u : CStr) (h : u ∉ aceFlagMnemonics) :
    aceFlagStep c u = c := by
  simp only [aceFlagMnemonics, List.mem_cons, List.mem_singleton, List.not_mem_nil, or_false,
    not_or] at h
  obtain ⟨h1, h2, h3, h4, h5, h6, h7⟩ := h
  simp [aceFlagStep, h1, h2, h3, h4, h5, h6, h7]

theorem accessStep_skip (c : Nat) (u : CStr) (h : u ∉ rightsMnemonics) :
    accessStep c u = c := by
  simp only [rightsMnemonics, List.mem_cons, List.mem_singleton, List.not_mem_nil, or_false,
    not_or] at h
  obtain ⟨h1, h2, h3, h4, h5, h6, h7, h8, h9, h10, h11, h12, h13, h14, h15, h16, h17, h18,
    h19⟩ := h
  simp [accessStep, h1, h2, h3, h4, h5, h6, h7, h8, h9, h10, h11, h12, h13, h14, h15, h16,
    h17, h18, h19]

theorem flagDecoder_fold (s : CStr) :
    RtlpMapSddlFlagToAceFlag s =
      (List.range (s.length / 2)).foldl (fun acc i => aceFlagStep acc (slice2 s (i * 2))) 0 := by
  have hsz : SDDL_ACEFLAG_SIZE = 2 := rfl
  unfold RtlpMapSddlFlagToAceFlag
  simp only [hsz]
  split_ifs with h
  · simp [h]
  · rfl

theorem rightsDecoder_fold (s : CStr) :
    RtlpMapSddlRightsToAccessMask s =
      (List.range (s.length / 2)).foldl (fun acc i => accessStep acc (slice2 s (i * 2))) 0 := by
  have hsz : SDDL_RIGHT_SIZE = 2 := rfl
  unfold RtlpMapSddlRightsToAccessMask
  simp only [hsz]
  split_ifs with h
  · simp [h]
  · rfl

/-- C24: the two decoders are total functions without a status, and for every
string `s`, every even offset `2k` within `s` and every two-character slice `u`
that is not one of the mnemonics of the decoder, decoding `s` with `u` inserted
at offset `2k` gives the value decoded from `s`, for the ACE flags and for the
rights. -/
theorem C24_unknown_slice_dropped (s u : CStr) (k : Nat) (hk : 2 * k ≤ s.length)
    (hu : u.length = 2) :
    (u ∉ aceFlagMnemonics →
      RtlpMapSddlFlagToAceFlag (s.take (2 * k) ++ (u ++ s.drop (2 * k))) =
        RtlpMapSddlFlagToAceFlag s) ∧
    (u ∉ rightsMnemonics →
      RtlpMapSddlRightsToAccessMask (s.take (2 * k) ++ (u ++ s.drop (2 * k))) =
        RtlpMapSddlRightsToAccessMask s) := by
  constructor
  · intro h
    rw [flagDecoder_fold, flagDecoder_fold]
    exact foldl_slices_insert aceFlagStep s u k 0 hk hu (fun acc => aceFlagStep_skip acc u h)
  · intro h
    rw [rightsDecoder_fold, rightsDecoder_fold]
    exact foldl_slices_insert accessStep s u k 0 hk hu (fun acc => accessStep_skip acc u h)

theorem C24_unknown_slice_dropped_witness :
    RtlpMapSddlFlagToAceFlag "CIZZOI".toList = RtlpMapSddlFlagToAceFlag "CIOI".toList ∧
    RtlpMapSddlRightsToAccessMask "GRRPGW".toList = RtlpMapSddlRightsToAccessMask "GRGW".toList :=
  ⟨(C24_unknown_slice_dropped "CIOI".toList "ZZ".toList 1 (by decide) rfl).1 (by decide),
    (C24_unknown_slice_dropped "GRGW".toList "RP".toList 1 (by decide) rfl).2 (by decide)⟩

theorem slice2_flatten (L : List CStr) (hL : ∀ x ∈ L, x.length = 2) :
    ∀ i, slice2 L.flatten (i * 2) = [] ∨ slice2 L.flatten (i * 2) ∈ L := by
  induction L with
  | nil => intro i; left; simp [slice2]
  | cons a L ih =>
    intro i
    obtain ⟨x, y, rfl⟩ : ∃ x y, a = [x, y] := by
      have := hL a (List.mem_cons_self _ _)
      match a, this with
      | [x, y], _ => exact ⟨x, y, rfl⟩
    cases i with
    | zero => right; simp [slice2]
    | succ i =>
      have e : (i + 1) * 2 = i * 2 + 1 + 1 := by ring
      have hs : slice2 ([x, y] :: L).flatten ((i + 1) * 2) = slice2 L.flatten (i * 2) := by
        simp [slice2, e]
      rw [hs]
      rcases ih (fun z hz => hL z (List.mem_cons_of_mem _ hz)) i with h | h
      · exact Or.inl h
      · exact Or.inr (List.mem_cons_of_mem _ h)

theorem catIf_flatten (v bit : Nat) (mn psz : CStr)
    (h : ∃ L : List CStr, (∀ x ∈ L, x ∈ rightsMnemonics) ∧ psz = L.flatten)
    (hmn : mn ∈ rightsMnemonics) :
    ∃ L : List CStr, (∀ x ∈ L, x ∈ rightsMnemonics) ∧ catIf v bit mn psz = L.flatten := by
  obtain ⟨L, hL, rfl⟩ := h
  unfold catIf
  split_ifs
  · refine ⟨L ++ [mn], ?_, by simp⟩
    intro x hx
    rcases List.mem_append.mp hx with hx | hx
    · exact hL x hx
    · rw [List.mem_singleton.mp hx]; exact hmn
  · exact ⟨L, hL, rfl⟩

theorem rightsEncoder_flatten (m : Nat) :
    ∃ L : List CStr, (∀ x ∈ L, x ∈ rightsMnemonics) ∧
      strOf (RtlpMapAccessMaskToSddlRights m).2 = L.flatten := by
  unfold RtlpMapAccessMaskToSddlRights
  simp only [strOf]
  have h0 : ∃ L : List CStr, (∀ x ∈ L, x ∈ rightsMnemonics) ∧ ([] : CStr) = L.flatten :=
    ⟨[], by simp, rfl⟩
  refine catIf_flatten _ _ _ _ (catIf_flatten _ _ _ _ (catIf_flatten _ _ _ _
    (catIf_flatten _ _ _ _ (catIf_flatten _ _ _ _ (catIf_flatten _ _ _ _
    (catIf_flatten _ _ _ _ (catIf_flatten _ _ _ _ (catIf_flatten _ _ _ _
    (catIf_flatten _ _ _ _ (catIf_flatten _ _ _ _ (catIf_flatten _ _ _ _
    (catIf_flatten _ _ _ _ (catIf_flatten _ _ _ _ (catIf_flatten _ _ _ _
    (catIf_flatten _ _ _ _ (catIf_flatten _ _ _ _ (catIf_flatten _ _ _ _
    (catIf_flatten _ _ _ _ h0 ?_) ?_) ?_) ?_) ?_) ?_) ?_) ?_) ?_) ?_) ?_) ?_) ?_) ?_) ?_) ?_)
    ?_) ?_) ?_ <;> decide

theorem foldl_slices_flatten_skip {σ : Type} (step : σ → CStr → σ) (L : List CStr) :
    ∀ c : σ, (∀ x ∈ L, x.length = 2 ∧ ∀ acc, step acc x = acc) →
      (List.range (L.flatten.length / 2)).foldl
        (fun acc i => step acc (slice2 L.flatten (i * 2))) c = c := by
  induction L with
  | nil => intro c _; simp
  | cons a L ih =>
    intro c h
    obtain ⟨ha2, hskip⟩ := h a (List.mem_cons_self _ _)
    obtain ⟨x, y, rfl⟩ : ∃ x y, a = [x, y] := by
      match a, ha2 with
      | [x, y], _ => exact ⟨x, y, rfl⟩
    have e : ([x, y] :: L).flatten = x :: y :: L.flatten := by simp
    rw [e, foldl_slices_cons2, hskip]
    exact ih c (fun z hz => h z (List.mem_cons_of_mem _ hz))

/-- C25: for every access mask `m` no two-character slice at an even offset of
the string of `RtlpMapAccessMaskToSddlRights m` is a directory-service mnemonic
(RP, WP, CC, DC, LC, SW, LO, DT, CR), and for every rights string that is a
concatenation of directory-service mnemonics `RtlpMapSddlRightsToAccessMask`
returns 0. -/
theorem C25_directory_service_rights_unsupported :
    (∀ m i : Nat,
      slice2 (strOf (RtlpMapAccessMaskToSddlRights m).2) (i * 2) ∉ directoryServiceMnemonics) ∧
    (∀ L : List CStr, (∀ x ∈ L, x ∈ directoryServiceMnemonics) →
      RtlpMapSddlRightsToAccessMask L.flatten = 0) := by
  have hlen : ∀ x ∈ rightsMnemonics, x.length = 2 := by decide
  have hdisj : ∀ x ∈ rightsMnemonics, x ∉ directoryServiceMnemonics := by decide
  have hds : ∀ x ∈ directoryServiceMnemonics, x.length = 2 ∧ x ∉ rightsMnemonics := by decide
  constructor
  · intro m i
    obtain ⟨L, hL, hflat⟩ := rightsEncoder_flatten m
    rw [hflat]
    rcases slice2_flatten L (fun x hx => hlen x (hL x hx)) i with h | h
    · rw [h]; decide
    · exact hdisj _ (hL _ h)
  · intro L hL
    rw [rightsDecoder_fold]
    exact foldl_slices_flatten_skip accessStep L 0
      (fun x hx => ⟨(hds x (hL x hx)).1, fun acc => accessStep_skip acc x (hds x (hL x hx)).2⟩)

set_option maxRecDepth 1000000 in
theorem C25_directory_service_rights_unsupported_witness :
    RtlpMapSddlRightsToAccessMask "RPWPCCDCLCSWLODTCR".toList = 0 :=
  C25_directory_service_rights_unsupported.2
    [SDDL_READ_PROPERTY, SDDL_WRITE_PROPERTY, SDDL_CREATE_CHILD, SDDL_DELETE_CHILD,
      SDDL_LIST_CHILDREN, SDDL_SELF_WRITE, SDDL_LIST_OBJECT, SDDL_DELETE_TREE,
      SDDL_CONTROL_ACCESS] (by decide)

/-! ## Aliases of well-known SIDs -/

/-- C22: a SID whose canonical text is `S-1-1-0` is rendered as `SDDL_EVERYONE`
(`WD`) and a SID whose canonical text is `S-1-3-0` as `SDDL_CREATOR_OWNER`
(`CO`); the two strings differ, and the results are the same for every
`RtlGetRidSid` and every RID-keyed alias lookup `RtlpRidToAliasSidString`:
neither case consults them. -/
theorem C22_rid_zero_aliases (E : Ext) (pSid : Option SID)
    (f : Option SID → Except NTSTATUS Nat) (g : Nat → Option CStr) :
    (E.RtlAllocateCStringFromSid pSid = .ok SID_SECURITY_WORLD_RID →
      RtlpGetSddlSidStringFromSid { E with RtlGetRidSid := f, RtlpRidToAliasSidString := g }
        pSid = (STATUS_SUCCESS, some SDDL_EVERYONE)) ∧
    (E.RtlAllocateCStringFromSid pSid = .ok SID_SECURITY_CREATOR_OWNER_RID →
      RtlpGetSddlSidStringFromSid { E with RtlGetRidSid := f, RtlpRidToAliasSidString := g }
        pSid = (STATUS_SUCCESS, some SDDL_CREATOR_OWNER)) ∧
    SDDL_EVERYONE ≠ SDDL_CREATOR_OWNER ∧
    SDDL_EVERYONE = "WD".toList ∧ SDDL_CREATOR_OWNER = "CO".toList ∧
    SID_SECURITY_WORLD_RID = "S-1-1-0".toList ∧
    SID_SECURITY_CREATOR_OWNER_RID = "S-1-3-0".toList := by
  refine ⟨?_, ?_, by decide, rfl, rfl, rfl, rfl⟩
  · intro h
    have h' : ({ E with RtlGetRidSid := f, RtlpRidToAliasSidString := g } : Ext).RtlAllocateCStringFromSid
        pSid = .ok SID_SECURITY_WORLD_RID := h
    unfold RtlpGetSddlSidStringFromSid
    rw [h']
    have : strcaseeq SID_SECURITY_WORLD_RID SID_SECURITY_WORLD_RID = true := by decide
    simp only [bind, Except.bind, this, if_true, pure, Except.pure]
  · intro h
    have h' : ({ E with RtlGetRidSid := f, RtlpRidToAliasSidString := g } : Ext).RtlAllocateCStringFromSid
        pSid = .ok SID_SECURITY_CREATOR_OWNER_RID := h
    unfold RtlpGetSddlSidStringFromSid
    rw [h']
    have h1 : strcaseeq SID_SECURITY_CREATOR_OWNER_RID SID_SECURITY_WORLD_RID = false := by
      decide
    have h2 : strcaseeq SID_SECURITY_CREATOR_OWNER_RID SID_SECURITY_CREATOR_OWNER_RID = true := by
      decide
    simp only [bind, Except.bind, h1, h2, if_true, pure, Except.pure, Bool.false_eq_true,
      if_false]

set_option maxRecDepth 1000000 in
theorem C22_rid_zero_aliases_witness :
    RtlpGetSddlSidStringFromSid
        { refExt with RtlGetRidSid := fun _ => .error STATUS_INTERNAL_ERROR,
                      RtlpRidToAliasSidString := fun _ => some "XX".toList }
        (some { Revision := 1, IdentifierAuthority := 1, SubAuthority := [0] }) =
      (STATUS_SUCCESS, some "WD".toList) ∧
    RtlpGetSddlSidStringFromSid
        { refExt with RtlGetRidSid := fun _ => .error STATUS_INTERNAL_ERROR,
                      RtlpRidToAliasSidString := fun _ => some "XX".toList }
        (some { Revision := 1, IdentifierAuthority := 3, SubAuthority := [0] }) =
      (STATUS_SUCCESS, some "CO".toList) :=
  ⟨(C22_rid_zero_aliases refExt _ _ _).1 rfl, (C22_rid_zero_aliases refExt _ _ _).2.1 rfl⟩

theorem alias_by_rid (E : Ext) (p q : Option SID) (tp tq sddl : CStr) (rid : Nat)
    (hp : E.RtlAllocateCStringFromSid p = .ok tp) (hq : E.RtlAllocateCStringFromSid q = .ok tq)
    (h1 : strcaseeq tp SID_SECURITY_WORLD_RID = false)
    (h2 : strcaseeq tp SID_SECURITY_CREATOR_OWNER_RID = false)
    (h3 : strcaseeq tq SID_SECURITY_WORLD_RID = false)
    (h4 : strcaseeq tq SID_SECURITY_CREATOR_OWNER_RID = false)
    (hrp : E.RtlGetRidSid p = .ok rid) (hrq : E.RtlGetRidSid q = .ok rid)
    (ha : E.RtlpRidToAliasSidString rid = some sddl) :
    RtlpGetSddlSidStringFromSid E p = (STATUS_SUCCESS, some sddl) ∧
    RtlpGetSddlSidStringFromSid E q = (STATUS_SUCCESS, some sddl) := by
  constructor
  · unfold RtlpGetSddlSidStringFromSid
    simp only [hp, bind, Except.bind, h1, h2, hrp, ha, pure, Except.pure, Bool.false_eq_true,
      if_false]
  · unfold RtlpGetSddlSidStringFromSid
    simp only [hq, bind, Except.bind, h3, h4, hrq, ha, pure, Except.pure, Bool.false_eq_true,
      if_false]

set_option maxRecDepth 1000000 in
/-- C23: the SID `S-1-5-32-544` and the domain SID `S-1-5-21-7-8-9-544`, whose
canonical texts differ, are both rendered as the alias `BA`, while `BA`
resolves to `S-1-5-32-544` only: the alias is looked up by the trailing
relative identifier alone. -/
theorem C23_alias_by_rid_alone :
    refExt.RtlAllocateCStringFromSid
        (some { Revision := 1, IdentifierAuthority := 5, SubAuthority := [32, 544] }) =
      .ok "S-1-5-32-544".toList ∧
    refExt.RtlAllocateCStringFromSid
        (some { Revision := 1, IdentifierAuthority := 5, SubAuthority := [21, 7, 8, 9, 544] }) =
      .ok "S-1-5-21-7-8-9-544".toList ∧
    RtlpGetSddlSidStringFromSid refExt
        (some { Revision := 1, IdentifierAuthority := 5, SubAuthority := [32, 544] }) =
      (STATUS_SUCCESS, some "BA".toList) ∧
    RtlpGetSddlSidStringFromSid refExt
        (some { Revision := 1, IdentifierAuthority := 5, SubAuthority := [21, 7, 8, 9, 544] }) =
      (STATUS_SUCCESS, some "BA".toList) ∧
    refExt.RtlpAliasSidStringToSidString (some "BA".toList) = some "S-1-5-32-544".toList :=
  ⟨rfl, rfl, by decide, by decide, by decide⟩

/-! ## Rendering of the ACE clauses -/

theorem aceStringAt_clause (E : Ext) (acl : ACL) (i : Nat) (a : ACE)
    (hget : E.RtlGetAce acl i = .ok a)
    (hty : a.AceType = ACCESS_ALLOWED_ACE_TYPE ∨ a.AceType = ACCESS_DENIED_ACE_TYPE ∨
      a.AceType = SYSTEM_AUDIT_ACE_TYPE)
    (hsid : RtlpGetSddlSidStringFromSid E (some a.Sid) = (STATUS_SUCCESS, some (sidText E a.Sid)))
    (hne : sidText E a.Sid ≠ []) :
    aceStringAt E acl i = .ok (aceClauseText E a) := by
  obtain ⟨ts, hts, htne, _, _⟩ := aceType_string a.AceType hty
  have htn : IsNullOrEmptyString (some ts) = false := by
    cases ts with
    | nil => exact absurd rfl htne
    | cons x xs => rfl
  have hsn : IsNullOrEmptyString (some (sidText E a.Sid)) = false := by
    cases hs : sidText E a.Sid with
    | nil => exact absurd hs hne
    | cons x xs => rfl
  have hopt : ∀ f : CStr,
      (if ¬ IsNullOrEmptyString (some f) = true then strOf (some f) else []) = f := by
    intro f
    cases f with
    | nil => simp [IsNullOrEmptyString]
    | cons x xs => simp [IsNullOrEmptyString, strOf]
  unfold aceStringAt aceClauseText
  rw [hget]
  simp only [bind, Except.bind, hty, if_true]
  rw [rights_encode_ok, hsid, hts, aceFlag_encode_ok]
  generalize strOf (RtlpMapAceFlagToSddlFlag a.AceFlags).2 = f
  generalize strOf (RtlpMapAccessMaskToSddlRights a.Mask).2 = r
  simp only [chk, if_true, htn, hsn, Bool.false_eq_true, if_false, throw, throwThe,
    MonadExceptOf.throw, pure, Except.pure]
  simp only [aceClause, hopt]
  simp [strOf, clauseLayout]

theorem aceStringAt_unsupported (E : Ext) (acl : ACL) (i : Nat) (a : ACE)
    (hget : E.RtlGetAce acl i = .ok a)
    (hty : a.AceType ≠ ACCESS_ALLOWED_ACE_TYPE ∧ a.AceType ≠ ACCESS_DENIED_ACE_TYPE ∧
      a.AceType ≠ SYSTEM_AUDIT_ACE_TYPE) :
    aceStringAt E acl i = .error STATUS_NOT_SUPPORTED := by
  unfold aceStringAt
  rw [hget]
  simp only [bind, Except.bind, hty.1, hty.2.1, hty.2.2, or_self, if_false]
  rfl

theorem clauseLayout_ne_nil (ty flags rights sid : CStr) :
    (clauseLayout ty flags rights sid).isEmpty = false := by
  simp [clauseLayout]

/-- C26: for a present ACL whose entries are the Allow, Deny or Audit ACEs
`aces` (at least one), each with a SID that renders to a non-empty string, the
clause emitted for the ACE at index `i` is exactly
`"(" + type + ";" + flags(f) + ";" + rights(m) + ";;;" + sid + ")"`, the type
being `A`, `D` or `AU`, and the string returned by
`RtlpGetSddlAceStringFromSecurityDescriptor` is the concatenation of these
clauses in index order. -/
theorem C26_ace_clause_rendering (E : Ext) (sd : SECURITY_DESCRIPTOR)
    (cb : SECURITY_DESCRIPTOR → Except NTSTATUS (Bool × Option ACL × Bool)) (acl : ACL) (df : Bool)
    (aces : List ACE)
    (hcb : cb sd = .ok (true, some acl, df))
    (hcount : E.RtlGetAclAceCount acl % 2 ^ 16 = aces.length) (hne : aces ≠ [])
    (hget : ∀ i a, aces[i]? = some a → E.RtlGetAce acl i = .ok a)
    (hty : ∀ a ∈ aces, a.AceType = ACCESS_ALLOWED_ACE_TYPE ∨
      a.AceType = ACCESS_DENIED_ACE_TYPE ∨ a.AceType = SYSTEM_AUDIT_ACE_TYPE)
    (hsid : ∀ a ∈ aces,
      RtlpGetSddlSidStringFromSid E (some a.Sid) = (STATUS_SUCCESS, some (sidText E a.Sid)) ∧
      sidText E a.Sid ≠ []) :
    (∀ i a, aces[i]? = some a →
      aceStringAt E acl i =
        .ok (clauseLayout (strOf (RtlpMapAceTypeToSddlType a.AceType))
          (strOf (RtlpMapAceFlagToSddlFlag a.AceFlags).2)
          (strOf (RtlpMapAccessMaskToSddlRights a.Mask).2) (sidText E a.Sid)) ∧
      strOf (RtlpMapAceTypeToSddlType a.AceType) ∈ ["A".toList, "D".toList, "AU".toList]) ∧
    RtlpGetSddlAceStringFromSecurityDescriptor E sd cb =
      (STATUS_SUCCESS, some (aces.map (aceClauseText E)).flatten) := by
  have hmem : ∀ (i : Nat) (a : ACE), aces[i]? = some a → a ∈ aces := by
    intro i a h
    obtain ⟨hlt, heq⟩ := List.getElem?_eq_some.mp h
    exact heq ▸ List.getElem_mem _
  have hat : ∀ i a, aces[i]? = some a → aceStringAt E acl i = .ok (aceClauseText E a) :=
    fun i a h => aceStringAt_clause E acl i a (hget i a h) (hty a (hmem i a h))
      (hsid a (hmem i a h)).1 (hsid a (hmem i a h)).2
  refine ⟨fun i a h => ⟨hat i a h, ?_⟩, ?_⟩
  · rcases hty a (hmem i a h) with e | e | e <;> rw [e] <;> decide
  · have hpos : aces.length ≠ 0 := fun e => hne (List.length_eq_zero.mp e)
    have hmap : (List.range aces.length).mapM (aceStringAt E acl) =
        .ok (aces.map (aceClauseText E)) := by
      rw [← map_range_getD aces
        { AceType := 0, AceFlags := 0, AceSize := 0, Mask := 0,
          Sid := { Revision := 0, IdentifierAuthority := 0, SubAuthority := [] } }
        (aceClauseText E)]
      apply mapM_ok_of_forall
      intro i hi
      have hi' : i < aces.length := List.mem_range.mp hi
      rw [List.getD_eq_getElem _ _ hi']
      exact hat i _ (List.getElem?_eq_getElem hi')
    unfold RtlpGetSddlAceStringFromSecurityDescriptor
    rw [hcb]
    simp only [hcount, hpos, if_false, not_true_eq_false]
    rw [hmap]
    simp only [Prod.mk.injEq, true_and, Option.some.injEq]
    rw [List.filter_eq_self.mpr]
    intro x hx
    simp only [List.mem_map] at hx
    obtain ⟨a, _, rfl⟩ := hx
    simp [aceClauseText, clauseLayout]

set_option maxRecDepth 1000000 in
theorem C26_ace_clause_rendering_witness :
    RtlpGetSddlAceStringFromSecurityDescriptor refExt allowDenyDescriptor
        refExt.RtlGetDaclSecurityDescriptor =
      (STATUS_SUCCESS, some "(A;;GA;;;BA)(D;CI;GR;;;WD)".toList) :=
  (C26_ace_clause_rendering refExt allowDenyDescriptor refExt.RtlGetDaclSecurityDescriptor
    allowDenyAcl false allowDenyAcl.Aces rfl (by decide) (by decide)
    (by
      intro i a h
      match i, h with
      | 0, h => cases h; rfl
      | 1, h => cases h; rfl
      | n + 2, h => cases h)
    (by decide) (by decide)).2.trans (by decide)

/-! ## Unsupported ACE types on serialization -/

theorem mapM_error_at {α β : Type} (f : α → Except NTSTATUS β) (e : NTSTATUS) (l1 : List α)
    (x : α) (l2 : List α) (hpre : ∀ y ∈ l1, ∀ e', f y = .error e' → e' = e)
    (hx : f x = .error e) : (l1 ++ x :: l2).mapM f = .error e := by
  induction l1 with
  | nil =>
    rw [List.nil_append, List.mapM_cons, hx]
    rfl
  | cons a l ih =>
    rw [List.cons_append, List.mapM_cons]
    cases ha : f a with
    | error e' =>
      have := hpre a (List.mem_cons_self _ _) e' ha
      subst this
      rfl
    | ok b =>
      rw [ih (fun y hy => hpre y (List.mem_cons_of_mem _ hy))]
      rfl

theorem mapM_fails_at {α β : Type} (f : α → Except NTSTATUS β) (e : NTSTATUS) (l1 : List α)
    (x : α) (l2 : List α) (hx : f x = .error e) : ∃ e', (l1 ++ x :: l2).mapM f = .error e' := by
  induction l1 with
  | nil =>
    refine ⟨e, ?_⟩
    rw [List.nil_append, List.mapM_cons, hx]
    rfl
  | cons a l ih =>
    obtain ⟨e', he'⟩ := ih
    rw [List.cons_append, List.mapM_cons]
    cases ha : f a with
    | error e'' => exact ⟨e'', rfl⟩
    | ok b =>
      rw [he']
      exact ⟨e', rfl⟩

theorem range_split (n k : Nat) (hk : k < n) :
    List.range n = List.range k ++ k :: List.range' (k + 1) (n - (k + 1)) := by
  have h1 : n = (1 + (n - (k + 1))) + k := by omega
  conv_lhs => rw [h1]
  rw [List.range_eq_range', List.range_eq_range', ← List.range'_append]
  congr 1
  rw [Nat.add_comm 1 (n - (k + 1)), List.range'_succ]
  simp [Nat.add_comm]

theorem aceString_first_failure (E : Ext) (sd : SECURITY_DESCRIPTOR)
    (cb : SECURITY_DESCRIPTOR → Except NTSTATUS (Bool × Option ACL × Bool)) (acl : ACL) (df : Bool)
    (k : Nat) (st : NTSTATUS)
    (hcb : cb sd = .ok (true, some acl, df))
    (hk : k < E.RtlGetAclAceCount acl % 2 ^ 16)
    (hbefore : ∀ i, i < k → ∃ s, aceStringAt E acl i = .ok s)
    (hat : aceStringAt E acl k = .error st) :
    RtlpGetSddlAceStringFromSecurityDescriptor E sd cb = (st, none) := by
  have hpos : E.RtlGetAclAceCount acl % 2 ^ 16 ≠ 0 := by omega
  have he := mapM_error_at (aceStringAt E acl) st (List.range k) k
    (List.range' (k + 1) (E.RtlGetAclAceCount acl % 2 ^ 16 - (k + 1)))
    (fun y hy e' hy' => by
      obtain ⟨s, hs⟩ := hbefore y (List.mem_range.mp hy)
      rw [hs] at hy'
      cases hy') hat
  unfold RtlpGetSddlAceStringFromSecurityDescriptor
  rw [hcb]
  simp only [hpos, if_false, not_true_eq_false]
  rw [range_split _ k hk, he]

set_option maxRecDepth 1000000 in
/-- C27 (as stated) fails: in a valid descriptor whose DACL holds an Allow ACE
for the SID `S-1-5` followed by an object ACE (type 5), the first entry fails
first (the SID has no relative identifier to look up), and both
`RtlpGetSddlAceStringFromSecurityDescriptor` and the serializer return this
status, `STATUS_INVALID_SID`, not `STATUS_NOT_SUPPORTED`. -/
theorem C27_earlier_failure_reported :
    refExt.RtlValidRelativeSecurityDescriptor noRidAceDescriptor
      (refExt.RtlLengthSecurityDescriptorRelative noRidAceDescriptor) 0 = STATUS_SUCCESS ∧
    noRidAceAcl.Aces.map (fun a => a.AceType) = [ACCESS_ALLOWED_ACE_TYPE, 5] ∧
    aceStringAt refExt noRidAceAcl 0 = .error STATUS_INVALID_SID ∧
    aceStringAt refExt noRidAceAcl 1 = .error STATUS_NOT_SUPPORTED ∧
    RtlpGetSddlAceStringFromSecurityDescriptor refExt noRidAceDescriptor
      refExt.RtlGetDaclSecurityDescriptor = (STATUS_INVALID_SID, none) ∧
    RtlAllocateSddlCStringFromSecurityDescriptor refExt (some noRidAceDescriptor) 1 0 =
      .returns (STATUS_INVALID_SID, none) ∧
    STATUS_INVALID_SID ≠ STATUS_NOT_SUPPORTED := by
  refine ⟨by decide, by decide, rfl, rfl, by decide, by decide, by decide⟩

/-- C27 (amended): if the ACE at some index `k` of a present ACL has a type
other than `ACCESS_ALLOWED_ACE_TYPE`, `ACCESS_DENIED_ACE_TYPE` and
`SYSTEM_AUDIT_ACE_TYPE`, `RtlpGetSddlAceStringFromSecurityDescriptor` returns
a null string, and the status is `STATUS_NOT_SUPPORTED` whatever the position
`k`, as long as no entry before it fails with another status (the entries are
rendered in index order and the first failure is returned). -/
theorem C27_unsupported_ace_rejected (E : Ext) (sd : SECURITY_DESCRIPTOR)
    (cb : SECURITY_DESCRIPTOR → Except NTSTATUS (Bool × Option ACL × Bool)) (acl : ACL) (df : Bool)
    (k : Nat) (a : ACE)
    (hcb : cb sd = .ok (true, some acl, df))
    (hk : k < E.RtlGetAclAceCount acl % 2 ^ 16)
    (hget : E.RtlGetAce acl k = .ok a)
    (hty : a.AceType ≠ ACCESS_ALLOWED_ACE_TYPE ∧ a.AceType ≠ ACCESS_DENIED_ACE_TYPE ∧
      a.AceType ≠ SYSTEM_AUDIT_ACE_TYPE) :
    (RtlpGetSddlAceStringFromSecurityDescriptor E sd cb).2 = none ∧
    ((∀ i, i < k → ∀ st, aceStringAt E acl i = .error st → st = STATUS_NOT_SUPPORTED) →
      RtlpGetSddlAceStringFromSecurityDescriptor E sd cb = (STATUS_NOT_SUPPORTED, none)) := by
  have hat := aceStringAt_unsupported E acl k a hget hty
  have hpos : E.RtlGetAclAceCount acl % 2 ^ 16 ≠ 0 := by omega
  constructor
  · obtain ⟨e', he'⟩ := mapM_fails_at (aceStringAt E acl) STATUS_NOT_SUPPORTED (List.range k) k
      (List.range' (k + 1) (E.RtlGetAclAceCount acl % 2 ^ 16 - (k + 1))) hat
    unfold RtlpGetSddlAceStringFromSecurityDescriptor
    rw [hcb]
    simp only [hpos, if_false, not_true_eq_false]
    rw [range_split _ k hk, he']
  · intro hother
    have he := mapM_error_at (aceStringAt E acl) STATUS_NOT_SUPPORTED (List.range k) k
      (List.range' (k + 1) (E.RtlGetAclAceCount acl % 2 ^ 16 - (k + 1)))
      (fun y hy => hother y (List.mem_range.mp hy)) hat
    unfold RtlpGetSddlAceStringFromSecurityDescriptor
    rw [hcb]
    simp only [hpos, if_false, not_true_eq_false]
    rw [range_split _ k hk, he]

set_option maxRecDepth 1000000 in
theorem C27_unsupported_ace_rejected_witness :
    RtlpGetSddlAceStringFromSecurityDescriptor refExt objectAceDescriptor
        refExt.RtlGetDaclSecurityDescriptor = (STATUS_NOT_SUPPORTED, none) :=
  (C27_unsupported_ace_rejected refExt objectAceDescriptor refExt.RtlGetDaclSecurityDescriptor
    objectAceAcl false 1
    { AceType := 5, AceFlags := 0, AceSize := 20, Mask := GENERIC_READ,
      Sid := { Revision := 1, IdentifierAuthority := 1, SubAuthority := [0] } }
    rfl (by decide) rfl (by decide)).2
    (by
      intro i hi st h
      match i, hi, h with
      | 0, _, h =>
        have e : aceStringAt refExt objectAceAcl 0 = .ok "(A;;GA;;;BA)".toList := rfl
        rw [e] at h
        cases h)

/-! ## Order of decoding and insertion indices -/

theorem logLoop_eq (E : Ext) (f : Nat → ACE) (n : Nat) (hn : n ≤ 2 ^ 32)
    (ppSddlAces : List (Option SDDL_ACE))
    (hget : ∀ i, i < n → buildAce E (ppSddlAces.getD i none) = .ok (f i))
    (hadd : ∀ acl i ace len, E.RtlAddAce acl ACL_REVISION i ace len =
      .ok { acl with Aces := acl.Aces ++ [{ ace with AceSize := i }] })
    (sz : Nat) : ∀ k, k ≤ n →
      (List.range k).foldlM (addAceStep E ppSddlAces) { AclSize := sz, Aces := [] } =
        .ok { AclSize := sz,
              Aces := (List.range k).map
                (fun i => { f i with AceSize := if i = 0 then ULONG_MAX else i - 1 }) } := by
  intro k
  induction k with
  | zero => intro _; rfl
  | succ k ih =>
    intro hk
    rw [List.range_succ, List.foldlM_append, ih (by omega)]
    simp only [List.foldlM_cons, List.foldlM_nil]
    unfold addAceStep
    rw [hget k (by omega)]
    have hidx : (if k ≠ 0 then k - 1 else ULONG_MAX) % 2 ^ 32 =
        (if k = 0 then ULONG_MAX else k - 1) := by
      by_cases h0 : k = 0
      · subst h0; decide
      · simp only [h0, ne_eq, not_false_eq_true, if_true, if_false]
        exact Nat.mod_eq_of_lt (by omega)
    simp only [bind, Except.bind, hadd, hidx, pure, Except.pure, List.map_append, List.map_cons,
      List.map_nil]

theorem buildAcl_loops (E : Ext) (bodies : List CStr) (aces : List SDDL_ACE)
    (hne : bodies ≠ [])
    (hparse : bodies.map (RtlpParseSddlAceString E) =
      aces.map (fun a => (STATUS_SUCCESS, some a)))
    (hcreate : ∀ n, E.RtlCreateAcl n ACL_REVISION = .ok { AclSize := n, Aces := [] }) :
    ∃ size pp,
      buildAcl E bodies bodies.length =
        (List.range bodies.length).foldlM (addAceStep E pp) { AclSize := size, Aces := [] } ∧
      ∀ i, i < bodies.length → ∃ a,
        aces[(i + bodies.length - 1) % bodies.length]? = some a ∧
        parseAceAt E bodies bodies.length i = .ok (some a) ∧
        buildAce E (pp.getD i none) = .ok (aceRecord E a) := by
  have hlen : aces.length = bodies.length := by
    have := congrArg List.length hparse
    simpa using this.symm
  have hpos : 0 < bodies.length := List.length_pos.mpr hne
  have hat : ∀ j, j < bodies.length →
      ∃ a, aces[j]? = some a ∧
        RtlpParseSddlAceString E (bodies.getD j []) = (STATUS_SUCCESS, some a) := by
    intro j hj
    have hj' : j < aces.length := by omega
    refine ⟨aces[j], List.getElem?_eq_getElem hj', ?_⟩
    have := congrArg (fun l => l[j]?) hparse
    simp only [List.getElem?_map, List.getElem?_eq_getElem hj, List.getElem?_eq_getElem hj',
      Option.map_some', Option.some.injEq] at this
    rw [List.getD_eq_getElem _ _ hj]
    exact this
  have hrot : ∀ i, i < bodies.length → (i + bodies.length - 1) % bodies.length < bodies.length :=
    fun i _ => Nat.mod_lt _ hpos
  have hpa : ∀ i, i < bodies.length → ∀ a,
      aces[(i + bodies.length - 1) % bodies.length]? = some a →
      parseAceAt E bodies bodies.length i = .ok (some a) := by
    intro i hi a ha
    obtain ⟨a', ha', hp⟩ := hat _ (hrot i hi)
    rw [ha] at ha'
    cases ha'
    unfold parseAceAt
    rw [hp]
    rfl
  have hmap : (List.range bodies.length).mapM (parseAceAt E bodies bodies.length) =
      .ok ((List.range bodies.length).map
        (fun i => aces[(i + bodies.length - 1) % bodies.length]?)) := by
    apply mapM_ok_of_forall
    intro i hi
    obtain ⟨a, ha, _⟩ := hat _ (hrot i (List.mem_range.mp hi))
    rw [hpa i (List.mem_range.mp hi) a ha, ha]
  have hgetD : ∀ i, i < bodies.length →
      ((List.range bodies.length).map
        (fun i => aces[(i + bodies.length - 1) % bodies.length]?)).getD i none =
        aces[(i + bodies.length - 1) % bodies.length]? := by
    intro i hi
    rw [List.getD_eq_getElem _ _ (by simpa using hi)]
    simp
  obtain ⟨size, hsize⟩ := foldlM_ok_of_forall
    (aclSizeStep E ((List.range bodies.length).map
      (fun i => aces[(i + bodies.length - 1) % bodies.length]?)))
    (List.range bodies.length)
    (by
      intro i hi s
      have hi' := List.mem_range.mp hi
      obtain ⟨a, ha, hp⟩ := hat _ (hrot i hi')
      obtain ⟨m, hm⟩ := (buildAce_some E a (parseAce_supported_type E _ _ _ hp)).2
      unfold aclSizeStep
      rw [hgetD i hi', ha]
      simp [hm, bind, Except.bind, pure, Except.pure])
    ACL_HEADER_SIZE
  refine ⟨size, (List.range bodies.length).map
    (fun i => aces[(i + bodies.length - 1) % bodies.length]?), ?_, ?_⟩
  · unfold buildAcl
    rw [hmap]
    simp only [bind, Except.bind]
    rw [hsize]
    simp only [hcreate]
  · intro i hi
    obtain ⟨a, ha, hp⟩ := hat _ (hrot i hi)
    refine ⟨a, ha, hpa i hi a ha, ?_⟩
    rw [hgetD i hi, ha]
    exact (buildAce_some E a (parseAce_supported_type E _ _ _ hp)).1

set_option maxRecDepth 1000000 in
/-- C30 (as stated) fails: for the ACL text `(A;;GA;;;BA)(D;;GR;;;BU)` the
record decoded first is the one of the second clause (the Deny entry), and the
insertion indices passed to `RtlAddAce`, in call order, are `0xFFFFFFFF` and
`0`, which is not increasing. -/
theorem C30_first_record_is_last_clause :
    parseAceAt callLogExt ["A;;GA;;;BA".toList, "D;;GR;;;BU".toList] 2 0 =
      .ok (some { AceType := ACCESS_DENIED_ACE_TYPE, AceFlag := 0, Access := GENERIC_READ,
                  pszObjectGuid := none, pszObjectInheritedGuid := none,
                  pSid := { Revision := 1, IdentifierAuthority := 5, SubAuthority := [32, 545] } }) ∧
    (∃ pAcl, RtlpGetAclFromSddlAclString callLogExt 0
        (some "(A;;GA;;;BA)(D;;GR;;;BU)".toList) true = some (STATUS_SUCCESS, some pAcl, 0) ∧
      pAcl.Aces.map (fun x => (x.AceType, x.AceSize)) =
        [(ACCESS_DENIED_ACE_TYPE, 4294967295), (ACCESS_ALLOWED_ACE_TYPE, 0)]) ∧
    ¬ (4294967295 < 0) := by
  refine ⟨rfl, ⟨_, rfl, by decide⟩, by decide⟩

/-- C30 (amended): for an ACL text `(c0)(c1)...(c(n-1))` of `n >= 1`
well-formed clauses (no more than `2^32`), the record decoded in round `k` is
the one of clause `(k + n - 1) mod n` (the last clause first, then the others
in input order), and `RtlAddAce` is called once per round, in round order, with
that record and the insertion index `(ULONG)-1` in round `0` and `k - 1` in
round `k >= 1`: from the second call on the index is strictly increasing. -/
theorem C30_insertion_calls (E : Ext) (bodies : List CStr) (aces : List SDDL_ACE)
    (pControl : Nat) (bIsDacl : Bool)
    (hne : bodies ≠ []) (hn : bodies.length ≤ 2 ^ 32)
    (hclose : ∀ b ∈ bodies, ')' ∉ b)
    (hparse : bodies.map (RtlpParseSddlAceString E) =
      aces.map (fun a => (STATUS_SUCCESS, some a)))
    (hcreate : ∀ n, E.RtlCreateAcl n ACL_REVISION = .ok { AclSize := n, Aces := [] })
    (hlog : ∀ acl i ace len, E.RtlAddAce acl ACL_REVISION i ace len =
      .ok { acl with Aces := acl.Aces ++ [{ ace with AceSize := i }] }) :
    (∀ k, k < bodies.length →
      parseAceAt E bodies bodies.length k =
        .ok (aces[(k + bodies.length - 1) % bodies.length]?)) ∧
    ∃ pAcl, RtlpGetAclFromSddlAclString E pControl (some (aclText bodies)) bIsDacl =
        some (STATUS_SUCCESS, some pAcl, pControl) ∧
      pAcl.Aces.length = bodies.length ∧
      (∀ k a, k < bodies.length → aces[(k + bodies.length - 1) % bodies.length]? = some a →
        pAcl.Aces[k]? =
          some { aceRecord E a with AceSize := if k = 0 then ULONG_MAX else k - 1 }) ∧
      (∀ k, 1 ≤ k → k + 1 < bodies.length →
        ∃ x y, pAcl.Aces[k]? = some x ∧ pAcl.Aces[k + 1]? = some y ∧
          x.AceSize + 1 = y.AceSize) := by
  obtain ⟨size, pp, hbuild, hrounds⟩ := buildAcl_loops E bodies aces hne hparse hcreate
  obtain ⟨f, hf⟩ : ∃ f : Nat → ACE, f = fun i =>
      aceRecord E (aces.getD ((i + bodies.length - 1) % bodies.length)
        { AceType := 0, AceFlag := 0, Access := 0, pszObjectGuid := none,
          pszObjectInheritedGuid := none,
          pSid := { Revision := 0, IdentifierAuthority := 0, SubAuthority := [] } }) := ⟨_, rfl⟩
  have hfi : ∀ i a, aces[(i + bodies.length - 1) % bodies.length]? = some a →
      f i = aceRecord E a := by
    intro i a ha
    subst hf
    simp [List.getD_eq_getElem?_getD, ha]
  have hloop := logLoop_eq E f bodies.length hn pp
    (by
      intro i hi
      obtain ⟨a, ha, _, hb⟩ := hrounds i hi
      rw [hb, hfi i a ha])
    hlog size bodies.length (le_refl _)
  rw [← hbuild] at hloop
  have hk : ∀ k a, k < bodies.length → aces[(k + bodies.length - 1) % bodies.length]? = some a →
      ((List.range bodies.length).map
        (fun i => { f i with AceSize := if i = 0 then ULONG_MAX else i - 1 }))[k]? =
        some { aceRecord E a with AceSize := if k = 0 then ULONG_MAX else k - 1 } := by
    intro k a hlt ha
    rw [List.getElem?_map, List.getElem?_range hlt]
    simp only [Option.map_some', hfi k a ha]
  refine ⟨?_, { AclSize := size,
                Aces := (List.range bodies.length).map
                  (fun i => { f i with AceSize := if i = 0 then ULONG_MAX else i - 1 }) },
    ?_, by simp, hk, ?_⟩
  · intro k hlt
    obtain ⟨a, ha, hp, _⟩ := hrounds k hlt
    rw [hp, ha]
  · obtain ⟨b, bs, rfl⟩ := List.exists_cons_of_ne_nil hne
    have htext : aclText (b :: bs) = SDDL_ACE_BEGIN_C :: (b ++ SDDL_ACE_END_S ++ aclText bs) := by
      simp [aclText]
    have hchr : strchr (aclText (b :: bs)) SDDL_ACE_BEGIN_C = some 0 := by
      rw [htext]; simp [strchr]
    have hnonempty : (aclText (b :: bs)).isEmpty = false := by
      rw [htext]; rfl
    unfold RtlpGetAclFromSddlAclString
    simp only [hnonempty, hchr, List.take_zero, List.drop_zero, List.isEmpty_nil,
      parseSddlAclString_aclText (b :: bs) (by simp) hclose, hloop]
    simp [SDDL_CONTROL_LENGTH]
  · intro k h1 h2
    obtain ⟨a, ha, _, _⟩ := hrounds k (by omega)
    obtain ⟨a', ha', _, _⟩ := hrounds (k + 1) h2
    refine ⟨_, _, hk k a (by omega) ha, hk (k + 1) a' h2 ha', ?_⟩
    have hk0 : k ≠ 0 := by omega
    simp only [hk0, if_false, Nat.add_one_ne_zero, Nat.add_sub_cancel]
    omega

set_option maxRecDepth 1000000 in
theorem C30_insertion_calls_witness :
    ∃ pAcl, RtlpGetAclFromSddlAclString callLogExt 0
        (some "(A;;GA;;;BA)(D;;GR;;;BU)(AU;SA;GW;;;WD)".toList) true =
        some (STATUS_SUCCESS, some pAcl, 0) ∧
      pAcl.Aces.length = 3 ∧
      pAcl.Aces[1]? =
        some { AceType := ACCESS_ALLOWED_ACE_TYPE, AceFlags := 0, AceSize := 0,
               Mask := GENERIC_ALL,
               Sid := { Revision := 1, IdentifierAuthority := 5, SubAuthority := [32, 544] } } :=
  match C30_insertion_calls callLogExt
    ["A;;GA;;;BA".toList, "D;;GR;;;BU".toList, "AU;SA;GW;;;WD".toList]
    [{ AceType := ACCESS_ALLOWED_ACE_TYPE, AceFlag := 0, Access := GENERIC_ALL,
       pszObjectGuid := none, pszObjectInheritedGuid := none,
       pSid := { Revision := 1, IdentifierAuthority := 5, SubAuthority := [32, 544] } },
     { AceType := ACCESS_DENIED_ACE_TYPE, AceFlag := 0, Access := GENERIC_READ,
       pszObjectGuid := none, pszObjectInheritedGuid := none,
       pSid := { Revision := 1, IdentifierAuthority := 5, SubAuthority := [32, 545] } },
     { AceType := SYSTEM_AUDIT_ACE_TYPE, AceFlag := SUCCESSFUL_ACCESS_ACE_FLAG,
       Access := GENERIC_WRITE, pszObjectGuid := none, pszObjectInheritedGuid := none,
       pSid := { Revision := 1, IdentifierAuthority := 1, SubAuthority := [0] } }]
    0 true (by decide) (by decide) (by decide) (by decide) (fun _ => rfl) (fun _ _ _ _ => rfl)
  with
  | ⟨_, pAcl, h, hlen, hk, _⟩ => ⟨pAcl, h, hlen, hk 1 _ (by decide) rfl⟩

/-! ## The encoders as table walks -/

theorem catIf_foldl (v : Nat) (table : List (Nat × CStr)) : ∀ psz : CStr,
    table.foldl (fun psz e => catIf v e.1 e.2 psz) psz = psz ++ mnemonicsOf table v := by
  induction table with
  | nil => intro psz; simp [mnemonicsOf, overlapping]
  | cons e t ih =>
    intro psz
    rw [List.foldl_cons, ih]
    unfold catIf mnemonicsOf overlapping
    by_cases h : v &&& e.1 ≠ 0
    · simp [h, List.filter_cons]
    · simp [h, List.filter_cons]

theorem flagEncoder_table (f : Nat) :
    RtlpMapAceFlagToSddlFlag f = (STATUS_SUCCESS, some (mnemonicsOf aceFlagTable f)) := by
  have h := catIf_foldl f aceFlagTable []
  rw [List.nil_append] at h
  rw [← h]
  rfl

theorem rightsEncoder_table (m : Nat) :
    RtlpMapAccessMaskToSddlRights m = (STATUS_SUCCESS, some (mnemonicsOf rightsTable m)) := by
  have h := catIf_foldl m rightsTable []
  rw [List.nil_append] at h
  rw [← h]
  rfl

theorem mnemonicsOf_length (table : List (Nat × CStr)) (v : Nat)
    (h2 : ∀ e ∈ table, e.2.length = 2) :
    (mnemonicsOf table v).length = 2 * (overlapping table v).length := by
  unfold mnemonicsOf overlapping
  induction table with
  | nil => simp
  | cons e t ih =>
    have he := h2 e (List.mem_cons_self _ _)
    have ih' := ih (fun x hx => h2 x (List.mem_cons_of_mem _ hx))
    by_cases h : v &&& e.1 ≠ 0
    · rw [List.filter_cons_of_pos (by simpa using h)]
      simp only [List.map_cons, List.flatten_cons, List.length_append, List.length_cons, he, ih']
      omega
    · rw [List.filter_cons_of_neg (by simpa using h)]
      exact ih'

/-- C32: for every flag value `f` (so for every 8-bit value),
`RtlpMapAceFlagToSddlFlag f` succeeds with the concatenation, without separator
and in the order CI, OI, NP, IO, ID, SA, FA, of the mnemonic of each of these
bits that is set in `f`; its length is twice the number of these bits set in
`f`, and it is the empty string when none of them is set.  The seven entries
are seven different single bits. -/
theorem C32_canonical_flag_encoding (f : Nat) :
    RtlpMapAceFlagToSddlFlag f = (STATUS_SUCCESS, some (mnemonicsOf aceFlagTable f)) ∧
    (mnemonicsOf aceFlagTable f).length = 2 * (overlapping aceFlagTable f).length ∧
    ((∀ e ∈ aceFlagTable, f &&& e.1 = 0) → mnemonicsOf aceFlagTable f = []) ∧
    aceFlagTable.map (fun e => e.1) = [2 ^ 1, 2 ^ 0, 2 ^ 2, 2 ^ 3, 2 ^ 4, 2 ^ 6, 2 ^ 7] := by
  refine ⟨flagEncoder_table f, mnemonicsOf_length _ _ (by decide), ?_, by decide⟩
  intro h
  have : overlapping aceFlagTable f = [] := by
    unfold overlapping
    rw [List.filter_eq_nil_iff]
    intro e he
    simp [h e he]
  simp [mnemonicsOf, this]

set_option maxRecDepth 1000000 in
theorem C32_canonical_flag_encoding_witness :
    RtlpMapAceFlagToSddlFlag 0xFF = (STATUS_SUCCESS, some "CIOINPIOIDSAFA".toList) ∧
    RtlpMapAceFlagToSddlFlag 0x53 = (STATUS_SUCCESS, some "CIOIIDSA".toList) ∧
    RtlpMapAceFlagToSddlFlag 0x20 = (STATUS_SUCCESS, some []) :=
  ⟨(C32_canonical_flag_encoding 0xFF).1.trans (by decide),
    (C32_canonical_flag_encoding 0x53).1.trans (by decide),
    (C32_canonical_flag_encoding 0x20).1.trans (by decide)⟩

/-! ## The decoders as unions -/

theorem aceFlagStep_lor (c : Nat) (s : CStr) : aceFlagStep c s = c ||| aceFlagStep 0 s := by
  unfold aceFlagStep SetFlag
  split_ifs <;> simp only [Nat.zero_or, Nat.or_zero]

theorem ite_lor (p : Prop) [Decidable p] (c x r r0 : Nat) (h : r = c ||| r0) :
    (if p then c ||| x else r) = c ||| (if p then 0 ||| x else r0) := by
  split_ifs
  · rw [Nat.zero_or]
  · exact h

theorem accessStep_lor (c : Nat) (s : CStr) : accessStep c s = c ||| accessStep 0 s := by
  unfold accessStep SetFlag
  iterate 19 apply ite_lor
  exact (Nat.or_zero c).symm

theorem foldl_step_lor {α : Type} (step : Nat → CStr → Nat)
    (hstep : ∀ c s, step c s = c ||| step 0 s) (g : α → CStr) (l : List α) : ∀ c : Nat,
    l.foldl (fun acc x => step acc (g x)) c = c ||| l.foldl (fun acc x => step acc (g x)) 0 := by
  induction l with
  | nil => intro c; simp
  | cons x xs ih =>
    intro c
    simp only [List.foldl_cons]
    rw [ih (step c (g x)), ih (step 0 (g x)), hstep c, Nat.or_assoc]

theorem foldl_slices_flatten {σ : Type} (step : σ → CStr → σ) (L : List CStr) :
    ∀ c : σ, (∀ x ∈ L, x.length = 2) →
      (List.range (L.flatten.length / 2)).foldl
        (fun acc i => step acc (slice2 L.flatten (i * 2))) c = L.foldl step c := by
  induction L with
  | nil => intro c _; simp
  | cons a L ih =>
    intro c h
    have ha2 := h a (List.mem_cons_self _ _)
    obtain ⟨x, y, rfl⟩ : ∃ x y, a = [x, y] := by
      match a, ha2 with
      | [x, y], _ => exact ⟨x, y, rfl⟩
    have e : ([x, y] :: L).flatten = x :: y :: L.flatten := by simp
    rw [e, foldl_slices_cons2, List.foldl_cons]
    exact ih _ (fun z hz => h z (List.mem_cons_of_mem _ hz))

theorem or_and_self_right (a x : Nat) : (a ||| x) &&& x = x := by
  apply Nat.eq_of_testBit_eq
  intro i
  simp only [Nat.testBit_and, Nat.testBit_or]
  cases a.testBit i <;> cases x.testBit i <;> rfl

theorem and_of_and_left (r a x : Nat) (h : r &&& a = a) : (r ||| x) &&& a = a := by
  apply Nat.eq_of_testBit_eq
  intro i
  have hi := congrArg (fun n => n.testBit i) h
  simp only [Nat.testBit_and] at hi
  simp only [Nat.testBit_and, Nat.testBit_or]
  revert hi
  cases r.testBit i <;> cases x.testBit i <;> cases a.testBit i <;> simp

theorem foldl_lor_contains (l : List (Nat × CStr)) : ∀ (c : Nat) (e : Nat × CStr), e ∈ l →
    l.foldl (fun acc e => acc ||| e.1) c &&& e.1 = e.1 := by
  induction l with
  | nil => intro c e he; cases he
  | cons a l ih =>
    intro c e he
    rw [List.foldl_cons]
    rcases List.mem_cons.mp he with rfl | he
    · have hmono : ∀ (l : List (Nat × CStr)) (c x : Nat), c &&& x = x →
          l.foldl (fun acc e => acc ||| e.1) c &&& x = x := by
        intro l
        induction l with
        | nil => intro c x h; exact h
        | cons b l ih2 =>
          intro c x h
          rw [List.foldl_cons]
          exact ih2 _ _ (and_of_and_left c x b.1 h)
      exact hmono l _ _ (or_and_self_right c e.1)
    · exact ih _ e he

theorem rightsDecoder_table (m : Nat) :
    RtlpMapSddlRightsToAccessMask (mnemonicsOf rightsTable m) = unionOfOverlapping rightsTable m := by
  have hstep : ∀ e ∈ rightsTable, accessStep 0 e.2 = e.1 := by decide
  have hlen : ∀ e ∈ rightsTable, e.2.length = 2 := by decide
  have hsub : ∀ e ∈ overlapping rightsTable m, e ∈ rightsTable :=
    fun e he => (List.mem_filter.mp he).1
  rw [rightsDecoder_fold]
  unfold mnemonicsOf unionOfOverlapping
  rw [foldl_slices_flatten accessStep _ 0 (by
    intro x hx
    obtain ⟨e, he, rfl⟩ := List.mem_map.mp hx
    exact hlen e (hsub e he))]
  rw [List.foldl_map]
  generalize overlapping rightsTable m = l at hsub
  generalize (0 : Nat) = c
  induction l generalizing c with
  | nil => rfl
  | cons e l ih =>
    rw [List.foldl_cons, List.foldl_cons, accessStep_lor,
      hstep e (hsub e (List.mem_cons_self _ _))]
    exact ih (fun x hx => hsub x (List.mem_cons_of_mem _ hx)) _

/-- C36: for every access mask `m` (so for every 32-bit one), decoding the
string of `RtlpMapAccessMaskToSddlRights m` gives the union of the masks `X` of
the codec with `m & X != 0`; so the decoded mask holds every right of the codec
that shares a bit with `m` in full, and with it every bit of `m` that belongs
to a right of the codec: never less than `m` on the covered bits. -/
theorem C36_covered_rights_kept (m : Nat) :
    RtlpMapAccessMaskToSddlRights m = (STATUS_SUCCESS, some (mnemonicsOf rightsTable m)) ∧
    RtlpMapSddlRightsToAccessMask (mnemonicsOf rightsTable m) =
      unionOfOverlapping rightsTable m ∧
    (∀ e ∈ rightsTable, m &&& e.1 ≠ 0 →
      RtlpMapSddlRightsToAccessMask (mnemonicsOf rightsTable m) &&& e.1 = e.1) ∧
    (∀ e ∈ rightsTable,
      RtlpMapSddlRightsToAccessMask (mnemonicsOf rightsTable m) &&& (m &&& e.1) = m &&& e.1) := by
  have hin : ∀ e ∈ rightsTable, m &&& e.1 ≠ 0 →
      RtlpMapSddlRightsToAccessMask (mnemonicsOf rightsTable m) &&& e.1 = e.1 := by
    intro e he hne
    rw [rightsDecoder_table]
    exact foldl_lor_contains _ 0 e (List.mem_filter.mpr ⟨he, by simpa using hne⟩)
  refine ⟨rightsEncoder_table m, rightsDecoder_table m, hin, ?_⟩
  intro e he
  by_cases hne : m &&& e.1 = 0
  · rw [hne, Nat.and_zero]
  · have h := hin e he hne
    apply Nat.eq_of_testBit_eq
    intro i
    have hi := congrArg (fun n => n.testBit i) h
    simp only [Nat.testBit_and] at hi
    simp only [Nat.testBit_and]
    revert hi
    cases (RtlpMapSddlRightsToAccessMask (mnemonicsOf rightsTable m)).testBit i <;>
      cases m.testBit i <;> cases (e.1).testBit i <;> simp

set_option maxRecDepth 1000000 in
theorem C36_covered_rights_kept_witness :
    RtlpMapAccessMaskToSddlRights READ_CONTROL =
      (STATUS_SUCCESS, some "RCFAFRFWFXKAKRKWKX".toList) ∧
    RtlpMapSddlRightsToAccessMask "RCFAFRFWFXKAKRKWKX".toList &&& READ_CONTROL = READ_CONTROL :=
  ⟨(C36_covered_rights_kept READ_CONTROL).1.trans (by decide),
    (C36_covered_rights_kept READ_CONTROL).2.2.1 (READ_CONTROL, SDDL_READ_CONTROL) (by decide)
      (by decide)⟩

/-- C37: for strings `a` and `b` with `a` of even length, each decoder maps
`a ++ b` to the union of its values on `a` and on `b`; so for two strings of
even length the order does not matter, repeating a string of even length
changes nothing, and one more character behind a string of even length is
ignored. -/
theorem C37_decoders_homomorphic (a b : CStr) (ha : a.length % 2 = 0) :
    RtlpMapSddlFlagToAceFlag (a ++ b) =
      RtlpMapSddlFlagToAceFlag a ||| RtlpMapSddlFlagToAceFlag b ∧
    RtlpMapSddlRightsToAccessMask (a ++ b) =
      RtlpMapSddlRightsToAccessMask a ||| RtlpMapSddlRightsToAccessMask b ∧
    (b.length % 2 = 0 →
      RtlpMapSddlFlagToAceFlag (a ++ b) = RtlpMapSddlFlagToAceFlag (b ++ a) ∧
      RtlpMapSddlRightsToAccessMask (a ++ b) = RtlpMapSddlRightsToAccessMask (b ++ a)) ∧
    (RtlpMapSddlFlagToAceFlag (a ++ a) = RtlpMapSddlFlagToAceFlag a ∧
      RtlpMapSddlRightsToAccessMask (a ++ a) = RtlpMapSddlRightsToAccessMask a) ∧
    (∀ ch : Char,
      RtlpMapSddlFlagToAceFlag (a ++ [ch]) = RtlpMapSddlFlagToAceFlag a ∧
      RtlpMapSddlRightsToAccessMask (a ++ [ch]) = RtlpMapSddlRightsToAccessMask a) := by
  have hom : ∀ (x y : CStr), x.length % 2 = 0 →
      RtlpMapSddlFlagToAceFlag (x ++ y) =
        RtlpMapSddlFlagToAceFlag x ||| RtlpMapSddlFlagToAceFlag y ∧
      RtlpMapSddlRightsToAccessMask (x ++ y) =
        RtlpMapSddlRightsToAccessMask x ||| RtlpMapSddlRightsToAccessMask y := by
    intro x y hx
    have hx2 : x.length = 2 * (x.length / 2) := by omega
    constructor
    · rw [flagDecoder_fold, flagDecoder_fold, flagDecoder_fold,
        foldl_slices_append aceFlagStep (x.length / 2) x y 0 hx2,
        foldl_step_lor aceFlagStep aceFlagStep_lor]
    · rw [rightsDecoder_fold, rightsDecoder_fold, rightsDecoder_fold,
        foldl_slices_append accessStep (x.length / 2) x y 0 hx2,
        foldl_step_lor accessStep accessStep_lor]
  refine ⟨(hom a b ha).1, (hom a b ha).2, ?_, ?_, ?_⟩
  · intro hb
    rw [(hom a b ha).1, (hom a b ha).2, (hom b a hb).1, (hom b a hb).2]
    exact ⟨Nat.lor_comm _ _, Nat.lor_comm _ _⟩
  · rw [(hom a a ha).1, (hom a a ha).2]
    exact ⟨Nat.or_self _, Nat.or_self _⟩
  · intro ch
    rw [(hom a [ch] ha).1, (hom a [ch] ha).2]
    have h1 : RtlpMapSddlFlagToAceFlag [ch] = 0 := by
      rw [flagDecoder_fold]; simp
    have h2 : RtlpMapSddlRightsToAccessMask [ch] = 0 := by
      rw [rightsDecoder_fold]; simp
    rw [h1, h2]
    exact ⟨Nat.or_zero _, Nat.or_zero _⟩

set_option maxRecDepth 1000000 in
theorem C37_decoders_homomorphic_witness :
    RtlpMapSddlFlagToAceFlag "CIOIIDSA".toList =
      RtlpMapSddlFlagToAceFlag "CIOI".toList ||| RtlpMapSddlFlagToAceFlag "IDSA".toList ∧
    RtlpMapSddlRightsToAccessMask "GRGWX".toList = RtlpMapSddlRightsToAccessMask "GRGW".toList :=
  ⟨(C37_decoders_homomorphic "CIOI".toList "IDSA".toList (by decide)).1,
    ((C37_decoders_homomorphic "GRGW".toList [] (by decide)).2.2.2.2 'X').2⟩

/-! ## Control flags: encoder against decoder -/

theorem and_two_pow_cases (c k : Nat) : c &&& 2 ^ k = 0 ∨ c &&& 2 ^ k = 2 ^ k := by
  by_cases h : c.testBit k = true
  · right
    apply Nat.eq_of_testBit_eq
    intro i
    rw [Nat.testBit_and, Nat.testBit_two_pow]
    by_cases hi : k = i
    · subst hi; simp [h]
    · simp [hi]
  · left
    apply Nat.eq_of_testBit_eq
    intro i
    rw [Nat.testBit_and, Nat.testBit_two_pow]
    by_cases hi : k = i
    · subst hi; simp [h]
    · simp [hi]

theorem and_lor_distrib (c x y : Nat) : c &&& (x ||| y) = c &&& x ||| c &&& y := by
  apply Nat.eq_of_testBit_eq
  intro i
  simp only [Nat.testBit_and, Nat.testBit_or]
  cases c.testBit i <;> cases x.testBit i <;> cases y.testBit i <;> rfl

theorem lor_and_distrib (c x y : Nat) : (c ||| x) &&& y = c &&& y ||| x &&& y := by
  apply Nat.eq_of_testBit_eq
  intro i
  simp only [Nat.testBit_and, Nat.testBit_or]
  cases c.testBit i <;> cases x.testBit i <;> cases y.testBit i <;> rfl

theorem lor_and_self_left (c x : Nat) : (c ||| x) &&& c = c := by
  apply Nat.eq_of_testBit_eq
  intro i
  simp only [Nat.testBit_and, Nat.testBit_or]
  cases c.testBit i <;> cases x.testBit i <;> rfl

theorem control_bits (c : Nat) (b : Bool) :
    ∃ p ar ai : Bool,
      controlStringBuilt c b = ctlString p ar ai ∧
      c &&& aclControlMask b = aclControl b p ar ai := by
  cases b
  · have e1 : SE_SACL_PROTECTED = 8192 := rfl
    have e2 : SE_SACL_AUTO_INHERIT_REQ = 512 := rfl
    have e3 : SE_SACL_AUTO_INHERITED = 2048 := rfl
    have q1 : c &&& 8192 = 0 ∨ c &&& 8192 = 8192 := and_two_pow_cases c 13
    have q2 : c &&& 512 = 0 ∨ c &&& 512 = 512 := and_two_pow_cases c 9
    have q3 : c &&& 2048 = 0 ∨ c &&& 2048 = 2048 := and_two_pow_cases c 11
    refine ⟨decide (c &&& 8192 ≠ 0), decide (c &&& 512 ≠ 0), decide (c &&& 2048 ≠ 0), ?_, ?_⟩
    · simp only [controlStringBuilt, catIf, ctlString, e1, e2, e3,
        Bool.false_eq_true, if_false, List.nil_append, decide_eq_true_eq]
      split_ifs <;> simp
    · simp only [aclControlMask, aclControl, e1, e2, e3, Bool.false_eq_true, if_false,
        and_lor_distrib, decide_eq_true_eq]
      rcases q1 with h1 | h1 <;> rcases q2 with h2 | h2 <;> rcases q3 with h3 | h3 <;>
        simp [h1, h2, h3]
  · have e1 : SE_DACL_PROTECTED = 4096 := rfl
    have e2 : SE_DACL_AUTO_INHERIT_REQ = 256 := rfl
    have e3 : SE_DACL_AUTO_INHERITED = 1024 := rfl
    have q1 : c &&& 4096 = 0 ∨ c &&& 4096 = 4096 := and_two_pow_cases c 12
    have q2 : c &&& 256 = 0 ∨ c &&& 256 = 256 := and_two_pow_cases c 8
    have q3 : c &&& 1024 = 0 ∨ c &&& 1024 = 1024 := and_two_pow_cases c 10
    refine ⟨decide (c &&& 4096 ≠ 0), decide (c &&& 256 ≠ 0), decide (c &&& 1024 ≠ 0), ?_, ?_⟩
    · simp only [controlStringBuilt, catIf, ctlString, e1, e2, e3, if_true,
        List.nil_append, decide_eq_true_eq]
      split_ifs <;> simp
    · simp only [aclControlMask, aclControl, e1, e2, e3, if_true, and_lor_distrib,
        decide_eq_true_eq]
      rcases q1 with h1 | h1 <;> rcases q2 with h2 | h2 <;> rcases q3 with h3 | h3 <;>
        simp [h1, h2, h3]

theorem ctlString_empty_iff : ∀ b p ar ai : Bool,
    ctlString p ar ai = [] ↔ aclControl b p ar ai = 0 := by
  decide

theorem control_decode_built (c : Nat) (b : Bool) :
    RtlpMapSddlControlToAclControl (controlStringBuilt c b) b 0 =
      (STATUS_SUCCESS, c &&& aclControlMask b) ∧
    (controlStringBuilt c b = [] ↔ c &&& aclControlMask b = 0) := by
  obtain ⟨p, ar, ai, henc, hbits⟩ := control_bits c b
  rw [henc, hbits]
  exact ⟨ctlString_decode b p ar ai, ctlString_empty_iff b p ar ai⟩

theorem control_fits_iff (c : Nat) (b : Bool) :
    controlBytesWritten c b ≤ SDDL_CONTROL_LENGTH ↔ c &&& aclControlMask b ≠ aclControlMask b := by
  obtain ⟨p, ar, ai, henc, hbits⟩ := control_bits c b
  have key : ∀ b p ar ai : Bool, ((ctlString p ar ai).length + 1 ≤ SDDL_CONTROL_LENGTH ↔
      aclControl b p ar ai ≠ aclControlMask b) := by decide
  unfold controlBytesWritten
  rw [henc, hbits]
  exact key b p ar ai

theorem control_round_trip_of_fits (c : Nat) (b : Bool)
    (hfit : c &&& aclControlMask b ≠ aclControlMask b) :
    ∃ psz, RtlpMapAclControlToSddlControl c b = some (STATUS_SUCCESS, some psz) ∧
      RtlpMapSddlControlToAclControl psz b 0 = (STATUS_SUCCESS, c &&& aclControlMask b) ∧
      (psz = [] ↔ c &&& aclControlMask b = 0) :=
  ⟨controlStringBuilt c b, control_encode_ok c b ((control_fits_iff c b).mpr hfit),
    (control_decode_built c b).1, (control_decode_built c b).2⟩

theorem control_undefined_of_all (c : Nat) (b : Bool)
    (hall : c &&& aclControlMask b = aclControlMask b) :
    RtlpMapAclControlToSddlControl c b = none := by
  have h : ¬ controlBytesWritten c b ≤ SDDL_CONTROL_LENGTH :=
    fun hle => (control_fits_iff c b).mp hle hall
  unfold RtlpMapAclControlToSddlControl
  rw [if_pos (Nat.lt_of_not_le h)]

set_option maxRecDepth 1000000 in
/-- C34: for the control word with the protected, auto-inherit-required and
auto-inherited bits of the DACL (or of the SACL) the encoder has no defined
result, so there is no string to decode, although the decoder maps `PARAI` to
these three bits; the public serializer reaches the encoder with such a word
for a valid descriptor and has no defined result either. -/
theorem C34_three_flags_not_encoded :
    RtlpMapAclControlToSddlControl
        (SE_DACL_PROTECTED ||| SE_DACL_AUTO_INHERIT_REQ ||| SE_DACL_AUTO_INHERITED) true = none ∧
    RtlpMapAclControlToSddlControl
        (SE_SACL_PROTECTED ||| SE_SACL_AUTO_INHERIT_REQ ||| SE_SACL_AUTO_INHERITED) false = none ∧
    RtlpMapSddlControlToAclControl "PARAI".toList true 0 =
      (STATUS_SUCCESS, SE_DACL_PROTECTED ||| SE_DACL_AUTO_INHERIT_REQ ||| SE_DACL_AUTO_INHERITED) ∧
    refExt.RtlValidRelativeSecurityDescriptor
        { allowDenyOwnedDescriptor with
          Control := SE_SELF_RELATIVE ||| SE_DACL_PRESENT ||| SE_DACL_PROTECTED |||
            SE_DACL_AUTO_INHERIT_REQ ||| SE_DACL_AUTO_INHERITED }
        (refExt.RtlLengthSecurityDescriptorRelative
          { allowDenyOwnedDescriptor with
            Control := SE_SELF_RELATIVE ||| SE_DACL_PRESENT ||| SE_DACL_PROTECTED |||
              SE_DACL_AUTO_INHERIT_REQ ||| SE_DACL_AUTO_INHERITED }) 0 = STATUS_SUCCESS ∧
    RtlAllocateSddlCStringFromSecurityDescriptor refExt
        (some { allowDenyOwnedDescriptor with
          Control := SE_SELF_RELATIVE ||| SE_DACL_PRESENT ||| SE_DACL_PROTECTED |||
            SE_DACL_AUTO_INHERIT_REQ ||| SE_DACL_AUTO_INHERITED }) 1 0 = .undefined := by
  decide

/-! ## Frame of the control decoder -/

theorem controlStep_shape : ∀ (b p ar ai : Bool) (s : CStr),
    ∃ p' ar' ai' : Bool, controlStep b (aclControl b p ar ai) s = aclControl b p' ar' ai' := by
  intro b p ar ai s
  have h1 : ∀ b p ar ai : Bool, SetFlag (aclControl b p ar ai)
      (if b = true then SE_DACL_AUTO_INHERIT_REQ else SE_SACL_AUTO_INHERIT_REQ) =
      aclControl b p true ai := by decide
  have h2 : ∀ b p ar ai : Bool, SetFlag (aclControl b p ar ai)
      (if b = true then SE_DACL_AUTO_INHERITED else SE_SACL_AUTO_INHERITED) =
      aclControl b p ar true := by decide
  unfold controlStep
  by_cases hs1 : s = SDDL_AUTO_INHERIT_REQ
  · rw [if_pos hs1]
    exact ⟨p, true, ai, h1 b p ar ai⟩
  · rw [if_neg hs1]
    by_cases hs2 : s = SDDL_AUTO_INHERITED
    · rw [if_pos hs2]
      exact ⟨p, ar, true, h2 b p ar ai⟩
    · rw [if_neg hs2]
      exact ⟨p, ar, ai, rfl⟩

theorem foldl_controlStep_shape {α : Type} (b : Bool) (g : α → CStr) (l : List α) :
    ∀ p ar ai : Bool, ∃ p' ar' ai' : Bool,
      l.foldl (fun acc x => controlStep b acc (g x)) (aclControl b p ar ai) =
        aclControl b p' ar' ai' := by
  induction l with
  | nil => intro p ar ai; exact ⟨p, ar, ai, rfl⟩
  | cons x xs ih =>
    intro p ar ai
    obtain ⟨p1, ar1, ai1, h1⟩ := controlStep_shape b p ar ai (g x)
    rw [List.foldl_cons, h1]
    exact ih p1 ar1 ai1

theorem control_decode_shape (s : CStr) (b : Bool) :
    ∃ p ar ai : Bool, (RtlpMapSddlControlToAclControl s b 0).2 = aclControl b p ar ai := by
  have h0 : (0 : Nat) = aclControl b false false false := by cases b <;> rfl
  have hP : SetFlag 0 (if b = true then SE_DACL_PROTECTED else SE_SACL_PROTECTED) =
      aclControl b true false false := by cases b <;> rfl
  unfold RtlpMapSddlControlToAclControl
  simp only
  by_cases hlen : s.length = 0
  · rw [if_pos hlen]
    exact ⟨false, false, false, h0⟩
  · rw [if_neg hlen]
    split
    · exact ⟨false, false, false, h0⟩
    · split
      · by_cases hp : hasPrefix s SDDL_PROTECTED = true
        · simp only [hp, if_true, hP]
          exact foldl_controlStep_shape b _ _ true false false
        · simp only [hp, Bool.false_eq_true, if_false]
          rw [h0]
          exact foldl_controlStep_shape b _ _ false false false
      · split
        · split
          · exact ⟨false, false, false, h0⟩
          · simp only [hP]
            exact foldl_controlStep_shape b _ _ true false false
        · exact ⟨false, false, false, h0⟩

theorem control_decode_invalid (s : CStr) (b : Bool) (c : Nat)
    (h : (RtlpMapSddlControlToAclControl s b c).1 = STATUS_INVALID_PARAMETER) :
    (RtlpMapSddlControlToAclControl s b c).2 = c := by
  unfold RtlpMapSddlControlToAclControl at h ⊢
  simp only at h ⊢
  split_ifs at h ⊢
  all_goals rfl

/-- C35: for every control string, every initial control word `c` and both
`bIsDacl` values, the control word left by `RtlpMapSddlControlToAclControl`
holds every bit of `c`; it is `c` with bits added that are among the three
bits of the selected context, so the three bits of the other context are as in
`c`; and it is `c` whenever the status is `STATUS_INVALID_PARAMETER`. -/
theorem C35_control_decode_frame (s : CStr) (bIsDacl : Bool) (c : Nat) :
    (RtlpMapSddlControlToAclControl s bIsDacl c).2 &&& c = c ∧
    (∃ added, (RtlpMapSddlControlToAclControl s bIsDacl c).2 = c ||| added ∧
      added &&& aclControlMask bIsDacl = added) ∧
    (RtlpMapSddlControlToAclControl s bIsDacl c).2 &&& aclControlMask (!bIsDacl) =
      c &&& aclControlMask (!bIsDacl) ∧
    ((RtlpMapSddlControlToAclControl s bIsDacl c).1 = STATUS_INVALID_PARAMETER →
      (RtlpMapSddlControlToAclControl s bIsDacl c).2 = c) := by
  obtain ⟨p, ar, ai, hshape⟩ := control_decode_shape s bIsDacl
  have hval : (RtlpMapSddlControlToAclControl s bIsDacl c).2 =
      c ||| aclControl bIsDacl p ar ai := by
    rw [control_decode_lor s bIsDacl c, hshape]
  have hin : ∀ b p ar ai : Bool, aclControl b p ar ai &&& aclControlMask b =
      aclControl b p ar ai := by decide
  have hout : ∀ b p ar ai : Bool, aclControl b p ar ai &&& aclControlMask (!b) = 0 := by decide
  refine ⟨?_, ⟨_, hval, hin bIsDacl p ar ai⟩, ?_, control_decode_invalid s bIsDacl c⟩
  · rw [hval]
    exact lor_and_self_left c _
  · rw [hval, lor_and_distrib, hout, Nat.or_zero]

set_option maxRecDepth 1000000 in
theorem C35_control_decode_frame_witness :
    RtlpMapSddlControlToAclControl "ARAIP".toList true SE_SACL_PROTECTED =
        (STATUS_INVALID_PARAMETER, SE_SACL_PROTECTED) ∧
    (RtlpMapSddlControlToAclControl "PAI".toList true SE_SACL_PROTECTED).2 =
      SE_SACL_PROTECTED ||| SE_DACL_PROTECTED ||| SE_DACL_AUTO_INHERITED :=
  ⟨Prod.ext (by decide)
    ((C35_control_decode_frame "ARAIP".toList true SE_SACL_PROTECTED).2.2.2 (by decide)),
    by decide⟩

/-! ## The buffer of the control string -/

set_option maxRecDepth 1000000 in
/-- C40: for a control word with the protected, auto-inherit-required and
auto-inherited bits of the DACL (or of the SACL) all set, the encoder builds
`PARAI`: five characters and the terminating NUL, six bytes, written to the
`SDDL_CONTROL_LENGTH` = 5 bytes allocated for the string, so the call has no
defined result. -/
theorem C40_control_string_overflows :
    SDDL_CONTROL_LENGTH = 5 ∧
    controlStringBuilt
        (SE_DACL_PROTECTED ||| SE_DACL_AUTO_INHERIT_REQ ||| SE_DACL_AUTO_INHERITED) true =
      "PARAI".toList ∧
    controlBytesWritten
        (SE_DACL_PROTECTED ||| SE_DACL_AUTO_INHERIT_REQ ||| SE_DACL_AUTO_INHERITED) true = 6 ∧
    ¬ (controlBytesWritten
        (SE_DACL_PROTECTED ||| SE_DACL_AUTO_INHERIT_REQ ||| SE_DACL_AUTO_INHERITED) true ≤
      SDDL_CONTROL_LENGTH) ∧
    controlStringBuilt
        (SE_SACL_PROTECTED ||| SE_SACL_AUTO_INHERIT_REQ ||| SE_SACL_AUTO_INHERITED) false =
      "PARAI".toList ∧
    ¬ (controlBytesWritten
        (SE_SACL_PROTECTED ||| SE_SACL_AUTO_INHERIT_REQ ||| SE_SACL_AUTO_INHERITED) false ≤
      SDDL_CONTROL_LENGTH) := by
  decide

/-! ## Sections of a text with any one-character delimiter -/

theorem strtok_r_token (ch : Char) (s rest : CStr) (hne : s ≠ []) (hs : ch ∉ s) :
    strtok_r (s ++ ch :: rest) [ch] = some (s, rest) := by
  have hin : ∀ x ∈ s, (fun c => decide (c ∉ [ch])) x = true := by
    intro x hx
    have : x ≠ ch := fun e => hs (e ▸ hx)
    simp [this]
  have hout : (fun c => decide (c ∉ [ch])) ch = false := by simp
  obtain ⟨x, xs, rfl⟩ := List.exists_cons_of_ne_nil hne
  have hx : x ≠ ch := fun e => hs (by simp [e])
  have hd : List.dropWhile (fun c => decide (c ∈ [ch])) ((x :: xs) ++ ch :: rest) =
      (x :: xs) ++ ch :: rest := by
    rw [List.cons_append, List.dropWhile_cons]
    have : decide (x ∈ [ch]) = false := by simp [hx]
    rw [this]
    rfl
  unfold strtok_r
  simp only [hd]
  rw [takeWhile_append_stop _ _ _ _ hin hout, dropWhile_append_stop _ _ _ _ hin hout]
  simp

theorem strtokLoop_tokens (ch : Char) (secs : List CStr) (hs : ∀ s ∈ secs, s ≠ [] ∧ ch ∉ s) :
    ∀ fuel, secs.length < fuel →
      strtokLoop [ch] fuel (secs.map (fun s => s ++ [ch])).flatten = secs := by
  induction secs with
  | nil =>
    intro fuel hf
    cases fuel with
    | zero => simp at hf
    | succ fuel => simp [strtokLoop, strtok_r]
  | cons s ss ih =>
    intro fuel hf
    cases fuel with
    | zero => simp at hf
    | succ fuel =>
      have e : ((s :: ss).map (fun s => s ++ [ch])).flatten =
          s ++ ch :: (ss.map (fun s => s ++ [ch])).flatten := by simp
      rw [e]
      unfold strtokLoop
      rw [strtok_r_token ch s _ (hs s (by simp)).1 (hs s (by simp)).2]
      simp only [List.cons.injEq, true_and]
      exact ih (fun c hc => hs c (by simp [hc])) fuel (by simpa using hf)

theorem strtokAll_tokens (ch : Char) (secs : List CStr) (hs : ∀ s ∈ secs, s ≠ [] ∧ ch ∉ s) :
    strtokAll (secs.map (fun s => s ++ [ch])).flatten [ch] = secs := by
  apply strtokLoop_tokens ch secs hs
  have : ∀ l : List CStr, l.length ≤ (l.map (fun s => s ++ [ch])).flatten.length := by
    intro l
    induction l with
    | nil => simp
    | cons a l ih =>
      simp only [List.map_cons, List.flatten_cons, List.length_append, List.length_cons,
        List.length_nil]
      omega
  exact Nat.lt_succ_of_le (this secs)

/-- C38: with a section delimiter of one character other than `O`, `G`, `D`,
`S` and `:`, for all owner, group, DACL and SACL bodies that are non-empty and
do not contain the delimiter, `RtlpParseSddlString` applied to the text
`"O:"+o+delim+"G:"+g+delim+"D:"+d+delim+"S:"+s+delim` succeeds and returns
exactly (o, g, d, s); this text is what the concatenation step of the
serializer builds from the owner and group strings `o` and `g`, the control
strings `dc` and `sc` and non-empty ACE strings `da` and `sa` with
`d = dc + da` and `s = sc + sa`. -/
theorem C38_section_text_round_trip (E : Ext) (ch : Char) (o g d s : CStr)
    (hdelim : E.SDDL_SECTION_DELIMINATOR_S = [ch])
    (hch : ch ∉ ['O', 'G', 'D', 'S', ':'])
    (ho : o ≠ [] ∧ ch ∉ o) (hg : g ≠ [] ∧ ch ∉ g) (hd : d ≠ [] ∧ ch ∉ d)
    (hs : s ≠ [] ∧ ch ∉ s) :
    RtlpParseSddlString E (fourSectionText E.SDDL_SECTION_DELIMINATOR_S o g d s) =
      (STATUS_SUCCESS, some o, some g, some d, some s) ∧
    (∀ (si : Nat) (dc da sc sa : CStr), da ≠ [] → sa ≠ [] → d = dc ++ da → s = sc ++ sa →
      sddlText E si (some o) (some g) (some da) (some dc) (some sa) (some sc) =
        fourSectionText E.SDDL_SECTION_DELIMINATOR_S o g d s) := by
  simp only [List.mem_cons, List.mem_singleton, List.not_mem_nil, or_false, not_or] at hch
  obtain ⟨hO, hG, hD, hS, hC⟩ := hch
  constructor
  · have htext : fourSectionText [ch] o g d s =
        ([SDDL_OWNER ++ (SDDL_DELIMINATOR_S ++ o), SDDL_GROUP ++ (SDDL_DELIMINATOR_S ++ g),
          SDDL_DACL ++ (SDDL_DELIMINATOR_S ++ d), SDDL_SACL ++ (SDDL_DELIMINATOR_S ++ s)].map
          (fun s => s ++ [ch])).flatten := by
      simp [fourSectionText, SDDL_OWNER, SDDL_GROUP, SDDL_DACL, SDDL_SACL, SDDL_DELIMINATOR_S]
    have hpre : ∀ (l : Char) (body : CStr), ch ≠ l → ch ∉ body →
        ([l] ++ (SDDL_DELIMINATOR_S ++ body) ≠ [] ∧ ch ∉ [l] ++ (SDDL_DELIMINATOR_S ++ body)) := by
      intro l body hl hb
      refine ⟨by simp, ?_⟩
      simp only [SDDL_DELIMINATOR_S, List.mem_append, List.mem_singleton, not_or]
      exact ⟨hl, by simpa using hC, hb⟩
    unfold RtlpParseSddlString
    rw [hdelim, htext, strtokAll_tokens]
    · simp [List.foldlM_cons, sectionStep_owner, sectionStep_group, sectionStep_dacl,
        sectionStep_sacl, bind, Except.bind, pure, Except.pure]
    · intro t ht
      simp only [List.mem_cons, List.mem_singleton, List.not_mem_nil, or_false] at ht
      rcases ht with rfl | rfl | rfl | rfl
      · exact hpre 'O' o hO ho.2
      · exact hpre 'G' g hG hg.2
      · exact hpre 'D' d hD hd.2
      · exact hpre 'S' s hS hs.2
  · intro si dc da sc sa hda hsa hdd hss
    obtain ⟨g1, g2, g3, g4⟩ := securityInformation_guards si
    have hno := isNullOrEmpty_some_false o ho.1
    have hng := isNullOrEmpty_some_false g hg.1
    have hnd := isNullOrEmpty_some_false da hda
    have hns := isNullOrEmpty_some_false sa hsa
    have hopt : ∀ f : CStr, (if IsNullOrEmptyString (some f) = false then f else []) = f := by
      intro f
      cases f <;> simp [IsNullOrEmptyString]
    subst hdd hss
    unfold sddlText fourSectionText
    simp only [g1, g2, g3, g4, hno, hng, hnd, hns, ne_eq, not_false_eq_true, true_and,
      Bool.false_eq_true, if_true, optStr_some, strOf]
    simp [SDDL_OWNER, SDDL_GROUP, SDDL_DACL, SDDL_SACL, SDDL_DELIMINATOR_S, hopt]

set_option maxRecDepth 1000000 in
theorem C38_section_text_round_trip_witness :
    RtlpParseSddlString refExt "O:BA\nG:BU\nD:P(A;;GA;;;WD)\nS:(AU;SA;GA;;;WD)\n".toList =
      (STATUS_SUCCESS, some "BA".toList, some "BU".toList, some "P(A;;GA;;;WD)".toList,
        some "(AU;SA;GA;;;WD)".toList) :=
  (C38_section_text_round_trip refExt '\n' "BA".toList "BU".toList "P(A;;GA;;;WD)".toList
    "(AU;SA;GA;;;WD)".toList rfl (by decide) (by decide) (by decide) (by decide) (by decide)).1

/-! ## Lengths computed before allocation -/

/-- C39: for every ACE, the `sAceStringLength` computed in
`RtlpGetSddlAceStringFromSecurityDescriptor` is the length of the clause string
built by the `strcat` sequence; and with a section delimiter of one character
the `sSddlLength` accumulated in `RtlAllocateSddlCStringFromSecurityDescriptor`
is the length of the final text.  Each buffer is allocated with one more byte,
so the strings and their terminating NUL stay within it. -/
theorem C39_lengths_exact (E : Ext) (hdelim : E.SDDL_SECTION_DELIMINATOR_S.length = 1) :
    (∀ (pszAceType : CStr) (pszAceFlag pszAceAcl : Option CStr) (pszSddlSidString : CStr),
      sAceStringLength pszAceType pszAceFlag pszAceAcl pszSddlSidString =
        (aceClause pszAceType pszAceFlag pszAceAcl pszSddlSidString).length) ∧
    (∀ (si : Nat) (o g d dc s sc : Option CStr),
      sSddlLength si o g d dc s sc = (sddlText E si o g d dc s sc).length) ∧
    (∀ (si : Nat) (o g d dc s sc : Option CStr),
      (sddlText E si o g d dc s sc).length + 1 ≤ sSddlLength si o g d dc s sc + 1) := by
  refine ⟨?_, fun si o g d dc s sc => (sddlText_length E hdelim si o g d dc s sc).symm,
    fun si o g d dc s sc => by rw [sddlText_length E hdelim si o g d dc s sc]⟩
  intro ty fl ac sid
  unfold sAceStringLength aceClause
  by_cases h1 : IsNullOrEmptyString fl = true <;> by_cases h2 : IsNullOrEmptyString ac = true <;>
    simp [h1, h2] <;> omega

set_option maxRecDepth 1000000 in
theorem C39_lengths_exact_witness :
    sAceStringLength "A".toList (some []) (some "GA".toList) "BA".toList =
      "(A;;GA;;;BA)".toList.length ∧
    sSddlLength 0 (some "BA".toList) (some "BU".toList) (some "(A;;GA;;;BA)".toList)
        (some "P".toList) none (some []) = "O:BA\nG:BU\nD:P(A;;GA;;;BA)\n".toList.length :=
  ⟨(C39_lengths_exact refExt rfl).1 "A".toList (some []) (some "GA".toList) "BA".toList,
    (C39_lengths_exact refExt rfl).2.1 0 (some "BA".toList) (some "BU".toList)
      (some "(A;;GA;;;BA)".toList) (some "P".toList) none (some [])⟩

/-! ## The `SecurityInformation` argument -/

/-- C33: for every descriptor and every two `SecurityInformation` values,
`RtlAllocateSddlCStringFromSecurityDescriptor` returns the same status and the
same text: each guard `SecurityInformation | X_SECURITY_INFORMATION` is
non-zero whatever the argument, so all four sections are rendered also when
the caller asks for one of them only. -/
theorem C33_security_information_ignored (E : Ext) (sd : Option SECURITY_DESCRIPTOR)
    (rev si si' : Nat) :
    (si ||| OWNER_SECURITY_INFORMATION ≠ 0 ∧ si ||| GROUP_SECURITY_INFORMATION ≠ 0 ∧
      si ||| DACL_SECURITY_INFORMATION ≠ 0 ∧ si ||| SACL_SECURITY_INFORMATION ≠ 0) ∧
    RtlAllocateSddlCStringFromSecurityDescriptor E sd rev si =
      RtlAllocateSddlCStringFromSecurityDescriptor E sd rev si' := by
  obtain ⟨g1, g2, g3, g4⟩ := securityInformation_guards si
  obtain ⟨k1, k2, k3, k4⟩ := securityInformation_guards si'
  refine ⟨⟨g1, g2, g3, g4⟩, ?_⟩
  unfold RtlAllocateSddlCStringFromSecurityDescriptor sddlText
  simp only [g1, g2, g3, g4, k1, k2, k3, k4, ne_eq, not_false_eq_true, if_true, true_and]

set_option maxRecDepth 1000000 in
theorem C33_security_information_ignored_witness :
    RtlAllocateSddlCStringFromSecurityDescriptor refExt (some allowDenyOwnedDescriptor) 1
        OWNER_SECURITY_INFORMATION =
      .returns (STATUS_SUCCESS, some "O:BA\nG:BU\nD:(A;;GA;;;BA)(D;CI;GR;;;WD)\n".toList) ∧
    RtlAllocateSddlCStringFromSecurityDescriptor refExt (some allowDenyOwnedDescriptor) 1
        OWNER_SECURITY_INFORMATION =
      RtlAllocateSddlCStringFromSecurityDescriptor refExt (some allowDenyOwnedDescriptor) 1
        (OWNER_SECURITY_INFORMATION ||| GROUP_SECURITY_INFORMATION |||
          DACL_SECURITY_INFORMATION ||| SACL_SECURITY_INFORMATION) :=
  ⟨by decide, (C33_security_information_ignored refExt (some allowDenyOwnedDescriptor) 1
    OWNER_SECURITY_INFORMATION (OWNER_SECURITY_INFORMATION ||| GROUP_SECURITY_INFORMATION |||
          DACL_SECURITY_INFORMATION ||| SACL_SECURITY_INFORMATION)).2⟩

/-! ## Size of the ACL buffer -/

theorem aceRecord_size (E : Ext) (a : SDDL_ACE) :
    (aceRecord E a).AceSize = typeSpecificLength E a % 2 ^ 16 := by
  unfold aceRecord aceLength typeSpecificLength
  simp only
  split_ifs <;> rfl

/-- C31: for an ACL text of `n >= 1` well-formed clauses, with `RtlCreateAcl`
yielding an empty ACL of the requested size and `RtlAddAce` storing the record
it is given, when every type-specific length is below `2^16` (no truncation of
`AceSize`) and the total is within the `DWORD` range, the buffer size computed
by `RtlpGetAclFromSddlAclString` is `ACL_HEADER_SIZE` plus the sum over all
ACEs of the type-specific length for the SID of the ACE, and this equals
`ACL_HEADER_SIZE` plus the sum of the `AceSize` values of the records passed to
`RtlAddAce`. -/
theorem C31_exact_acl_size (E : Ext) (bodies : List CStr) (aces : List SDDL_ACE)
    (pControl : Nat) (bIsDacl : Bool)
    (hne : bodies ≠ []) (hn : bodies.length ≤ 2 ^ 32)
    (hclose : ∀ b ∈ bodies, ')' ∉ b)
    (hparse : bodies.map (RtlpParseSddlAceString E) =
      aces.map (fun a => (STATUS_SUCCESS, some a)))
    (hcreate : ∀ n, E.RtlCreateAcl n ACL_REVISION = .ok { AclSize := n, Aces := [] })
    (hadd : ∀ acl i ace len, E.RtlAddAce acl ACL_REVISION i ace len =
      .ok { acl with Aces := insertAce acl.Aces i ace })
    (h16 : ∀ a ∈ aces, typeSpecificLength E a < 2 ^ 16)
    (h32 : ACL_HEADER_SIZE + (aces.map (typeSpecificLength E)).sum < 2 ^ 32) :
    ∃ pAcl, RtlpGetAclFromSddlAclString E pControl (some (aclText bodies)) bIsDacl =
        some (STATUS_SUCCESS, some pAcl, pControl) ∧
      pAcl.AclSize = ACL_HEADER_SIZE + (aces.map (typeSpecificLength E)).sum ∧
      pAcl.AclSize = ACL_HEADER_SIZE + (pAcl.Aces.map (fun x => x.AceSize)).sum := by
  obtain ⟨size, hbuild, hsize⟩ := buildAcl_order E bodies aces hne hn hparse hcreate hadd
  have hsum : ((aces.map (aceRecord E)).map (fun x => x.AceSize)) =
      aces.map (typeSpecificLength E) := by
    rw [List.map_map]
    apply List.map_congr_left
    intro a ha
    simp only [Function.comp_apply]
    rw [aceRecord_size, Nat.mod_eq_of_lt (h16 a ha)]
  rw [hsum] at hsize
  have hsz := hsize h32
  refine ⟨{ AclSize := size, Aces := aces.map (aceRecord E) }, ?_, hsz, ?_⟩
  · obtain ⟨b, bs, rfl⟩ := List.exists_cons_of_ne_nil hne
    have htext : aclText (b :: bs) = SDDL_ACE_BEGIN_C :: (b ++ SDDL_ACE_END_S ++ aclText bs) := by
      simp [aclText]
    have hchr : strchr (aclText (b :: bs)) SDDL_ACE_BEGIN_C = some 0 := by
      rw [htext]; simp [strchr]
    have hnonempty : (aclText (b :: bs)).isEmpty = false := by
      rw [htext]; rfl
    unfold RtlpGetAclFromSddlAclString
    simp only [hnonempty, hchr, List.take_zero, List.drop_zero, List.isEmpty_nil,
      parseSddlAclString_aclText (b :: bs) (by simp) hclose, hbuild]
    simp [SDDL_CONTROL_LENGTH]
  · show size = ACL_HEADER_SIZE + ((aces.map (aceRecord E)).map (fun x => x.AceSize)).sum
    rw [hsum]
    exact hsz

set_option maxRecDepth 1000000 in
theorem C31_exact_acl_size_witness :
    ∃ pAcl, RtlpGetAclFromSddlAclString insertExt 0
        (some "(A;;GA;;;S-1-5-32-544)(D;;GR;;;S-1-1-0)(AU;SA;GW;;;BU)".toList) true =
        some (STATUS_SUCCESS, some pAcl, 0) ∧
      pAcl.AclSize = 8 + (24 + 20 + 24) ∧
      pAcl.AclSize = ACL_HEADER_SIZE + (pAcl.Aces.map (fun x => x.AceSize)).sum :=
  C31_exact_acl_size insertExt
    ["A;;GA;;;S-1-5-32-544".toList, "D;;GR;;;S-1-1-0".toList, "AU;SA;GW;;;BU".toList]
    [{ AceType := ACCESS_ALLOWED_ACE_TYPE, AceFlag := 0, Access := GENERIC_ALL,
       pszObjectGuid := none, pszObjectInheritedGuid := none,
       pSid := { Revision := 1, IdentifierAuthority := 5, SubAuthority := [32, 544] } },
     { AceType := ACCESS_DENIED_ACE_TYPE, AceFlag := 0, Access := GENERIC_READ,
       pszObjectGuid := none, pszObjectInheritedGuid := none,
       pSid := { Revision := 1, IdentifierAuthority := 1, SubAuthority := [0] } },
     { AceType := SYSTEM_AUDIT_ACE_TYPE, AceFlag := SUCCESSFUL_ACCESS_ACE_FLAG,
       Access := GENERIC_WRITE, pszObjectGuid := none, pszObjectInheritedGuid := none,
       pSid := { Revision := 1, IdentifierAuthority := 5, SubAuthority := [32, 545] } }]
    0 true (by decide) (by decide) (by decide) (by decide) (fun _ => rfl) (fun _ _ _ _ => rfl)
    (by decide) (by decide)

end Sddl
